import Mathlib

/-!
MapBlock (src/mapblock.cpp): node grid access, the block codec, sunlight
propagation, the day/night flag, the ground level and the mesh of a block.

A shallow embedding of `MapBlock::getNodeParent`, `setNodeParent`,
`getNodeParentNoEx`, `serialize`, `deSerialize`, `propagateSunlight`,
`updateDayNightDiff`, `getGroundLevel`, `getFaceLight`, `getNodeTile`,
`getNodeContent`, `updateFastFaceRow`, `MeshCollector::append` and, of
`updateMesh`, the three sweeps for the faces and the branch for flowing water.

Conventions of the embedding:

* a `u8` is a `Fin 256`; a `v3s16` has `Int` components and vector addition
  wraps to the signed 16 bit range;
* an output stream is the list of bytes written so far, an input stream the
  list of bytes not yet read; a read that asks for more bytes than remain
  delivers the remaining ones (its `gcount`) and exhausts the stream;
* a C++ exception is a value of `Exc`; every operation that changes state
  returns the exception (if any) together with the state at the throw;
* declarations of other translation units that `mapblock.cpp` only uses
  (`MAP_BLOCKSIZE`, `ser_ver_supported`, the `MapNode` constructor and codec,
  `compress`, `decompress`, `content_features`, `CONTENT_IGNORE`) are fields
  of `Env`; those of the lighting code are fields of `NodeEnv`, those of the
  mesh code fields of `MeshEnv`.
-/

namespace MapBlockSpec

/-! ## Data model -/

/-- An unsigned byte. -/
abbrev u8 := Fin 256

/-- Modelled from the spec: `MapNode` is declared in mapnode.h, which is not
among the sources; by the spec a node has a content id (`d`), a light byte
(`param`) and an auxiliary byte (`param2`). Each field is one byte here, the
unit in which `serialize` copies it into its `SharedBuffer<u8>` planes and
`deSerialize` assigns it from one `char` of the decompressed string. -/
structure MapNode where
  d : u8
  param : u8
  param2 : u8
deriving DecidableEq, Repr

/-- The exceptions thrown in `mapblock.cpp`. `NullDataAccess` is not a C++
exception: it marks an access through the node array pointer while it is
`NULL`, which the source leaves undefined. -/
inductive Exc where
  | InvalidPositionException
  | VersionMismatchException
  | SerializationError
  | NullDataAccess
deriving DecidableEq, Repr

deriving instance DecidableEq for Except

/-- A vector of three signed 16 bit integers (irrlicht's `vector3d<s16>`). -/
structure v3s16 where
  X : Int
  Y : Int
  Z : Int
deriving DecidableEq, Repr

/-- Conversion of an `int` result back to `s16`. -/
def wrap16 (i : Int) : Int := (i + 32768) % 65536 - 32768

/-- Componentwise `v3s16` addition. -/
def v3s16.add (a b : v3s16) : v3s16 :=
  ⟨wrap16 (a.X + b.X), wrap16 (a.Y + b.Y), wrap16 (a.Z + b.Z)⟩

/-- Declarations that `mapblock.cpp` uses from other translation units. -/
structure Env where
  /-- Side length of a block. -/
  MAP_BLOCKSIZE : Nat
  /-- Content id of the "ignore" node. -/
  CONTENT_IGNORE : u8
  /-- The node that the constructor call `MapNode(c)` builds. -/
  nodeOfContent : u8 → MapNode
  /-- Whether a format version is supported. -/
  ser_ver_supported : Nat → Bool
  /-- The function `MapNode::serializedLength(version)`. -/
  serializedLength : Nat → Nat
  /-- The bytes `MapNode::serialize(dest, version)` stores at `dest`. -/
  nodeSerialize : MapNode → Nat → List u8
  /-- The node after `MapNode::deSerialize(source, version)`. -/
  nodeDeSerialize : MapNode → List u8 → Nat → MapNode
  /-- The bytes `compress(data, os, version)` appends to `os`. -/
  compress : List u8 → Nat → List u8
  /-- The call `decompress(is, os, version)` on the unread input: the
  exception it throws (if any), the bytes it wrote to `os`, and the input
  left unread. -/
  decompress : List u8 → Nat → Option Exc × List u8 × List u8
  /-- The field `content_features(d).translate_to` (`none` for `NULL`). -/
  translate_to : u8 → Option MapNode
  /-- The indeterminate value of an uninitialised byte. -/
  uninit : u8

/-- The state of a `MapBlock` that the embedded operations touch. `data` is
`none` for a dummy block (`data == NULL`). -/
structure MapBlock where
  m_pos : v3s16
  data : Option (List MapNode)
  is_underground : Bool
  m_day_night_differs : Bool
  m_lighting_expired : Bool
deriving DecidableEq, Repr

/-- The parent `NodeContainer` with its state of type `σ`: `getNode` returns a
node or throws, `setNode` returns the exception (if any) and the new state. -/
structure NodeContainer (σ : Type) where
  getNode : σ → v3s16 → Except Exc MapNode
  setNode : σ → v3s16 → MapNode → Option Exc × σ

/-- Number of nodes of a block, `MAP_BLOCKSIZE*MAP_BLOCKSIZE*MAP_BLOCKSIZE`. -/
def nodecount (env : Env) : Nat :=
  env.MAP_BLOCKSIZE * env.MAP_BLOCKSIZE * env.MAP_BLOCKSIZE

/-- The element `data[i]` of a node array. -/
def nodeAt (data : List MapNode) (i : Nat) : MapNode := data.getD i ⟨0, 0, 0⟩

/-! ## Node grid -/

/-- Modelled from the spec: `MapBlock::isValidPosition` is declared in
mapblock.h, which is not among the sources; by the spec it is true iff `p`
lies within `[0,L)³` in chunk-local coordinates. -/
def isValidPosition (env : Env) (p : v3s16) : Bool :=
  decide (0 ≤ p.X ∧ p.X < env.MAP_BLOCKSIZE ∧ 0 ≤ p.Y ∧ p.Y < env.MAP_BLOCKSIZE
    ∧ 0 ≤ p.Z ∧ p.Z < env.MAP_BLOCKSIZE)

/-- Modelled from the spec: `MapBlock::getPosRelative` is declared in
mapblock.h, which is not among the sources; by the spec the chunk-space to
world-space offset is origin × L. -/
def getPosRelative (env : Env) (blk : MapBlock) : v3s16 :=
  ⟨wrap16 (blk.m_pos.X * env.MAP_BLOCKSIZE), wrap16 (blk.m_pos.Y * env.MAP_BLOCKSIZE),
    wrap16 (blk.m_pos.Z * env.MAP_BLOCKSIZE)⟩

/-- The array index `p.Z*MAP_BLOCKSIZE*MAP_BLOCKSIZE + p.Y*MAP_BLOCKSIZE + p.X`. -/
def nodeIndex (env : Env) (p : v3s16) : Nat :=
  (p.Z * env.MAP_BLOCKSIZE * env.MAP_BLOCKSIZE + p.Y * env.MAP_BLOCKSIZE + p.X).toNat

/-- The method `MapBlock::getNodeParent`. -/
def getNodeParent {σ : Type} (env : Env) (par : NodeContainer σ) (st : σ) (blk : MapBlock)
    (p : v3s16) : Except Exc MapNode :=
  if isValidPosition env p = false then
    par.getNode st (v3s16.add (getPosRelative env blk) p)
  else
    match blk.data with
    | none => Except.error Exc.InvalidPositionException
    | some data => Except.ok (nodeAt data (nodeIndex env p))

/-- Result of `setNodeParent`: the exception thrown (if any), the block and
the parent state afterwards. -/
structure SetOutcome (σ : Type) where
  exc : Option Exc
  block : MapBlock
  parent : σ

/-- The method `MapBlock::setNodeParent`. -/
def setNodeParent {σ : Type} (env : Env) (par : NodeContainer σ) (st : σ) (blk : MapBlock)
    (p : v3s16) (n : MapNode) : SetOutcome σ :=
  if isValidPosition env p = false then
    let r := par.setNode st (v3s16.add (getPosRelative env blk) p) n
    ⟨r.1, blk, r.2⟩
  else
    match blk.data with
    | none => ⟨some Exc.InvalidPositionException, blk, st⟩
    | some data => ⟨none, { blk with data := some (data.set (nodeIndex env p) n) }, st⟩

/-- The method `MapBlock::getNodeParentNoEx`: the `catch` clause handles
`InvalidPositionException` only, any other exception propagates. -/
def getNodeParentNoEx {σ : Type} (env : Env) (par : NodeContainer σ) (st : σ) (blk : MapBlock)
    (p : v3s16) : Except Exc MapNode :=
  if isValidPosition env p = false then
    match par.getNode st (v3s16.add (getPosRelative env blk) p) with
    | Except.error Exc.InvalidPositionException => Except.ok (env.nodeOfContent env.CONTENT_IGNORE)
    | r => r
  else
    match blk.data with
    | none => Except.ok (env.nodeOfContent env.CONTENT_IGNORE)
    | some data => Except.ok (nodeAt data (nodeIndex env p))

/-! ## Loops -/

/-- The loop `for(i = 0; i < n; i++) s = f(i, s)`. -/
def forLoop {σ : Type} (f : Nat → σ → σ) : Nat → σ → σ
  | 0, s => s
  | n + 1, s => f n (forLoop f n s)

/-- The loop `for(i = 0; i < n; i++) data[i] = g(i, data[i])`. -/
def updLoop (g : Nat → MapNode → MapNode) (n : Nat) (data : List MapNode) : List MapNode :=
  forLoop (fun i st => st.set i (g i (nodeAt st i))) n data

/-- The loop `for(i = 0; i < n; i++) buf[i + off] = g(i)` on a byte buffer. -/
def fillLoop (g : Nat → u8) (off n : Nat) (buf : List u8) : List u8 :=
  forLoop (fun i b => b.set (i + off) (g i)) n buf

/-- A loop over the node array of a block, `n` iterations each accessing
`data[i]`; on a dummy block the first iteration is a `NullDataAccess`. -/
def updData (blk : MapBlock) (g : Nat → MapNode → MapNode) (n : Nat) : Option Exc × MapBlock :=
  match blk.data with
  | some data => (none, { blk with data := some (updLoop g n data) })
  | none => if n = 0 then (none, blk) else (some Exc.NullDataAccess, blk)

/-! ## Serialization -/

/-- The byte a `bool` converts to. -/
def boolByte (b : Bool) : u8 := if b then 1 else 0

/-- A fresh `SharedBuffer<u8>(n)`: `n` bytes of indeterminate content. -/
def newBuffer (env : Env) (n : Nat) : List u8 := List.replicate n env.uninit

/-- The byte `flags` after `flags = 0` and the three conditional `flags |= ...`. -/
def packFlags (underground differs expired : Bool) : u8 :=
  Fin.ofNat (((0 ||| (if underground then 0x01 else 0))
    ||| (if differs then 0x02 else 0))
    ||| (if expired then 0x04 else 0))

/-- The flags byte of the newest format. -/
def flagsByte (blk : MapBlock) : u8 :=
  packFlags blk.is_underground blk.m_day_night_differs blk.m_lighting_expired

/-- The uncompressed node records `dest[1 ..]`: record `i` is what
`data[i].serialize(&dest[1 + i*serializedLength(version)], version)` stores,
`serializedLength(version)` bytes. -/
def serializeNodes (env : Env) (version : Nat) (data : List MapNode) : Nat → List u8
  | 0 => []
  | n + 1 => serializeNodes env version data n ++ env.nodeSerialize (nodeAt data n) version

/-- The buffer `materialdata` of a separately compressed format. -/
def materialdata (env : Env) (data : List MapNode) : List u8 :=
  fillLoop (fun i => (nodeAt data i).d) 0 (nodecount env) (newBuffer env (nodecount env))

/-- The buffer `lightdata` of a separately compressed format. -/
def lightdata (env : Env) (data : List MapNode) : List u8 :=
  fillLoop (fun i => (nodeAt data i).param) 0 (nodecount env) (newBuffer env (nodecount env))

/-- The buffer `param2data` of format version 10. -/
def param2data (env : Env) (data : List MapNode) : List u8 :=
  fillLoop (fun i => (nodeAt data i).param2) 0 (nodecount env) (newBuffer env (nodecount env))

/-- The buffer `databuf` of the newest format, after its three loops. -/
def databuf (env : Env) (data : List MapNode) : List u8 :=
  fillLoop (fun i => (nodeAt data i).param2) (nodecount env * 2) (nodecount env)
    (fillLoop (fun i => (nodeAt data i).param) (nodecount env) (nodecount env)
      (fillLoop (fun i => (nodeAt data i).d) 0 (nodecount env)
        (newBuffer env (nodecount env * 3))))

/-- Result of `serialize`: the exception thrown (if any) and the content of
the output stream afterwards. -/
structure SerOutcome where
  exc : Option Exc
  os : List u8
deriving DecidableEq, Repr

/-- The method `MapBlock::serialize(os, version)`. -/
def serialize (env : Env) (blk : MapBlock) (os : List u8) (version : Nat) : SerOutcome :=
  if env.ser_ver_supported version = false then
    ⟨some Exc.VersionMismatchException, os⟩
  else
    match blk.data with
    | none => ⟨some Exc.SerializationError, os⟩
    | some data =>
      if version ≤ 3 ∨ version = 5 ∨ version = 6 then
        ⟨none, os ++ (boolByte blk.is_underground
          :: serializeNodes env version data (nodecount env))⟩
      else if version ≤ 10 then
        let os1 := os ++ [boolByte blk.is_underground]
        let os2 := os1 ++ env.compress (materialdata env data) version
        let os3 := os2 ++ env.compress (lightdata env data) version
        if version ≥ 10 then
          ⟨none, os3 ++ env.compress (param2data env data) version⟩
        else
          ⟨none, os3⟩
      else
        ⟨none, (os ++ [flagsByte blk]) ++ env.compress (databuf env data) version⟩

/-! ## Deserialization -/

/-- Result of `deSerialize`: the exception thrown (if any), the block and the
unread input afterwards. -/
structure DeOutcome where
  exc : Option Exc
  block : MapBlock
  is : List u8
deriving DecidableEq, Repr

/-- The read `is.read(&b, 1)` into an uninitialised byte `b`: the byte and the
unread input afterwards. -/
def readU8 (env : Env) (is : List u8) : u8 × List u8 :=
  match is with
  | [] => (env.uninit, [])
  | b :: rest => (b, rest)

/-- The node loop of the uncompressed formats: iteration `i` reads
`serializedLength(version)` bytes, throws if fewer arrive, and otherwise
deserializes them into `data[i]`. -/
def readNodes (env : Env) (version : Nat) :
    Nat → List MapNode → List u8 → Option Exc × List MapNode × List u8
  | 0, data, is => (none, data, is)
  | n + 1, data, is =>
    match readNodes env version n data is with
    | (some e, d, s) => (some e, d, s)
    | (none, d, s) =>
      let len := env.serializedLength version
      let buf := s.take len
      if buf.length ≠ len then
        (some Exc.SerializationError, d, s.drop len)
      else
        (none, d.set n (env.nodeDeSerialize (nodeAt d n) buf version), s.drop len)

/-- The uncompressed branch of `deSerialize`. -/
def deSerializeRaw (env : Env) (blk : MapBlock) (is : List u8) (version : Nat) : DeOutcome :=
  let tmp := is.take 1
  let is1 := is.drop 1
  if tmp.length ≠ 1 then
    ⟨some Exc.SerializationError, blk, is1⟩
  else
    let blk1 := { blk with is_underground := decide (tmp.getD 0 0 ≠ 0) }
    match blk1.data with
    | none =>
      if nodecount env = 0 then ⟨none, blk1, is1⟩
      else if (is1.take (env.serializedLength version)).length ≠ env.serializedLength version then
        ⟨some Exc.SerializationError, blk1, is1.drop (env.serializedLength version)⟩
      else ⟨some Exc.NullDataAccess, blk1, is1.drop (env.serializedLength version)⟩
    | some data =>
      let r := readNodes env version (nodecount env) data is1
      ⟨r.1, { blk1 with data := some r.2.1 }, r.2.2⟩

/-- One block of the compressed branches: decompress a segment, check that it
has `expected` bytes, then run `loops` over the node array with the segment. -/
def readSegment (env : Env) (blk : MapBlock) (is : List u8) (version expected : Nat)
    (loops : MapBlock → List u8 → Option Exc × MapBlock) : DeOutcome :=
  let r := env.decompress is version
  match r.1 with
  | some e => ⟨some e, blk, r.2.2⟩
  | none =>
    if r.2.1.length ≠ expected then
      ⟨some Exc.SerializationError, blk, r.2.2⟩
    else
      let w := loops blk r.2.1
      ⟨w.1, w.2, r.2.2⟩

/-- The loop `data[i].d = s[i]` over a segment of `n` bytes. -/
def setContents (n : Nat) (blk : MapBlock) (s : List u8) : Option Exc × MapBlock :=
  updData blk (fun i m => { m with d := s.getD i 0 }) n

/-- The loop `data[i].param = s[i + off]`. -/
def setParams (off n : Nat) (blk : MapBlock) (s : List u8) : Option Exc × MapBlock :=
  updData blk (fun i m => { m with param := s.getD (i + off) 0 }) n

/-- The loop `data[i].param2 = s[i + off]`. -/
def setParam2 (off n : Nat) (blk : MapBlock) (s : List u8) : Option Exc × MapBlock :=
  updData blk (fun i m => { m with param2 := s.getD (i + off) 0 }) n

/-- The separately compressed branch of `deSerialize` (`version <= 10`). -/
def deSerializePlanes (env : Env) (blk : MapBlock) (is : List u8) (version : Nat) : DeOutcome :=
  let t := readU8 env is
  let blk1 := { blk with is_underground := decide (t.1 ≠ 0) }
  let r1 := readSegment env blk1 t.2 version (nodecount env)
    (fun b s => setContents s.length b s)
  match r1.exc with
  | some _ => r1
  | none =>
    let r2 := readSegment env r1.block r1.is version (nodecount env)
      (fun b s => setParams 0 s.length b s)
    match r2.exc with
    | some _ => r2
    | none =>
      if version ≥ 10 then
        readSegment env r2.block r2.is version (nodecount env)
          (fun b s => setParam2 0 s.length b s)
      else r2

/-- The three loops of the newest branch over the decompressed block. -/
def setAll (n : Nat) (blk : MapBlock) (s : List u8) : Option Exc × MapBlock :=
  let a := setContents n blk s
  match a.1 with
  | some _ => a
  | none =>
    let b := setParams n n a.2 s
    match b.1 with
    | some _ => b
    | none => setParam2 (n * 2) n b.2 s

/-- The newest branch of `deSerialize` (`version > 10`). -/
def deSerializeCombined (env : Env) (blk : MapBlock) (is : List u8) (version : Nat) :
    DeOutcome :=
  let t := readU8 env is
  let blk1 := { blk with
    is_underground := decide (t.1.val &&& 0x01 ≠ 0)
    m_day_night_differs := decide (t.1.val &&& 0x02 ≠ 0)
    m_lighting_expired := decide (t.1.val &&& 0x04 ≠ 0) }
  readSegment env blk1 t.2 version (nodecount env * 3) (setAll (nodecount env))

/-- The part of `deSerialize` that populates the block from the stream: the
three format branches. -/
def deSerializeNodes (env : Env) (blk : MapBlock) (is : List u8) (version : Nat) : DeOutcome :=
  if version ≤ 3 ∨ version = 5 ∨ version = 6 then deSerializeRaw env blk is version
  else if version ≤ 10 then deSerializePlanes env blk is version
  else deSerializeCombined env blk is version

/-- The loop body of the translation pass: `n = *translate_to` when
`content_features(n.d).translate_to` is not `NULL`. -/
def translateNode (env : Env) (n : MapNode) : MapNode :=
  match env.translate_to n.d with
  | some r => r
  | none => n

/-- The method `MapBlock::deSerialize(is, version)`. -/
def deSerialize (env : Env) (blk : MapBlock) (is : List u8) (version : Nat) : DeOutcome :=
  if env.ser_ver_supported version = false then
    ⟨some Exc.VersionMismatchException, blk, is⟩
  else
    let r := deSerializeNodes env blk is version
    match r.exc with
    | some _ => r
    | none =>
      let w := updData r.block (fun _ m => translateNode env m) (nodecount env)
      ⟨w.1, w.2, r.is⟩

/-- The three flags of a block: `is_underground`, `m_day_night_differs`,
`m_lighting_expired`. -/
def flagsOf (blk : MapBlock) : Bool × Bool × Bool :=
  (blk.is_underground, blk.m_day_night_differs, blk.m_lighting_expired)

/-- The flags that the newest format decodes from its first byte. -/
def decodeFlags (b : u8) : Bool × Bool × Bool :=
  (decide (b.val &&& 0x01 ≠ 0), decide (b.val &&& 0x02 ≠ 0), decide (b.val &&& 0x04 ≠ 0))

/-- A block is allocated when it has a node array of `nodecount` nodes, as
`reallocate()` creates it. -/
def allocated (env : Env) (blk : MapBlock) : Prop :=
  ∃ data, blk.data = some data ∧ data.length = nodecount env

/-! ## A concrete environment

A small instance of the external declarations, on which the theorems below
are exercised: blocks of side 2, versions 2 to 11 supported, nodes written as
their first one, two or three fields, and a byte-stuffing compressor. -/

/-- Example compressor: every data byte is preceded by a 1, a 0 ends the data. -/
def exampleCompress : List u8 → List u8
  | [] => [0]
  | x :: t => 1 :: x :: exampleCompress t

/-- Example decompressor, inverse to `exampleCompress`; it throws when the
input ends before the end marker. -/
def exampleDecompress : List u8 → Option Exc × List u8 × List u8
  | [] => (some Exc.SerializationError, [], [])
  | b :: [] => if b = 0 then (none, [], []) else (some Exc.SerializationError, [], [])
  | b :: x :: t =>
    if b = 0 then (none, [], x :: t)
    else
      let r := exampleDecompress t
      (r.1, x :: r.2.1, r.2.2)

/-- Example environment. -/
def exampleEnv : Env where
  MAP_BLOCKSIZE := 2
  CONTENT_IGNORE := 255
  nodeOfContent := fun c => ⟨c, 0, 0⟩
  ser_ver_supported := fun v => decide (2 ≤ v ∧ v ≤ 11)
  serializedLength := fun v => if v = 0 then 1 else if v ≤ 9 then 2 else 3
  nodeSerialize := fun n v =>
    if v = 0 then [n.d] else if v ≤ 9 then [n.d, n.param] else [n.d, n.param, n.param2]
  nodeDeSerialize := fun m src v =>
    if v = 0 then { m with d := src.getD 0 0 }
    else if v ≤ 9 then { m with d := src.getD 0 0, param := src.getD 1 0 }
    else ⟨src.getD 0 0, src.getD 1 0, src.getD 2 0⟩
  compress := fun d _ => exampleCompress d
  decompress := fun s _ => exampleDecompress s
  translate_to := fun c => if c = 7 then some ⟨8, 0, 0⟩ else if c = 8 then some ⟨9, 0, 0⟩ else none
  uninit := 0

/-- Example parent container: a list of the nodes that exist around the
block, keyed by world position. -/
def exampleParent : NodeContainer (List (v3s16 × MapNode)) where
  getNode := fun st p =>
    match st.lookup p with
    | some n => Except.ok n
    | none => Except.error Exc.InvalidPositionException
  setNode := fun st p n =>
    match st.lookup p with
    | some _ => (none, (p, n) :: st)
    | none => (some Exc.InvalidPositionException, st)

/-- Example dummy block at the origin. -/
def exampleDummy : MapBlock := ⟨⟨0, 0, 0⟩, none, false, false, true⟩

/-- Example allocated block at the origin: eight nodes with distinct fields. -/
def exampleBlock : MapBlock :=
  ⟨⟨0, 0, 0⟩, some [⟨1, 16, 100⟩, ⟨2, 17, 101⟩, ⟨3, 18, 102⟩, ⟨4, 19, 103⟩,
    ⟨5, 20, 104⟩, ⟨6, 21, 105⟩, ⟨7, 22, 106⟩, ⟨8, 23, 107⟩], true, false, false⟩

/-- Example target block: eight equal nodes with both parameters zero. -/
def exampleFresh : MapBlock :=
  ⟨⟨0, 0, 0⟩, some (List.replicate 8 ⟨254, 0, 0⟩), false, false, true⟩

/-! ## Lighting: declarations of other translation units -/

/-- The light banks of a node. -/
inductive LightBank where
  | LIGHTBANK_DAY
  | LIGHTBANK_NIGHT
deriving DecidableEq, Repr

/-- Declarations of mapnode.h and light.h that the lighting code of
`mapblock.cpp` uses. By the spec the content classifier answers per content
id, so `n.sunlight_propagates()` and `n.light_propagates()` are functions of
`n.d`. -/
structure NodeEnv where
  /-- The light value of full sunlight. -/
  LIGHT_SUN : u8
  /-- The function `diminish_light(light)`. -/
  diminish_light : u8 → u8
  /-- The value `n.getLight(bank)`. -/
  getLight : MapNode → LightBank → u8
  /-- The node after `n.setLight(bank, light)`. -/
  setLight : MapNode → LightBank → u8 → MapNode
  /-- The value `n.sunlight_propagates()` of a node of the given content. -/
  sunlight_propagates : u8 → Bool
  /-- The value `n.light_propagates()` of a node of the given content. -/
  light_propagates : u8 → Bool
  /-- Content id of air. -/
  CONTENT_AIR : u8
  /-- Content id of mud. -/
  CONTENT_MUD : u8
  /-- Content id of grass. -/
  CONTENT_GRASS : u8
  /-- Content id of flowing water. -/
  CONTENT_WATER : u8
  /-- Content id of a water source. -/
  CONTENT_WATERSOURCE : u8

/-! ## Loops that can throw -/

/-- The loop `for(i = 0; i < n; i++) s = f(i, s)` with a body that can throw. -/
def forLoopE {σ : Type} (f : Nat → σ → Except Exc σ) : Nat → σ → Except Exc σ
  | 0, s => Except.ok s
  | n + 1, s =>
    match forLoopE f n s with
    | Except.error e => Except.error e
    | Except.ok s1 => f n s1

/-- The loop `for(y = n - 1; y >= 0; y--) s = f(y, s)` with a body that can
throw. -/
def descendE {σ : Type} (f : Nat → σ → Except Exc σ) : Nat → σ → Except Exc σ
  | 0, s => Except.ok s
  | y + 1, s =>
    match f y s with
    | Except.error e => Except.error e
    | Except.ok s1 => descendE f y s1

/-- The loop `for(i = start; i < start + n; i++) if(p(i)) { found = true; break; }`:
the value of `found` afterwards. -/
def searchLoop (p : Nat → Bool) : Nat → Nat → Bool
  | 0, _ => false
  | n + 1, i => if p i then true else searchLoop p n (i + 1)

/-- The outcome of `try { n = getNodeParent(p); ... } catch(InvalidPositionException &e)`:
`ok (some n)` when the lookup returns `n`, `ok none` when the handler is
entered, and any other exception propagates. -/
def catchInvalidPosition (r : Except Exc MapNode) : Except Exc (Option MapNode) :=
  match r with
  | Except.ok n => Except.ok (some n)
  | Except.error Exc.InvalidPositionException => Except.ok none
  | Except.error e => Except.error e

/-! ## Sunlight propagation -/

/-- Modelled from the spec: `MapBlock::getNode` and `MapBlock::getNodeRef` are
declared in mapblock.h, which is not among the sources; by the spec a locally
valid position of an allocated block yields the stored node, at the index
that `getNodeParent` uses. -/
def getNodeRef (env : Env) (data : List MapNode) (p : v3s16) : MapNode :=
  nodeAt data (nodeIndex env p)

/-- The block `*this` while its node array holds `data`. -/
def withData (blk : MapBlock) (data : List MapNode) : MapBlock :=
  { blk with data := some data }

/-- The call `light_sources.insert(p, true)` on the key set of the map. -/
def mapInsert (light_sources : List v3s16) (p : v3s16) : List v3s16 :=
  if p ∈ light_sources then light_sources else light_sources ++ [p]

/-- The state that `propagateSunlight` carries from column to column: the
node array, `light_sources`, the target of `black_air_left` (`none` for a
`NULL` pointer) and `block_below_is_valid`. -/
structure SunState where
  data : List MapNode
  light_sources : List v3s16
  black_air_left : Option Bool
  block_below_is_valid : Bool
deriving DecidableEq, Repr

/-- The state of the descent through one column. -/
structure ColumnState where
  data : List MapNode
  light_sources : List v3s16
  black_air_left : Option Bool
  current_light : u8
  stopped_to_solid_object : Bool
deriving DecidableEq, Repr

/-- The flag `no_sunlight` of column `(x, z)` after the first `try` block of
`propagateSunlight`. -/
def noSunlight {σ : Type} (env : Env) (ne : NodeEnv) (par : NodeContainer σ) (st : σ)
    (blk : MapBlock) (data : List MapNode) (x z : Nat) : Except Exc Bool :=
  match catchInvalidPosition
      (getNodeParent env par st (withData blk data) ⟨x, env.MAP_BLOCKSIZE, z⟩) with
  | Except.error e => Except.error e
  | Except.ok (some n) =>
    if ne.getLight n LightBank.LIGHTBANK_DAY ≠ ne.LIGHT_SUN then Except.ok true
    else Except.ok false
  | Except.ok none =>
    if blk.is_underground then Except.ok true
    else
      let n := getNodeRef env data ⟨x, (env.MAP_BLOCKSIZE : Int) - 1, z⟩
      if n.d = ne.CONTENT_WATER ∨ n.d = ne.CONTENT_WATERSOURCE then Except.ok true
      else Except.ok false

/-- The tail of the loop body, from `u8 old_light = n.getLight(LIGHTBANK_DAY)`
on: `n` is the node as the branches left it, `cur` and `stopped` the new
`current_light` and `stopped_to_solid_object`. -/
def sunlightStore (env : Env) (ne : NodeEnv) (blk : MapBlock) (remove_light : Bool)
    (pos : v3s16) (s : ColumnState) (n : MapNode) (cur : u8) (stopped : Bool) : ColumnState :=
  let old_light := ne.getLight n LightBank.LIGHTBANK_DAY
  let n1 :=
    if cur > old_light ∨ remove_light = true then ne.setLight n LightBank.LIGHTBANK_DAY cur
    else n
  let sources :=
    if ne.diminish_light cur ≠ 0 then
      mapInsert s.light_sources (v3s16.add (getPosRelative env blk) pos)
    else s.light_sources
  let black :=
    if cur = 0 ∧ stopped = true then
      match s.black_air_left with
      | some _ => some true
      | none => none
    else s.black_air_left
  ⟨s.data.set (nodeIndex env pos) n1, sources, black, cur, stopped⟩

/-- The flag `upper_is_air`, from the node found above (`none` when the
lookup entered the `catch` handler). -/
def upperAirOf (ne : NodeEnv) (upper : Option MapNode) : Bool :=
  match upper with
  | some m => decide (m.d = ne.CONTENT_AIR)
  | none => false

/-- The body of the loop `for(; y >= 0; y--)` of column `(x, z)`. -/
def sunlightNode {σ : Type} (env : Env) (ne : NodeEnv) (par : NodeContainer σ) (st : σ)
    (blk : MapBlock) (remove_light grow_grass : Bool) (x z : Nat) (y : Nat)
    (s : ColumnState) : Except Exc ColumnState :=
  let pos : v3s16 := ⟨x, y, z⟩
  let n := getNodeRef env s.data pos
  if s.current_light = 0 then
    Except.ok (sunlightStore env ne blk remove_light pos s n s.current_light
      s.stopped_to_solid_object)
  else if s.current_light = ne.LIGHT_SUN ∧ ne.sunlight_propagates n.d = true then
    Except.ok (sunlightStore env ne blk remove_light pos s n s.current_light
      s.stopped_to_solid_object)
  else if ne.light_propagates n.d = false then
    if grow_grass = true then
      match catchInvalidPosition
          (getNodeParent env par st (withData blk s.data) (v3s16.add pos ⟨0, 1, 0⟩)) with
      | Except.error e => Except.error e
      | Except.ok upper =>
        let upper_is_air := upperAirOf ne upper
        let n1 :=
          if upper_is_air = true ∧ n.d = ne.CONTENT_MUD ∧ s.current_light = ne.LIGHT_SUN then
            { n with d := ne.CONTENT_GRASS }
          else n
        Except.ok (sunlightStore env ne blk remove_light pos s n1 0 true)
    else
      Except.ok (sunlightStore env ne blk remove_light pos s n 0 true)
  else
    Except.ok (sunlightStore env ne blk remove_light pos s n
      (ne.diminish_light s.current_light) s.stopped_to_solid_object)

/-- The check of the node below the block at the end of column `(x, z)`:
the new value of `block_below_is_valid`. -/
def belowCheck {σ : Type} (env : Env) (ne : NodeEnv) (par : NodeContainer σ) (st : σ)
    (blk : MapBlock) (data : List MapNode) (x z : Nat) (current_light : u8)
    (block_below_is_valid : Bool) : Except Exc Bool :=
  let sunlight_should_go_down := decide (current_light = ne.LIGHT_SUN)
  if block_below_is_valid = true then
    match catchInvalidPosition (getNodeParent env par st (withData blk data) ⟨x, -1, z⟩) with
    | Except.error e => Except.error e
    | Except.ok none => Except.ok block_below_is_valid
    | Except.ok (some n) =>
      if ne.light_propagates n.d = true then
        if ne.getLight n LightBank.LIGHTBANK_DAY = ne.LIGHT_SUN
            ∧ sunlight_should_go_down = false then Except.ok false
        else if ne.getLight n LightBank.LIGHTBANK_DAY ≠ ne.LIGHT_SUN
            ∧ sunlight_should_go_down = true then Except.ok false
        else Except.ok block_below_is_valid
      else Except.ok block_below_is_valid
  else Except.ok block_below_is_valid

/-- The body of the loops over `x` and `z`: one column. -/
def sunlightColumn {σ : Type} (env : Env) (ne : NodeEnv) (par : NodeContainer σ) (st : σ)
    (blk : MapBlock) (remove_light grow_grass : Bool) (x z : Nat) (s : SunState) :
    Except Exc SunState :=
  match noSunlight env ne par st blk s.data x z with
  | Except.error e => Except.error e
  | Except.ok no_sunlight =>
    let start : ColumnState := ⟨s.data, s.light_sources, s.black_air_left,
      if no_sunlight = true then 0 else ne.LIGHT_SUN, false⟩
    match descendE (sunlightNode env ne par st blk remove_light grow_grass x z)
        env.MAP_BLOCKSIZE start with
    | Except.error e => Except.error e
    | Except.ok c =>
      match belowCheck env ne par st blk c.data x z c.current_light s.block_below_is_valid with
      | Except.error e => Except.error e
      | Except.ok valid => Except.ok ⟨c.data, c.light_sources, c.black_air_left, valid⟩

/-- What `propagateSunlight` leaves behind when it returns: the block,
`light_sources`, the target of `black_air_left`, and the returned value. -/
structure SunOutcome where
  block : MapBlock
  light_sources : List v3s16
  black_air_left : Option Bool
  result : Bool
deriving DecidableEq, Repr

/-- The method `MapBlock::propagateSunlight(light_sources, remove_light,
black_air_left, grow_grass)`; the loop counters are `s16`, so the block side
is taken to be below 32768. On a dummy block the first column throws: the
exception of the lookup above the block if that is not
`InvalidPositionException`, and otherwise the `InvalidPositionException` of
the first access to the node array. -/
def propagateSunlight {σ : Type} (env : Env) (ne : NodeEnv) (par : NodeContainer σ) (st : σ)
    (blk : MapBlock) (light_sources : List v3s16) (remove_light : Bool)
    (black_air_left : Option Bool) (grow_grass : Bool) : Except Exc SunOutcome :=
  match blk.data with
  | none =>
    if env.MAP_BLOCKSIZE = 0 then Except.ok ⟨blk, light_sources, black_air_left, true⟩
    else
      match getNodeParent env par st blk ⟨0, env.MAP_BLOCKSIZE, 0⟩ with
      | Except.error e => Except.error e
      | Except.ok _ => Except.error Exc.InvalidPositionException
  | some data =>
    match forLoopE (fun x s =>
        forLoopE (fun z s1 => sunlightColumn env ne par st blk remove_light grow_grass x z s1)
          env.MAP_BLOCKSIZE s)
        env.MAP_BLOCKSIZE ⟨data, light_sources, black_air_left, true⟩ with
    | Except.error e => Except.error e
    | Except.ok s => Except.ok ⟨withData blk s.data, s.light_sources, s.black_air_left,
        s.block_below_is_valid⟩

/-! ## Day/night difference -/

/-- The method `MapBlock::updateDayNightDiff()`. -/
def updateDayNightDiff (env : Env) (ne : NodeEnv) (blk : MapBlock) : MapBlock :=
  match blk.data with
  | none => { blk with m_day_night_differs := false }
  | some data =>
    let differs := searchLoop (fun i =>
      decide (ne.getLight (nodeAt data i) LightBank.LIGHTBANK_DAY
        ≠ ne.getLight (nodeAt data i) LightBank.LIGHTBANK_NIGHT)) (nodecount env) 0
    let differs1 :=
      if differs = true then
        let only_air := !(searchLoop (fun i => decide ((nodeAt data i).d ≠ ne.CONTENT_AIR))
          (nodecount env) 0)
        if only_air = true then false else differs
      else differs
    { blk with m_day_night_differs := differs1 }

/-! ## Sunlight propagation: the quantities the properties speak of -/

/-- The parent's contract: its `getNode` throws nothing but
`InvalidPositionException`. -/
def ParentContract {σ : Type} (par : NodeContainer σ) (st : σ) : Prop :=
  ∀ q e, par.getNode st q = Except.error e → e = Exc.InvalidPositionException

/-- The node at `p` seen from the block, if it exists: the value of
`getNodeParent(p)`, `none` when that throws. -/
def lookupNode {σ : Type} (env : Env) (par : NodeContainer σ) (st : σ) (blk : MapBlock)
    (p : v3s16) : Option MapNode :=
  match getNodeParent env par st blk p with
  | Except.ok n => some n
  | Except.error _ => none

/-- The light with which the descent of column `(x, z)` starts:
`no_sunlight ? 0 : LIGHT_SUN`. -/
def startLight {σ : Type} (env : Env) (ne : NodeEnv) (par : NodeContainer σ) (st : σ)
    (blk : MapBlock) (data : List MapNode) (x z : Nat) : u8 :=
  match noSunlight env ne par st blk data x z with
  | Except.ok no_sunlight => if no_sunlight = true then 0 else ne.LIGHT_SUN
  | Except.error _ => 0

/-- The value of `current_light` after the loop body has run on a node `n`
that it reached with `current_light = cur`. -/
def nextLight (ne : NodeEnv) (n : MapNode) (cur : u8) : u8 :=
  if cur = 0 then cur
  else if cur = ne.LIGHT_SUN ∧ ne.sunlight_propagates n.d = true then cur
  else if ne.light_propagates n.d = false then 0
  else ne.diminish_light cur

/-- Whether the loop body takes the branch "a solid object is on the way" on
a node `n` reached with `current_light = cur`. -/
def obstructs (ne : NodeEnv) (n : MapNode) (cur : u8) : Bool :=
  decide (cur ≠ 0 ∧ ¬ (cur = ne.LIGHT_SUN ∧ ne.sunlight_propagates n.d = true)
    ∧ ne.light_propagates n.d = false)

/-- The value of `current_light` in column `(x, z)` after the loop body has
run on the `k` topmost nodes of the column. -/
def lightAfter {σ : Type} (env : Env) (ne : NodeEnv) (par : NodeContainer σ) (st : σ)
    (blk : MapBlock) (data : List MapNode) (x z : Nat) : Nat → u8
  | 0 => startLight env ne par st blk data x z
  | k + 1 => nextLight ne (getNodeRef env data ⟨x, (env.MAP_BLOCKSIZE - 1 - k : Nat), z⟩)
      (lightAfter env ne par st blk data x z k)

/-- The light computed for node `(x, y, z)`: `current_light` after the loop
body has run on it. -/
def computedLight {σ : Type} (env : Env) (ne : NodeEnv) (par : NodeContainer σ) (st : σ)
    (blk : MapBlock) (data : List MapNode) (x y z : Nat) : u8 :=
  lightAfter env ne par st blk data x z (env.MAP_BLOCKSIZE - y)

/-- The light reaching node `(x, y, z)`: `current_light` when the loop body
starts on it. -/
def reachingLight {σ : Type} (env : Env) (ne : NodeEnv) (par : NodeContainer σ) (st : σ)
    (blk : MapBlock) (data : List MapNode) (x y z : Nat) : u8 :=
  lightAfter env ne par st blk data x z (env.MAP_BLOCKSIZE - 1 - y)

/-- Whether the node directly above `(x, y, z)` exists and is air. -/
def upperIsAir {σ : Type} (env : Env) (ne : NodeEnv) (par : NodeContainer σ) (st : σ)
    (blk : MapBlock) (data : List MapNode) (x y z : Nat) : Bool :=
  upperAirOf ne (lookupNode env par st (withData blk data) ⟨x, (y + 1 : Nat), z⟩)

/-- The node after the branches of the loop body: mud that obstructs full
sunlight under air becomes grass when grass is to grow. -/
def grassNode (ne : NodeEnv) (grow_grass upper_is_air : Bool) (n : MapNode) (cur : u8) :
    MapNode :=
  if obstructs ne n cur = true ∧ grow_grass = true ∧ upper_is_air = true
      ∧ n.d = ne.CONTENT_MUD ∧ cur = ne.LIGHT_SUN then
    { n with d := ne.CONTENT_GRASS }
  else n

/-- The node after the conditional `setLight` of the loop body. -/
def storedNode (ne : NodeEnv) (remove_light : Bool) (n : MapNode) (c : u8) : MapNode :=
  if c > ne.getLight n LightBank.LIGHTBANK_DAY ∨ remove_light = true then
    ne.setLight n LightBank.LIGHTBANK_DAY c
  else n

/-- The node that the loop body leaves for a node `n` reached with
`current_light = cur`. -/
def finalNode (ne : NodeEnv) (remove_light grow_grass upper_is_air : Bool) (n : MapNode)
    (cur : u8) : MapNode :=
  storedNode ne remove_light (grassNode ne grow_grass upper_is_air n cur) (nextLight ne n cur)

/-- The node that `propagateSunlight` leaves at `(x, y, z)`, in terms of the
block before the call. -/
def finalAt {σ : Type} (env : Env) (ne : NodeEnv) (par : NodeContainer σ) (st : σ)
    (blk : MapBlock) (data : List MapNode) (remove_light grow_grass : Bool) (x y z : Nat) :
    MapNode :=
  finalNode ne remove_light grow_grass (upperIsAir env ne par st blk data x y z)
    (getNodeRef env data ⟨x, y, z⟩) (reachingLight env ne par st blk data x y z)

/-- Whether the node below column `(x, z)` is absent, opaque, or agrees with
the light the column ends with. -/
def columnAgrees {σ : Type} (env : Env) (ne : NodeEnv) (par : NodeContainer σ) (st : σ)
    (blk : MapBlock) (data : List MapNode) (x z : Nat) : Bool :=
  match lookupNode env par st (withData blk data) ⟨x, -1, z⟩ with
  | none => true
  | some n =>
    !(ne.light_propagates n.d
      && (decide (ne.getLight n LightBank.LIGHTBANK_DAY = ne.LIGHT_SUN)
        != decide (lightAfter env ne par st blk data x z env.MAP_BLOCKSIZE = ne.LIGHT_SUN)))

/-- What holds during the descent through column `(x, z)` when the nodes at
height `m` and above have been processed: they hold their final value, every
other node is as at the start `s` of the column, `current_light` is the light
computed so far, and `light_sources` has gained the lit nodes processed. -/
def ColInv {σ : Type} (env : Env) (ne : NodeEnv) (par : NodeContainer σ) (st : σ)
    (blk : MapBlock) (data : List MapNode) (remove_light grow_grass : Bool) (x z : Nat)
    (s : SunState) (m : Nat) (c : ColumnState) : Prop :=
  c.data.length = nodecount env
  ∧ (∀ x1 y1 z1, x1 < env.MAP_BLOCKSIZE → y1 < env.MAP_BLOCKSIZE → z1 < env.MAP_BLOCKSIZE →
      ((x1 = x ∧ z1 = z ∧ m ≤ y1) → getNodeRef env c.data ⟨x1, y1, z1⟩
          = finalAt env ne par st blk data remove_light grow_grass x1 y1 z1)
      ∧ (¬ (x1 = x ∧ z1 = z ∧ m ≤ y1) → getNodeRef env c.data ⟨x1, y1, z1⟩
          = getNodeRef env s.data ⟨x1, y1, z1⟩))
  ∧ c.current_light = lightAfter env ne par st blk data x z (env.MAP_BLOCKSIZE - m)
  ∧ (∀ p, p ∈ c.light_sources ↔ (p ∈ s.light_sources
      ∨ ∃ y1, m ≤ y1 ∧ y1 < env.MAP_BLOCKSIZE
        ∧ p = v3s16.add (getPosRelative env blk) ⟨x, y1, z⟩
        ∧ ne.diminish_light (computedLight env ne par st blk data x y1 z) ≠ 0))

/-- What holds between columns when the columns in `done` have been
processed: their nodes hold their final value, every other node is as before
the call, `light_sources` has gained the lit nodes of the processed columns,
and `block_below_is_valid` tells whether all of them agree with the node
below. -/
def SunInv {σ : Type} (env : Env) (ne : NodeEnv) (par : NodeContainer σ) (st : σ)
    (blk : MapBlock) (data : List MapNode) (light_sources : List v3s16)
    (remove_light grow_grass : Bool) (done : Nat → Nat → Prop) (s : SunState) : Prop :=
  s.data.length = nodecount env
  ∧ (∀ x1 y1 z1, x1 < env.MAP_BLOCKSIZE → y1 < env.MAP_BLOCKSIZE → z1 < env.MAP_BLOCKSIZE →
      (done x1 z1 → getNodeRef env s.data ⟨x1, y1, z1⟩
          = finalAt env ne par st blk data remove_light grow_grass x1 y1 z1)
      ∧ (¬ done x1 z1 → getNodeRef env s.data ⟨x1, y1, z1⟩ = getNodeRef env data ⟨x1, y1, z1⟩))
  ∧ (∀ p, p ∈ s.light_sources ↔ (p ∈ light_sources
      ∨ ∃ x1 y1 z1, x1 < env.MAP_BLOCKSIZE ∧ y1 < env.MAP_BLOCKSIZE ∧ z1 < env.MAP_BLOCKSIZE
        ∧ done x1 z1 ∧ p = v3s16.add (getPosRelative env blk) ⟨x1, y1, z1⟩
        ∧ ne.diminish_light (computedLight env ne par st blk data x1 y1 z1) ≠ 0))
  ∧ (s.block_below_is_valid = true ↔ ∀ x1 z1, x1 < env.MAP_BLOCKSIZE → z1 < env.MAP_BLOCKSIZE →
      done x1 z1 → columnAgrees env ne par st blk data x1 z1 = true)

/-! ## A concrete lighting environment

Sunlight is 15 and diminishes by one (from 15 and 14 to 13); a node keeps its
day light in the low four bits of `param` and its night light in the high
four; air lets sunlight pass, water lets light pass, everything else is
opaque. -/

/-- Example lighting environment. -/
def exampleNodeEnv : NodeEnv where
  LIGHT_SUN := 15
  diminish_light := fun l => if l = 0 then 0 else if 14 ≤ l then 13 else l - 1
  getLight := fun n bank =>
    match bank with
    | LightBank.LIGHTBANK_DAY => Fin.ofNat (n.param.val % 16)
    | LightBank.LIGHTBANK_NIGHT => Fin.ofNat (n.param.val / 16)
  setLight := fun n bank l =>
    match bank with
    | LightBank.LIGHTBANK_DAY => { n with param := Fin.ofNat (n.param.val / 16 * 16 + l.val % 16) }
    | LightBank.LIGHTBANK_NIGHT =>
      { n with param := Fin.ofNat (l.val % 16 * 16 + n.param.val % 16) }
  sunlight_propagates := fun d => decide (d = 254)
  light_propagates := fun d => decide (d = 254 ∨ d = 2 ∨ d = 9)
  CONTENT_AIR := 254
  CONTENT_MUD := 8
  CONTENT_GRASS := 1
  CONTENT_WATER := 2
  CONTENT_WATERSOURCE := 9

/-- Example terrain, by index `z*4 + y*2 + x`: column (0,0) is air over mud,
column (1,0) air over air, column (0,1) stone over lit air, column (1,1)
water over air. -/
def exampleTerrain : MapBlock :=
  ⟨⟨0, 0, 0⟩, some [⟨8, 0, 0⟩, ⟨254, 0, 0⟩, ⟨254, 3, 0⟩, ⟨254, 0, 0⟩,
    ⟨254, 5, 0⟩, ⟨254, 0, 0⟩, ⟨0, 0, 0⟩, ⟨2, 0, 0⟩], false, false, true⟩

/-- The node array of `exampleTerrain`. -/
def exampleTerrainData : List MapNode :=
  [⟨8, 0, 0⟩, ⟨254, 0, 0⟩, ⟨254, 3, 0⟩, ⟨254, 0, 0⟩,
    ⟨254, 5, 0⟩, ⟨254, 0, 0⟩, ⟨0, 0, 0⟩, ⟨2, 0, 0⟩]

/-- Example surroundings: below column (1,0) a dark air node, below column
(0,1) a sunlit air node, nothing else. -/
def exampleAround : List (v3s16 × MapNode) :=
  [(⟨1, -1, 0⟩, ⟨254, 0, 0⟩), (⟨0, -1, 1⟩, ⟨254, 15, 0⟩)]

/-! ## Mesh building: the faces of one row -/

/-- Componentwise `v3s16` negation (`-face_dir`). -/
def v3s16.neg (a : v3s16) : v3s16 :=
  ⟨wrap16 (-a.X), wrap16 (-a.Y), wrap16 (-a.Z)⟩

/-- A `v3f` in whole numbers. Every float vector of the row sweep is a whole
number (the directions that the callers pass, the scale of a face) or a
multiple of one half (the centre point of a face), and the latter is held as
twice its value. -/
structure v3f where
  X : Int
  Y : Int
  Z : Int
deriving DecidableEq, Repr

/-- Modelled from the spec: `enum NodeModType` is declared in mapblock.h, which
is not among the sources; by the spec a transient modification record
overrides the content id or gives a crack stage. -/
inductive NodeModType where
  | NODEMOD_NONE
  | NODEMOD_CHANGECONTENT
  | NODEMOD_CRACK
deriving DecidableEq, Repr

/-- Modelled from the spec: `struct NodeMod` is declared in mapblock.h, which
is not among the sources: the kind of the record and its 16 bit parameter. -/
structure NodeMod where
  type : NodeModType
  param : Nat
deriving DecidableEq, Repr

/-- Modelled from the spec: `class NodeModMap` is declared in mapblock.h, which
is not among the sources; by the spec it is a sparse mapping from position to
modification record. The call `temp_mods.get(p, &mod)` is `temp_mods p`:
`none` when it returns false, `some mod` when it returns true. -/
abbrev NodeModMap := v3s16 → Option NodeMod

/-- Declarations of tile.h, mapnode.h and light.h that the mesh code of
`mapblock.cpp` uses, over the type `Tile` of a `TileSpec`. -/
structure MeshEnv (Tile : Type) where
  /-- The value `mn.getTile(face_dir)`. -/
  getTile : MapNode → v3s16 → Tile
  /-- The operator `==` of `TileSpec`. -/
  tile_eq : Tile → Tile → Bool
  /-- Whether `tile.texture.atlas != NULL`. -/
  atlas : Tile → Bool
  /-- The field `tile.texture.tiled`. -/
  tiled : Tile → Nat
  /-- The tile whose texture is replaced by the texture named after the
  original one with `^[crack` and the crack stage appended. -/
  crack : Tile → Nat → Tile
  /-- The function `face_contents(m1, m2)`. -/
  face_contents : u8 → u8 → u8
  /-- The value `n.getLightBlend(daynight_ratio)`. -/
  getLightBlend : MapNode → Nat → u8
  /-- The function `decode_light(light)`. -/
  decode_light : u8 → u8
  /-- The node of a declaration `MapNode n;`. -/
  defaultNode : MapNode
  /-- The tile of a declaration `TileSpec tile;`. -/
  defaultTile : Tile

/-- The method `MapBlock::getFaceLight`; `getLightBlend` is taken not to
throw, so the `catch` clause is never entered. -/
def getFaceLight {Tile : Type} (ne : NodeEnv) (me : MeshEnv Tile) (daynight_ratio : Nat)
    (n n2 : MapNode) (face_dir : v3s16) : u8 :=
  let l1 := me.getLightBlend n daynight_ratio
  let l2 := me.getLightBlend n2 daynight_ratio
  let light := if l1 > l2 then l1 else l2
  if face_dir.X = 1 ∨ face_dir.X = -1 ∨ face_dir.Y = -1 then
    ne.diminish_light (ne.diminish_light light)
  else if face_dir.Z = 1 ∨ face_dir.Z = -1 then
    ne.diminish_light light
  else light

/-- The face that `makeFastFace` builds, kept as the arguments that determine
it: the tile, the light, twice the centre point `p` (in nodes), the direction
and the scale. -/
structure FastFace (Tile : Type) where
  tile : Tile
  light : u8
  p2 : v3f
  dir : v3s16
  scale : v3f
deriving DecidableEq, Repr

/-- The method `MapBlock::makeFastFace` as far as the row sweep goes: it
appends one face to `dest`. The vertex arithmetic is not modelled, and
`posRelative_f`, which shifts every vertex of every face alike, is left
out. -/
def makeFastFace {Tile : Type} (tile : Tile) (light : u8) (p2 : v3f) (dir : v3s16)
    (scale : v3f) (dest : List (FastFace Tile)) : List (FastFace Tile) :=
  dest ++ [⟨tile, light, p2, dir, scale⟩]

/-- The method `MapBlock::getNodeTile`. -/
def getNodeTile {Tile : Type} (env : Env) (me : MeshEnv Tile) (mn : MapNode) (p : v3s16)
    (face_dir : v3s16) (temp_mods : NodeModMap) : Tile :=
  let spec := me.getTile mn face_dir
  match temp_mods p with
  | some mod =>
    let spec1 :=
      if mod.type = NodeModType.NODEMOD_CHANGECONTENT then
        me.getTile (env.nodeOfContent (Fin.ofNat mod.param)) face_dir
      else spec
    if mod.type = NodeModType.NODEMOD_CRACK then me.crack spec1 mod.param else spec1
  | none => spec

/-- The method `MapBlock::getNodeContent`; the 16 bit parameter is returned as
`u8`. -/
def getNodeContent (p : v3s16) (mn : MapNode) (temp_mods : NodeModMap) : u8 :=
  match temp_mods p with
  | some mod =>
    if mod.type = NodeModType.NODEMOD_CHANGECONTENT then Fin.ofNat mod.param else mn.d
  | none => mn.d

/-- The local variables of `updateFastFaceRow` that live across the
iterations of its loop, and `dest`. -/
structure RowState (Tile : Type) where
  p : v3s16
  continuous_tiles_count : Nat
  n0 : MapNode
  n1 : MapNode
  light : u8
  tile0 : Tile
  tile1 : Tile
  dest : List (FastFace Tile)

/-- The local variables that an iteration of the loop of `updateFastFaceRow`
declares for the next position, and `next_is_different`. -/
structure RowNext (Tile : Type) where
  next_is_different : Bool
  p_next : v3s16
  n0_next : MapNode
  n1_next : MapNode
  tile0_next : Tile
  tile1_next : Tile
  light_next : u8

/-- The declarations at the head of the loop body: nothing is known of the
next position yet. -/
def rowNextInit {Tile : Type} (me : MeshEnv Tile) : RowNext Tile :=
  ⟨true, ⟨0, 0, 0⟩, me.defaultNode, me.defaultNode, me.defaultTile, me.defaultTile, 0⟩

/-- The block `if(j != length - 1)` of the loop body. -/
def rowLookahead {σ Tile : Type} (env : Env) (ne : NodeEnv) (me : MeshEnv Tile)
    (par : NodeContainer σ) (st : σ) (blk : MapBlock) (daynight_ratio : Nat)
    (translate_dir face_dir : v3s16) (temp_mods : NodeModMap) (s : RowState Tile) :
    Except Exc (RowNext Tile) :=
  let p_next := v3s16.add s.p translate_dir
  match getNodeParentNoEx env par st blk p_next with
  | Except.error e => Except.error e
  | Except.ok n0_next =>
    match getNodeParentNoEx env par st blk (v3s16.add p_next face_dir) with
    | Except.error e => Except.error e
    | Except.ok n1_next =>
      let tile0_next := getNodeTile env me n0_next p_next face_dir temp_mods
      let tile1_next := getNodeTile env me n1_next (v3s16.add p_next face_dir)
        (v3s16.neg face_dir) temp_mods
      let light_next := getFaceLight ne me daynight_ratio n0_next n1_next face_dir
      let next_is_different :=
        if me.tile_eq tile0_next s.tile0 = true ∧ me.tile_eq tile1_next s.tile1 = true
            ∧ light_next = s.light then false
        else true
      Except.ok ⟨next_is_different, p_next, n0_next, n1_next, tile0_next, tile1_next,
        light_next⟩

/-- The flag `end_of_texture` of the loop body, for the count after the
increment. -/
def endOfTexture {Tile : Type} (me : MeshEnv Tile) (tile0 tile1 : Tile)
    (continuous_tiles_count : Nat) : Bool :=
  let e0 :=
    if me.atlas tile0 = true ∧ me.tiled tile0 ≠ 0 then
      if me.tiled tile0 ≤ continuous_tiles_count then true else false
    else false
  if me.atlas tile1 = true ∧ me.tiled tile1 ≠ 0 then
    if me.tiled tile1 ≤ continuous_tiles_count then true else e0
  else e0

/-- The part "Create a face if there should be one" of the loop body: `dest`
afterwards. The centre point `sp` is held as twice its value,
`2*pf - (continuous_tiles_count - 1) * translate_dir_f`. -/
def rowFace {Tile : Type} (me : MeshEnv Tile) (translate_dir : v3s16) (translate_dir_f : v3f)
    (face_dir : v3s16) (face_dir_f : v3f) (temp_mods : NodeModMap) (s : RowState Tile)
    (continuous_tiles_count : Nat) : List (FastFace Tile) :=
  let content0 := getNodeContent s.p s.n0 temp_mods
  let content1 := getNodeContent (v3s16.add s.p face_dir) s.n1 temp_mods
  let mf := me.face_contents content0 content1
  if mf ≠ 0 then
    let sp2 : v3f :=
      ⟨2 * s.p.X - ((continuous_tiles_count : Int) - 1) * translate_dir_f.X,
        2 * s.p.Y - ((continuous_tiles_count : Int) - 1) * translate_dir_f.Y,
        2 * s.p.Z - ((continuous_tiles_count : Int) - 1) * translate_dir_f.Z⟩
    let scale : v3f :=
      ⟨if translate_dir.X ≠ 0 then continuous_tiles_count else 1,
        if translate_dir.Y ≠ 0 then continuous_tiles_count else 1,
        if translate_dir.Z ≠ 0 then continuous_tiles_count else 1⟩
    if mf = 1 then
      makeFastFace s.tile0 (me.decode_light s.light) sp2 face_dir scale s.dest
    else
      makeFastFace s.tile1 (me.decode_light s.light)
        ⟨sp2.X + 2 * face_dir_f.X, sp2.Y + 2 * face_dir_f.Y, sp2.Z + 2 * face_dir_f.Z⟩
        (v3s16.neg face_dir) scale s.dest
  else s.dest

/-- The body of the loop `for(u16 j=0; j<length; j++)` of `updateFastFaceRow`.
The counter `continuous_tiles_count` is at most `length`, which is a `u16`, so
it does not wrap. -/
def rowBody {σ Tile : Type} (env : Env) (ne : NodeEnv) (me : MeshEnv Tile)
    (par : NodeContainer σ) (st : σ) (blk : MapBlock) (daynight_ratio : Nat) (length : Nat)
    (translate_dir : v3s16) (translate_dir_f : v3f) (face_dir : v3s16) (face_dir_f : v3f)
    (temp_mods : NodeModMap) (j : Nat) (s : RowState Tile) : Except Exc (RowState Tile) :=
  match (if (j : Int) ≠ (length : Int) - 1 then
      rowLookahead env ne me par st blk daynight_ratio translate_dir face_dir temp_mods s
    else Except.ok (rowNextInit me)) with
  | Except.error e => Except.error e
  | Except.ok nx =>
    let continuous_tiles_count := s.continuous_tiles_count + 1
    let end_of_texture := endOfTexture me s.tile0 s.tile1 continuous_tiles_count
    if nx.next_is_different = true ∨ end_of_texture = true then
      Except.ok ⟨nx.p_next, 0, nx.n0_next, nx.n1_next, nx.light_next, nx.tile0_next,
        nx.tile1_next,
        rowFace me translate_dir translate_dir_f face_dir face_dir_f temp_mods s
          continuous_tiles_count⟩
    else
      Except.ok { s with p := nx.p_next, continuous_tiles_count := continuous_tiles_count }

/-- The method `MapBlock::updateFastFaceRow`: the array `dest` afterwards, or
the exception that a node lookup lets through. -/
def updateFastFaceRow {σ Tile : Type} (env : Env) (ne : NodeEnv) (me : MeshEnv Tile)
    (par : NodeContainer σ) (st : σ) (blk : MapBlock) (daynight_ratio : Nat)
    (startpos : v3s16) (length : Nat) (translate_dir : v3s16) (translate_dir_f : v3f)
    (face_dir : v3s16) (face_dir_f : v3f) (dest : List (FastFace Tile))
    (temp_mods : NodeModMap) : Except Exc (List (FastFace Tile)) :=
  let p := startpos
  match getNodeParentNoEx env par st blk p with
  | Except.error e => Except.error e
  | Except.ok n0 =>
    match getNodeParentNoEx env par st blk (v3s16.add p face_dir) with
    | Except.error e => Except.error e
    | Except.ok n1 =>
      let light := getFaceLight ne me daynight_ratio n0 n1 face_dir
      let tile0 := getNodeTile env me n0 p face_dir temp_mods
      let tile1 := getNodeTile env me n1 (v3s16.add p face_dir) (v3s16.neg face_dir) temp_mods
      match forLoopE (rowBody env ne me par st blk daynight_ratio length translate_dir
          translate_dir_f face_dir face_dir_f temp_mods) length
          ⟨p, 0, n0, n1, light, tile0, tile1, dest⟩ with
      | Except.error e => Except.error e
      | Except.ok s => Except.ok s.dest

/-! ## Mesh building: the quantities the properties speak of -/

/-- The node that `getNodeParentNoEx(p)` returns, the ignore node when it lets
an exception through. -/
def nodeNoEx {σ : Type} (env : Env) (par : NodeContainer σ) (st : σ) (blk : MapBlock)
    (p : v3s16) : MapNode :=
  match getNodeParentNoEx env par st blk p with
  | Except.ok n => n
  | Except.error _ => env.nodeOfContent env.CONTENT_IGNORE

/-- The position that the variable `p` holds in iteration `i` of the loop:
`startpos` moved `i` times by `translate_dir`. -/
def rowPos (startpos translate_dir : v3s16) : Nat → v3s16
  | 0 => startpos
  | i + 1 => v3s16.add (rowPos startpos translate_dir i) translate_dir

/-- The result of `face_contents` on the two contents that straddle the face
at `p`, the content at `p` and at `p + face_dir` after overlay substitution. -/
def faceContentsAt {σ Tile : Type} (env : Env) (me : MeshEnv Tile) (par : NodeContainer σ)
    (st : σ) (blk : MapBlock) (face_dir : v3s16) (temp_mods : NodeModMap) (p : v3s16) : u8 :=
  me.face_contents (getNodeContent p (nodeNoEx env par st blk p) temp_mods)
    (getNodeContent (v3s16.add p face_dir)
      (nodeNoEx env par st blk (v3s16.add p face_dir)) temp_mods)

/-- The result of `face_contents` with which the loop decides on the run that
began at `p_first` and is closed at `p_last`: the contents are those of the
nodes at `p_first` and `p_first + face_dir`, with the overlay looked up at
`p_last` and `p_last + face_dir`. -/
def runContents {σ Tile : Type} (env : Env) (me : MeshEnv Tile) (par : NodeContainer σ)
    (st : σ) (blk : MapBlock) (face_dir : v3s16) (temp_mods : NodeModMap)
    (p_first p_last : v3s16) : u8 :=
  me.face_contents (getNodeContent p_last (nodeNoEx env par st blk p_first) temp_mods)
    (getNodeContent (v3s16.add p_last face_dir)
      (nodeNoEx env par st blk (v3s16.add p_first face_dir)) temp_mods)

/-- The tile of the near side of the face at `p`: `tile0` as the loop computes
it for `p`. -/
def faceTile0 {σ Tile : Type} (env : Env) (me : MeshEnv Tile) (par : NodeContainer σ)
    (st : σ) (blk : MapBlock) (face_dir : v3s16) (temp_mods : NodeModMap) (p : v3s16) : Tile :=
  getNodeTile env me (nodeNoEx env par st blk p) p face_dir temp_mods

/-- The tile of the far side of the face at `p`: `tile1` as the loop computes
it for `p`. -/
def faceTile1 {σ Tile : Type} (env : Env) (me : MeshEnv Tile) (par : NodeContainer σ)
    (st : σ) (blk : MapBlock) (face_dir : v3s16) (temp_mods : NodeModMap) (p : v3s16) : Tile :=
  getNodeTile env me (nodeNoEx env par st blk (v3s16.add p face_dir)) (v3s16.add p face_dir)
    (v3s16.neg face_dir) temp_mods

/-- The light of the face at `p`: `light` as the loop computes it for `p`. -/
def faceLightAt {σ Tile : Type} (env : Env) (ne : NodeEnv) (me : MeshEnv Tile)
    (par : NodeContainer σ) (st : σ) (blk : MapBlock) (daynight_ratio : Nat)
    (face_dir : v3s16) (p : v3s16) : u8 :=
  getFaceLight ne me daynight_ratio (nodeNoEx env par st blk p)
    (nodeNoEx env par st blk (v3s16.add p face_dir)) face_dir

/-- The test that keeps `next_is_different` false, for a run that began at `p`
and the next position `q`: both tiles of `q` equal those of `p` and the face
light is the same. -/
def sameFace {σ Tile : Type} (env : Env) (ne : NodeEnv) (me : MeshEnv Tile)
    (par : NodeContainer σ) (st : σ) (blk : MapBlock) (daynight_ratio : Nat)
    (face_dir : v3s16) (temp_mods : NodeModMap) (p q : v3s16) : Bool :=
  me.tile_eq (faceTile0 env me par st blk face_dir temp_mods q)
      (faceTile0 env me par st blk face_dir temp_mods p)
    && me.tile_eq (faceTile1 env me par st blk face_dir temp_mods q)
      (faceTile1 env me par st blk face_dir temp_mods p)
    && decide (faceLightAt env ne me par st blk daynight_ratio face_dir q
      = faceLightAt env ne me par st blk daynight_ratio face_dir p)

/-- Whether the positions `a + 1`, ..., `b` of the line all pass the test
`sameFace` against position `a`: a run that begins at `a` can reach `b`. -/
def rowMerged {σ Tile : Type} (env : Env) (ne : NodeEnv) (me : MeshEnv Tile)
    (par : NodeContainer σ) (st : σ) (blk : MapBlock) (daynight_ratio : Nat)
    (startpos translate_dir face_dir : v3s16) (temp_mods : NodeModMap) (a b : Nat) : Bool :=
  (List.range (b - a)).all (fun k =>
    sameFace env ne me par st blk daynight_ratio face_dir temp_mods
      (rowPos startpos translate_dir a) (rowPos startpos translate_dir (a + k + 1)))

/-- The variables of the loop at the head of iteration `j`, while the run that
began in iteration `a` is open. -/
def rowStateAt {σ Tile : Type} (env : Env) (ne : NodeEnv) (me : MeshEnv Tile)
    (par : NodeContainer σ) (st : σ) (blk : MapBlock) (daynight_ratio : Nat)
    (startpos translate_dir face_dir : v3s16) (temp_mods : NodeModMap) (a j : Nat)
    (dest : List (FastFace Tile)) : RowState Tile :=
  ⟨rowPos startpos translate_dir j, j - a,
    nodeNoEx env par st blk (rowPos startpos translate_dir a),
    nodeNoEx env par st blk (v3s16.add (rowPos startpos translate_dir a) face_dir),
    faceLightAt env ne me par st blk daynight_ratio face_dir (rowPos startpos translate_dir a),
    faceTile0 env me par st blk face_dir temp_mods (rowPos startpos translate_dir a),
    faceTile1 env me par st blk face_dir temp_mods (rowPos startpos translate_dir a),
    dest⟩

/-- Whether a node centre, given as twice its coordinates, lies within the
extent of a face: along each axis it is at most `(scale - 1) / 2` away from
the centre of the face. -/
def FastFace.spans {Tile : Type} (f : FastFace Tile) (q2 : v3f) : Bool :=
  decide (f.p2.X - (f.scale.X - 1) ≤ q2.X ∧ q2.X ≤ f.p2.X + (f.scale.X - 1)
    ∧ f.p2.Y - (f.scale.Y - 1) ≤ q2.Y ∧ q2.Y ≤ f.p2.Y + (f.scale.Y - 1)
    ∧ f.p2.Z - (f.scale.Z - 1) ≤ q2.Z ∧ q2.Z ≤ f.p2.Z + (f.scale.Z - 1))

/-- Whether a face covers the boundary at `q`, between the nodes `q` and
`q + face_dir`: it lies at `q` facing `face_dir`, or at `q + face_dir` facing
`-face_dir`. -/
def FastFace.covers {Tile : Type} (f : FastFace Tile) (face_dir : v3s16) (face_dir_f : v3f)
    (q : v3s16) : Bool :=
  (decide (f.dir = face_dir) && f.spans ⟨2 * q.X, 2 * q.Y, 2 * q.Z⟩)
  || (decide (f.dir = v3s16.neg face_dir)
    && f.spans ⟨2 * q.X + 2 * face_dir_f.X, 2 * q.Y + 2 * face_dir_f.Y,
      2 * q.Z + 2 * face_dir_f.Z⟩)

/-! ## Mesh building: a concrete environment -/

/-- Example tile table: the tile of a node is its content id, no texture is in
an atlas; `face_contents` ranks air below liquid below everything else and
never draws against the ignore content. -/
def exampleMeshEnv : MeshEnv Nat where
  getTile := fun n _ => n.d.val
  tile_eq := fun a b => decide (a = b)
  atlas := fun _ => false
  tiled := fun _ => 0
  crack := fun t k => t + 1000 * (k + 1)
  face_contents := fun m1 m2 =>
    let solidness : u8 → Nat := fun c => if c = 254 then 0 else if c = 2 ∨ c = 9 then 1 else 2
    if m1 = 255 ∨ m2 = 255 then 0
    else if m1 = m2 ∨ solidness m1 = solidness m2 then 0
    else if solidness m1 > solidness m2 then 1
    else 2
  getLightBlend := fun n _ => Fin.ofNat (n.param.val % 16)
  decode_light := fun l => l
  defaultNode := ⟨0, 0, 0⟩
  defaultTile := 0

/-- Example block: stone at `(0,0,0)`, air everywhere else, all dark. -/
def exampleStoneBlock : MapBlock :=
  ⟨⟨0, 0, 0⟩, some [⟨0, 0, 0⟩, ⟨254, 0, 0⟩, ⟨254, 0, 0⟩, ⟨254, 0, 0⟩,
    ⟨254, 0, 0⟩, ⟨254, 0, 0⟩, ⟨254, 0, 0⟩, ⟨254, 0, 0⟩], false, false, true⟩

/-- Example overlay: the content at `(0,0,0)` is overridden by air. -/
def exampleMods : NodeModMap :=
  fun p => if p = ⟨0, 0, 0⟩ then some ⟨NodeModType.NODEMOD_CHANGECONTENT, 254⟩ else none

/-- Example block, 2 x 2 x 2: air with stone at `(1,0,0)`. -/
def exampleStoneEnd : MapBlock :=
  ⟨⟨0, 0, 0⟩, some [⟨254, 0, 0⟩, ⟨0, 0, 0⟩, ⟨254, 0, 0⟩, ⟨254, 0, 0⟩,
    ⟨254, 0, 0⟩, ⟨254, 0, 0⟩, ⟨254, 0, 0⟩, ⟨254, 0, 0⟩], false, false, true⟩

/-- Example overlay: the content at `(0,0,0)` is overridden by stone. -/
def exampleStoneMods : NodeModMap :=
  fun p => if p = ⟨0, 0, 0⟩ then some ⟨NodeModType.NODEMOD_CHANGECONTENT, 0⟩ else none

/-! ## Mesh building: the collector -/

/-- The struct `PreMeshBuffer`, over the types `M` of a material
(`video::SMaterial`) and `V` of a vertex (`video::S3DVertex`); an index is a
`u16`. -/
structure PreMeshBuffer (M V : Type) where
  material : M
  indices : List Nat
  vertices : List V
deriving DecidableEq, Repr

/-- The class `MeshCollector`. -/
structure MeshCollector (M V : Type) where
  m_prebuffers : List (PreMeshBuffer M V)
deriving DecidableEq, Repr

/-- The search loop at the head of `MeshCollector::append` over the buffers
from position `i` on: the position of the first buffer whose material is not
`!=` the given one, `none` when `p` stays `NULL`. -/
def findBuffer {M V : Type} [DecidableEq M] :
    List (PreMeshBuffer M V) → M → Nat → Option Nat
  | [], _, _ => none
  | pp :: rest, material, i =>
    if pp.material ≠ material then findBuffer rest material (i + 1) else some i

/-- The method `MeshCollector::append`. The arrays behind the pointers
`vertices` and `indices` are functions of the position. The sum
`indices[i] + vertex_count` is a `u32`, and `push_back` converts it to the
`u16` of the index array. -/
def MeshCollector.append {M V : Type} [DecidableEq M] (c : MeshCollector M V) (material : M)
    (vertices : Nat → V) (numVertices : Nat) (indices : Nat → Nat) (numIndices : Nat) :
    MeshCollector M V :=
  let found := findBuffer c.m_prebuffers material 0
  let m_prebuffers1 :=
    match found with
    | some _ => c.m_prebuffers
    | none => c.m_prebuffers ++ [⟨material, [], []⟩]
  let i :=
    match found with
    | some i => i
    | none => m_prebuffers1.length - 1
  match m_prebuffers1[i]? with
  | none => ⟨m_prebuffers1⟩
  | some p =>
    let vertex_count := p.vertices.length % 4294967296
    let indices1 := forLoop (fun k acc =>
      let j := (indices k + vertex_count) % 4294967296
      acc ++ [j % 65536]) numIndices p.indices
    let vertices1 := forLoop (fun k acc => acc ++ [vertices k]) numVertices p.vertices
    ⟨m_prebuffers1.set i ⟨p.material, indices1, vertices1⟩⟩

/-- One call of `MeshCollector::append`: its arguments. -/
structure AppendCall (M V : Type) where
  material : M
  vertices : Nat → V
  numVertices : Nat
  indices : Nat → Nat
  numIndices : Nat

/-- The collector after a sequence of `append` calls on a new collector. -/
def appendAll {M V : Type} [DecidableEq M] (calls : List (AppendCall M V)) :
    MeshCollector M V :=
  calls.foldl (fun c a => c.append a.material a.vertices a.numVertices a.indices a.numIndices)
    ⟨[]⟩

/-- The buffer of a material in the collector: the first one with that
material, an empty one if there is none yet. -/
def MeshCollector.bufferOf {M V : Type} [DecidableEq M] (c : MeshCollector M V) (material : M) :
    PreMeshBuffer M V :=
  match c.m_prebuffers.find? (fun pp => decide (pp.material = material)) with
  | some pp => pp
  | none => ⟨material, [], []⟩

/-- The call of `updateMesh` for one face: four vertices, the indices
`{0,1,2,2,3,0}`. -/
def exampleQuad : AppendCall Nat Unit :=
  ⟨7, fun _ => (), 4, fun k => [0, 1, 2, 2, 3, 0].getD k 0, 6⟩

/-- The buffer `p` after the two loops of `append`, the stored index written
as the sum of the input index and the vertex count modulo `2^16`. -/
def PreMeshBuffer.extended {M V : Type} (p : PreMeshBuffer M V) (vertices : Nat → V)
    (numVertices : Nat) (indices : Nat → Nat) (numIndices : Nat) : PreMeshBuffer M V :=
  ⟨p.material,
    p.indices ++ (List.range numIndices).map (fun k => (indices k + p.vertices.length) % 65536),
    p.vertices ++ (List.range numVertices).map vertices⟩

/-! ## Mesh building: the runs of a line -/

/-- Whether iteration `j` of the loop of `updateFastFaceRow` closes the run
that began in iteration `a`: it is the last iteration, or the next position
fails the test against the first position of the run, or `end_of_texture` is
set for the count `j - a + 1`. -/
def runCloses {σ Tile : Type} (env : Env) (ne : NodeEnv) (me : MeshEnv Tile)
    (par : NodeContainer σ) (st : σ) (blk : MapBlock) (daynight_ratio : Nat)
    (startpos : v3s16) (length : Nat) (translate_dir face_dir : v3s16)
    (temp_mods : NodeModMap) (a j : Nat) : Bool :=
  decide ((j : Int) = (length : Int) - 1)
  || !(sameFace env ne me par st blk daynight_ratio face_dir temp_mods
        (rowPos startpos translate_dir a) (rowPos startpos translate_dir (j + 1)))
  || endOfTexture me
      (faceTile0 env me par st blk face_dir temp_mods (rowPos startpos translate_dir a))
      (faceTile1 env me par st blk face_dir temp_mods (rowPos startpos translate_dir a))
      (j - a + 1)

/-- The runs that a loop forms before its iteration `j`, given for each
iteration `i` whether it closes the run that began in iteration `a`: the
iteration in which the open run began, and the closed runs, each with its
first and last iteration, in the order in which they were closed. -/
def runsOf (closes : Nat → Nat → Bool) : Nat → Nat × List (Nat × Nat)
  | 0 => (0, [])
  | j + 1 =>
    let s := runsOf closes j
    if closes s.1 j = true then (j + 1, s.2 ++ [(s.1, j)]) else s

/-- The runs of a line before iteration `j` of the loop of
`updateFastFaceRow`. -/
def rowRuns {σ Tile : Type} (env : Env) (ne : NodeEnv) (me : MeshEnv Tile)
    (par : NodeContainer σ) (st : σ) (blk : MapBlock) (daynight_ratio : Nat)
    (startpos : v3s16) (length : Nat) (translate_dir face_dir : v3s16)
    (temp_mods : NodeModMap) (j : Nat) : Nat × List (Nat × Nat) :=
  runsOf (runCloses env ne me par st blk daynight_ratio startpos length translate_dir face_dir
    temp_mods) j

/-- The faces of a closed run `r`, as the part "Create a face if there should
be one" builds them: none or one. -/
def runFace {σ Tile : Type} (env : Env) (ne : NodeEnv) (me : MeshEnv Tile)
    (par : NodeContainer σ) (st : σ) (blk : MapBlock) (daynight_ratio : Nat)
    (startpos translate_dir : v3s16) (translate_dir_f : v3f) (face_dir : v3s16)
    (face_dir_f : v3f) (temp_mods : NodeModMap) (r : Nat × Nat) : List (FastFace Tile) :=
  rowFace me translate_dir translate_dir_f face_dir face_dir_f temp_mods
    (rowStateAt env ne me par st blk daynight_ratio startpos translate_dir face_dir temp_mods
      r.1 r.2 []) (r.2 - r.1 + 1)

/-- Whether the runs of a list follow one another from `first` up to `stop`:
each begins where the one before ended and has at least one position. -/
def runsCover : Nat → List (Nat × Nat) → Nat → Bool
  | first, [], stop => decide (first = stop)
  | first, r :: rest, stop => decide (r.1 = first ∧ r.1 ≤ r.2) && runsCover (r.2 + 1) rest stop

/-- The count at which `end_of_texture` is set for a pair of tiles: the
smaller of the non-zero values of `tiled` of the tiles with an atlas, 0 if
there is none. -/
def tileLimit {Tile : Type} (me : MeshEnv Tile) (tile0 tile1 : Tile) : Nat :=
  let l0 := if me.atlas tile0 = true then me.tiled tile0 else 0
  let l1 := if me.atlas tile1 = true then me.tiled tile1 else 0
  if l0 = 0 then l1 else if l1 = 0 then l0 else min l0 l1

/-- Example block: stone in the layer `y = 0`, flowing water above it. -/
def exampleWaterSlab : MapBlock :=
  ⟨⟨0, 0, 0⟩, some [⟨0, 0, 0⟩, ⟨0, 0, 0⟩, ⟨2, 0, 0⟩, ⟨2, 0, 0⟩,
    ⟨0, 0, 0⟩, ⟨0, 0, 0⟩, ⟨2, 0, 0⟩, ⟨2, 0, 0⟩], false, false, true⟩

/-- Example tile table in which only the tile of water has an atlas texture,
one that cannot be tiled further. -/
def exampleAtlasEnv : MeshEnv Nat :=
  { exampleMeshEnv with
    atlas := fun t => decide (t = 2)
    tiled := fun t => if t = 2 then 1 else 0 }

/-! ## Mesh building: the three sweeps of `updateMesh` -/

/-- The part of `MapBlock::updateMesh` that fills `fastfaces_new`: the sweep
over every `y`, `z` for the top faces in rows of x+, the sweep over every `x`,
`y` for the right faces in rows of z+, and the sweep over every `z`, `y` for
the back faces in rows of x+. The loop counters are `s16`; they stay below
`MAP_BLOCKSIZE`. The result is the array `fastfaces_new`, or the exception
that a row lets through. -/
def updateMeshFaces {σ Tile : Type} (env : Env) (ne : NodeEnv) (me : MeshEnv Tile)
    (par : NodeContainer σ) (st : σ) (blk : MapBlock) (daynight_ratio : Nat)
    (temp_mods : NodeModMap) : Except Exc (List (FastFace Tile)) :=
  let fastfaces_new : List (FastFace Tile) := []
  match forLoopE (fun y dest => forLoopE (fun z dest1 =>
      updateFastFaceRow env ne me par st blk daynight_ratio ⟨0, y, z⟩ env.MAP_BLOCKSIZE
        ⟨1, 0, 0⟩ ⟨1, 0, 0⟩ ⟨0, 1, 0⟩ ⟨0, 1, 0⟩ dest1 temp_mods)
      env.MAP_BLOCKSIZE dest) env.MAP_BLOCKSIZE fastfaces_new with
  | Except.error e => Except.error e
  | Except.ok fastfaces_1 =>
    match forLoopE (fun x dest => forLoopE (fun y dest1 =>
        updateFastFaceRow env ne me par st blk daynight_ratio ⟨x, y, 0⟩ env.MAP_BLOCKSIZE
          ⟨0, 0, 1⟩ ⟨0, 0, 1⟩ ⟨1, 0, 0⟩ ⟨1, 0, 0⟩ dest1 temp_mods)
        env.MAP_BLOCKSIZE dest) env.MAP_BLOCKSIZE fastfaces_1 with
    | Except.error e => Except.error e
    | Except.ok fastfaces_2 =>
      forLoopE (fun z dest => forLoopE (fun y dest1 =>
        updateFastFaceRow env ne me par st blk daynight_ratio ⟨0, y, z⟩ env.MAP_BLOCKSIZE
          ⟨1, 0, 0⟩ ⟨1, 0, 0⟩ ⟨0, 0, 1⟩ ⟨0, 0, 1⟩ dest1 temp_mods)
        env.MAP_BLOCKSIZE dest) env.MAP_BLOCKSIZE fastfaces_2

/-- The face that a whole row of nodes `n0` with neighbours `n1` towards
`face_dir` gets when `n0` is the more solid one: a strip of `len` nodes along
`translate_dir` whose last node is at `p_last`. -/
def stripFace {Tile : Type} (ne : NodeEnv) (me : MeshEnv Tile) (daynight_ratio : Nat)
    (n0 n1 : MapNode) (p_last : v3s16) (len : Nat) (translate_dir face_dir : v3s16) :
    FastFace Tile :=
  ⟨me.getTile n0 face_dir, me.decode_light (getFaceLight ne me daynight_ratio n0 n1 face_dir),
    ⟨2 * p_last.X - ((len : Int) - 1) * translate_dir.X,
      2 * p_last.Y - ((len : Int) - 1) * translate_dir.Y,
      2 * p_last.Z - ((len : Int) - 1) * translate_dir.Z⟩,
    face_dir,
    ⟨1 + ((len : Int) - 1) * translate_dir.X, 1 + ((len : Int) - 1) * translate_dir.Y,
      1 + ((len : Int) - 1) * translate_dir.Z⟩⟩

/-- The strips on the three faces of a cube of side `len` of nodes `n0` with
neighbours `n1` outside, towards +y, +x and +z, in the order of the three
sweeps: `len` strips on each face. -/
def cubeStrips {Tile : Type} (ne : NodeEnv) (me : MeshEnv Tile) (daynight_ratio : Nat)
    (n0 n1 : MapNode) (len : Nat) : List (FastFace Tile) :=
  (List.range len).map (fun (z : Nat) => stripFace ne me daynight_ratio n0 n1
      ⟨(len : Int) - 1, (len : Int) - 1, (z : Int)⟩ len ⟨1, 0, 0⟩ ⟨0, 1, 0⟩)
  ++ (List.range len).map (fun (y : Nat) => stripFace ne me daynight_ratio n0 n1
      ⟨(len : Int) - 1, (y : Int), (len : Int) - 1⟩ len ⟨0, 0, 1⟩ ⟨1, 0, 0⟩)
  ++ (List.range len).map (fun (y : Nat) => stripFace ne me daynight_ratio n0 n1
      ⟨(len : Int) - 1, (y : Int), (len : Int) - 1⟩ len ⟨1, 0, 0⟩ ⟨0, 0, 1⟩)

/-- Example environment with blocks of side 16. -/
def exampleEnv16 : Env := { exampleEnv with MAP_BLOCKSIZE := 16 }

/-- Example block of side 16 filled with stone. -/
def exampleStoneChunk : MapBlock :=
  ⟨⟨0, 0, 0⟩, some (List.replicate 4096 ⟨0, 0, 0⟩), false, false, true⟩

/-- Example parent container in which every node is air. -/
def exampleAirParent : NodeContainer Unit where
  getNode := fun _ _ => Except.ok ⟨254, 0, 0⟩
  setNode := fun st _ _ => (none, st)

/-! ## Mesh building: flowing water -/

/-- A quad that the branch "Add flowing water to mesh" of `updateMesh` hands to
the collector: a side towards `dir`, or the top. The vertices are not
modelled. -/
inductive WaterQuad where
  | side (dir : v3s16)
  | top
deriving DecidableEq, Repr

/-- The array `neighbor_dirs`. -/
def neighbor_dirs : List v3s16 :=
  [⟨0, 0, 0⟩, ⟨0, 0, 1⟩, ⟨0, 0, -1⟩, ⟨1, 0, 0⟩, ⟨-1, 0, 0⟩, ⟨1, 0, 1⟩, ⟨-1, 0, -1⟩,
    ⟨1, 0, -1⟩, ⟨-1, 0, 1⟩]

/-- The array `side_dirs`. -/
def side_dirs : List v3s16 := [⟨1, 0, 0⟩, ⟨-1, 0, 0⟩, ⟨0, 0, 1⟩, ⟨0, 0, -1⟩]

/-- The variable `top_is_water` of the node at `p = (x, y, z)`, from the
lookup of `v3s16(x, y+1, z)`. -/
def topIsWater {σ : Type} (env : Env) (ne : NodeEnv) (par : NodeContainer σ) (st : σ)
    (blk : MapBlock) (p : v3s16) : Except Exc Bool :=
  let top_is_water := false
  match catchInvalidPosition
      (getNodeParent env par st blk ⟨p.X, wrap16 (p.Y + 1), p.Z⟩) with
  | Except.error e => Except.error e
  | Except.ok none => Except.ok top_is_water
  | Except.ok (some n) =>
    if n.d = ne.CONTENT_WATER ∨ n.d = ne.CONTENT_WATERSOURCE then Except.ok true
    else Except.ok top_is_water

/-- One round of the loop over `neighbor_dirs`: the values `content` and
`flags` that it inserts for `dir`. Both lookups stand in one `try` block, so
the content of an existing neighbour is kept when the node above it is
missing. The water level is not modelled. -/
def waterNeighbor {σ : Type} (env : Env) (ne : NodeEnv) (par : NodeContainer σ) (st : σ)
    (blk : MapBlock) (p dir : v3s16) : Except Exc (u8 × Nat) :=
  let content := ne.CONTENT_AIR
  let flags := 0
  let p2 := v3s16.add p dir
  match catchInvalidPosition (getNodeParent env par st blk p2) with
  | Except.error e => Except.error e
  | Except.ok none => Except.ok (content, flags)
  | Except.ok (some n2) =>
    let content := n2.d
    let p2 : v3s16 := ⟨p2.X, wrap16 (p2.Y + 1), p2.Z⟩
    match catchInvalidPosition (getNodeParent env par st blk p2) with
    | Except.error e => Except.error e
    | Except.ok none => Except.ok (content, flags)
    | Except.ok (some n2) =>
      if n2.d = ne.CONTENT_WATERSOURCE ∨ n2.d = ne.CONTENT_WATER then
        Except.ok (content, flags ||| 1)
      else Except.ok (content, flags)

/-- The maps `neighbor_contents` and `neighbor_flags`, as lists of the
inserted pairs. -/
structure WaterNeighbors where
  neighbor_contents : List (v3s16 × u8)
  neighbor_flags : List (v3s16 × Nat)
deriving DecidableEq, Repr

/-- The loop over `neighbor_dirs`. -/
def waterNeighbors {σ : Type} (env : Env) (ne : NodeEnv) (par : NodeContainer σ) (st : σ)
    (blk : MapBlock) (p : v3s16) : Except Exc WaterNeighbors :=
  forLoopE (fun i nb =>
    match waterNeighbor env ne par st blk p (neighbor_dirs.getD i ⟨0, 0, 0⟩) with
    | Except.error e => Except.error e
    | Except.ok r =>
      Except.ok ⟨nb.neighbor_contents ++ [(neighbor_dirs.getD i ⟨0, 0, 0⟩, r.1)],
        nb.neighbor_flags ++ [(neighbor_dirs.getD i ⟨0, 0, 0⟩, r.2)]⟩) 9 ⟨[], []⟩

/-- The value `neighbor_contents[dir]`. -/
def WaterNeighbors.content (nb : WaterNeighbors) (dir : v3s16) : u8 :=
  (nb.neighbor_contents.lookup dir).getD 0

/-- The value `neighbor_flags[dir]`. -/
def WaterNeighbors.flags (nb : WaterNeighbors) (dir : v3s16) : Nat :=
  (nb.neighbor_flags.lookup dir).getD 0

/-- The body of the loop "Generate sides" up to the call of the collector:
whether no `continue` is taken for `dir`. -/
def waterSideDrawn (ne : NodeEnv) (top_is_water : Bool) (nb : WaterNeighbors)
    (dir : v3s16) : Bool :=
  if top_is_water = true ∧ (nb.flags dir &&& 1) ≠ 0 then false
  else
    let neighbor_content := nb.content dir
    if neighbor_content ≠ ne.CONTENT_AIR ∧ neighbor_content ≠ ne.CONTENT_WATER then false
    else
      let neighbor_is_water := decide (neighbor_content = ne.CONTENT_WATER)
      if neighbor_is_water = true ∧ top_is_water = false then false
      else true

/-- The branch "Add flowing water to mesh" of `updateMesh` for the node at
`p`: the quads it hands to the collector, in order. -/
def flowingWaterQuads {σ : Type} (env : Env) (ne : NodeEnv) (par : NodeContainer σ) (st : σ)
    (blk : MapBlock) (p : v3s16) : Except Exc (List WaterQuad) :=
  match topIsWater env ne par st blk p with
  | Except.error e => Except.error e
  | Except.ok top_is_water =>
    match waterNeighbors env ne par st blk p with
    | Except.error e => Except.error e
    | Except.ok nb =>
      let sides := forLoop (fun i quads =>
        let dir := side_dirs.getD i ⟨0, 0, 0⟩
        if waterSideDrawn ne top_is_water nb dir = true then quads ++ [WaterQuad.side dir]
        else quads) 4 []
      if top_is_water = false then Except.ok (sides ++ [WaterQuad.top])
      else Except.ok sides

/-- Example block: flowing water at `(0,0,0)` and above it, a water source at
`(1,0,0)`, air everywhere else. -/
def exampleWaterBlock : MapBlock :=
  ⟨⟨0, 0, 0⟩, some [⟨2, 0, 0⟩, ⟨9, 0, 0⟩, ⟨2, 0, 0⟩, ⟨254, 0, 0⟩,
    ⟨254, 0, 0⟩, ⟨254, 0, 0⟩, ⟨254, 0, 0⟩, ⟨254, 0, 0⟩], false, false, true⟩

/-- The content that the loop over `neighbor_dirs` stores for `dir`: that of
the node at `p + dir`, air if there is none. -/
def neighborContentAt {σ : Type} (env : Env) (ne : NodeEnv) (par : NodeContainer σ) (st : σ)
    (blk : MapBlock) (p dir : v3s16) : u8 :=
  match lookupNode env par st blk (v3s16.add p dir) with
  | some n => n.d
  | none => ne.CONTENT_AIR

/-- Whether the node at `p + dir` exists and the node above it exists and is
flowing water or a water source. -/
def neighborTopIsWater {σ : Type} (env : Env) (ne : NodeEnv) (par : NodeContainer σ) (st : σ)
    (blk : MapBlock) (p dir : v3s16) : Bool :=
  match lookupNode env par st blk (v3s16.add p dir) with
  | none => false
  | some _ =>
    match lookupNode env par st blk
        ⟨(v3s16.add p dir).X, wrap16 ((v3s16.add p dir).Y + 1), (v3s16.add p dir).Z⟩ with
    | none => false
    | some n => decide (n.d = ne.CONTENT_WATERSOURCE ∨ n.d = ne.CONTENT_WATER)

/-! ## Sunlight propagation: the flag `black_air_left` -/

/-- The value of `stopped_to_solid_object` in column `(x, z)` after the loop
body has run on the `k` topmost nodes of the column: whether it took the
branch "a solid object is on the way" on one of them. -/
def columnStopped {σ : Type} (env : Env) (ne : NodeEnv) (par : NodeContainer σ) (st : σ)
    (blk : MapBlock) (data : List MapNode) (x z : Nat) : Nat → Bool
  | 0 => false
  | k + 1 => columnStopped env ne par st blk data x z k
      || obstructs ne (getNodeRef env data ⟨x, (env.MAP_BLOCKSIZE - 1 - k : Nat), z⟩)
          (lightAfter env ne par st blk data x z k)

/-- What holds of the target of `black_air_left` between columns when the
columns in `done` have been processed: it has been set to true if one of them
was stopped by a solid object, and is as before the call otherwise. -/
def BlackInv {σ : Type} (env : Env) (ne : NodeEnv) (par : NodeContainer σ) (st : σ)
    (blk : MapBlock) (data : List MapNode) (bal : Option Bool) (done : Nat → Nat → Prop)
    (s : SunState) : Prop :=
  ∃ B : Bool, s.black_air_left = bal.map (fun b => b || B)
    ∧ (B = true ↔ ∃ x1 z1, x1 < env.MAP_BLOCKSIZE ∧ z1 < env.MAP_BLOCKSIZE ∧ done x1 z1
        ∧ columnStopped env ne par st blk data x1 z1 env.MAP_BLOCKSIZE = true)

/-- Example block: air only, dark, marked as underground. -/
def exampleDarkAir : MapBlock :=
  ⟨⟨0, 0, 0⟩, some (List.replicate 8 ⟨254, 0, 0⟩), true, false, true⟩

/-! ## Ground level -/

/-- A vector of two signed 16 bit integers (irrlicht's `vector2d<s16>`). -/
structure v2s16 where
  X : Int
  Y : Int
deriving DecidableEq, Repr

/-- Modelled from the spec: `MapBlock::getNodeRef(x, y, z)` is declared in
mapblock.h, which is not among the sources; by the spec a direct grid accessor
throws `InvalidPosition` for a coordinate outside the chunk and yields the
stored node otherwise, and so does the access to a block without a node
array, as in `getNodeParent`. -/
def getNodeRefE (env : Env) (blk : MapBlock) (p : v3s16) : Except Exc MapNode :=
  match blk.data with
  | none => Except.error Exc.InvalidPositionException
  | some data =>
    if isValidPosition env p = false then Except.error Exc.InvalidPositionException
    else Except.ok (getNodeRef env data p)

/-- The loop `for(; y>=0; y--)` of `getGroundLevel` when `k` nodes of the
column are still to be looked at (`y = k - 1`), with the `return -1` that
follows it: the value returned, or the exception that `getNodeRef` throws.
`walkable` is the field `content_features(d).walkable`. -/
def groundLoop (env : Env) (walkable : u8 → Bool) (blk : MapBlock) (p2d : v2s16) :
    Nat → Except Exc Int
  | 0 => Except.ok (-1)
  | y + 1 =>
    match getNodeRefE env blk ⟨p2d.X, y, p2d.Y⟩ with
    | Except.error e => Except.error e
    | Except.ok n =>
      if walkable n.d = true then
        if (y : Int) = (env.MAP_BLOCKSIZE : Int) - 1 then Except.ok (-2)
        else Except.ok y
      else groundLoop env walkable blk p2d y

/-- The method `MapBlock::getGroundLevel(p2d)`; `isDummy()` is `data == NULL`,
and the loop counter is `s16`, so the block side is taken to be below
32768. -/
def getGroundLevel (env : Env) (walkable : u8 → Bool) (blk : MapBlock) (p2d : v2s16) :
    Except Exc Int :=
  match blk.data with
  | none => Except.ok (-3)
  | some _ =>
    match groundLoop env walkable blk p2d env.MAP_BLOCKSIZE with
    | Except.error Exc.InvalidPositionException => Except.ok (-3)
    | r => r

/-- The highest of the `k` lowest nodes of column `(x, z)` whose content is
walkable, if there is one. -/
def topWalkable (env : Env) (walkable : u8 → Bool) (data : List MapNode) (x z : Int) :
    Nat → Option Nat
  | 0 => none
  | y + 1 =>
    if walkable (getNodeRef env data ⟨x, y, z⟩).d = true then some y
    else topWalkable env walkable data x z y

/-- Example table of walkable contents: everything but air and water. -/
def exampleWalkable : u8 → Bool := fun d => decide (d ≠ 254 ∧ d ≠ 2 ∧ d ≠ 9)

/-! ## Deserialization: what a format leaves alone -/

/-- The two flags of a block that only the newest format carries:
`m_day_night_differs` and `m_lighting_expired`. -/
def lightFlagsOf (blk : MapBlock) : Bool × Bool :=
  (blk.m_day_night_differs, blk.m_lighting_expired)

/-- The values `data[i].param2` of the node array of a block, `none` for a
dummy block. -/
def param2Plane (blk : MapBlock) : Option (List u8) :=
  blk.data.map (fun d => d.map (fun n => n.param2))

/-! ## Lemmas on the loops -/

theorem nodeAt_set (l : List MapNode) (i j : Nat) (a : MapNode) :
    nodeAt (l.set i a) j = if i = j ∧ i < l.length then a else nodeAt l j := by
  unfold nodeAt
  rw [List.getD_eq_getElem?_getD, List.getD_eq_getElem?_getD, List.getElem?_set]
  by_cases h : i = j
  · subst h
    by_cases h2 : i < l.length
    · simp [h2]
    · simp [h2, List.getElem?_eq_none (Nat.le_of_not_lt h2)]
  · simp [h]

theorem updLoop_succ (g : Nat → MapNode → MapNode) (n : Nat) (data : List MapNode) :
    updLoop g (n + 1) data
      = (updLoop g n data).set n (g n (nodeAt (updLoop g n data) n)) := rfl

theorem updLoop_length (g : Nat → MapNode → MapNode) (n : Nat) (data : List MapNode) :
    (updLoop g n data).length = data.length := by
  induction n with
  | zero => rfl
  | succ k ih => rw [updLoop_succ, List.length_set, ih]

theorem updLoop_nodeAt (g : Nat → MapNode → MapNode) (n : Nat) (data : List MapNode) (j : Nat) :
    nodeAt (updLoop g n data) j
      = if j < n ∧ j < data.length then g j (nodeAt data j) else nodeAt data j := by
  induction n generalizing j with
  | zero => simp [updLoop, forLoop]
  | succ k ih =>
    rw [updLoop_succ, nodeAt_set, updLoop_length, ih, ih]
    by_cases hkj : k = j
    · subst hkj
      by_cases hk : k < data.length
      · simp [hk]
      · simp [hk]
    · have h1 : (j < k + 1) = (j < k) := by
        apply propext
        constructor
        · intro h; omega
        · intro h; omega
      simp only [hkj, false_and, if_false, h1]

theorem fillLoop_succ (g : Nat → u8) (off n : Nat) (buf : List u8) :
    fillLoop g off (n + 1) buf = (fillLoop g off n buf).set (n + off) (g n) := rfl

theorem fillLoop_length (g : Nat → u8) (off n : Nat) (buf : List u8) :
    (fillLoop g off n buf).length = buf.length := by
  induction n with
  | zero => rfl
  | succ k ih => rw [fillLoop_succ, List.length_set, ih]

theorem fillLoop_get (g : Nat → u8) (off n : Nat) (buf : List u8) (j : Nat) :
    (fillLoop g off n buf)[j]?
      = if off ≤ j ∧ j < off + n ∧ j < buf.length then some (g (j - off)) else buf[j]? := by
  induction n with
  | zero =>
    have h : ¬ (off ≤ j ∧ j < off + 0 ∧ j < buf.length) := by omega
    rw [if_neg h]
    rfl
  | succ k ih =>
    rw [fillLoop_succ, List.getElem?_set, fillLoop_length, ih]
    by_cases hkj : k + off = j
    · subst hkj
      by_cases hk : k + off < buf.length
      · have h3 : 0 + off ≤ k + off ∧ k + off < off + (k + 1) ∧ k + off < buf.length :=
          ⟨by omega, by omega, hk⟩
        simp only [Nat.zero_add] at h3
        simp only [if_true, hk, h3, and_self, Nat.add_sub_cancel]
      · simp [hk, List.getElem?_eq_none (Nat.le_of_not_lt hk)]
    · by_cases h2 : off ≤ j ∧ j < off + k ∧ j < buf.length
      · have h3 : off ≤ j ∧ j < off + (k + 1) ∧ j < buf.length := ⟨h2.1, by omega, h2.2.2⟩
        simp only [hkj, if_false, h2, h3, and_self, if_true]
      · have h3 : ¬ (off ≤ j ∧ j < off + (k + 1) ∧ j < buf.length) := by
          intro h
          apply h2
          exact ⟨h.1, by omega, h.2.2⟩
        simp only [hkj, if_false, h2, h3]

/-! ## Lemmas on the serialization buffers -/

theorem newBuffer_length (env : Env) (n : Nat) : (newBuffer env n).length = n := by
  simp [newBuffer]

theorem materialdata_length (env : Env) (data : List MapNode) :
    (materialdata env data).length = nodecount env := by
  simp [materialdata, fillLoop_length, newBuffer_length]

theorem lightdata_length (env : Env) (data : List MapNode) :
    (lightdata env data).length = nodecount env := by
  simp [lightdata, fillLoop_length, newBuffer_length]

theorem param2data_length (env : Env) (data : List MapNode) :
    (param2data env data).length = nodecount env := by
  simp [param2data, fillLoop_length, newBuffer_length]

theorem databuf_length (env : Env) (data : List MapNode) :
    (databuf env data).length = nodecount env * 3 := by
  simp [databuf, fillLoop_length, newBuffer_length]

theorem materialdata_getD (env : Env) (data : List MapNode) (i : Nat) (x : u8)
    (hi : i < nodecount env) : (materialdata env data).getD i x = (nodeAt data i).d := by
  rw [List.getD_eq_getElem?_getD, materialdata, fillLoop_get, newBuffer_length]
  have h : 0 ≤ i ∧ i < 0 + nodecount env ∧ i < nodecount env := ⟨by omega, by omega, hi⟩
  rw [if_pos h]
  rfl

theorem lightdata_getD (env : Env) (data : List MapNode) (i : Nat) (x : u8)
    (hi : i < nodecount env) : (lightdata env data).getD i x = (nodeAt data i).param := by
  rw [List.getD_eq_getElem?_getD, lightdata, fillLoop_get, newBuffer_length]
  have h : 0 ≤ i ∧ i < 0 + nodecount env ∧ i < nodecount env := ⟨by omega, by omega, hi⟩
  rw [if_pos h]
  rfl

theorem param2data_getD (env : Env) (data : List MapNode) (i : Nat) (x : u8)
    (hi : i < nodecount env) : (param2data env data).getD i x = (nodeAt data i).param2 := by
  rw [List.getD_eq_getElem?_getD, param2data, fillLoop_get, newBuffer_length]
  have h : 0 ≤ i ∧ i < 0 + nodecount env ∧ i < nodecount env := ⟨by omega, by omega, hi⟩
  rw [if_pos h]
  rfl

theorem databuf_get_d (env : Env) (data : List MapNode) (i : Nat) (hi : i < nodecount env) :
    (databuf env data)[i]? = some (nodeAt data i).d := by
  unfold databuf
  rw [fillLoop_get, fillLoop_length, fillLoop_length, newBuffer_length]
  have h1 : ¬ (nodecount env * 2 ≤ i ∧ i < nodecount env * 2 + nodecount env
      ∧ i < nodecount env * 3) := by omega
  rw [if_neg h1, fillLoop_get, fillLoop_length, newBuffer_length]
  have h2 : ¬ (nodecount env ≤ i ∧ i < nodecount env + nodecount env
      ∧ i < nodecount env * 3) := by omega
  rw [if_neg h2, fillLoop_get, newBuffer_length]
  have h3 : 0 ≤ i ∧ i < 0 + nodecount env ∧ i < nodecount env * 3 := by omega
  rw [if_pos h3]
  rfl

theorem databuf_get_param (env : Env) (data : List MapNode) (i : Nat) (hi : i < nodecount env) :
    (databuf env data)[i + nodecount env]? = some (nodeAt data i).param := by
  unfold databuf
  rw [fillLoop_get, fillLoop_length, fillLoop_length, newBuffer_length]
  have h1 : ¬ (nodecount env * 2 ≤ i + nodecount env
      ∧ i + nodecount env < nodecount env * 2 + nodecount env
      ∧ i + nodecount env < nodecount env * 3) := by omega
  rw [if_neg h1, fillLoop_get, fillLoop_length, newBuffer_length]
  have h2 : nodecount env ≤ i + nodecount env
      ∧ i + nodecount env < nodecount env + nodecount env
      ∧ i + nodecount env < nodecount env * 3 := by omega
  rw [if_pos h2, Nat.add_sub_cancel]

theorem databuf_get_param2 (env : Env) (data : List MapNode) (i : Nat) (hi : i < nodecount env) :
    (databuf env data)[i + nodecount env * 2]? = some (nodeAt data i).param2 := by
  unfold databuf
  rw [fillLoop_get, fillLoop_length, fillLoop_length, newBuffer_length]
  have h1 : nodecount env * 2 ≤ i + nodecount env * 2
      ∧ i + nodecount env * 2 < nodecount env * 2 + nodecount env
      ∧ i + nodecount env * 2 < nodecount env * 3 := by omega
  rw [if_pos h1, Nat.add_sub_cancel]

/-! ## Lemmas on deserialization -/

theorem updData_some (blk : MapBlock) (g : Nat → MapNode → MapNode) (n : Nat)
    (data : List MapNode) (h : blk.data = some data) :
    updData blk g n = (none, { blk with data := some (updLoop g n data) }) := by
  unfold updData
  rw [h]

theorem readSegment_ok (env : Env) (blk : MapBlock) (is : List u8) (version expected : Nat)
    (loops : MapBlock → List u8 → Option Exc × MapBlock) (s rest : List u8)
    (h : env.decompress is version = (none, s, rest)) (hl : s.length = expected) :
    readSegment env blk is version expected loops = ⟨(loops blk s).1, (loops blk s).2, rest⟩ := by
  unfold readSegment
  simp [h, hl]

theorem readSegment_bad_size (env : Env) (blk : MapBlock) (is : List u8)
    (version expected : Nat) (loops : MapBlock → List u8 → Option Exc × MapBlock)
    (s rest : List u8) (h : env.decompress is version = (none, s, rest))
    (hl : s.length ≠ expected) :
    readSegment env blk is version expected loops
      = ⟨some Exc.SerializationError, blk, rest⟩ := by
  unfold readSegment
  simp [h, hl]

theorem readNodes_succ (env : Env) (version n : Nat) (data : List MapNode) (is : List u8) :
    readNodes env version (n + 1) data is
      = match readNodes env version n data is with
        | (some e, d, s) => (some e, d, s)
        | (none, d, s) =>
          if (s.take (env.serializedLength version)).length ≠ env.serializedLength version then
            (some Exc.SerializationError, d, s.drop (env.serializedLength version))
          else
            (none, d.set n (env.nodeDeSerialize (nodeAt d n)
              (s.take (env.serializedLength version)) version),
              s.drop (env.serializedLength version)) := rfl

/-- The node loop reads back what `serializeNodes` wrote. -/
theorem readNodes_serializeNodes (env : Env) (version : Nat) (cdata : List MapNode)
    (hlen : ∀ n, (env.nodeSerialize n version).length = env.serializedLength version)
    (k : Nat) (tdata : List MapNode) (rest : List u8) :
    readNodes env version k tdata (serializeNodes env version cdata k ++ rest)
      = (none, updLoop (fun i m =>
          env.nodeDeSerialize m (env.nodeSerialize (nodeAt cdata i) version) version) k tdata,
          rest) := by
  induction k generalizing rest with
  | zero => rfl
  | succ k ih =>
    rw [readNodes_succ]
    have e : serializeNodes env version cdata (k + 1) ++ rest
        = serializeNodes env version cdata k
          ++ (env.nodeSerialize (nodeAt cdata k) version ++ rest) := by
      simp [serializeNodes]
    rw [e, ih]
    have ht : List.take (env.serializedLength version)
        (env.nodeSerialize (nodeAt cdata k) version ++ rest)
        = env.nodeSerialize (nodeAt cdata k) version := by
      rw [← hlen (nodeAt cdata k), List.take_left]
    have hd : List.drop (env.serializedLength version)
        (env.nodeSerialize (nodeAt cdata k) version ++ rest) = rest := by
      rw [← hlen (nodeAt cdata k), List.drop_left]
    simp only [ht, hd, hlen, ne_eq, not_true_eq_false, if_false]
    rfl

/-- The node loop throws nothing but `SerializationError`, preserves the
array length, and succeeds only when the input holds all the records. -/
theorem readNodes_spec (env : Env) (version : Nat) (k : Nat) (data : List MapNode)
    (is : List u8) :
    (readNodes env version k data is).2.1.length = data.length
    ∧ ((readNodes env version k data is).1 = none
        ∨ (readNodes env version k data is).1 = some Exc.SerializationError)
    ∧ ((readNodes env version k data is).1 = none →
        k * env.serializedLength version ≤ is.length
        ∧ (readNodes env version k data is).2.2
            = is.drop (k * env.serializedLength version)) := by
  induction k with
  | zero => simp [readNodes]
  | succ k ih =>
    rw [readNodes_succ]
    obtain ⟨ih1, ih2, ih3⟩ := ih
    rcases hr : readNodes env version k data is with ⟨exc, d, s⟩
    rw [hr] at ih1 ih2 ih3
    cases exc with
    | some e =>
      simp only at ih1 ih2 ih3 ⊢
      refine ⟨ih1, ih2, fun h => ?_⟩
      rcases ih2 with h2 | h2
      · cases h2
      · rw [h2] at h
        cases h
    | none =>
      simp only at ih1 ih2 ih3 ⊢
      obtain ⟨hle, hs⟩ := ih3 trivial
      by_cases hshort : (s.take (env.serializedLength version)).length
          ≠ env.serializedLength version
      · rw [if_pos hshort]
        refine ⟨ih1, Or.inr rfl, fun h => ?_⟩
        cases h
      · rw [if_neg hshort]
        have hfull : (s.take (env.serializedLength version)).length
            = env.serializedLength version := not_not.mp hshort
        rw [List.length_take] at hfull
        have hsl : s.length = is.length - k * env.serializedLength version := by
          rw [hs, List.length_drop]
        refine ⟨by simp [ih1], Or.inl rfl, fun _ => ⟨?_, ?_⟩⟩
        · have : env.serializedLength version ≤ s.length := by
            have := min_eq_left_iff.mp hfull
            exact this
          rw [Nat.succ_mul]
          omega
        · simp only [hs, List.drop_drop]
          congr 1
          rw [Nat.succ_mul]


theorem updData_flags (blk : MapBlock) (g : Nat → MapNode → MapNode) (n : Nat) :
    flagsOf (updData blk g n).2 = flagsOf blk := by
  unfold updData
  cases blk.data with
  | none => by_cases h : n = 0 <;> simp [h]
  | some data => rfl

theorem setAll_flags (n : Nat) (blk : MapBlock) (s : List u8) :
    flagsOf (setAll n blk s).2 = flagsOf blk := by
  unfold setAll
  have ha : flagsOf (setContents n blk s).2 = flagsOf blk := updData_flags _ _ _
  cases h1 : (setContents n blk s).1 with
  | some e => simpa [h1] using ha
  | none =>
    have hb : flagsOf (setParams n n (setContents n blk s).2 s).2
        = flagsOf (setContents n blk s).2 := updData_flags _ _ _
    cases h2 : (setParams n n (setContents n blk s).2 s).1 with
    | some e => simp only [h1, h2]; rw [hb, ha]
    | none =>
      simp only [h1, h2]
      have hc : flagsOf (setParam2 (n * 2) n (setParams n n (setContents n blk s).2 s).2 s).2
          = flagsOf (setParams n n (setContents n blk s).2 s).2 := updData_flags _ _ _
      rw [hc, hb, ha]

theorem readSegment_flags (env : Env) (blk : MapBlock) (is : List u8) (version expected : Nat)
    (loops : MapBlock → List u8 → Option Exc × MapBlock)
    (hloops : ∀ b s, flagsOf (loops b s).2 = flagsOf b) :
    flagsOf (readSegment env blk is version expected loops).block = flagsOf blk := by
  unfold readSegment
  rcases hd : env.decompress is version with ⟨exc, s, rest⟩
  cases exc with
  | some e => rfl
  | none =>
    by_cases h2 : s.length ≠ expected
    · simp only []
      rw [if_pos h2]
    · simp only []
      rw [if_neg h2]
      exact hloops _ _

theorem deSerialize_supported (env : Env) (blk : MapBlock) (is : List u8) (version : Nat)
    (hs : env.ser_ver_supported version = true) :
    deSerialize env blk is version
      = match (deSerializeNodes env blk is version).exc with
        | some _ => deSerializeNodes env blk is version
        | none =>
          ⟨(updData (deSerializeNodes env blk is version).block
              (fun _ m => translateNode env m) (nodecount env)).1,
            (updData (deSerializeNodes env blk is version).block
              (fun _ m => translateNode env m) (nodecount env)).2,
            (deSerializeNodes env blk is version).is⟩ := by
  unfold deSerialize
  simp [hs]

theorem deSerialize_flags (env : Env) (blk : MapBlock) (is : List u8) (version : Nat)
    (hs : env.ser_ver_supported version = true) :
    flagsOf (deSerialize env blk is version).block
      = flagsOf (deSerializeNodes env blk is version).block := by
  rw [deSerialize_supported env blk is version hs]
  rcases hd : deSerializeNodes env blk is version with ⟨exc, b, r⟩
  cases exc with
  | some e => rfl
  | none => exact updData_flags _ _ _

theorem packFlags_decode (u d l : Bool) : decodeFlags (packFlags u d l) = (u, d, l) := by
  cases u <;> cases d <;> cases l <;> decide

theorem packFlags_val (u d l : Bool) :
    (packFlags u d l).val
      = (((if u then 0x01 else 0) ||| (if d then 0x02 else 0)) ||| (if l then 0x04 else 0)) := by
  cases u <;> cases d <;> cases l <;> decide

theorem flagsByte_decode (blk : MapBlock) : decodeFlags (flagsByte blk) = flagsOf blk := by
  rcases blk with ⟨pos, data, u, d, l⟩
  exact packFlags_decode u d l

theorem deSerializeCombined_flags (env : Env) (blk : MapBlock) (b : u8) (rest : List u8)
    (version : Nat) :
    flagsOf (deSerializeCombined env blk (b :: rest) version).block = decodeFlags b := by
  unfold deSerializeCombined
  rw [readSegment_flags _ _ _ _ _ _ (setAll_flags (nodecount env))]
  rfl

theorem serialize_newest (env : Env) (blk : MapBlock) (os : List u8) (version : Nat)
    (data : List MapNode) (hsup : env.ser_ver_supported version = true) (hv : 10 < version)
    (hdata : blk.data = some data) :
    serialize env blk os version
      = ⟨none, (os ++ [flagsByte blk]) ++ env.compress (databuf env data) version⟩ := by
  have h1 : ¬ (version ≤ 3 ∨ version = 5 ∨ version = 6) := by omega
  have h2 : ¬ version ≤ 10 := by omega
  unfold serialize
  simp only [hsup, hdata, h1, h2, if_false, Bool.true_eq_false]

theorem deSerializeNodes_newest (env : Env) (blk : MapBlock) (is : List u8) (version : Nat)
    (hv : 10 < version) :
    deSerializeNodes env blk is version = deSerializeCombined env blk is version := by
  have h1 : ¬ (version ≤ 3 ∨ version = 5 ∨ version = 6) := by omega
  have h2 : ¬ version ≤ 10 := by omega
  unfold deSerializeNodes
  simp only [h1, h2, if_false]

/-- The newest branch on an allocated block whose decompressed segment has
the expected size. -/
theorem deSerializeCombined_ok (env : Env) (blk : MapBlock) (b : u8) (is s rest : List u8)
    (version : Nat) (data : List MapNode) (hdata : blk.data = some data)
    (hdec : env.decompress is version = (none, s, rest))
    (hs : s.length = nodecount env * 3) :
    (deSerializeCombined env blk (b :: is) version).exc = none
    ∧ (deSerializeCombined env blk (b :: is) version).is = rest
    ∧ (deSerializeCombined env blk (b :: is) version).block.data = some
      (updLoop (fun i m => { m with param2 := s.getD (i + nodecount env * 2) 0 }) (nodecount env)
        (updLoop (fun i m => { m with param := s.getD (i + nodecount env) 0 }) (nodecount env)
          (updLoop (fun i m => { m with d := s.getD i 0 }) (nodecount env) data))) := by
  simp [deSerializeCombined, readU8, readSegment, hdec, hs, setAll, setContents, setParams,
    setParam2, updData, hdata]

/-- The translation pass after a successful population of an allocated block. -/
theorem deSerialize_of_nodes (env : Env) (blk : MapBlock) (is : List u8) (version : Nat)
    (data : List MapNode) (hsup : env.ser_ver_supported version = true)
    (hexc : (deSerializeNodes env blk is version).exc = none)
    (hdata : (deSerializeNodes env blk is version).block.data = some data) :
    (deSerialize env blk is version).exc = none
    ∧ (deSerialize env blk is version).is = (deSerializeNodes env blk is version).is
    ∧ (deSerialize env blk is version).block.data
        = some (updLoop (fun _ m => translateNode env m) (nodecount env) data) := by
  rw [deSerialize_supported env blk is version hsup]
  rcases hd : deSerializeNodes env blk is version with ⟨exc, b, r⟩
  rw [hd] at hexc hdata
  simp only at hexc hdata
  subst hexc
  simp only []
  rw [updData_some b _ _ data hdata]
  simp

theorem translate_nodeAt (env : Env) (data : List MapNode) (i : Nat)
    (hi : i < nodecount env) (hlen : data.length = nodecount env) :
    nodeAt (updLoop (fun _ m => translateNode env m) (nodecount env) data) i
      = translateNode env (nodeAt data i) := by
  rw [updLoop_nodeAt, if_pos ⟨hi, by omega⟩]

theorem updData_allocated (env : Env) (blk : MapBlock) (g : Nat → MapNode → MapNode) (n : Nat)
    (h : allocated env blk) : allocated env (updData blk g n).2 := by
  obtain ⟨data, hd, hl⟩ := h
  rw [updData_some blk g n data hd]
  exact ⟨_, rfl, by rw [updLoop_length, hl]⟩

theorem setAll_allocated (env : Env) (n : Nat) (blk : MapBlock) (s : List u8)
    (h : allocated env blk) : allocated env (setAll n blk s).2 := by
  unfold setAll
  have ha : allocated env (setContents n blk s).2 := updData_allocated env _ _ _ h
  rcases h1 : setContents n blk s with ⟨e1, b1⟩
  rw [h1] at ha
  cases e1 with
  | some e => exact ha
  | none =>
    simp only []
    have hb : allocated env (setParams n n b1 s).2 := updData_allocated env _ _ _ ha
    rcases h2 : setParams n n b1 s with ⟨e2, b2⟩
    rw [h2] at hb
    cases e2 with
    | some e => exact hb
    | none => exact updData_allocated env _ _ _ hb

theorem readSegment_allocated (env : Env) (blk : MapBlock) (is : List u8)
    (version expected : Nat) (loops : MapBlock → List u8 → Option Exc × MapBlock)
    (hloops : ∀ b s, allocated env b → allocated env (loops b s).2)
    (h : allocated env blk) :
    allocated env (readSegment env blk is version expected loops).block := by
  unfold readSegment
  rcases hd : env.decompress is version with ⟨exc, s, rest⟩
  cases exc with
  | some e => exact h
  | none =>
    by_cases h2 : s.length ≠ expected
    · simp only []
      rw [if_pos h2]
      exact h
    · simp only []
      rw [if_neg h2]
      exact hloops _ _ h

theorem deSerializeNodes_allocated (env : Env) (blk : MapBlock) (is : List u8) (version : Nat)
    (h : allocated env blk) : allocated env (deSerializeNodes env blk is version).block := by
  unfold deSerializeNodes
  by_cases h1 : version ≤ 3 ∨ version = 5 ∨ version = 6
  · rw [if_pos h1]
    obtain ⟨data, hd, hl⟩ := h
    unfold deSerializeRaw
    by_cases h2 : (is.take 1).length ≠ 1
    · simp only []
      rw [if_pos h2]
      exact ⟨data, hd, hl⟩
    · simp only []
      rw [if_neg h2]
      simp only [hd]
      exact ⟨_, rfl, by rw [(readNodes_spec env version _ data _).1, hl]⟩
  · rw [if_neg h1]
    by_cases h2 : version ≤ 10
    · rw [if_pos h2]
      unfold deSerializePlanes
      have h0 : allocated env { blk with is_underground := decide ((readU8 env is).1 ≠ 0) } := h
      have hr1 := readSegment_allocated env _ (readU8 env is).2 version (nodecount env)
        (fun b s => setContents s.length b s) (fun b s => updData_allocated env b _ _) h0
      simp only []
      rcases hd1 : readSegment env { blk with is_underground := decide ((readU8 env is).1 ≠ 0) }
        (readU8 env is).2 version (nodecount env) (fun b s => setContents s.length b s)
        with ⟨e1, b1, i1⟩
      rw [hd1] at hr1
      cases e1 with
      | some e => exact hr1
      | none =>
        simp only []
        have hr2 := readSegment_allocated env b1 i1 version (nodecount env)
          (fun b s => setParams 0 s.length b s) (fun b s => updData_allocated env b _ _) hr1
        rcases hd2 : readSegment env b1 i1 version (nodecount env)
          (fun b s => setParams 0 s.length b s) with ⟨e2, b2, i2⟩
        rw [hd2] at hr2
        cases e2 with
        | some e => exact hr2
        | none =>
          simp only []
          by_cases h3 : version ≥ 10
          · rw [if_pos h3]
            exact readSegment_allocated env b2 i2 version (nodecount env)
              (fun b s => setParam2 0 s.length b s) (fun b s => updData_allocated env b _ _) hr2
          · rw [if_neg h3]
            exact hr2
    · rw [if_neg h2]
      unfold deSerializeCombined
      exact readSegment_allocated env _ _ version _ _ (fun b s => setAll_allocated env _ b s) h

theorem deSerialize_no_exc (env : Env) (blk : MapBlock) (is : List u8) (version : Nat)
    (h : (deSerialize env blk is version).exc = none) :
    env.ser_ver_supported version = true
    ∧ (deSerializeNodes env blk is version).exc = none := by
  cases hs : env.ser_ver_supported version with
  | false =>
    simp [deSerialize, hs] at h
  | true =>
    refine ⟨rfl, ?_⟩
    rw [deSerialize_supported env blk is version hs] at h
    rcases hd : deSerializeNodes env blk is version with ⟨exc, b, r⟩
    rw [hd] at h
    cases exc with
    | some e => simp at h
    | none => rfl

theorem deSerialize_exc_of_nodes (env : Env) (blk : MapBlock) (is : List u8) (version : Nat)
    (e : Exc) (hsup : env.ser_ver_supported version = true)
    (h : (deSerializeNodes env blk is version).exc = some e) :
    (deSerialize env blk is version).exc = some e := by
  rw [deSerialize_supported env blk is version hsup]
  rcases hd : deSerializeNodes env blk is version with ⟨exc, b, r⟩
  rw [hd] at h
  simp only at h
  subst h
  rfl

theorem deSerializeRaw_truncated (env : Env) (blk : MapBlock) (is : List u8) (version : Nat)
    (halloc : allocated env blk)
    (hshort : is.length < 1 + nodecount env * env.serializedLength version) :
    (deSerializeRaw env blk is version).exc = some Exc.SerializationError := by
  obtain ⟨data, hd, _⟩ := halloc
  unfold deSerializeRaw
  cases is with
  | nil => simp
  | cons b t =>
    have h1 : ¬ ((List.take 1 (b :: t)).length ≠ 1) := by simp
    simp only []
    rw [if_neg h1]
    simp only [hd, List.drop_succ_cons, List.drop_zero]
    obtain ⟨_, h2, h3⟩ := readNodes_spec env version (nodecount env) data t
    rcases h2 with h2 | h2
    · have := (h3 h2).1
      simp only [List.length_cons] at hshort
      omega
    · exact h2

theorem readSegment_empty (env : Env) (blk : MapBlock) (version expected : Nat)
    (loops : MapBlock → List u8 → Option Exc × MapBlock) (hexp : 0 < expected)
    (hdec : (env.decompress [] version).1 ≠ none ∨ (env.decompress [] version).2.1 = []) :
    (readSegment env blk [] version expected loops).exc ≠ none := by
  unfold readSegment
  rcases hd : env.decompress [] version with ⟨exc, s, rest⟩
  rw [hd] at hdec
  cases exc with
  | some e => simp
  | none =>
    simp only [ne_eq, not_true_eq_false, false_or] at hdec
    subst hdec
    have h2 : ([] : List u8).length ≠ expected := by
      simp only [List.length_nil]
      omega
    simp only []
    rw [if_pos h2]
    simp

theorem nodecount_pos (env : Env) (h : 0 < env.MAP_BLOCKSIZE) : 0 < nodecount env := by
  unfold nodecount
  exact Nat.mul_pos (Nat.mul_pos h h) h

/-- The separately compressed branch below version 10 on two planes of the
expected size. -/
theorem deSerializePlanes_two (env : Env) (blk : MapBlock) (b : u8) (m l rest : List u8)
    (version : Nat) (data : List MapNode) (hdata : blk.data = some data)
    (hcomp : ∀ d r, env.decompress (env.compress d version ++ r) version = (none, d, r))
    (hm : m.length = nodecount env) (hl : l.length = nodecount env) (hv : ¬ version ≥ 10) :
    (deSerializePlanes env blk
      (b :: (env.compress m version ++ (env.compress l version ++ rest))) version).exc = none
    ∧ (deSerializePlanes env blk
      (b :: (env.compress m version ++ (env.compress l version ++ rest))) version).is = rest
    ∧ (deSerializePlanes env blk
      (b :: (env.compress m version ++ (env.compress l version ++ rest))) version).block.data
      = some (updLoop (fun i n => { n with param := l.getD i 0 }) (nodecount env)
          (updLoop (fun i n => { n with d := m.getD i 0 }) (nodecount env) data)) := by
  simp [deSerializePlanes, readU8, readSegment, hcomp, hm, hl, hv, setContents, setParams,
    updData, hdata]

/-- The separately compressed branch at version 10 on three planes of the
expected size. -/
theorem deSerializePlanes_three (env : Env) (blk : MapBlock) (b : u8) (m l q rest : List u8)
    (version : Nat) (data : List MapNode) (hdata : blk.data = some data)
    (hcomp : ∀ d r, env.decompress (env.compress d version ++ r) version = (none, d, r))
    (hm : m.length = nodecount env) (hl : l.length = nodecount env)
    (hq : q.length = nodecount env) (hv : version ≥ 10) :
    (deSerializePlanes env blk (b :: (env.compress m version
      ++ (env.compress l version ++ (env.compress q version ++ rest)))) version).exc = none
    ∧ (deSerializePlanes env blk (b :: (env.compress m version
      ++ (env.compress l version ++ (env.compress q version ++ rest)))) version).is = rest
    ∧ (deSerializePlanes env blk (b :: (env.compress m version
      ++ (env.compress l version ++ (env.compress q version ++ rest)))) version).block.data
      = some (updLoop (fun i n => { n with param2 := q.getD i 0 }) (nodecount env)
          (updLoop (fun i n => { n with param := l.getD i 0 }) (nodecount env)
            (updLoop (fun i n => { n with d := m.getD i 0 }) (nodecount env) data))) := by
  simp [deSerializePlanes, readU8, readSegment, hcomp, hm, hl, hq, hv, setContents, setParams,
    setParam2, updData, hdata]

/-- The uncompressed branch on the bytes of `serializeNodes`. -/
theorem deSerializeRaw_ok (env : Env) (blk : MapBlock) (b : u8) (version : Nat)
    (cdata data : List MapNode) (hdata : blk.data = some data)
    (hlen : ∀ n, (env.nodeSerialize n version).length = env.serializedLength version) :
    (deSerializeRaw env blk (b :: serializeNodes env version cdata (nodecount env)) version).exc
      = none
    ∧ (deSerializeRaw env blk (b :: serializeNodes env version cdata (nodecount env)) version).is
      = []
    ∧ (deSerializeRaw env blk (b :: serializeNodes env version cdata (nodecount env))
        version).block.data
      = some (updLoop (fun i m => env.nodeDeSerialize m
          (env.nodeSerialize (nodeAt cdata i) version) version) (nodecount env) data) := by
  have h := readNodes_serializeNodes env version cdata hlen (nodecount env) data []
  rw [List.append_nil] at h
  simp [deSerializeRaw, hdata, h]

/-- A successful population followed by the translation pass. -/
theorem deSerialize_finish (env : Env) (blk : MapBlock) (is : List u8) (version : Nat)
    (decoded : List MapNode) (hsup : env.ser_ver_supported version = true)
    (hexc : (deSerializeNodes env blk is version).exc = none)
    (his : (deSerializeNodes env blk is version).is = [])
    (hd : (deSerializeNodes env blk is version).block.data = some decoded)
    (hlen : decoded.length = nodecount env) :
    (deSerialize env blk is version).exc = none
    ∧ (deSerialize env blk is version).is = []
    ∧ ∃ rdata, (deSerialize env blk is version).block.data = some rdata
        ∧ rdata.length = nodecount env
        ∧ ∀ i, i < nodecount env → nodeAt rdata i = translateNode env (nodeAt decoded i) := by
  obtain ⟨h1, h2, h3⟩ := deSerialize_of_nodes env blk is version decoded hsup hexc hd
  refine ⟨h1, by rw [h2, his], _, h3, by rw [updLoop_length, hlen], fun i hi => ?_⟩
  exact translate_nodeAt env decoded i hi hlen

theorem serialize_raw (env : Env) (blk : MapBlock) (os : List u8) (version : Nat)
    (data : List MapNode) (hsup : env.ser_ver_supported version = true)
    (hv : version ≤ 3 ∨ version = 5 ∨ version = 6) (hdata : blk.data = some data) :
    serialize env blk os version
      = ⟨none, os ++ (boolByte blk.is_underground
          :: serializeNodes env version data (nodecount env))⟩ := by
  unfold serialize
  simp only [hsup, hdata, Bool.true_eq_false, if_false]
  rw [if_pos hv]

theorem serialize_planes (env : Env) (blk : MapBlock) (os : List u8) (version : Nat)
    (data : List MapNode) (hsup : env.ser_ver_supported version = true)
    (hv : ¬ (version ≤ 3 ∨ version = 5 ∨ version = 6)) (hv2 : version ≤ 10)
    (hdata : blk.data = some data) :
    serialize env blk os version
      = ⟨none, os ++ (boolByte blk.is_underground :: (env.compress (materialdata env data) version
          ++ (env.compress (lightdata env data) version
            ++ (if version ≥ 10 then env.compress (param2data env data) version ++ []
                else []))))⟩ := by
  unfold serialize
  simp only [hsup, hdata, Bool.true_eq_false, if_false]
  rw [if_neg hv, if_pos hv2]
  by_cases h3 : version ≥ 10
  · simp [h3]
  · simp [h3]

/-- The example decompressor inverts the example compressor. -/
theorem exampleDecompress_compress (d r : List u8) :
    exampleDecompress (exampleCompress d ++ r) = (none, d, r) := by
  induction d with
  | nil =>
    cases r with
    | nil => rfl
    | cons x t => rfl
  | cons x t ih =>
    show exampleDecompress (1 :: x :: (exampleCompress t ++ r)) = (none, x :: t, r)
    unfold exampleDecompress
    rw [ih]
    rfl

/-! ## Lemmas on the grid index -/

theorem isValidPosition_iff (env : Env) (p : v3s16) :
    isValidPosition env p = true ↔
      (0 ≤ p.X ∧ p.X < env.MAP_BLOCKSIZE ∧ 0 ≤ p.Y ∧ p.Y < env.MAP_BLOCKSIZE
        ∧ 0 ≤ p.Z ∧ p.Z < env.MAP_BLOCKSIZE) := by
  unfold isValidPosition
  exact decide_eq_true_iff

theorem lin_inj (L a b c a2 b2 c2 : Int)
    (hb : 0 ≤ b) (hbL : b < L) (hc : 0 ≤ c) (hcL : c < L)
    (hb2 : 0 ≤ b2) (hb2L : b2 < L) (hc2 : 0 ≤ c2) (hc2L : c2 < L)
    (h : a * L * L + b * L + c = a2 * L * L + b2 * L + c2) :
    a = a2 ∧ b = b2 ∧ c = c2 := by
  have hL : (0 : Int) < L := lt_of_le_of_lt hc hcL
  have hLne : L ≠ 0 := ne_of_gt hL
  have e1 : a * L * L + b * L + c = c + L * (b + L * a) := by ring
  have e2 : a2 * L * L + b2 * L + c2 = c2 + L * (b2 + L * a2) := by ring
  rw [e1, e2] at h
  have hcc : c = c2 := by
    have h3 := congrArg (fun t => t % L) h
    simp only [Int.add_mul_emod_self_left] at h3
    rwa [Int.emod_eq_of_lt hc hcL, Int.emod_eq_of_lt hc2 hc2L] at h3
  subst hcc
  have h4 : b + L * a = b2 + L * a2 := by
    have h5 : L * (b + L * a) = L * (b2 + L * a2) := by linarith
    exact mul_left_cancel₀ hLne h5
  have hbb : b = b2 := by
    have h3 := congrArg (fun t => t % L) h4
    simp only [Int.add_mul_emod_self_left] at h3
    rwa [Int.emod_eq_of_lt hb hbL, Int.emod_eq_of_lt hb2 hb2L] at h3
  subst hbb
  have h6 : L * a = L * a2 := by linarith
  exact ⟨mul_left_cancel₀ hLne h6, rfl, rfl⟩

theorem lin_nonneg (L a b c : Int) (ha : 0 ≤ a) (hb : 0 ≤ b) (hc : 0 ≤ c) (hL : 0 ≤ L) :
    0 ≤ a * L * L + b * L + c := by
  have h1 : 0 ≤ a * L * L := mul_nonneg (mul_nonneg ha hL) hL
  have h2 : 0 ≤ b * L := mul_nonneg hb hL
  linarith

theorem lin_lt (L a b c : Int) (haL : a < L) (hbL : b < L)
    (hc : 0 ≤ c) (hcL : c < L) :
    a * L * L + b * L + c < L * L * L := by
  have hL : (0 : Int) ≤ L := le_of_lt (lt_of_le_of_lt hc hcL)
  have h1 : a * L * L ≤ (L - 1) * L * L :=
    mul_le_mul_of_nonneg_right (mul_le_mul_of_nonneg_right (by linarith) hL) hL
  have h2 : b * L ≤ (L - 1) * L := mul_le_mul_of_nonneg_right (by linarith) hL
  nlinarith

/-- A locally valid position indexes inside an array of `nodecount` nodes. -/
theorem nodeIndex_lt (env : Env) (p : v3s16) (hp : isValidPosition env p = true) :
    nodeIndex env p < nodecount env := by
  rw [isValidPosition_iff] at hp
  obtain ⟨hx, hxL, hy, hyL, hz, hzL⟩ := hp
  unfold nodeIndex nodecount
  have h1 := lin_lt env.MAP_BLOCKSIZE p.Z p.Y p.X hzL hyL hx hxL
  have h0 := lin_nonneg env.MAP_BLOCKSIZE p.Z p.Y p.X hz hy hx (Int.ofNat_nonneg _)
  zify
  rw [Int.toNat_of_nonneg h0]
  exact h1

/-- Distinct locally valid positions have distinct indices. -/
theorem nodeIndex_inj (env : Env) (p q : v3s16) (hp : isValidPosition env p = true)
    (hq : isValidPosition env q = true) (h : nodeIndex env p = nodeIndex env q) : p = q := by
  rw [isValidPosition_iff] at hp hq
  obtain ⟨hx, hxL, hy, hyL, hz, hzL⟩ := hp
  obtain ⟨qx, qxL, qy, qyL, qz, qzL⟩ := hq
  unfold nodeIndex at h
  have h0 := lin_nonneg env.MAP_BLOCKSIZE p.Z p.Y p.X hz hy hx (Int.ofNat_nonneg _)
  have h1 := lin_nonneg env.MAP_BLOCKSIZE q.Z q.Y q.X qz qy qx (Int.ofNat_nonneg _)
  have h2 : p.Z * env.MAP_BLOCKSIZE * env.MAP_BLOCKSIZE + p.Y * env.MAP_BLOCKSIZE + p.X
      = q.Z * env.MAP_BLOCKSIZE * env.MAP_BLOCKSIZE + q.Y * env.MAP_BLOCKSIZE + q.X := by
    rw [← Int.toNat_of_nonneg h0, ← Int.toNat_of_nonneg h1, h]
  obtain ⟨ez, ey, ex⟩ := lin_inj env.MAP_BLOCKSIZE p.Z p.Y p.X q.Z q.Y q.X
    hy hyL hx hxL qy qyL qx qxL h2
  cases p
  cases q
  simp only [v3s16.mk.injEq]
  exact ⟨ex, ey, ez⟩

/-! ## Node grid: access through the parent -/

/-- C7, as the code has it: on a dummy block, for every locally valid position,
`getNodeParent` and `setNodeParent` throw `InvalidPositionException`, and
`setNodeParent` leaves the block and the parent unchanged. -/
theorem dummy_access_throws_invalid_position {σ : Type} (env : Env) (par : NodeContainer σ)
    (st : σ) (blk : MapBlock) (p : v3s16) (n : MapNode)
    (hdummy : blk.data = none) (hp : isValidPosition env p = true) :
    getNodeParent env par st blk p = Except.error Exc.InvalidPositionException
    ∧ (setNodeParent env par st blk p n).exc = some Exc.InvalidPositionException
    ∧ (setNodeParent env par st blk p n).block = blk
    ∧ (setNodeParent env par st blk p n).parent = st := by
  simp [getNodeParent, setNodeParent, hp, hdummy]

theorem dummy_access_throws_invalid_position_witness :
    exampleDummy.data = none ∧ isValidPosition exampleEnv ⟨1, 0, 1⟩ = true
    ∧ getNodeParent exampleEnv exampleParent [] exampleDummy ⟨1, 0, 1⟩
        = Except.error Exc.InvalidPositionException
    ∧ (setNodeParent exampleEnv exampleParent [] exampleDummy ⟨1, 0, 1⟩ ⟨3, 0, 0⟩).exc
        = some Exc.InvalidPositionException
    ∧ (setNodeParent exampleEnv exampleParent [] exampleDummy ⟨1, 0, 1⟩ ⟨3, 0, 0⟩).block
        = exampleDummy
    ∧ (setNodeParent exampleEnv exampleParent [] exampleDummy ⟨1, 0, 1⟩ ⟨3, 0, 0⟩).parent = [] :=
  ⟨rfl, by decide,
    dummy_access_throws_invalid_position exampleEnv exampleParent [] exampleDummy
      ⟨1, 0, 1⟩ ⟨3, 0, 0⟩ rfl (by decide)⟩

/-- C7, counterexample: on a dummy block the locally valid position (1,0,1)
fails with the very exception that the out-of-range position (5,0,0) fails
with when no block exists there; no error other than
`InvalidPositionException` is raised. -/
theorem dummy_error_not_distinct :
    isValidPosition exampleEnv ⟨1, 0, 1⟩ = true
    ∧ isValidPosition exampleEnv ⟨5, 0, 0⟩ = false
    ∧ getNodeParent exampleEnv exampleParent [] exampleDummy ⟨1, 0, 1⟩
        = getNodeParent exampleEnv exampleParent [] exampleDummy ⟨5, 0, 0⟩
    ∧ ¬ (∃ e, getNodeParent exampleEnv exampleParent [] exampleDummy ⟨1, 0, 1⟩ = Except.error e
          ∧ e ≠ Exc.InvalidPositionException)
    ∧ ¬ (∃ e, (setNodeParent exampleEnv exampleParent [] exampleDummy ⟨1, 0, 1⟩ ⟨3, 0, 0⟩).exc
          = some e ∧ e ≠ Exc.InvalidPositionException) := by
  refine ⟨by decide, by decide, by decide, ?_, ?_⟩
  · rintro ⟨e, h1, h2⟩
    have h3 : getNodeParent exampleEnv exampleParent [] exampleDummy ⟨1, 0, 1⟩
        = Except.error Exc.InvalidPositionException := by decide
    rw [h3] at h1
    injection h1 with h4
    exact h2 h4.symm
  · rintro ⟨e, h1, h2⟩
    have h3 : (setNodeParent exampleEnv exampleParent [] exampleDummy ⟨1, 0, 1⟩ ⟨3, 0, 0⟩).exc
        = some Exc.InvalidPositionException := by decide
    rw [h3] at h1
    injection h1 with h4
    exact h2 h4.symm

/-- C8: for a position that is not locally valid, `getNodeParent` is the
parent's `getNode` at `getPosRelative() + p` (so it throws
`InvalidPositionException` exactly when the parent does), and `setNodeParent`
is the parent's `setNode` there, the block itself staying as it was; nothing
depends on whether the block is a dummy. -/
theorem outside_access_delegates {σ : Type} (env : Env) (par : NodeContainer σ)
    (st : σ) (blk : MapBlock) (p : v3s16) (n : MapNode)
    (hp : isValidPosition env p = false) :
    getNodeParent env par st blk p = par.getNode st (v3s16.add (getPosRelative env blk) p)
    ∧ (getNodeParent env par st blk p = Except.error Exc.InvalidPositionException
        ↔ par.getNode st (v3s16.add (getPosRelative env blk) p)
            = Except.error Exc.InvalidPositionException)
    ∧ (setNodeParent env par st blk p n).exc
        = (par.setNode st (v3s16.add (getPosRelative env blk) p) n).1
    ∧ (setNodeParent env par st blk p n).parent
        = (par.setNode st (v3s16.add (getPosRelative env blk) p) n).2
    ∧ (setNodeParent env par st blk p n).block = blk := by
  simp [getNodeParent, setNodeParent, hp]

theorem outside_access_delegates_witness :
    isValidPosition exampleEnv ⟨0, 2, 1⟩ = false
    ∧ getNodeParent exampleEnv exampleParent [(⟨0, 2, 1⟩, ⟨9, 15, 0⟩)] exampleDummy ⟨0, 2, 1⟩
        = Except.ok ⟨9, 15, 0⟩
    ∧ (setNodeParent exampleEnv exampleParent [(⟨0, 2, 1⟩, ⟨9, 15, 0⟩)] exampleDummy
        ⟨0, 2, 1⟩ ⟨3, 0, 0⟩).exc = none
    ∧ (setNodeParent exampleEnv exampleParent [(⟨0, 2, 1⟩, ⟨9, 15, 0⟩)] exampleDummy
        ⟨0, 2, 1⟩ ⟨3, 0, 0⟩).parent = [(⟨0, 2, 1⟩, ⟨3, 0, 0⟩), (⟨0, 2, 1⟩, ⟨9, 15, 0⟩)]
    ∧ (setNodeParent exampleEnv exampleParent [(⟨0, 2, 1⟩, ⟨9, 15, 0⟩)] exampleDummy
        ⟨0, 2, 1⟩ ⟨3, 0, 0⟩).block = exampleDummy :=
  ⟨by decide,
    ((outside_access_delegates exampleEnv exampleParent [(⟨0, 2, 1⟩, ⟨9, 15, 0⟩)] exampleDummy
      ⟨0, 2, 1⟩ ⟨3, 0, 0⟩ (by decide)).1).trans (by decide),
    ((outside_access_delegates exampleEnv exampleParent [(⟨0, 2, 1⟩, ⟨9, 15, 0⟩)] exampleDummy
      ⟨0, 2, 1⟩ ⟨3, 0, 0⟩ (by decide)).2.2.1).trans (by decide),
    ((outside_access_delegates exampleEnv exampleParent [(⟨0, 2, 1⟩, ⟨9, 15, 0⟩)] exampleDummy
      ⟨0, 2, 1⟩ ⟨3, 0, 0⟩ (by decide)).2.2.2.1).trans (by decide),
    (outside_access_delegates exampleEnv exampleParent [(⟨0, 2, 1⟩, ⟨9, 15, 0⟩)] exampleDummy
      ⟨0, 2, 1⟩ ⟨3, 0, 0⟩ (by decide)).2.2.2.2⟩

/-- C9: on an allocated block of `nodecount` nodes, for locally valid `p` and
`q`: `setNodeParent(p, n)` succeeds, afterwards `getNodeParent(p)` returns `n`
and, when `q` differs from `p`, `getNodeParent(q)` returns what it returned
before; the index of `p` is below `nodecount` and equal indices mean equal
positions. -/
theorem set_then_get {σ : Type} (env : Env) (par : NodeContainer σ) (st : σ) (blk : MapBlock)
    (data : List MapNode) (p q : v3s16) (n : MapNode)
    (hdata : blk.data = some data) (hlen : data.length = nodecount env)
    (hp : isValidPosition env p = true) (hq : isValidPosition env q = true) :
    (setNodeParent env par st blk p n).exc = none
    ∧ getNodeParent env par (setNodeParent env par st blk p n).parent
        (setNodeParent env par st blk p n).block p = Except.ok n
    ∧ (q ≠ p → getNodeParent env par (setNodeParent env par st blk p n).parent
        (setNodeParent env par st blk p n).block q = getNodeParent env par st blk q)
    ∧ nodeIndex env p < nodecount env
    ∧ (nodeIndex env p = nodeIndex env q → p = q) := by
  have hidx := nodeIndex_lt env p hp
  refine ⟨?_, ?_, ?_, hidx, nodeIndex_inj env p q hp hq⟩
  · simp [setNodeParent, hp, hdata]
  · simp [setNodeParent, getNodeParent, hp, hdata, nodeAt_set, hlen, hidx]
  · intro hne
    have hi : ¬ (nodeIndex env p = nodeIndex env q) := fun h =>
      hne (nodeIndex_inj env p q hp hq h).symm
    simp [setNodeParent, getNodeParent, hp, hq, hdata, nodeAt_set, hi]

theorem set_then_get_witness :
    isValidPosition exampleEnv ⟨1, 0, 1⟩ = true ∧ isValidPosition exampleEnv ⟨0, 1, 1⟩ = true
    ∧ (setNodeParent exampleEnv exampleParent [] exampleBlock ⟨1, 0, 1⟩ ⟨42, 3, 4⟩).exc = none
    ∧ getNodeParent exampleEnv exampleParent []
      (setNodeParent exampleEnv exampleParent [] exampleBlock ⟨1, 0, 1⟩ ⟨42, 3, 4⟩).block ⟨1, 0, 1⟩
      = Except.ok ⟨42, 3, 4⟩
    ∧ getNodeParent exampleEnv exampleParent []
      (setNodeParent exampleEnv exampleParent [] exampleBlock ⟨1, 0, 1⟩ ⟨42, 3, 4⟩).block ⟨0, 1, 1⟩
      = Except.ok ⟨7, 22, 106⟩
    ∧ nodeIndex exampleEnv ⟨1, 0, 1⟩ < nodecount exampleEnv :=
  ⟨by decide, by decide,
    (set_then_get exampleEnv exampleParent [] exampleBlock _ ⟨1, 0, 1⟩ ⟨0, 1, 1⟩ ⟨42, 3, 4⟩
      rfl (by decide) (by decide) (by decide)).1,
    (set_then_get exampleEnv exampleParent [] exampleBlock _ ⟨1, 0, 1⟩ ⟨0, 1, 1⟩ ⟨42, 3, 4⟩
      rfl (by decide) (by decide) (by decide)).2.1,
    ((set_then_get exampleEnv exampleParent [] exampleBlock _ ⟨1, 0, 1⟩ ⟨0, 1, 1⟩ ⟨42, 3, 4⟩
      rfl (by decide) (by decide) (by decide)).2.2.1 (by decide)).trans (by decide),
    (set_then_get exampleEnv exampleParent [] exampleBlock _ ⟨1, 0, 1⟩ ⟨0, 1, 1⟩ ⟨42, 3, 4⟩
      rfl (by decide) (by decide) (by decide)).2.2.2.1⟩

/-- C10: when the parent's `getNode` throws nothing but
`InvalidPositionException` (its contract), `getNodeParentNoEx(p)` returns a
node for every position and every block, dummy or allocated: the node that
`getNodeParent(p)` returns when that succeeds, and `MapNode(CONTENT_IGNORE)`
whenever `getNodeParent(p)` throws. -/
theorem noex_never_fails {σ : Type} (env : Env) (par : NodeContainer σ) (st : σ)
    (blk : MapBlock) (p : v3s16)
    (hpar : ∀ q e, par.getNode st q = Except.error e → e = Exc.InvalidPositionException) :
    ∃ m, getNodeParentNoEx env par st blk p = Except.ok m
      ∧ (∀ m2, getNodeParent env par st blk p = Except.ok m2 → m = m2)
      ∧ (∀ e, getNodeParent env par st blk p = Except.error e
          → m = env.nodeOfContent env.CONTENT_IGNORE) := by
  unfold getNodeParentNoEx getNodeParent
  cases hp : isValidPosition env p with
  | false =>
    simp only [if_true]
    cases hg : par.getNode st (v3s16.add (getPosRelative env blk) p) with
    | error e =>
      have he := hpar _ _ hg
      subst he
      exact ⟨_, rfl, fun m2 h => (by cases h), fun _ _ => rfl⟩
    | ok m =>
      refine ⟨m, rfl, fun m2 h => ?_, fun e h => (by cases h)⟩
      injection h
  | true =>
    simp only [Bool.true_eq_false, if_false]
    cases hd : blk.data with
    | none => exact ⟨_, rfl, fun m2 h => (by cases h), fun _ _ => rfl⟩
    | some data =>
      refine ⟨_, rfl, fun m2 h => ?_, fun e h => (by cases h)⟩
      injection h

theorem noex_never_fails_witness :
    (∀ q e, exampleParent.getNode [] q = Except.error e → e = Exc.InvalidPositionException)
    ∧ ∃ m, getNodeParentNoEx exampleEnv exampleParent [] exampleDummy ⟨1, 0, 1⟩ = Except.ok m
      ∧ (∀ m2, getNodeParent exampleEnv exampleParent [] exampleDummy ⟨1, 0, 1⟩ = Except.ok m2
          → m = m2)
      ∧ (∀ e, getNodeParent exampleEnv exampleParent [] exampleDummy ⟨1, 0, 1⟩ = Except.error e
          → m = exampleEnv.nodeOfContent exampleEnv.CONTENT_IGNORE) :=
  ⟨fun _ _ h => (by cases h; rfl),
    noex_never_fails exampleEnv exampleParent [] exampleDummy ⟨1, 0, 1⟩
      (fun _ _ h => (by cases h; rfl))⟩

/-! ## Block codec -/

/-- C1, as the code has it: for a supported version, an allocated block `c`
and an allocated target, with `decompress` inverse to `compress` and (for the
uncompressed versions) `MapNode::deSerialize` restoring `d` and `param` from
the `serializedLength` bytes of `MapNode::serialize`: `deSerialize` of the
bytes written by `serialize` succeeds, consumes them all, and node `i` is the
translation of a node whose `d` and `param` are those of `c`, and whose
`param2` is that of `c` from version 10 on, but the target's previous `param2`
in the separately compressed versions below 10. -/
theorem roundtrip_planes (env : Env) (c target : MapBlock) (os : List u8) (version : Nat)
    (cdata tdata : List MapNode)
    (hsup : env.ser_ver_supported version = true)
    (hc : c.data = some cdata)
    (ht : target.data = some tdata) (htlen : tdata.length = nodecount env)
    (hcomp : ∀ d r, env.decompress (env.compress d version ++ r) version = (none, d, r))
    (hnode : (version ≤ 3 ∨ version = 5 ∨ version = 6) → ∀ n m,
      (env.nodeSerialize n version).length = env.serializedLength version
      ∧ (env.nodeDeSerialize m (env.nodeSerialize n version) version).d = n.d
      ∧ (env.nodeDeSerialize m (env.nodeSerialize n version) version).param = n.param) :
    (serialize env c os version).exc = none
    ∧ (deSerialize env target ((serialize env c os version).os.drop os.length) version).exc
        = none
    ∧ (deSerialize env target ((serialize env c os version).os.drop os.length) version).is = []
    ∧ ∃ rdata,
        (deSerialize env target ((serialize env c os version).os.drop os.length)
          version).block.data = some rdata
        ∧ rdata.length = nodecount env
        ∧ ∀ i, i < nodecount env → ∃ m, nodeAt rdata i = translateNode env m
            ∧ m.d = (nodeAt cdata i).d ∧ m.param = (nodeAt cdata i).param
            ∧ (10 ≤ version → m.param2 = (nodeAt cdata i).param2)
            ∧ (version < 10 → ¬ (version ≤ 3 ∨ version = 5 ∨ version = 6)
                → m.param2 = (nodeAt tdata i).param2) := by
  by_cases hv1 : version ≤ 3 ∨ version = 5 ∨ version = 6
  · -- uncompressed
    rw [serialize_raw env c os version cdata hsup hv1 hc]
    simp only [List.drop_left]
    have hnodes : ∀ is, deSerializeNodes env target is version
        = deSerializeRaw env target is version := by
      intro is
      unfold deSerializeNodes
      rw [if_pos hv1]
    obtain ⟨h1, h2, h3⟩ := deSerializeRaw_ok env target (boolByte c.is_underground) version
      cdata tdata ht (fun n => (hnode hv1 n n).1)
    rw [← hnodes] at h1 h2 h3
    obtain ⟨g1, g2, rdata, g3, g4, g5⟩ := deSerialize_finish env target _ version _ hsup h1 h2 h3
      (by rw [updLoop_length, htlen])
    refine ⟨trivial, g1, g2, rdata, g3, g4, fun i hi => ⟨_, g5 i hi, ?_, ?_, ?_, ?_⟩⟩
    · rw [updLoop_nodeAt, if_pos ⟨hi, by omega⟩]
      exact (hnode hv1 _ _).2.1
    · rw [updLoop_nodeAt, if_pos ⟨hi, by omega⟩]
      exact (hnode hv1 _ _).2.2
    · intro h10
      omega
    · intro _ hne
      exact absurd hv1 hne
  · by_cases hv2 : version ≤ 10
    · -- separately compressed planes
      rw [serialize_planes env c os version cdata hsup hv1 hv2 hc]
      simp only [List.drop_left]
      have hnodes : ∀ is, deSerializeNodes env target is version
          = deSerializePlanes env target is version := by
        intro is
        unfold deSerializeNodes
        rw [if_neg hv1, if_pos hv2]
      by_cases hv3 : version ≥ 10
      · rw [if_pos hv3]
        obtain ⟨h1, h2, h3⟩ := deSerializePlanes_three env target (boolByte c.is_underground)
          (materialdata env cdata) (lightdata env cdata) (param2data env cdata) [] version tdata
          ht hcomp (materialdata_length env cdata) (lightdata_length env cdata)
          (param2data_length env cdata) hv3
        rw [← hnodes] at h1 h2 h3
        obtain ⟨g1, g2, rdata, g3, g4, g5⟩ := deSerialize_finish env target _ version _ hsup
          h1 h2 h3 (by simp only [updLoop_length, htlen])
        refine ⟨trivial, g1, g2, rdata, g3, g4, fun i hi => ⟨_, g5 i hi, ?_, ?_, ?_, ?_⟩⟩
        · simp only [updLoop_nodeAt, updLoop_length, htlen, hi, and_self, if_true]
          exact materialdata_getD env cdata i 0 hi
        · simp only [updLoop_nodeAt, updLoop_length, htlen, hi, and_self, if_true]
          exact lightdata_getD env cdata i 0 hi
        · intro _
          simp only [updLoop_nodeAt, updLoop_length, htlen, hi, and_self, if_true]
          exact param2data_getD env cdata i 0 hi
        · intro h10
          omega
      · rw [if_neg hv3]
        obtain ⟨h1, h2, h3⟩ := deSerializePlanes_two env target (boolByte c.is_underground)
          (materialdata env cdata) (lightdata env cdata) [] version tdata
          ht hcomp (materialdata_length env cdata) (lightdata_length env cdata) hv3
        rw [← hnodes] at h1 h2 h3
        obtain ⟨g1, g2, rdata, g3, g4, g5⟩ := deSerialize_finish env target _ version _ hsup
          h1 h2 h3 (by simp only [updLoop_length, htlen])
        refine ⟨trivial, g1, g2, rdata, g3, g4, fun i hi => ⟨_, g5 i hi, ?_, ?_, ?_, ?_⟩⟩
        · simp only [updLoop_nodeAt, updLoop_length, htlen, hi, and_self, if_true]
          exact materialdata_getD env cdata i 0 hi
        · simp only [updLoop_nodeAt, updLoop_length, htlen, hi, and_self, if_true]
          exact lightdata_getD env cdata i 0 hi
        · intro h10
          exact absurd h10 hv3
        · intro _ _
          simp only [updLoop_nodeAt, updLoop_length, htlen, hi, and_self, if_true]
    · -- combined block
      have hv : 10 < version := by omega
      rw [serialize_newest env c os version cdata hsup hv hc]
      simp only [List.append_assoc, List.drop_left, List.singleton_append]
      have hdec := hcomp (databuf env cdata) []
      rw [List.append_nil] at hdec
      obtain ⟨h1, h2, h3⟩ := deSerializeCombined_ok env target (flagsByte c)
        (env.compress (databuf env cdata) version) (databuf env cdata) [] version tdata ht hdec
        (databuf_length env cdata)
      rw [← deSerializeNodes_newest env target _ version hv] at h1 h2 h3
      obtain ⟨g1, g2, rdata, g3, g4, g5⟩ := deSerialize_finish env target _ version _ hsup
        h1 h2 h3 (by simp only [updLoop_length, htlen])
      refine ⟨trivial, g1, g2, rdata, g3, g4, fun i hi => ⟨_, g5 i hi, ?_, ?_, ?_, ?_⟩⟩
      · simp only [updLoop_nodeAt, updLoop_length, htlen, hi, and_self, if_true]
        rw [List.getD_eq_getElem?_getD, databuf_get_d env cdata i hi]
        rfl
      · simp only [updLoop_nodeAt, updLoop_length, htlen, hi, and_self, if_true]
        rw [List.getD_eq_getElem?_getD, databuf_get_param env cdata i hi]
        rfl
      · intro _
        simp only [updLoop_nodeAt, updLoop_length, htlen, hi, and_self, if_true]
        rw [List.getD_eq_getElem?_getD, databuf_get_param2 env cdata i hi]
        rfl
      · intro h10
        omega

theorem roundtrip_planes_witness :
    exampleEnv.ser_ver_supported 2 = true ∧ exampleEnv.ser_ver_supported 10 = true
    ∧ (∀ d r, exampleEnv.decompress (exampleEnv.compress d 10 ++ r) 10 = (none, d, r))
    ∧ (deSerialize exampleEnv exampleFresh (serialize exampleEnv exampleBlock [] 2).os 2).exc
        = none
    ∧ (deSerialize exampleEnv exampleFresh (serialize exampleEnv exampleBlock [] 2).os
        2).block.data
        = some [⟨1, 16, 0⟩, ⟨2, 17, 0⟩, ⟨3, 18, 0⟩, ⟨4, 19, 0⟩, ⟨5, 20, 0⟩, ⟨6, 21, 0⟩,
            ⟨8, 0, 0⟩, ⟨9, 0, 0⟩]
    ∧ (deSerialize exampleEnv exampleFresh
        ((serialize exampleEnv exampleBlock [0, 0] 10).os.drop 2) 10).is = []
    ∧ (deSerialize exampleEnv exampleFresh
        ((serialize exampleEnv exampleBlock [0, 0] 10).os.drop 2) 10).block.data
        = some [⟨1, 16, 100⟩, ⟨2, 17, 101⟩, ⟨3, 18, 102⟩, ⟨4, 19, 103⟩, ⟨5, 20, 104⟩,
            ⟨6, 21, 105⟩, ⟨8, 0, 0⟩, ⟨9, 0, 0⟩] :=
  ⟨by decide, by decide, fun d r => exampleDecompress_compress d r,
    (roundtrip_planes exampleEnv exampleBlock exampleFresh [] 2 _ _ (by decide) rfl rfl
      (by decide) (fun d r => exampleDecompress_compress d r)
      (fun _ _ _ => ⟨rfl, rfl, rfl⟩)).2.1,
    by decide,
    (roundtrip_planes exampleEnv exampleBlock exampleFresh [0, 0] 10 _ _ (by decide) rfl rfl
      (by decide) (fun d r => exampleDecompress_compress d r)
      (fun h _ _ => absurd h (by decide))).2.2.1,
    by decide⟩

/-- C1, counterexample: at the supported version 9 the stream carries no
`param2` plane; deserializing the bytes of `exampleBlock` into a freshly
allocated block succeeds, but node 0 (content 1, which has no `translate_to`)
ends with `param2 = 0` where the serialized block had `param2 = 100`. -/
theorem roundtrip_loses_param2_below_10 :
    exampleEnv.ser_ver_supported 9 = true
    ∧ (serialize exampleEnv exampleBlock [] 9).exc = none
    ∧ (deSerialize exampleEnv exampleFresh (serialize exampleEnv exampleBlock [] 9).os 9).exc
        = none
    ∧ (deSerialize exampleEnv exampleFresh (serialize exampleEnv exampleBlock [] 9).os
        9).block.data
        = some [⟨1, 16, 0⟩, ⟨2, 17, 0⟩, ⟨3, 18, 0⟩, ⟨4, 19, 0⟩, ⟨5, 20, 0⟩, ⟨6, 21, 0⟩,
            ⟨8, 0, 0⟩, ⟨9, 0, 0⟩]
    ∧ translateNode exampleEnv (nodeAt (exampleBlock.data.getD []) 0) = ⟨1, 16, 100⟩
    ∧ ¬ (∀ i, i < nodecount exampleEnv →
          nodeAt ((deSerialize exampleEnv exampleFresh
            (serialize exampleEnv exampleBlock [] 9).os 9).block.data.getD []) i
          = translateNode exampleEnv (nodeAt (exampleBlock.data.getD []) i)) := by
  refine ⟨by decide, by decide, by decide, by decide, by decide, ?_⟩
  intro h
  have h0 := h 0 (by decide)
  revert h0
  decide

/-- C2: for an unsupported version both `serialize` and `deSerialize` throw
`VersionMismatchException`; `serialize` leaves the output stream as it was,
`deSerialize` leaves the input stream and the whole block (node array and
flags) as they were. -/
theorem unsupported_version_rejected (env : Env) (blk : MapBlock) (os is : List u8)
    (version : Nat) (h : env.ser_ver_supported version = false) :
    serialize env blk os version = ⟨some Exc.VersionMismatchException, os⟩
    ∧ deSerialize env blk is version = ⟨some Exc.VersionMismatchException, blk, is⟩ := by
  simp [serialize, deSerialize, h]

theorem unsupported_version_rejected_witness :
    exampleEnv.ser_ver_supported 12 = false
    ∧ serialize exampleEnv exampleBlock [9, 9] 12 = ⟨some Exc.VersionMismatchException, [9, 9]⟩
    ∧ deSerialize exampleEnv exampleBlock [1, 2, 3] 12
        = ⟨some Exc.VersionMismatchException, exampleBlock, [1, 2, 3]⟩ :=
  ⟨by decide, unsupported_version_rejected exampleEnv exampleBlock [9, 9] [1, 2, 3] 12 (by decide)⟩

/-- C4: for an allocated block and a supported version above 10, `serialize`
succeeds and the first byte it writes is
`(is_underground ? 0x01 : 0) | (m_day_night_differs ? 0x02 : 0) | (m_lighting_expired ? 0x04 : 0)`,
which is 0x01 for flags true, false, false; `deSerialize` of a stream that
starts with that byte leaves any block with the same three flag values. -/
theorem newest_flags_byte (env : Env) (blk target : MapBlock) (os rest : List u8)
    (version : Nat) (data : List MapNode)
    (hsup : env.ser_ver_supported version = true) (hv : 10 < version)
    (hdata : blk.data = some data) :
    (serialize env blk os version).exc = none
    ∧ ((serialize env blk os version).os.drop os.length).head? = some (flagsByte blk)
    ∧ (flagsByte blk).val
        = (((if blk.is_underground then 0x01 else 0)
            ||| (if blk.m_day_night_differs then 0x02 else 0))
            ||| (if blk.m_lighting_expired then 0x04 else 0))
    ∧ (blk.is_underground = true → blk.m_day_night_differs = false
        → blk.m_lighting_expired = false → flagsByte blk = 0x01)
    ∧ flagsOf (deSerialize env target (flagsByte blk :: rest) version).block = flagsOf blk := by
  refine ⟨?_, ?_, ?_, ?_, ?_⟩
  · rw [serialize_newest env blk os version data hsup hv hdata]
  · rw [serialize_newest env blk os version data hsup hv hdata]
    simp
  · exact packFlags_val _ _ _
  · intro h1 h2 h3
    unfold flagsByte
    rw [h1, h2, h3]
    decide
  · rw [deSerialize_flags env _ _ _ hsup, deSerializeNodes_newest env _ _ _ hv,
      deSerializeCombined_flags, flagsByte_decode]

theorem newest_flags_byte_witness :
    exampleEnv.ser_ver_supported 11 = true
    ∧ (serialize exampleEnv exampleBlock [] 11).exc = none
    ∧ (serialize exampleEnv exampleBlock [] 11).os.head? = some 0x01
    ∧ flagsOf (deSerialize exampleEnv exampleFresh
        (flagsByte exampleBlock :: (serialize exampleEnv exampleBlock [] 11).os.tail) 11).block
        = (true, false, false) :=
  ⟨by decide,
    (newest_flags_byte exampleEnv exampleBlock exampleFresh [] [] 11 _
      (by decide) (by decide) rfl).1,
    (newest_flags_byte exampleEnv exampleBlock exampleFresh [] [] 11 _
      (by decide) (by decide) rfl).2.1,
    (newest_flags_byte exampleEnv exampleBlock exampleFresh []
      (serialize exampleEnv exampleBlock [] 11).os.tail 11 _
      (by decide) (by decide) rfl).2.2.2.2⟩

/-- C5: for a supported version above 10, the buffer that `serialize` hands to
`compress` is `databuf`, of length `3*nodecount`, whose byte `i` is
`data[i].d`, byte `i + nodecount` is `data[i].param` and byte
`i + nodecount*2` is `data[i].param2`; `deSerialize` of a stream whose
decompressed block `s` has `3*nodecount` bytes builds node `i` from `s[i]`,
`s[i + nodecount]` and `s[i + nodecount*2]` (and then translates it). -/
theorem newest_plane_layout (env : Env) (blk target : MapBlock) (os is s rest : List u8)
    (b : u8) (version : Nat) (data tdata : List MapNode)
    (hsup : env.ser_ver_supported version = true) (hv : 10 < version)
    (hdata : blk.data = some data)
    (htarget : target.data = some tdata) (htlen : tdata.length = nodecount env)
    (hdec : env.decompress is version = (none, s, rest))
    (hs : s.length = nodecount env * 3) :
    serialize env blk os version
      = ⟨none, (os ++ [flagsByte blk]) ++ env.compress (databuf env data) version⟩
    ∧ (databuf env data).length = 3 * nodecount env
    ∧ (∀ i, i < nodecount env →
        (databuf env data)[i]? = some (nodeAt data i).d
        ∧ (databuf env data)[nodecount env + i]? = some (nodeAt data i).param
        ∧ (databuf env data)[2 * nodecount env + i]? = some (nodeAt data i).param2)
    ∧ (deSerialize env target (b :: is) version).exc = none
    ∧ ∃ rdata, (deSerialize env target (b :: is) version).block.data = some rdata
        ∧ rdata.length = nodecount env
        ∧ ∀ i, i < nodecount env → nodeAt rdata i = translateNode env
            ⟨s.getD i 0, s.getD (nodecount env + i) 0, s.getD (2 * nodecount env + i) 0⟩ := by
  obtain ⟨hexc, _, hd⟩ := deSerializeCombined_ok env target b is s rest version tdata
    htarget hdec hs
  rw [← deSerializeNodes_newest env target (b :: is) version hv] at hexc hd
  obtain ⟨hexc2, _, hd2⟩ := deSerialize_of_nodes env target (b :: is) version _ hsup hexc hd
  refine ⟨serialize_newest env blk os version data hsup hv hdata, ?_, ?_, hexc2, _, hd2, ?_, ?_⟩
  · rw [databuf_length, Nat.mul_comm]
  · intro i hi
    refine ⟨databuf_get_d env data i hi, ?_, ?_⟩
    · rw [Nat.add_comm]
      exact databuf_get_param env data i hi
    · rw [Nat.add_comm, Nat.mul_comm]
      exact databuf_get_param2 env data i hi
  · simp [updLoop_length, htlen]
  · intro i hi
    rw [translate_nodeAt env _ i hi (by simp [updLoop_length, htlen])]
    congr 1
    rw [updLoop_nodeAt, updLoop_nodeAt, updLoop_nodeAt]
    simp only [updLoop_length, htlen, hi, and_self, if_true]
    rw [Nat.add_comm (nodecount env) i, Nat.add_comm (2 * nodecount env) i,
      Nat.mul_comm 2 (nodecount env)]

theorem newest_plane_layout_witness :
    exampleEnv.ser_ver_supported 11 = true
    ∧ exampleEnv.decompress (exampleCompress (List.replicate 24 5)) 11
        = (none, List.replicate 24 5, [])
    ∧ databuf exampleEnv (exampleBlock.data.getD [])
        = [1, 2, 3, 4, 5, 6, 7, 8, 16, 17, 18, 19, 20, 21, 22, 23,
            100, 101, 102, 103, 104, 105, 106, 107]
    ∧ (databuf exampleEnv (exampleBlock.data.getD [])).length = 3 * nodecount exampleEnv
    ∧ (deSerialize exampleEnv exampleFresh
        (1 :: exampleCompress (List.replicate 24 5)) 11).exc = none
    ∧ (deSerialize exampleEnv exampleFresh
        (1 :: exampleCompress (List.replicate 24 5)) 11).block.data
        = some (List.replicate 8 ⟨5, 5, 5⟩) :=
  ⟨by decide, by decide, by decide,
    (newest_plane_layout exampleEnv exampleBlock exampleFresh [] (exampleCompress
      (List.replicate 24 5)) (List.replicate 24 5) [] 1 11 _ _ (by decide) (by decide) rfl rfl
      (by decide) (by decide) (by decide)).2.1,
    (newest_plane_layout exampleEnv exampleBlock exampleFresh [] (exampleCompress
      (List.replicate 24 5)) (List.replicate 24 5) [] 1 11 _ _ (by decide) (by decide) rfl rfl
      (by decide) (by decide) (by decide)).2.2.2.1,
    by decide⟩

/-- C6: after a successful `deSerialize` of an allocated block, with `decoded`
the node array populated from the stream: node `i` is the `translate_to` node
of `decoded[i].d` when there is one (whatever the replacement's own content
id), and `decoded[i]` otherwise. -/
theorem translate_pass_once (env : Env) (blk : MapBlock) (is : List u8) (version : Nat)
    (halloc : allocated env blk)
    (hok : (deSerialize env blk is version).exc = none) :
    ∃ decoded final,
      (deSerializeNodes env blk is version).block.data = some decoded
      ∧ (deSerialize env blk is version).block.data = some final
      ∧ decoded.length = nodecount env ∧ final.length = nodecount env
      ∧ ∀ i, i < nodecount env →
          (∀ r, env.translate_to (nodeAt decoded i).d = some r → nodeAt final i = r)
          ∧ (env.translate_to (nodeAt decoded i).d = none → nodeAt final i = nodeAt decoded i) := by
  obtain ⟨hsup, hexc⟩ := deSerialize_no_exc env blk is version hok
  obtain ⟨decoded, hd, hl⟩ := deSerializeNodes_allocated env blk is version halloc
  obtain ⟨_, _, hfin⟩ := deSerialize_of_nodes env blk is version decoded hsup hexc hd
  refine ⟨decoded, _, hd, hfin, hl, by rw [updLoop_length, hl], ?_⟩
  intro i hi
  rw [translate_nodeAt env decoded i hi hl]
  unfold translateNode
  constructor
  · intro r hr
    rw [hr]
  · intro hr
    rw [hr]

theorem translate_pass_once_witness :
    allocated exampleEnv exampleFresh
    ∧ (deSerialize exampleEnv exampleFresh (serialize exampleEnv exampleBlock [] 11).os 11).exc
        = none
    ∧ exampleEnv.translate_to 7 = some ⟨8, 0, 0⟩ ∧ exampleEnv.translate_to 8 = some ⟨9, 0, 0⟩
    ∧ (deSerializeNodes exampleEnv exampleFresh (serialize exampleEnv exampleBlock [] 11).os
        11).block.data = exampleBlock.data
    ∧ (deSerialize exampleEnv exampleFresh (serialize exampleEnv exampleBlock [] 11).os
        11).block.data
        = some [⟨1, 16, 100⟩, ⟨2, 17, 101⟩, ⟨3, 18, 102⟩, ⟨4, 19, 103⟩, ⟨5, 20, 104⟩,
            ⟨6, 21, 105⟩, ⟨8, 0, 0⟩, ⟨9, 0, 0⟩]
    ∧ ∃ decoded final,
      (deSerializeNodes exampleEnv exampleFresh (serialize exampleEnv exampleBlock [] 11).os 11
        ).block.data = some decoded
      ∧ (deSerialize exampleEnv exampleFresh (serialize exampleEnv exampleBlock [] 11).os 11
        ).block.data = some final
      ∧ decoded.length = nodecount exampleEnv ∧ final.length = nodecount exampleEnv
      ∧ ∀ i, i < nodecount exampleEnv →
          (∀ r, exampleEnv.translate_to (nodeAt decoded i).d = some r → nodeAt final i = r)
          ∧ (exampleEnv.translate_to (nodeAt decoded i).d = none
              → nodeAt final i = nodeAt decoded i) :=
  ⟨⟨_, rfl, by decide⟩, by decide, by decide, by decide, by decide, by decide,
    translate_pass_once exampleEnv exampleFresh (serialize exampleEnv exampleBlock [] 11).os 11
      ⟨_, rfl, by decide⟩ (by decide)⟩

/-- C3: `deSerialize` of an allocated block with a supported version throws on
malformed input. (1) Uncompressed versions: a stream shorter than
`1 + nodecount * serializedLength(version)` bytes gives `SerializationError`.
(2) Versions above 10: a decompressed block whose length is not
`nodecount*3` gives `SerializationError`. (3) The other versions: a first,
second or (version 10) third decompressed plane whose length is not
`nodecount` gives `SerializationError`. (4) Compressed versions on an empty
stream: the call throws, given that `decompress` on an exhausted stream throws
or produces no byte, and that a block has at least one node. -/
theorem malformed_input_rejected (env : Env) (blk : MapBlock) (is : List u8) (version : Nat)
    (hsup : env.ser_ver_supported version = true) (halloc : allocated env blk) :
    ((version ≤ 3 ∨ version = 5 ∨ version = 6) →
      is.length < 1 + nodecount env * env.serializedLength version →
      (deSerialize env blk is version).exc = some Exc.SerializationError)
    ∧ (10 < version → ∀ s rest, env.decompress (readU8 env is).2 version = (none, s, rest) →
        s.length ≠ nodecount env * 3 →
        (deSerialize env blk is version).exc = some Exc.SerializationError)
    ∧ (¬ (version ≤ 3 ∨ version = 5 ∨ version = 6) → version ≤ 10 →
        ∀ s1 r1, env.decompress (readU8 env is).2 version = (none, s1, r1) →
          (s1.length ≠ nodecount env →
            (deSerialize env blk is version).exc = some Exc.SerializationError)
          ∧ (s1.length = nodecount env →
              ∀ s2 r2, env.decompress r1 version = (none, s2, r2) →
                (s2.length ≠ nodecount env →
                  (deSerialize env blk is version).exc = some Exc.SerializationError)
                ∧ (s2.length = nodecount env → 10 ≤ version →
                    ∀ s3 r3, env.decompress r2 version = (none, s3, r3) →
                      s3.length ≠ nodecount env →
                      (deSerialize env blk is version).exc = some Exc.SerializationError)))
    ∧ (¬ (version ≤ 3 ∨ version = 5 ∨ version = 6) → is = [] → 0 < env.MAP_BLOCKSIZE →
        ((env.decompress [] version).1 ≠ none ∨ (env.decompress [] version).2.1 = []) →
        (deSerialize env blk is version).exc ≠ none) := by
  refine ⟨?_, ?_, ?_, ?_⟩
  · intro hv hshort
    apply deSerialize_exc_of_nodes env blk is version _ hsup
    unfold deSerializeNodes
    rw [if_pos hv]
    exact deSerializeRaw_truncated env blk is version halloc hshort
  · intro hv s rest hdec hlen
    apply deSerialize_exc_of_nodes env blk is version _ hsup
    rw [deSerializeNodes_newest env blk is version hv]
    unfold deSerializeCombined
    simp only []
    rw [readSegment_bad_size env _ _ version _ _ s rest hdec hlen]
  · intro hv1 hv2 s1 r1 hdec1
    obtain ⟨data, hd, _⟩ := halloc
    have hnodes : deSerializeNodes env blk is version = deSerializePlanes env blk is version := by
      unfold deSerializeNodes
      rw [if_neg hv1, if_pos hv2]
    refine ⟨fun hlen1 => ?_, fun hlen1 s2 r2 hdec2 => ⟨fun hlen2 => ?_,
      fun hlen2 hv3 s3 r3 hdec3 hlen3 => ?_⟩⟩
    · apply deSerialize_exc_of_nodes env blk is version _ hsup
      rw [hnodes]
      unfold deSerializePlanes
      simp only []
      rw [readSegment_bad_size env _ _ version _ _ s1 r1 hdec1 hlen1]
    · apply deSerialize_exc_of_nodes env blk is version _ hsup
      rw [hnodes]
      unfold deSerializePlanes
      simp only []
      rw [readSegment_ok env _ _ version _ _ s1 r1 hdec1 hlen1]
      simp only [setContents, updData, hd]
      rw [readSegment_bad_size env _ _ version _ _ s2 r2 hdec2 hlen2]
    · apply deSerialize_exc_of_nodes env blk is version _ hsup
      rw [hnodes]
      unfold deSerializePlanes
      simp only []
      rw [readSegment_ok env _ _ version _ _ s1 r1 hdec1 hlen1]
      simp only [setContents, updData, hd]
      rw [readSegment_ok env _ _ version _ _ s2 r2 hdec2 hlen2]
      simp only [setParams, updData]
      rw [if_pos hv3, readSegment_bad_size env _ _ version _ _ s3 r3 hdec3 hlen3]
  · intro hv1 hempty hL hdec
    subst hempty
    have hN := nodecount_pos env hL
    have key : (deSerializeNodes env blk [] version).exc ≠ none := by
      unfold deSerializeNodes
      rw [if_neg hv1]
      by_cases hv2 : version ≤ 10
      · rw [if_pos hv2]
        unfold deSerializePlanes
        simp only [readU8]
        have h1 := readSegment_empty env
          { blk with is_underground := decide (env.uninit ≠ 0) } version (nodecount env)
          (fun b s => setContents s.length b s) hN hdec
        rcases hr : readSegment env { blk with is_underground := decide (env.uninit ≠ 0) } []
          version (nodecount env) (fun b s => setContents s.length b s) with ⟨e1, b1, i1⟩
        rw [hr] at h1
        cases e1 with
        | none => exact absurd rfl h1
        | some e => simp
      · rw [if_neg hv2]
        unfold deSerializeCombined
        simp only [readU8]
        exact readSegment_empty env _ version (nodecount env * 3) _ (by omega) hdec
    cases hk : (deSerializeNodes env blk [] version).exc with
    | none => exact absurd hk key
    | some e =>
      rw [deSerialize_exc_of_nodes env blk [] version e hsup hk]
      simp

theorem malformed_input_rejected_witness :
    exampleEnv.ser_ver_supported 2 = true ∧ exampleEnv.ser_ver_supported 9 = true
    ∧ exampleEnv.ser_ver_supported 11 = true ∧ allocated exampleEnv exampleFresh
    ∧ (deSerialize exampleEnv exampleFresh [1, 2, 3, 4, 5, 6, 7, 8, 9, 10, 11, 12, 13, 14, 15, 16]
        2).exc = some Exc.SerializationError
    ∧ (deSerialize exampleEnv exampleFresh (1 :: exampleCompress [1, 2, 3]) 11).exc
        = some Exc.SerializationError
    ∧ (deSerialize exampleEnv exampleFresh
        (1 :: (exampleCompress (List.replicate 8 3) ++ exampleCompress [1, 2])) 9).exc
        = some Exc.SerializationError
    ∧ (deSerialize exampleEnv exampleFresh [] 11).exc ≠ none
    ∧ (deSerialize exampleEnv exampleFresh [] 9).exc ≠ none :=
  ⟨by decide, by decide, by decide, ⟨_, rfl, by decide⟩,
    (malformed_input_rejected exampleEnv exampleFresh
      [1, 2, 3, 4, 5, 6, 7, 8, 9, 10, 11, 12, 13, 14, 15, 16] 2 (by decide)
      ⟨_, rfl, by decide⟩).1 (by decide) (by decide),
    (malformed_input_rejected exampleEnv exampleFresh (1 :: exampleCompress [1, 2, 3]) 11
      (by decide) ⟨_, rfl, by decide⟩).2.1 (by decide) [1, 2, 3] [] (by decide) (by decide),
    (((malformed_input_rejected exampleEnv exampleFresh
      (1 :: (exampleCompress (List.replicate 8 3) ++ exampleCompress [1, 2])) 9
      (by decide) ⟨_, rfl, by decide⟩).2.2.1 (by decide) (by decide) (List.replicate 8 3)
      (exampleCompress [1, 2]) (by decide)).2 (by decide) [1, 2] [] (by decide)).1 (by decide),
    (malformed_input_rejected exampleEnv exampleFresh [] 11 (by decide)
      ⟨_, rfl, by decide⟩).2.2.2 (by decide) rfl (by decide) (by decide),
    (malformed_input_rejected exampleEnv exampleFresh [] 9 (by decide)
      ⟨_, rfl, by decide⟩).2.2.2 (by decide) rfl (by decide) (by decide)⟩

/-! ## Lemmas on the loops that can throw -/

theorem forLoopE_inv {σ : Type} (f : Nat → σ → Except Exc σ) (I : Nat → σ → Prop)
    (n : Nat) (s : σ) (h0 : I 0 s)
    (hstep : ∀ i t, i < n → I i t → ∃ t1, f i t = Except.ok t1 ∧ I (i + 1) t1) :
    ∃ t, forLoopE f n s = Except.ok t ∧ I n t := by
  induction n with
  | zero => exact ⟨s, rfl, h0⟩
  | succ k ih =>
    obtain ⟨t, ht, hI⟩ := ih (fun i t hi => hstep i t (Nat.lt_succ_of_lt hi))
    obtain ⟨t1, ht1, hI1⟩ := hstep k t (Nat.lt_succ_self k) hI
    refine ⟨t1, ?_, hI1⟩
    show (match forLoopE f k s with
      | Except.error e => Except.error e
      | Except.ok s1 => f k s1) = Except.ok t1
    rw [ht]
    exact ht1

theorem descendE_inv {σ : Type} (f : Nat → σ → Except Exc σ) (J : Nat → σ → Prop)
    (n : Nat) (s : σ) (h0 : J n s)
    (hstep : ∀ y t, y < n → J (y + 1) t → ∃ t1, f y t = Except.ok t1 ∧ J y t1) :
    ∃ t, descendE f n s = Except.ok t ∧ J 0 t := by
  induction n generalizing s with
  | zero => exact ⟨s, rfl, h0⟩
  | succ k ih =>
    obtain ⟨t1, ht1, hJ1⟩ := hstep k s (Nat.lt_succ_self k) h0
    obtain ⟨t, ht, hJ⟩ := ih t1 hJ1 (fun y t hy => hstep y t (Nat.lt_succ_of_lt hy))
    refine ⟨t, ?_, hJ⟩
    show (match f k s with
      | Except.error e => Except.error e
      | Except.ok s1 => descendE f k s1) = Except.ok t
    rw [ht1]
    exact ht

theorem searchLoop_iff (p : Nat → Bool) (n i : Nat) :
    searchLoop p n i = true ↔ ∃ j, i ≤ j ∧ j < i + n ∧ p j = true := by
  induction n generalizing i with
  | zero =>
    constructor
    · intro h
      cases h
    · rintro ⟨j, h1, h2, _⟩
      omega
  | succ k ih =>
    unfold searchLoop
    by_cases hp : p i = true
    · rw [if_pos hp]
      exact ⟨fun _ => ⟨i, le_refl i, by omega, hp⟩, fun _ => rfl⟩
    · rw [if_neg hp, ih]
      constructor
      · rintro ⟨j, h1, h2, h3⟩
        exact ⟨j, by omega, by omega, h3⟩
      · rintro ⟨j, h1, h2, h3⟩
        have hne : j ≠ i := by
          intro h
          rw [h] at h3
          exact hp h3
        exact ⟨j, by omega, by omega, h3⟩

/-! ## Lemmas on lookups from inside the block -/

theorem getNodeParent_error {σ : Type} (env : Env) (par : NodeContainer σ) (st : σ)
    (blk : MapBlock) (p : v3s16) (e : Exc) (hpar : ParentContract par st)
    (h : getNodeParent env par st blk p = Except.error e) :
    e = Exc.InvalidPositionException := by
  unfold getNodeParent at h
  cases hv : isValidPosition env p with
  | false =>
    simp only [hv, if_true] at h
    exact hpar _ _ h
  | true =>
    simp only [hv, Bool.true_eq_false, if_false] at h
    cases hd : blk.data with
    | none =>
      rw [hd] at h
      simp only [Except.error.injEq] at h
      exact h.symm
    | some data =>
      rw [hd] at h
      cases h

theorem catch_getNodeParent {σ : Type} (env : Env) (par : NodeContainer σ) (st : σ)
    (blk : MapBlock) (p : v3s16) (hpar : ParentContract par st) :
    catchInvalidPosition (getNodeParent env par st blk p)
      = Except.ok (lookupNode env par st blk p) := by
  unfold lookupNode
  cases h : getNodeParent env par st blk p with
  | ok n => rfl
  | error e =>
    have he := getNodeParent_error env par st blk p e hpar h
    subst he
    rfl

theorem getNodeParent_outside {σ : Type} (env : Env) (par : NodeContainer σ) (st : σ)
    (blk : MapBlock) (data : List MapNode) (p : v3s16) (hp : isValidPosition env p = false) :
    getNodeParent env par st (withData blk data) p
      = par.getNode st (v3s16.add (getPosRelative env blk) p) := by
  unfold getNodeParent
  simp only [hp, if_true]
  rfl

theorem getNodeParent_inside {σ : Type} (env : Env) (par : NodeContainer σ) (st : σ)
    (blk : MapBlock) (data : List MapNode) (p : v3s16) (hp : isValidPosition env p = true) :
    getNodeParent env par st (withData blk data) p = Except.ok (getNodeRef env data p) := by
  unfold getNodeParent
  simp only [hp, Bool.true_eq_false, if_false]
  rfl

theorem lookupNode_data_irrelevant {σ : Type} (env : Env) (par : NodeContainer σ) (st : σ)
    (blk : MapBlock) (d1 d2 : List MapNode) (p : v3s16) (hp : isValidPosition env p = false) :
    lookupNode env par st (withData blk d1) p = lookupNode env par st (withData blk d2) p := by
  unfold lookupNode
  rw [getNodeParent_outside env par st blk d1 p hp, getNodeParent_outside env par st blk d2 p hp]

theorem lookupNode_inside {σ : Type} (env : Env) (par : NodeContainer σ) (st : σ)
    (blk : MapBlock) (data : List MapNode) (p : v3s16) (hp : isValidPosition env p = true) :
    lookupNode env par st (withData blk data) p = some (getNodeRef env data p) := by
  unfold lookupNode
  rw [getNodeParent_inside env par st blk data p hp]

/-! ## Lemmas on positions with natural coordinates -/

theorem valid_nat (env : Env) (x y z : Nat) :
    isValidPosition env ⟨x, y, z⟩ = true
      ↔ x < env.MAP_BLOCKSIZE ∧ y < env.MAP_BLOCKSIZE ∧ z < env.MAP_BLOCKSIZE := by
  rw [isValidPosition_iff]
  simp only [Nat.cast_nonneg, true_and, Nat.cast_lt]

theorem invalid_top (env : Env) (x z : Nat) :
    isValidPosition env ⟨x, env.MAP_BLOCKSIZE, z⟩ = false := by
  cases h : isValidPosition env ⟨x, env.MAP_BLOCKSIZE, z⟩ with
  | false => rfl
  | true =>
    rw [isValidPosition_iff] at h
    have := h.2.2.2.1
    simp at this

theorem invalid_top_nat (env : Env) (x y z : Nat) (hy : env.MAP_BLOCKSIZE ≤ y) :
    isValidPosition env ⟨x, y, z⟩ = false := by
  cases h : isValidPosition env ⟨x, y, z⟩ with
  | false => rfl
  | true =>
    rw [valid_nat] at h
    omega

theorem invalid_below (env : Env) (x z : Nat) :
    isValidPosition env ⟨x, -1, z⟩ = false := by
  cases h : isValidPosition env ⟨x, -1, z⟩ with
  | false => rfl
  | true =>
    rw [isValidPosition_iff] at h
    have := h.2.2.1
    simp at this

theorem nodeIndex_nat_lt (env : Env) (x y z : Nat) (hx : x < env.MAP_BLOCKSIZE)
    (hy : y < env.MAP_BLOCKSIZE) (hz : z < env.MAP_BLOCKSIZE) :
    nodeIndex env ⟨x, y, z⟩ < nodecount env :=
  nodeIndex_lt env _ ((valid_nat env x y z).2 ⟨hx, hy, hz⟩)

theorem nodeIndex_nat_inj (env : Env) (x y z x2 y2 z2 : Nat) (hx : x < env.MAP_BLOCKSIZE)
    (hy : y < env.MAP_BLOCKSIZE) (hz : z < env.MAP_BLOCKSIZE) (hx2 : x2 < env.MAP_BLOCKSIZE)
    (hy2 : y2 < env.MAP_BLOCKSIZE) (hz2 : z2 < env.MAP_BLOCKSIZE)
    (h : nodeIndex env ⟨x, y, z⟩ = nodeIndex env ⟨x2, y2, z2⟩) :
    x = x2 ∧ y = y2 ∧ z = z2 := by
  have hp := nodeIndex_inj env ⟨x, y, z⟩ ⟨x2, y2, z2⟩ ((valid_nat env x y z).2 ⟨hx, hy, hz⟩)
    ((valid_nat env x2 y2 z2).2 ⟨hx2, hy2, hz2⟩) h
  simp only [v3s16.mk.injEq, Nat.cast_inj] at hp
  exact hp

theorem wrap16_small (i : Int) (h0 : 0 ≤ i) (h1 : i < 32768) : wrap16 i = i := by
  unfold wrap16
  omega

theorem add_up (x y z : Nat) (hx : x < 32768) (hy : y + 1 < 32768) (hz : z < 32768) :
    v3s16.add ⟨x, y, z⟩ ⟨0, 1, 0⟩ = ⟨x, (y + 1 : Nat), z⟩ := by
  unfold v3s16.add
  simp only [add_zero, v3s16.mk.injEq]
  refine ⟨wrap16_small _ (by omega) (by omega), ?_, wrap16_small _ (by omega) (by omega)⟩
  rw [wrap16_small _ (by omega) (by omega)]
  push_cast
  rfl

/-! ## Lemmas on the loop body of `propagateSunlight` -/

theorem grassNode_of_not_obstructs (ne : NodeEnv) (grow ua : Bool) (n : MapNode) (cur : u8)
    (h : obstructs ne n cur = false) : grassNode ne grow ua n cur = n := by
  unfold grassNode
  simp [h]

/-- The loop body under the parent's contract. -/
theorem sunlightNode_ok {σ : Type} (env : Env) (ne : NodeEnv) (par : NodeContainer σ) (st : σ)
    (blk : MapBlock) (remove grow : Bool) (x z y : Nat) (s : ColumnState)
    (hpar : ParentContract par st) :
    sunlightNode env ne par st blk remove grow x z y s
      = Except.ok (sunlightStore env ne blk remove ⟨x, y, z⟩ s
          (grassNode ne grow
            (upperAirOf ne (lookupNode env par st (withData blk s.data)
                (v3s16.add ⟨x, y, z⟩ ⟨0, 1, 0⟩)))
            (getNodeRef env s.data ⟨x, y, z⟩) s.current_light)
          (nextLight ne (getNodeRef env s.data ⟨x, y, z⟩) s.current_light)
          (s.stopped_to_solid_object
            || obstructs ne (getNodeRef env s.data ⟨x, y, z⟩) s.current_light)) := by
  unfold sunlightNode
  dsimp only
  by_cases h1 : s.current_light = 0
  · have ho : obstructs ne (getNodeRef env s.data ⟨x, y, z⟩) s.current_light = false := by
      simp [obstructs, h1]
    rw [if_pos h1, grassNode_of_not_obstructs ne _ _ _ _ ho, ho]
    simp [nextLight, h1]
  · rw [if_neg h1]
    by_cases h2 : s.current_light = ne.LIGHT_SUN
        ∧ ne.sunlight_propagates (getNodeRef env s.data ⟨x, y, z⟩).d = true
    · have ho : obstructs ne (getNodeRef env s.data ⟨x, y, z⟩) s.current_light = false := by
        simp [obstructs, h2]
      rw [if_pos h2, grassNode_of_not_obstructs ne _ _ _ _ ho, ho]
      simp [nextLight, h1, h2]
    · rw [if_neg h2]
      by_cases h3 : ne.light_propagates (getNodeRef env s.data ⟨x, y, z⟩).d = false
      · have ho : obstructs ne (getNodeRef env s.data ⟨x, y, z⟩) s.current_light = true := by
          simp only [obstructs, decide_eq_true_eq]
          exact ⟨h1, h2, h3⟩
        have hn : nextLight ne (getNodeRef env s.data ⟨x, y, z⟩) s.current_light = 0 := by
          unfold nextLight
          rw [if_neg h1, if_neg h2, if_pos h3]
        rw [if_pos h3, hn, ho, Bool.or_true]
        cases grow with
        | false =>
          simp [grassNode]
        | true =>
          simp only [if_true]
          rw [catch_getNodeParent env par st _ _ hpar]
          dsimp only
          generalize upperAirOf ne (lookupNode env par st (withData blk s.data)
              (v3s16.add ⟨x, y, z⟩ ⟨0, 1, 0⟩)) = ua
          by_cases hc : ua = true ∧ (getNodeRef env s.data ⟨x, y, z⟩).d = ne.CONTENT_MUD
              ∧ s.current_light = ne.LIGHT_SUN
          · rw [if_pos hc]
            unfold grassNode
            rw [if_pos ⟨ho, rfl, hc⟩]
          · rw [if_neg hc]
            unfold grassNode
            rw [if_neg (fun h => hc h.2.2)]
      · have ho : obstructs ne (getNodeRef env s.data ⟨x, y, z⟩) s.current_light = false := by
          simp [obstructs, h3]
        have hn : nextLight ne (getNodeRef env s.data ⟨x, y, z⟩) s.current_light
            = ne.diminish_light s.current_light := by
          unfold nextLight
          rw [if_neg h1, if_neg h2, if_neg h3]
        rw [if_neg h3, grassNode_of_not_obstructs ne _ _ _ _ ho, ho, hn]
        simp

/-! ## Lemmas on the per-node quantities -/

theorem nextLight_of_obstructs (ne : NodeEnv) (n : MapNode) (cur : u8)
    (h : obstructs ne n cur = true) : nextLight ne n cur = 0 := by
  simp only [obstructs, decide_eq_true_eq] at h
  unfold nextLight
  rw [if_neg h.1, if_neg h.2.1, if_pos h.2.2]

theorem nextLight_zero (ne : NodeEnv) (n : MapNode) : nextLight ne n 0 = 0 := by
  unfold nextLight
  rw [if_pos rfl]

theorem grassNode_d_of_light (ne : NodeEnv) (grow ua : Bool) (n : MapNode) (cur : u8)
    (h : nextLight ne n cur ≠ 0) : grassNode ne grow ua n cur = n := by
  apply grassNode_of_not_obstructs
  cases ho : obstructs ne n cur with
  | false => rfl
  | true => exact absurd (nextLight_of_obstructs ne n cur ho) h

theorem grassNode_congr (ne : NodeEnv) (grow ua1 ua2 : Bool) (n : MapNode) (cur : u8)
    (h : obstructs ne n cur = true → ua1 = ua2) :
    grassNode ne grow ua1 n cur = grassNode ne grow ua2 n cur := by
  cases ho : obstructs ne n cur with
  | false =>
    rw [grassNode_of_not_obstructs ne grow ua1 n cur ho,
      grassNode_of_not_obstructs ne grow ua2 n cur ho]
  | true => rw [h ho]

theorem storedNode_d (ne : NodeEnv) (remove : Bool) (n : MapNode) (c : u8)
    (hset : ∀ m l, (ne.setLight m LightBank.LIGHTBANK_DAY l).d = m.d) :
    (storedNode ne remove n c).d = n.d := by
  unfold storedNode
  by_cases h : c > ne.getLight n LightBank.LIGHTBANK_DAY ∨ remove = true
  · rw [if_pos h, hset]
  · rw [if_neg h]

theorem finalNode_d_of_light (ne : NodeEnv) (remove grow ua : Bool) (n : MapNode) (cur : u8)
    (hset : ∀ m l, (ne.setLight m LightBank.LIGHTBANK_DAY l).d = m.d)
    (h : nextLight ne n cur ≠ 0) : (finalNode ne remove grow ua n cur).d = n.d := by
  unfold finalNode
  rw [storedNode_d ne remove _ _ hset, grassNode_d_of_light ne grow ua n cur h]

theorem mem_mapInsert (ls : List v3s16) (q p : v3s16) :
    p ∈ mapInsert ls q ↔ p ∈ ls ∨ p = q := by
  unfold mapInsert
  by_cases h : q ∈ ls
  · rw [if_pos h]
    constructor
    · intro hp
      exact Or.inl hp
    · rintro (hp | hp)
      · exact hp
      · rw [hp]
        exact h
  · rw [if_neg h]
    simp

theorem sunlightStore_data (env : Env) (ne : NodeEnv) (blk : MapBlock) (remove : Bool)
    (pos : v3s16) (s : ColumnState) (n : MapNode) (cur : u8) (stopped : Bool) :
    (sunlightStore env ne blk remove pos s n cur stopped).data
      = s.data.set (nodeIndex env pos) (storedNode ne remove n cur) := rfl

theorem sunlightStore_light (env : Env) (ne : NodeEnv) (blk : MapBlock) (remove : Bool)
    (pos : v3s16) (s : ColumnState) (n : MapNode) (cur : u8) (stopped : Bool) :
    (sunlightStore env ne blk remove pos s n cur stopped).current_light = cur := rfl

theorem sunlightStore_sources (env : Env) (ne : NodeEnv) (blk : MapBlock) (remove : Bool)
    (pos : v3s16) (s : ColumnState) (n : MapNode) (cur : u8) (stopped : Bool) (p : v3s16) :
    p ∈ (sunlightStore env ne blk remove pos s n cur stopped).light_sources
      ↔ (p ∈ s.light_sources
        ∨ (p = v3s16.add (getPosRelative env blk) pos ∧ ne.diminish_light cur ≠ 0)) := by
  unfold sunlightStore
  dsimp only
  by_cases h : ne.diminish_light cur ≠ 0
  · rw [if_pos h, mem_mapInsert]
    simp [h]
  · rw [if_neg h]
    simp [h]

/-! ## Lemmas on the light computed in a column -/

theorem lightAfter_succ {σ : Type} (env : Env) (ne : NodeEnv) (par : NodeContainer σ) (st : σ)
    (blk : MapBlock) (data : List MapNode) (x z k : Nat) :
    lightAfter env ne par st blk data x z (k + 1)
      = nextLight ne (getNodeRef env data ⟨x, (env.MAP_BLOCKSIZE - 1 - k : Nat), z⟩)
          (lightAfter env ne par st blk data x z k) := rfl

/-- The light computed for a node is the light after the body has run on it
with the light reaching it. -/
theorem computedLight_eq {σ : Type} (env : Env) (ne : NodeEnv) (par : NodeContainer σ) (st : σ)
    (blk : MapBlock) (data : List MapNode) (x y z : Nat) (hy : y < env.MAP_BLOCKSIZE) :
    computedLight env ne par st blk data x y z
      = nextLight ne (getNodeRef env data ⟨x, y, z⟩)
          (reachingLight env ne par st blk data x y z) := by
  unfold computedLight reachingLight
  have e1 : env.MAP_BLOCKSIZE - y = (env.MAP_BLOCKSIZE - 1 - y) + 1 := by omega
  have e2 : env.MAP_BLOCKSIZE - 1 - (env.MAP_BLOCKSIZE - 1 - y) = y := by omega
  rw [e1, lightAfter_succ, e2]

/-- The light reaching a node below the top is the light computed for the
node above it. -/
theorem reachingLight_eq {σ : Type} (env : Env) (ne : NodeEnv) (par : NodeContainer σ) (st : σ)
    (blk : MapBlock) (data : List MapNode) (x y z : Nat) :
    reachingLight env ne par st blk data x y z
      = computedLight env ne par st blk data x (y + 1) z := by
  unfold computedLight reachingLight
  have e1 : env.MAP_BLOCKSIZE - 1 - y = env.MAP_BLOCKSIZE - (y + 1) := by omega
  rw [e1]

/-! ## The descent through one column -/

theorem getNodeRef_set (env : Env) (data : List MapNode) (p q : v3s16) (v : MapNode) :
    getNodeRef env (data.set (nodeIndex env p) v) q
      = if nodeIndex env p = nodeIndex env q ∧ nodeIndex env p < data.length then v
        else getNodeRef env data q := by
  unfold getNodeRef
  rw [nodeAt_set]

/-- One step of the descent keeps the column invariant. -/
theorem sunlightNode_inv {σ : Type} (env : Env) (ne : NodeEnv) (par : NodeContainer σ) (st : σ)
    (blk : MapBlock) (data : List MapNode) (remove grow : Bool) (x z y : Nat) (s : SunState)
    (c : ColumnState) (hpar : ParentContract par st) (hL : env.MAP_BLOCKSIZE < 32768)
    (hset : ∀ m l, (ne.setLight m LightBank.LIGHTBANK_DAY l).d = m.d)
    (hx : x < env.MAP_BLOCKSIZE) (hz : z < env.MAP_BLOCKSIZE) (hy : y < env.MAP_BLOCKSIZE)
    (hs : ∀ y1, y1 < env.MAP_BLOCKSIZE →
      getNodeRef env s.data ⟨x, y1, z⟩ = getNodeRef env data ⟨x, y1, z⟩)
    (hc : ColInv env ne par st blk data remove grow x z s (y + 1) c) :
    ∃ c1, sunlightNode env ne par st blk remove grow x z y c = Except.ok c1
      ∧ ColInv env ne par st blk data remove grow x z s y c1 := by
  obtain ⟨hlen, hnodes, hlight, hsrc⟩ := hc
  refine ⟨_, sunlightNode_ok env ne par st blk remove grow x z y c hpar, ?_⟩
  -- the node being processed is still the original one
  have hn : getNodeRef env c.data ⟨x, y, z⟩ = getNodeRef env data ⟨x, y, z⟩ := by
    rw [(hnodes x y z hx hy hz).2 (by omega), hs y hy]
  -- the light reaching it
  have hcur : c.current_light = reachingLight env ne par st blk data x y z := by
    rw [hlight]
    unfold reachingLight
    congr 1
    omega
  -- the node above, seen now and before the call
  have hua : obstructs ne (getNodeRef env data ⟨x, y, z⟩)
        (reachingLight env ne par st blk data x y z) = true →
      upperAirOf ne (lookupNode env par st (withData blk c.data)
        (v3s16.add ⟨x, y, z⟩ ⟨0, 1, 0⟩)) = upperIsAir env ne par st blk data x y z := by
    intro hob
    unfold upperIsAir
    rw [add_up x y z (by omega) (by omega) (by omega)]
    by_cases hy1 : y + 1 < env.MAP_BLOCKSIZE
    · have hv := (valid_nat env x (y + 1) z).2 ⟨hx, hy1, hz⟩
      rw [lookupNode_inside env par st blk c.data _ hv,
        lookupNode_inside env par st blk data _ hv]
      rw [(hnodes x (y + 1) z hx hy1 hz).1 ⟨rfl, rfl, le_refl _⟩]
      have hne : nextLight ne (getNodeRef env data ⟨x, (y + 1 : Nat), z⟩)
          (reachingLight env ne par st blk data x (y + 1) z) ≠ 0 := by
        rw [← computedLight_eq env ne par st blk data x (y + 1) z hy1, ← reachingLight_eq]
        intro h0
        simp only [obstructs, decide_eq_true_eq] at hob
        exact hob.1 h0
      have hd : (finalAt env ne par st blk data remove grow x (y + 1) z).d
          = (getNodeRef env data ⟨x, (y + 1 : Nat), z⟩).d :=
        finalNode_d_of_light ne remove grow _ _ _ hset hne
      unfold upperAirOf
      simp only [hd]
    · have hv := invalid_top_nat env x (y + 1) z (by omega)
      rw [lookupNode_data_irrelevant env par st blk c.data data _ hv]
  have hfinal : finalNode ne remove grow
        (upperAirOf ne (lookupNode env par st (withData blk c.data)
          (v3s16.add ⟨x, y, z⟩ ⟨0, 1, 0⟩)))
        (getNodeRef env c.data ⟨x, y, z⟩) c.current_light
      = finalAt env ne par st blk data remove grow x y z := by
    unfold finalAt finalNode
    rw [hn, hcur, grassNode_congr ne grow _ _ _ _ hua]
  have hnew : nextLight ne (getNodeRef env c.data ⟨x, y, z⟩) c.current_light
      = computedLight env ne par st blk data x y z := by
    rw [computedLight_eq env ne par st blk data x y z hy, hn, hcur]
  have hidx := nodeIndex_nat_lt env x y z hx hy hz
  refine ⟨?_, ?_, ?_, ?_⟩
  · rw [sunlightStore_data, List.length_set, hlen]
  · intro x1 y1 z1 hx1 hy1 hz1
    rw [sunlightStore_data, getNodeRef_set]
    by_cases hsame : x1 = x ∧ y1 = y ∧ z1 = z
    · obtain ⟨e1, e2, e3⟩ := hsame
      subst e1 e2 e3
      rw [if_pos ⟨rfl, by rw [hlen]; exact hidx⟩]
      constructor
      · intro _
        exact hfinal
      · intro h
        exact absurd ⟨rfl, rfl, le_refl _⟩ h
    · have hne : ¬ (nodeIndex env ⟨x, y, z⟩ = nodeIndex env ⟨x1, y1, z1⟩
          ∧ nodeIndex env ⟨x, y, z⟩ < c.data.length) := by
        rintro ⟨h, _⟩
        obtain ⟨e1, e2, e3⟩ := nodeIndex_nat_inj env x y z x1 y1 z1 hx hy hz hx1 hy1 hz1 h
        exact hsame ⟨e1.symm, e2.symm, e3.symm⟩
      rw [if_neg hne]
      constructor
      · rintro ⟨e1, e3, hle⟩
        have hlt : y + 1 ≤ y1 := by
          rcases Nat.lt_or_ge y y1 with h | h
          · exact h
          · exact absurd ⟨e1, by omega, e3⟩ hsame
        exact (hnodes x1 y1 z1 hx1 hy1 hz1).1 ⟨e1, e3, hlt⟩
      · intro hnot
        exact (hnodes x1 y1 z1 hx1 hy1 hz1).2 (fun h => hnot ⟨h.1, h.2.1, by omega⟩)
  · rw [sunlightStore_light, hnew]
    rfl
  · intro p
    rw [sunlightStore_sources, hsrc p, hnew]
    constructor
    · rintro (h | ⟨hp, hd⟩)
      · rcases h with h | ⟨y1, h1, h2, h3, h4⟩
        · exact Or.inl h
        · exact Or.inr ⟨y1, by omega, h2, h3, h4⟩
      · exact Or.inr ⟨y, le_refl _, hy, hp, hd⟩
    · rintro (h | ⟨y1, h1, h2, h3, h4⟩)
      · exact Or.inl (Or.inl h)
      · by_cases hy1 : y1 = y
        · subst hy1
          exact Or.inr ⟨h3, h4⟩
        · exact Or.inl (Or.inr ⟨y1, by omega, h2, h3, h4⟩)

/-! ## One column -/

theorem noSunlight_congr {σ : Type} (env : Env) (ne : NodeEnv) (par : NodeContainer σ) (st : σ)
    (blk : MapBlock) (d1 d2 : List MapNode) (x z : Nat)
    (h : getNodeRef env d1 ⟨x, (env.MAP_BLOCKSIZE : Int) - 1, z⟩
      = getNodeRef env d2 ⟨x, (env.MAP_BLOCKSIZE : Int) - 1, z⟩) :
    noSunlight env ne par st blk d1 x z = noSunlight env ne par st blk d2 x z := by
  unfold noSunlight
  rw [getNodeParent_outside env par st blk d1 _ (invalid_top env x z),
    getNodeParent_outside env par st blk d2 _ (invalid_top env x z), h]

theorem noSunlight_total {σ : Type} (env : Env) (ne : NodeEnv) (par : NodeContainer σ) (st : σ)
    (blk : MapBlock) (data : List MapNode) (x z : Nat) (hpar : ParentContract par st) :
    ∃ b, noSunlight env ne par st blk data x z = Except.ok b := by
  unfold noSunlight
  rw [catch_getNodeParent env par st _ _ hpar]
  cases lookupNode env par st (withData blk data) ⟨x, env.MAP_BLOCKSIZE, z⟩ with
  | some n =>
    dsimp only
    by_cases h : ne.getLight n LightBank.LIGHTBANK_DAY ≠ ne.LIGHT_SUN
    · rw [if_pos h]
      exact ⟨true, rfl⟩
    · rw [if_neg h]
      exact ⟨false, rfl⟩
  | none =>
    dsimp only
    cases blk.is_underground with
    | true => exact ⟨true, rfl⟩
    | false =>
      simp only [Bool.false_eq_true, if_false]
      by_cases h : (getNodeRef env data ⟨x, (env.MAP_BLOCKSIZE : Int) - 1, z⟩).d
          = ne.CONTENT_WATER
          ∨ (getNodeRef env data ⟨x, (env.MAP_BLOCKSIZE : Int) - 1, z⟩).d
            = ne.CONTENT_WATERSOURCE
      · rw [if_pos h]
        exact ⟨true, rfl⟩
      · rw [if_neg h]
        exact ⟨false, rfl⟩

theorem startLight_of_noSunlight {σ : Type} (env : Env) (ne : NodeEnv) (par : NodeContainer σ)
    (st : σ) (blk : MapBlock) (data : List MapNode) (x z : Nat) (b : Bool)
    (h : noSunlight env ne par st blk data x z = Except.ok b) :
    startLight env ne par st blk data x z = if b = true then 0 else ne.LIGHT_SUN := by
  unfold startLight
  rw [h]

theorem belowCheck_ok {σ : Type} (env : Env) (ne : NodeEnv) (par : NodeContainer σ) (st : σ)
    (blk : MapBlock) (data d : List MapNode) (x z : Nat) (cur : u8) (valid : Bool)
    (hpar : ParentContract par st)
    (hcur : cur = lightAfter env ne par st blk data x z env.MAP_BLOCKSIZE) :
    belowCheck env ne par st blk d x z cur valid
      = Except.ok (valid && columnAgrees env ne par st blk data x z) := by
  unfold belowCheck columnAgrees
  rw [catch_getNodeParent env par st _ _ hpar,
    lookupNode_data_irrelevant env par st blk d data _ (invalid_below env x z), ← hcur]
  cases valid with
  | false => simp
  | true =>
    simp only [if_true, Bool.true_and]
    cases lookupNode env par st (withData blk data) ⟨x, -1, z⟩ with
    | none => rfl
    | some n =>
      dsimp only
      cases hlp : ne.light_propagates n.d with
      | false => simp
      | true =>
        simp only [if_true, Bool.true_and]
        by_cases h1 : ne.getLight n LightBank.LIGHTBANK_DAY = ne.LIGHT_SUN
        · by_cases h2 : cur = ne.LIGHT_SUN
          · simp [h1, h2]
          · simp [h1, h2]
        · by_cases h2 : cur = ne.LIGHT_SUN
          · simp [h1, h2]
          · simp [h1, h2]

theorem top_cast (env : Env) (h : 0 < env.MAP_BLOCKSIZE) :
    ((env.MAP_BLOCKSIZE : Int) - 1) = ((env.MAP_BLOCKSIZE - 1 : Nat) : Int) := by
  omega

/-- One column keeps the invariant between columns. -/
theorem sunlightColumn_inv {σ : Type} (env : Env) (ne : NodeEnv) (par : NodeContainer σ)
    (st : σ) (blk : MapBlock) (data : List MapNode) (ls : List v3s16) (remove grow : Bool)
    (done : Nat → Nat → Prop) (x z : Nat) (s : SunState)
    (hpar : ParentContract par st) (hL : env.MAP_BLOCKSIZE < 32768)
    (hset : ∀ m l, (ne.setLight m LightBank.LIGHTBANK_DAY l).d = m.d)
    (hx : x < env.MAP_BLOCKSIZE) (hz : z < env.MAP_BLOCKSIZE) (hnot : ¬ done x z)
    (hs : SunInv env ne par st blk data ls remove grow done s) :
    ∃ s1, sunlightColumn env ne par st blk remove grow x z s = Except.ok s1
      ∧ SunInv env ne par st blk data ls remove grow
          (fun a b => done a b ∨ (a = x ∧ b = z)) s1 := by
  obtain ⟨hlen, hnodes, hsrc, hvalid⟩ := hs
  have hcol : ∀ y1, y1 < env.MAP_BLOCKSIZE →
      getNodeRef env s.data ⟨x, y1, z⟩ = getNodeRef env data ⟨x, y1, z⟩ :=
    fun y1 hy1 => (hnodes x y1 z hx hy1 hz).2 hnot
  have htop : getNodeRef env s.data ⟨x, (env.MAP_BLOCKSIZE : Int) - 1, z⟩
      = getNodeRef env data ⟨x, (env.MAP_BLOCKSIZE : Int) - 1, z⟩ := by
    rw [top_cast env (by omega)]
    exact hcol _ (by omega)
  obtain ⟨b, hb⟩ := noSunlight_total env ne par st blk data x z hpar
  have hb1 : noSunlight env ne par st blk s.data x z = Except.ok b := by
    rw [noSunlight_congr env ne par st blk s.data data x z htop, hb]
  have hstart := startLight_of_noSunlight env ne par st blk data x z b hb
  -- the descent
  have h0 : ColInv env ne par st blk data remove grow x z s env.MAP_BLOCKSIZE
      ⟨s.data, s.light_sources, s.black_air_left,
        if b = true then 0 else ne.LIGHT_SUN, false⟩ := by
    refine ⟨hlen, ?_, ?_, ?_⟩
    · intro x1 y1 z1 _ hy1 _
      constructor
      · rintro ⟨_, _, hle⟩
        omega
      · intro _
        rfl
    · rw [Nat.sub_self]
      exact hstart.symm
    · intro p
      constructor
      · intro h
        exact Or.inl h
      · rintro (h | ⟨y1, h1, h2, _⟩)
        · exact h
        · omega
  obtain ⟨c, hdesc, hc⟩ := descendE_inv
    (sunlightNode env ne par st blk remove grow x z)
    (fun m c => ColInv env ne par st blk data remove grow x z s m c)
    env.MAP_BLOCKSIZE _ h0
    (fun y t hy ht => sunlightNode_inv env ne par st blk data remove grow x z y s t
      hpar hL hset hx hz hy hcol ht)
  obtain ⟨clen, cnodes, clight, csrc⟩ := hc
  rw [Nat.sub_zero] at clight
  have hbelow := belowCheck_ok env ne par st blk data c.data x z c.current_light
    s.block_below_is_valid hpar clight
  refine ⟨⟨c.data, c.light_sources, c.black_air_left,
    s.block_below_is_valid && columnAgrees env ne par st blk data x z⟩, ?_, ?_⟩
  · unfold sunlightColumn
    rw [hb1]
    dsimp only
    rw [hdesc]
    dsimp only
    rw [hbelow]
  · refine ⟨clen, ?_, ?_, ?_⟩
    · intro x1 y1 z1 hx1 hy1 hz1
      by_cases hhere : x1 = x ∧ z1 = z
      · constructor
        · intro _
          exact (cnodes x1 y1 z1 hx1 hy1 hz1).1 ⟨hhere.1, hhere.2, Nat.zero_le _⟩
        · intro h
          exact absurd (Or.inr hhere) h
      · constructor
        · rintro (h | h)
          · rw [(cnodes x1 y1 z1 hx1 hy1 hz1).2 (fun h2 => hhere ⟨h2.1, h2.2.1⟩)]
            exact (hnodes x1 y1 z1 hx1 hy1 hz1).1 h
          · exact absurd h hhere
        · intro h
          rw [(cnodes x1 y1 z1 hx1 hy1 hz1).2 (fun h2 => hhere ⟨h2.1, h2.2.1⟩)]
          exact (hnodes x1 y1 z1 hx1 hy1 hz1).2 (fun h2 => h (Or.inl h2))
    · intro p
      show p ∈ c.light_sources ↔ _
      rw [csrc p, hsrc p]
      constructor
      · rintro ((h | ⟨x1, y1, z1, h1, h2, h3, h4, h5, h6⟩) | ⟨y1, _, h2, h3, h4⟩)
        · exact Or.inl h
        · exact Or.inr ⟨x1, y1, z1, h1, h2, h3, Or.inl h4, h5, h6⟩
        · exact Or.inr ⟨x, y1, z, hx, h2, hz, Or.inr ⟨rfl, rfl⟩, h3, h4⟩
      · rintro (h | ⟨x1, y1, z1, h1, h2, h3, h4, h5, h6⟩)
        · exact Or.inl (Or.inl h)
        · rcases h4 with h4 | ⟨e1, e2⟩
          · exact Or.inl (Or.inr ⟨x1, y1, z1, h1, h2, h3, h4, h5, h6⟩)
          · subst e1 e2
            exact Or.inr ⟨y1, Nat.zero_le _, h2, h5, h6⟩
    · show (s.block_below_is_valid && columnAgrees env ne par st blk data x z) = true ↔ _
      rw [Bool.and_eq_true, hvalid]
      constructor
      · rintro ⟨h1, h2⟩ x1 z1 hx1 hz1 hd
        rcases hd with hd | ⟨e1, e2⟩
        · exact h1 x1 z1 hx1 hz1 hd
        · subst e1 e2
          exact h2
      · intro h
        exact ⟨fun x1 z1 hx1 hz1 hd => h x1 z1 hx1 hz1 (Or.inl hd),
          h x z hx hz (Or.inr ⟨rfl, rfl⟩)⟩

/-! ## The whole of `propagateSunlight` -/

theorem SunInv_congr {σ : Type} (env : Env) (ne : NodeEnv) (par : NodeContainer σ) (st : σ)
    (blk : MapBlock) (data : List MapNode) (ls : List v3s16) (remove grow : Bool)
    (done1 done2 : Nat → Nat → Prop) (s : SunState)
    (h : ∀ a b, a < env.MAP_BLOCKSIZE → b < env.MAP_BLOCKSIZE → (done1 a b ↔ done2 a b))
    (hs : SunInv env ne par st blk data ls remove grow done1 s) :
    SunInv env ne par st blk data ls remove grow done2 s := by
  obtain ⟨hlen, hnodes, hsrc, hvalid⟩ := hs
  refine ⟨hlen, ?_, ?_, ?_⟩
  · intro x1 y1 z1 hx1 hy1 hz1
    constructor
    · intro hd
      exact (hnodes x1 y1 z1 hx1 hy1 hz1).1 ((h x1 z1 hx1 hz1).2 hd)
    · intro hd
      exact (hnodes x1 y1 z1 hx1 hy1 hz1).2 (fun h1 => hd ((h x1 z1 hx1 hz1).1 h1))
  · intro p
    rw [hsrc p]
    constructor
    · rintro (h1 | ⟨x1, y1, z1, h1, h2, h3, h4, h5, h6⟩)
      · exact Or.inl h1
      · exact Or.inr ⟨x1, y1, z1, h1, h2, h3, (h x1 z1 h1 h3).1 h4, h5, h6⟩
    · rintro (h1 | ⟨x1, y1, z1, h1, h2, h3, h4, h5, h6⟩)
      · exact Or.inl h1
      · exact Or.inr ⟨x1, y1, z1, h1, h2, h3, (h x1 z1 h1 h3).2 h4, h5, h6⟩
  · rw [hvalid]
    constructor
    · intro h1 x1 z1 hx1 hz1 hd
      exact h1 x1 z1 hx1 hz1 ((h x1 z1 hx1 hz1).2 hd)
    · intro h1 x1 z1 hx1 hz1 hd
      exact h1 x1 z1 hx1 hz1 ((h x1 z1 hx1 hz1).1 hd)

/-- The result of `propagateSunlight` on an allocated block whose parent keeps
its contract, in terms of the block before the call. -/
theorem propagateSunlight_spec {σ : Type} (env : Env) (ne : NodeEnv) (par : NodeContainer σ)
    (st : σ) (blk : MapBlock) (data : List MapNode) (ls : List v3s16) (remove : Bool)
    (bal : Option Bool) (grow : Bool)
    (hpar : ParentContract par st) (hL : env.MAP_BLOCKSIZE < 32768)
    (hset : ∀ m l, (ne.setLight m LightBank.LIGHTBANK_DAY l).d = m.d)
    (hdata : blk.data = some data) (hlen : data.length = nodecount env) :
    ∃ r d, propagateSunlight env ne par st blk ls remove bal grow = Except.ok r
      ∧ r.block = withData blk d
      ∧ d.length = nodecount env
      ∧ (∀ x y z, x < env.MAP_BLOCKSIZE → y < env.MAP_BLOCKSIZE → z < env.MAP_BLOCKSIZE →
          getNodeRef env d ⟨x, y, z⟩ = finalAt env ne par st blk data remove grow x y z)
      ∧ (∀ p, p ∈ r.light_sources ↔ (p ∈ ls
          ∨ ∃ x y z, x < env.MAP_BLOCKSIZE ∧ y < env.MAP_BLOCKSIZE ∧ z < env.MAP_BLOCKSIZE
            ∧ p = v3s16.add (getPosRelative env blk) ⟨x, y, z⟩
            ∧ ne.diminish_light (computedLight env ne par st blk data x y z) ≠ 0))
      ∧ (r.result = true ↔ ∀ x z, x < env.MAP_BLOCKSIZE → z < env.MAP_BLOCKSIZE →
          columnAgrees env ne par st blk data x z = true) := by
  have h0 : SunInv env ne par st blk data ls remove grow (fun a _ => a < 0)
      ⟨data, ls, bal, true⟩ := by
    refine ⟨hlen, ?_, ?_, ?_⟩
    · intro x1 y1 z1 _ _ _
      exact ⟨fun h => absurd h (Nat.not_lt_zero _), fun _ => rfl⟩
    · intro p
      constructor
      · intro h
        exact Or.inl h
      · rintro (h | ⟨x1, _, _, _, _, _, h4, _⟩)
        · exact h
        · exact absurd h4 (Nat.not_lt_zero _)
    · constructor
      · intro _ x1 _ _ _ hd
        exact absurd hd (Nat.not_lt_zero _)
      · intro _
        rfl
  obtain ⟨s, hrun, hs⟩ := forLoopE_inv
    (fun x s => forLoopE (fun z s1 => sunlightColumn env ne par st blk remove grow x z s1)
      env.MAP_BLOCKSIZE s)
    (fun i s => SunInv env ne par st blk data ls remove grow (fun a _ => a < i) s)
    env.MAP_BLOCKSIZE ⟨data, ls, bal, true⟩ h0
    (by
      intro x t hx ht
      have hz0 : SunInv env ne par st blk data ls remove grow
          (fun a b => a < x ∨ (a = x ∧ b < 0)) t :=
        SunInv_congr env ne par st blk data ls remove grow _ _ t
          (fun a b _ _ => ⟨fun h => Or.inl h, fun h => h.elim id (fun h2 => by omega)⟩) ht
      obtain ⟨t1, hrun1, ht1⟩ := forLoopE_inv
        (fun z s1 => sunlightColumn env ne par st blk remove grow x z s1)
        (fun j s1 => SunInv env ne par st blk data ls remove grow
          (fun a b => a < x ∨ (a = x ∧ b < j)) s1)
        env.MAP_BLOCKSIZE t hz0
        (by
          intro z u hz hu
          obtain ⟨u1, hcol, hu1⟩ := sunlightColumn_inv env ne par st blk data ls remove grow
            _ x z u hpar hL hset hx hz (by
              intro h
              rcases h with h | h
              · omega
              · omega) hu
          refine ⟨u1, hcol, ?_⟩
          exact SunInv_congr env ne par st blk data ls remove grow _ _ u1
            (fun a b _ _ => ⟨fun h => by
                rcases h with (h | h) | h
                · exact Or.inl h
                · exact Or.inr ⟨h.1, by omega⟩
                · exact Or.inr ⟨h.1, by omega⟩,
              fun h => by
                rcases h with h | ⟨h1, h2⟩
                · exact Or.inl (Or.inl h)
                · by_cases hb : b = z
                  · exact Or.inr ⟨h1, hb⟩
                  · exact Or.inl (Or.inr ⟨h1, by omega⟩)⟩) hu1)
      refine ⟨t1, hrun1, ?_⟩
      exact SunInv_congr env ne par st blk data ls remove grow _ _ t1
        (fun a b _ hb => ⟨fun h => by
            rcases h with h | h
            · omega
            · omega,
          fun h => by
            by_cases ha : a = x
            · exact Or.inr ⟨ha, hb⟩
            · exact Or.inl (by omega)⟩) ht1)
  obtain ⟨slen, snodes, ssrc, svalid⟩ := hs
  refine ⟨⟨withData blk s.data, s.light_sources, s.black_air_left, s.block_below_is_valid⟩,
    s.data, ?_, rfl, slen, ?_, ?_, ?_⟩
  · unfold propagateSunlight
    rw [hdata]
    dsimp only
    rw [hrun]
  · intro x y z hx hy hz
    exact (snodes x y z hx hy hz).1 hx
  · intro p
    show p ∈ s.light_sources ↔ _
    rw [ssrc p]
    constructor
    · rintro (h | ⟨x1, y1, z1, h1, h2, h3, _, h5, h6⟩)
      · exact Or.inl h
      · exact Or.inr ⟨x1, y1, z1, h1, h2, h3, h5, h6⟩
    · rintro (h | ⟨x1, y1, z1, h1, h2, h3, h5, h6⟩)
      · exact Or.inl h
      · exact Or.inr ⟨x1, y1, z1, h1, h2, h3, h1, h5, h6⟩
  · show s.block_below_is_valid = true ↔ _
    rw [svalid]
    constructor
    · intro h x1 z1 hx1 hz1
      exact h x1 z1 hx1 hz1 hx1
    · intro h x1 z1 hx1 hz1 _
      exact h x1 z1 hx1 hz1

/-! ## Properties of the computed light -/

theorem startLight_cases {σ : Type} (env : Env) (ne : NodeEnv) (par : NodeContainer σ) (st : σ)
    (blk : MapBlock) (data : List MapNode) (x z : Nat) :
    startLight env ne par st blk data x z = 0
      ∨ startLight env ne par st blk data x z = ne.LIGHT_SUN := by
  unfold startLight
  cases noSunlight env ne par st blk data x z with
  | error e => exact Or.inl rfl
  | ok b =>
    cases b with
    | true => exact Or.inl rfl
    | false => exact Or.inr rfl

theorem nextLight_le (ne : NodeEnv) (n : MapNode) (cur : u8)
    (hdim : ∀ l, ne.diminish_light l ≤ l) : nextLight ne n cur ≤ cur := by
  unfold nextLight
  by_cases h1 : cur = 0
  · rw [if_pos h1]
  · rw [if_neg h1]
    by_cases h2 : cur = ne.LIGHT_SUN ∧ ne.sunlight_propagates n.d = true
    · rw [if_pos h2]
    · rw [if_neg h2]
      by_cases h3 : ne.light_propagates n.d = false
      · rw [if_pos h3]
        exact Fin.zero_le _
      · rw [if_neg h3]
        exact hdim cur

theorem lightAfter_le {σ : Type} (env : Env) (ne : NodeEnv) (par : NodeContainer σ) (st : σ)
    (blk : MapBlock) (data : List MapNode) (x z k : Nat)
    (hdim : ∀ l, ne.diminish_light l ≤ l) :
    lightAfter env ne par st blk data x z k ≤ ne.LIGHT_SUN := by
  induction k with
  | zero =>
    show startLight env ne par st blk data x z ≤ ne.LIGHT_SUN
    rcases startLight_cases env ne par st blk data x z with h | h
    · rw [h]
      exact Fin.zero_le _
    · rw [h]
  | succ k ih =>
    rw [lightAfter_succ]
    exact le_trans (nextLight_le ne _ _ hdim) ih

theorem lightAfter_zero {σ : Type} (env : Env) (ne : NodeEnv) (par : NodeContainer σ) (st : σ)
    (blk : MapBlock) (data : List MapNode) (x z k j : Nat)
    (h : lightAfter env ne par st blk data x z k = 0) :
    lightAfter env ne par st blk data x z (k + j) = 0 := by
  induction j with
  | zero => exact h
  | succ j ih =>
    rw [← Nat.add_assoc, lightAfter_succ, ih, nextLight_zero]

theorem computedLight_le {σ : Type} (env : Env) (ne : NodeEnv) (par : NodeContainer σ) (st : σ)
    (blk : MapBlock) (data : List MapNode) (x y z : Nat)
    (hdim : ∀ l, ne.diminish_light l ≤ l) :
    computedLight env ne par st blk data x y z ≤ ne.LIGHT_SUN :=
  lightAfter_le env ne par st blk data x z _ hdim

/-- The day light of the node that the loop body leaves. -/
theorem finalNode_light (ne : NodeEnv) (remove grow ua : Bool) (n : MapNode) (cur : u8)
    (hle : nextLight ne n cur ≤ ne.LIGHT_SUN)
    (hgs : ∀ m l, l ≤ ne.LIGHT_SUN →
      ne.getLight (ne.setLight m LightBank.LIGHTBANK_DAY l) LightBank.LIGHTBANK_DAY = l)
    (hgrass : ∀ m, m.d = ne.CONTENT_MUD →
      ne.getLight { m with d := ne.CONTENT_GRASS } LightBank.LIGHTBANK_DAY
        = ne.getLight m LightBank.LIGHTBANK_DAY) :
    ne.getLight (finalNode ne remove grow ua n cur) LightBank.LIGHTBANK_DAY
      = if remove = true then nextLight ne n cur
        else max (ne.getLight n LightBank.LIGHTBANK_DAY) (nextLight ne n cur) := by
  have hg : ne.getLight (grassNode ne grow ua n cur) LightBank.LIGHTBANK_DAY
      = ne.getLight n LightBank.LIGHTBANK_DAY := by
    unfold grassNode
    by_cases hc : obstructs ne n cur = true ∧ grow = true ∧ ua = true
        ∧ n.d = ne.CONTENT_MUD ∧ cur = ne.LIGHT_SUN
    · rw [if_pos hc]
      exact hgrass n hc.2.2.2.1
    · rw [if_neg hc]
  unfold finalNode storedNode
  cases remove with
  | true =>
    simp only [or_true, if_true]
    exact hgs _ _ hle
  | false =>
    simp only [Bool.false_eq_true, or_false, if_false]
    rw [hg]
    by_cases hc : nextLight ne n cur > ne.getLight n LightBank.LIGHTBANK_DAY
    · rw [if_pos hc, hgs _ _ hle, max_eq_right (le_of_lt hc)]
    · rw [if_neg hc, hg, max_eq_left (not_lt.mp hc)]

/-! ## The concrete lighting environment keeps the laws -/

theorem exampleParent_contract (st : List (v3s16 × MapNode)) :
    ParentContract exampleParent st := by
  intro q e h
  unfold exampleParent at h
  dsimp only at h
  cases hl : List.lookup q st with
  | none =>
    rw [hl] at h
    simp only [Except.error.injEq] at h
    exact h.symm
  | some n =>
    rw [hl] at h
    cases h

theorem example_setLight_d (m : MapNode) (l : u8) :
    (exampleNodeEnv.setLight m LightBank.LIGHTBANK_DAY l).d = m.d := rfl

set_option maxRecDepth 100000 in
theorem example_diminish_le (l : u8) : exampleNodeEnv.diminish_light l ≤ l := by
  revert l
  decide

theorem example_get_set (m : MapNode) (l : u8) (h : l ≤ exampleNodeEnv.LIGHT_SUN) :
    exampleNodeEnv.getLight (exampleNodeEnv.setLight m LightBank.LIGHTBANK_DAY l)
      LightBank.LIGHTBANK_DAY = l := by
  have h1 : l.val ≤ 15 := h
  have h2 := m.param.isLt
  apply Fin.ext
  show (m.param.val / 16 * 16 + l.val % 16) % 256 % 16 % 256 = l.val
  omega

theorem example_light_le (m : MapNode) :
    exampleNodeEnv.getLight m LightBank.LIGHTBANK_DAY ≤ exampleNodeEnv.LIGHT_SUN := by
  show (m.param.val % 16) % 256 ≤ 15
  omega

theorem example_grass_light (m : MapNode) (_h : m.d = exampleNodeEnv.CONTENT_MUD) :
    exampleNodeEnv.getLight { m with d := exampleNodeEnv.CONTENT_GRASS } LightBank.LIGHTBANK_DAY
      = exampleNodeEnv.getLight m LightBank.LIGHTBANK_DAY := rfl

set_option maxRecDepth 100000 in
theorem example_sun_implies_light (d : u8) (h : exampleNodeEnv.sunlight_propagates d = true) :
    exampleNodeEnv.light_propagates d = true := by
  revert d
  decide

/-! ## Sunlight propagation: the properties -/

/-- C11: on an allocated block whose parent keeps its contract, with
`setLight` keeping the content id, `diminish_light` never raising a light,
`getLight` reading back what `setLight` wrote (up to `LIGHT_SUN`) and the
change of mud into grass leaving the day light alone: after
`propagateSunlight` the day light of every node is the light computed for it
if `remove_light` is set and the larger of that and its previous day light
otherwise; so without `remove_light` no day light decreases. -/
theorem sunlight_stored_light {σ : Type} (env : Env) (ne : NodeEnv) (par : NodeContainer σ)
    (st : σ) (blk : MapBlock) (data : List MapNode) (ls : List v3s16) (remove : Bool)
    (bal : Option Bool) (grow : Bool)
    (hpar : ParentContract par st) (hL : env.MAP_BLOCKSIZE < 32768)
    (hdata : blk.data = some data) (hlen : data.length = nodecount env)
    (hset : ∀ m l, (ne.setLight m LightBank.LIGHTBANK_DAY l).d = m.d)
    (hdim : ∀ l, ne.diminish_light l ≤ l)
    (hgs : ∀ m l, l ≤ ne.LIGHT_SUN →
      ne.getLight (ne.setLight m LightBank.LIGHTBANK_DAY l) LightBank.LIGHTBANK_DAY = l)
    (hgrass : ∀ m, m.d = ne.CONTENT_MUD →
      ne.getLight { m with d := ne.CONTENT_GRASS } LightBank.LIGHTBANK_DAY
        = ne.getLight m LightBank.LIGHTBANK_DAY) :
    ∃ r d, propagateSunlight env ne par st blk ls remove bal grow = Except.ok r
      ∧ r.block.data = some d
      ∧ ∀ x y z, x < env.MAP_BLOCKSIZE → y < env.MAP_BLOCKSIZE → z < env.MAP_BLOCKSIZE →
          ne.getLight (getNodeRef env d ⟨x, y, z⟩) LightBank.LIGHTBANK_DAY
            = (if remove = true then computedLight env ne par st blk data x y z
              else max (ne.getLight (getNodeRef env data ⟨x, y, z⟩) LightBank.LIGHTBANK_DAY)
                (computedLight env ne par st blk data x y z))
          ∧ (remove = false →
              ne.getLight (getNodeRef env data ⟨x, y, z⟩) LightBank.LIGHTBANK_DAY
                ≤ ne.getLight (getNodeRef env d ⟨x, y, z⟩) LightBank.LIGHTBANK_DAY) := by
  obtain ⟨r, d, hrun, hblk, _, hnodes, _, _⟩ := propagateSunlight_spec env ne par st blk data
    ls remove bal grow hpar hL hset hdata hlen
  refine ⟨r, d, hrun, by rw [hblk]; rfl, ?_⟩
  intro x y z hx hy hz
  have hle : nextLight ne (getNodeRef env data ⟨x, y, z⟩)
      (reachingLight env ne par st blk data x y z) ≤ ne.LIGHT_SUN := by
    rw [← computedLight_eq env ne par st blk data x y z hy]
    exact computedLight_le env ne par st blk data x y z hdim
  have hkey : ne.getLight (getNodeRef env d ⟨x, y, z⟩) LightBank.LIGHTBANK_DAY
      = (if remove = true then computedLight env ne par st blk data x y z
        else max (ne.getLight (getNodeRef env data ⟨x, y, z⟩) LightBank.LIGHTBANK_DAY)
          (computedLight env ne par st blk data x y z)) := by
    rw [hnodes x y z hx hy hz, computedLight_eq env ne par st blk data x y z hy]
    unfold finalAt
    exact finalNode_light ne remove grow _ _ _ hle hgs hgrass
  refine ⟨hkey, ?_⟩
  intro hr
  rw [hkey, hr]
  simp only [Bool.false_eq_true, if_false]
  exact le_max_left _ _

theorem lightAfter_full_sun {σ : Type} (env : Env) (ne : NodeEnv) (par : NodeContainer σ)
    (st : σ) (blk : MapBlock) (data : List MapNode) (x z k : Nat)
    (hk : k ≤ env.MAP_BLOCKSIZE)
    (hstart : startLight env ne par st blk data x z = ne.LIGHT_SUN)
    (hcol : ∀ y, y < env.MAP_BLOCKSIZE →
      ne.sunlight_propagates (getNodeRef env data ⟨x, y, z⟩).d = true) :
    lightAfter env ne par st blk data x z k = ne.LIGHT_SUN := by
  induction k with
  | zero => exact hstart
  | succ k ih =>
    rw [lightAfter_succ, ih (by omega)]
    unfold nextLight
    by_cases h0 : ne.LIGHT_SUN = 0
    · rw [if_pos h0]
    · rw [if_neg h0, if_pos ⟨rfl, hcol _ (by omega)⟩]

/-- C13: with the assumptions on the parent and on `setLight`/`getLight`, and
no stored day light above `LIGHT_SUN`: in a column that starts with
`LIGHT_SUN` and all of whose nodes let sunlight pass, every node has day light
`LIGHT_SUN` after `propagateSunlight`, whatever `remove_light` and the
previous values. -/
theorem full_sun_column {σ : Type} (env : Env) (ne : NodeEnv) (par : NodeContainer σ)
    (st : σ) (blk : MapBlock) (data : List MapNode) (ls : List v3s16) (remove : Bool)
    (bal : Option Bool) (grow : Bool) (x z : Nat)
    (hpar : ParentContract par st) (hL : env.MAP_BLOCKSIZE < 32768)
    (hdata : blk.data = some data) (hlen : data.length = nodecount env)
    (hset : ∀ m l, (ne.setLight m LightBank.LIGHTBANK_DAY l).d = m.d)
    (hgs : ∀ m l, l ≤ ne.LIGHT_SUN →
      ne.getLight (ne.setLight m LightBank.LIGHTBANK_DAY l) LightBank.LIGHTBANK_DAY = l)
    (hmax : ∀ m, ne.getLight m LightBank.LIGHTBANK_DAY ≤ ne.LIGHT_SUN)
    (hx : x < env.MAP_BLOCKSIZE) (hz : z < env.MAP_BLOCKSIZE)
    (hstart : startLight env ne par st blk data x z = ne.LIGHT_SUN)
    (hcol : ∀ y, y < env.MAP_BLOCKSIZE →
      ne.sunlight_propagates (getNodeRef env data ⟨x, y, z⟩).d = true) :
    ∃ r d, propagateSunlight env ne par st blk ls remove bal grow = Except.ok r
      ∧ r.block.data = some d
      ∧ ∀ y, y < env.MAP_BLOCKSIZE →
          ne.getLight (getNodeRef env d ⟨x, y, z⟩) LightBank.LIGHTBANK_DAY = ne.LIGHT_SUN := by
  obtain ⟨r, d, hrun, hblk, _, hnodes, _, _⟩ := propagateSunlight_spec env ne par st blk data
    ls remove bal grow hpar hL hset hdata hlen
  refine ⟨r, d, hrun, by rw [hblk]; rfl, ?_⟩
  intro y hy
  have hreach : reachingLight env ne par st blk data x y z = ne.LIGHT_SUN :=
    lightAfter_full_sun env ne par st blk data x z (env.MAP_BLOCKSIZE - 1 - y) (by omega)
      hstart hcol
  have hcomp : computedLight env ne par st blk data x y z = ne.LIGHT_SUN :=
    lightAfter_full_sun env ne par st blk data x z (env.MAP_BLOCKSIZE - y) (by omega)
      hstart hcol
  have hnext : nextLight ne (getNodeRef env data ⟨x, y, z⟩) ne.LIGHT_SUN = ne.LIGHT_SUN := by
    have h := computedLight_eq env ne par st blk data x y z hy
    rw [hreach] at h
    rw [← h]
    exact hcomp
  have hob : obstructs ne (getNodeRef env data ⟨x, y, z⟩) ne.LIGHT_SUN = false := by
    simp [obstructs, hcol y hy]
  rw [hnodes x y z hx hy hz]
  unfold finalAt finalNode
  rw [hreach, hnext, grassNode_of_not_obstructs ne _ _ _ _ hob]
  unfold storedNode
  by_cases hc : ne.LIGHT_SUN > ne.getLight (getNodeRef env data ⟨x, y, z⟩)
      LightBank.LIGHTBANK_DAY ∨ remove = true
  · rw [if_pos hc]
    exact hgs _ _ (le_refl _)
  · rw [if_neg hc]
    have h1 : ¬ ne.LIGHT_SUN > ne.getLight (getNodeRef env data ⟨x, y, z⟩)
        LightBank.LIGHTBANK_DAY := fun h => hc (Or.inl h)
    exact le_antisymm (hmax _) (not_lt.mp h1)

/-- C14: with the assumptions on the parent and on `setLight`/`getLight`, and
content that lets sunlight pass also letting light pass: below a node that
does not let light pass, the light computed for every node of the column is
zero (as it is for that node itself), and the day light of each such node is
zero after the call when `remove_light` is set or its previous day light was
zero. -/
theorem dark_below_obstruction {σ : Type} (env : Env) (ne : NodeEnv) (par : NodeContainer σ)
    (st : σ) (blk : MapBlock) (data : List MapNode) (ls : List v3s16) (remove : Bool)
    (bal : Option Bool) (grow : Bool) (x z y0 : Nat)
    (hpar : ParentContract par st) (hL : env.MAP_BLOCKSIZE < 32768)
    (hdata : blk.data = some data) (hlen : data.length = nodecount env)
    (hset : ∀ m l, (ne.setLight m LightBank.LIGHTBANK_DAY l).d = m.d)
    (hgs : ∀ m l, l ≤ ne.LIGHT_SUN →
      ne.getLight (ne.setLight m LightBank.LIGHTBANK_DAY l) LightBank.LIGHTBANK_DAY = l)
    (hsp : ∀ c, ne.sunlight_propagates c = true → ne.light_propagates c = true)
    (hx : x < env.MAP_BLOCKSIZE) (hz : z < env.MAP_BLOCKSIZE) (hy0 : y0 < env.MAP_BLOCKSIZE)
    (hblock : ne.light_propagates (getNodeRef env data ⟨x, y0, z⟩).d = false) :
    ∃ r d, propagateSunlight env ne par st blk ls remove bal grow = Except.ok r
      ∧ r.block.data = some d
      ∧ computedLight env ne par st blk data x y0 z = 0
      ∧ ∀ y, y < y0 →
          computedLight env ne par st blk data x y z = 0
          ∧ ((remove = true
                ∨ ne.getLight (getNodeRef env data ⟨x, y, z⟩) LightBank.LIGHTBANK_DAY = 0) →
              ne.getLight (getNodeRef env d ⟨x, y, z⟩) LightBank.LIGHTBANK_DAY = 0) := by
  obtain ⟨r, d, hrun, hblk, _, hnodes, _, _⟩ := propagateSunlight_spec env ne par st blk data
    ls remove bal grow hpar hL hset hdata hlen
  have h0 : computedLight env ne par st blk data x y0 z = 0 := by
    rw [computedLight_eq env ne par st blk data x y0 z hy0]
    unfold nextLight
    by_cases h1 : reachingLight env ne par st blk data x y0 z = 0
    · rw [if_pos h1, h1]
    · rw [if_neg h1]
      have h2 : ¬ (reachingLight env ne par st blk data x y0 z = ne.LIGHT_SUN
          ∧ ne.sunlight_propagates (getNodeRef env data ⟨x, y0, z⟩).d = true) := by
        rintro ⟨_, h⟩
        rw [hsp _ h] at hblock
        cases hblock
      rw [if_neg h2, if_pos hblock]
  have hbelow : ∀ y, y < y0 → computedLight env ne par st blk data x (y + 1) z = 0 := by
    intro y hy
    unfold computedLight at h0 ⊢
    have e : env.MAP_BLOCKSIZE - (y + 1)
        = (env.MAP_BLOCKSIZE - y0) + (y0 - (y + 1)) := by omega
    rw [e]
    exact lightAfter_zero env ne par st blk data x z _ _ h0
  refine ⟨r, d, hrun, by rw [hblk]; rfl, h0, ?_⟩
  intro y hy
  have hyL : y < env.MAP_BLOCKSIZE := by omega
  have hreach : reachingLight env ne par st blk data x y z = 0 := by
    rw [reachingLight_eq]
    exact hbelow y hy
  have hcomp : computedLight env ne par st blk data x y z = 0 := by
    rw [computedLight_eq env ne par st blk data x y z hyL, hreach, nextLight_zero]
  refine ⟨hcomp, ?_⟩
  intro hzero
  have hob : obstructs ne (getNodeRef env data ⟨x, y, z⟩) 0 = false := by
    simp [obstructs]
  rw [hnodes x y z hx hyL hz]
  unfold finalAt finalNode
  rw [hreach, nextLight_zero, grassNode_of_not_obstructs ne _ _ _ _ hob]
  unfold storedNode
  by_cases hc : (0 : u8) > ne.getLight (getNodeRef env data ⟨x, y, z⟩)
      LightBank.LIGHTBANK_DAY ∨ remove = true
  · rw [if_pos hc]
    exact hgs _ _ (Fin.zero_le _)
  · rw [if_neg hc]
    rcases hzero with h | h
    · exact absurd (Or.inr h) hc
    · exact h

theorem withData_self (blk : MapBlock) (data : List MapNode) (h : blk.data = some data) :
    withData blk data = blk := by
  cases blk
  simp only at h
  subst h
  rfl

/-- The descent of a column starts with the light `startLight`: the body of
`sunlightColumn` once `no_sunlight` is known. -/
theorem sunlightColumn_start {σ : Type} (env : Env) (ne : NodeEnv) (par : NodeContainer σ)
    (st : σ) (blk : MapBlock) (remove grow : Bool) (x z : Nat) (s : SunState)
    (hpar : ParentContract par st) :
    sunlightColumn env ne par st blk remove grow x z s
      = match descendE (sunlightNode env ne par st blk remove grow x z) env.MAP_BLOCKSIZE
            ⟨s.data, s.light_sources, s.black_air_left,
              startLight env ne par st blk s.data x z, false⟩ with
        | Except.error e => Except.error e
        | Except.ok c =>
          match belowCheck env ne par st blk c.data x z c.current_light
              s.block_below_is_valid with
          | Except.error e => Except.error e
          | Except.ok valid => Except.ok ⟨c.data, c.light_sources, c.black_air_left, valid⟩ := by
  obtain ⟨b, hb⟩ := noSunlight_total env ne par st blk s.data x z hpar
  unfold sunlightColumn
  rw [hb, startLight_of_noSunlight env ne par st blk s.data x z b hb]

/-- The topmost node of a column after `propagateSunlight`: what the loop body
makes of it with the light `startLight`. -/
theorem top_node_final {σ : Type} (env : Env) (ne : NodeEnv) (par : NodeContainer σ)
    (st : σ) (blk : MapBlock) (data : List MapNode) (ls : List v3s16) (remove : Bool)
    (bal : Option Bool) (grow : Bool) (x z : Nat)
    (hpar : ParentContract par st) (hL : env.MAP_BLOCKSIZE < 32768)
    (hset : ∀ m l, (ne.setLight m LightBank.LIGHTBANK_DAY l).d = m.d)
    (hdata : blk.data = some data) (hlen : data.length = nodecount env)
    (hx : x < env.MAP_BLOCKSIZE) (hz : z < env.MAP_BLOCKSIZE) :
    ∃ r d, propagateSunlight env ne par st blk ls remove bal grow = Except.ok r
      ∧ r.block.data = some d
      ∧ getNodeRef env d ⟨x, (env.MAP_BLOCKSIZE - 1 : Nat), z⟩
        = finalNode ne remove grow
            (upperIsAir env ne par st blk data x (env.MAP_BLOCKSIZE - 1) z)
            (getNodeRef env data ⟨x, (env.MAP_BLOCKSIZE - 1 : Nat), z⟩)
            (startLight env ne par st blk data x z) := by
  obtain ⟨r, d, hrun, hblk, _, hnodes, _, _⟩ := propagateSunlight_spec env ne par st blk data
    ls remove bal grow hpar hL hset hdata hlen
  refine ⟨r, d, hrun, by rw [hblk]; rfl, ?_⟩
  rw [hnodes x (env.MAP_BLOCKSIZE - 1) z hx (by omega) hz]
  unfold finalAt reachingLight
  rw [Nat.sub_self]
  rfl

/-- C15: for every column of an allocated block, `no_sunlight` and with it the
light that starts the descent are decided as follows: (a), (b) if
`getNodeParent(x, MAP_BLOCKSIZE, z)` returns a node, the start is `LIGHT_SUN`
if that node's day light is `LIGHT_SUN` and 0 otherwise; (c) if it throws
`InvalidPositionException`, the start is 0 if `is_underground` is set or the
topmost node of the column is flowing water or a water source, and
`LIGHT_SUN` otherwise. The start is `LIGHT_SUN` or 0, and the light computed
for the topmost node is what the loop body makes of the start. With a parent
that keeps its contract, `sunlightColumn` runs the descent of the column from
`current_light` equal to that start and `stopped_to_solid_object` false, and
after `propagateSunlight` the topmost node of the column is what the loop
body makes of the node before the call with that start. -/
theorem start_light_cases {σ : Type} (env : Env) (ne : NodeEnv) (par : NodeContainer σ)
    (st : σ) (blk : MapBlock) (data : List MapNode) (x z : Nat)
    (hdata : blk.data = some data) (hL : 0 < env.MAP_BLOCKSIZE) :
    (∀ n, getNodeParent env par st blk ⟨x, env.MAP_BLOCKSIZE, z⟩ = Except.ok n →
      noSunlight env ne par st blk data x z
          = Except.ok (decide (ne.getLight n LightBank.LIGHTBANK_DAY ≠ ne.LIGHT_SUN))
      ∧ startLight env ne par st blk data x z
          = if ne.getLight n LightBank.LIGHTBANK_DAY = ne.LIGHT_SUN then ne.LIGHT_SUN else 0)
    ∧ (getNodeParent env par st blk ⟨x, env.MAP_BLOCKSIZE, z⟩
          = Except.error Exc.InvalidPositionException →
      noSunlight env ne par st blk data x z
          = Except.ok (blk.is_underground
              || decide ((getNodeRef env data ⟨x, (env.MAP_BLOCKSIZE - 1 : Nat), z⟩).d
                    = ne.CONTENT_WATER
                  ∨ (getNodeRef env data ⟨x, (env.MAP_BLOCKSIZE - 1 : Nat), z⟩).d
                    = ne.CONTENT_WATERSOURCE))
      ∧ startLight env ne par st blk data x z
          = if blk.is_underground = true
                ∨ (getNodeRef env data ⟨x, (env.MAP_BLOCKSIZE - 1 : Nat), z⟩).d
                    = ne.CONTENT_WATER
                ∨ (getNodeRef env data ⟨x, (env.MAP_BLOCKSIZE - 1 : Nat), z⟩).d
                    = ne.CONTENT_WATERSOURCE
            then 0 else ne.LIGHT_SUN)
    ∧ (startLight env ne par st blk data x z = ne.LIGHT_SUN
        ∨ startLight env ne par st blk data x z = 0)
    ∧ computedLight env ne par st blk data x (env.MAP_BLOCKSIZE - 1) z
        = nextLight ne (getNodeRef env data ⟨x, (env.MAP_BLOCKSIZE - 1 : Nat), z⟩)
            (startLight env ne par st blk data x z)
    ∧ (ParentContract par st → ∀ (remove grow : Bool) (s : SunState),
        sunlightColumn env ne par st blk remove grow x z s
          = match descendE (sunlightNode env ne par st blk remove grow x z) env.MAP_BLOCKSIZE
                ⟨s.data, s.light_sources, s.black_air_left,
                  startLight env ne par st blk s.data x z, false⟩ with
            | Except.error e => Except.error e
            | Except.ok c =>
              match belowCheck env ne par st blk c.data x z c.current_light
                  s.block_below_is_valid with
              | Except.error e => Except.error e
              | Except.ok valid =>
                Except.ok ⟨c.data, c.light_sources, c.black_air_left, valid⟩)
    ∧ (ParentContract par st → env.MAP_BLOCKSIZE < 32768 →
        (∀ m l, (ne.setLight m LightBank.LIGHTBANK_DAY l).d = m.d) →
        data.length = nodecount env → x < env.MAP_BLOCKSIZE → z < env.MAP_BLOCKSIZE →
        ∀ (ls : List v3s16) (remove : Bool) (bal : Option Bool) (grow : Bool),
          ∃ r d, propagateSunlight env ne par st blk ls remove bal grow = Except.ok r
            ∧ r.block.data = some d
            ∧ getNodeRef env d ⟨x, (env.MAP_BLOCKSIZE - 1 : Nat), z⟩
              = finalNode ne remove grow
                  (upperIsAir env ne par st blk data x (env.MAP_BLOCKSIZE - 1) z)
                  (getNodeRef env data ⟨x, (env.MAP_BLOCKSIZE - 1 : Nat), z⟩)
                  (startLight env ne par st blk data x z)) := by
  refine ⟨?_, ?_, (startLight_cases env ne par st blk data x z).symm, ?_,
    fun hpar remove grow s => sunlightColumn_start env ne par st blk remove grow x z s hpar,
    fun hpar hL2 hset hlen hx hz ls remove bal grow =>
      top_node_final env ne par st blk data ls remove bal grow x z hpar hL2 hset hdata hlen
        hx hz⟩
  · intro n hn
    have h1 : noSunlight env ne par st blk data x z
        = Except.ok (decide (ne.getLight n LightBank.LIGHTBANK_DAY ≠ ne.LIGHT_SUN)) := by
      unfold noSunlight
      rw [withData_self blk data hdata, hn]
      dsimp only [catchInvalidPosition]
      by_cases h : ne.getLight n LightBank.LIGHTBANK_DAY ≠ ne.LIGHT_SUN
      · rw [if_pos h, decide_eq_true h]
      · rw [if_neg h, decide_eq_false h]
    refine ⟨h1, ?_⟩
    rw [startLight_of_noSunlight env ne par st blk data x z _ h1]
    by_cases h : ne.getLight n LightBank.LIGHTBANK_DAY = ne.LIGHT_SUN
    · simp [h]
    · simp [h]
  · intro hn
    have h1 : noSunlight env ne par st blk data x z
        = Except.ok (blk.is_underground
            || decide ((getNodeRef env data ⟨x, (env.MAP_BLOCKSIZE - 1 : Nat), z⟩).d
                  = ne.CONTENT_WATER
                ∨ (getNodeRef env data ⟨x, (env.MAP_BLOCKSIZE - 1 : Nat), z⟩).d
                  = ne.CONTENT_WATERSOURCE)) := by
      unfold noSunlight
      rw [withData_self blk data hdata, hn, top_cast env hL]
      dsimp only [catchInvalidPosition]
      cases blk.is_underground with
      | true => rfl
      | false =>
        simp only [Bool.false_eq_true, if_false, Bool.false_or]
        by_cases h : (getNodeRef env data ⟨x, (env.MAP_BLOCKSIZE - 1 : Nat), z⟩).d
            = ne.CONTENT_WATER
            ∨ (getNodeRef env data ⟨x, (env.MAP_BLOCKSIZE - 1 : Nat), z⟩).d
              = ne.CONTENT_WATERSOURCE
        · rw [if_pos h, decide_eq_true h]
        · rw [if_neg h, decide_eq_false h]
    refine ⟨h1, ?_⟩
    rw [startLight_of_noSunlight env ne par st blk data x z _ h1]
    cases blk.is_underground with
    | true => simp
    | false =>
      by_cases h : (getNodeRef env data ⟨x, (env.MAP_BLOCKSIZE - 1 : Nat), z⟩).d
          = ne.CONTENT_WATER
          ∨ (getNodeRef env data ⟨x, (env.MAP_BLOCKSIZE - 1 : Nat), z⟩).d
            = ne.CONTENT_WATERSOURCE
      · simp [h]
      · simp [h]
  · rw [computedLight_eq env ne par st blk data x (env.MAP_BLOCKSIZE - 1) z (by omega)]
    unfold reachingLight
    rw [Nat.sub_self]
    rfl

/-- C16: on an allocated block whose parent keeps its contract,
`propagateSunlight` returns false exactly when there is a column `(x, z)` for
which `getNodeParent(x, -1, z)` returns a node that lets light propagate and
for which "its day light is `LIGHT_SUN`" differs from "the light computed for
the bottom node of the column is `LIGHT_SUN`"; it returns true when every such
lookup throws `InvalidPositionException`. -/
theorem returns_false_iff {σ : Type} (env : Env) (ne : NodeEnv) (par : NodeContainer σ)
    (st : σ) (blk : MapBlock) (data : List MapNode) (ls : List v3s16) (remove : Bool)
    (bal : Option Bool) (grow : Bool)
    (hpar : ParentContract par st) (hL : env.MAP_BLOCKSIZE < 32768)
    (hdata : blk.data = some data) (hlen : data.length = nodecount env)
    (hset : ∀ m l, (ne.setLight m LightBank.LIGHTBANK_DAY l).d = m.d) :
    ∃ r, propagateSunlight env ne par st blk ls remove bal grow = Except.ok r
      ∧ (r.result = false ↔ ∃ x z n, x < env.MAP_BLOCKSIZE ∧ z < env.MAP_BLOCKSIZE
          ∧ getNodeParent env par st blk ⟨x, -1, z⟩ = Except.ok n
          ∧ ne.light_propagates n.d = true
          ∧ ¬ (ne.getLight n LightBank.LIGHTBANK_DAY = ne.LIGHT_SUN
              ↔ computedLight env ne par st blk data x 0 z = ne.LIGHT_SUN))
      ∧ ((∀ x z, x < env.MAP_BLOCKSIZE → z < env.MAP_BLOCKSIZE →
            getNodeParent env par st blk ⟨x, -1, z⟩
              = Except.error Exc.InvalidPositionException) → r.result = true) := by
  obtain ⟨r, d, hrun, _, _, _, _, hres⟩ := propagateSunlight_spec env ne par st blk data
    ls remove bal grow hpar hL hset hdata hlen
  have hcol : ∀ x z, columnAgrees env ne par st blk data x z = false ↔
      ∃ n, getNodeParent env par st blk ⟨x, -1, z⟩ = Except.ok n
        ∧ ne.light_propagates n.d = true
        ∧ ¬ (ne.getLight n LightBank.LIGHTBANK_DAY = ne.LIGHT_SUN
            ↔ computedLight env ne par st blk data x 0 z = ne.LIGHT_SUN) := by
    intro x z
    unfold columnAgrees lookupNode computedLight
    rw [withData_self blk data hdata, Nat.sub_zero]
    cases hg : getNodeParent env par st blk ⟨x, -1, z⟩ with
    | error e =>
      dsimp only
      constructor
      · intro h
        cases h
      · rintro ⟨n, h, _⟩
        cases h
    | ok n =>
      dsimp only
      constructor
      · intro h
        refine ⟨n, rfl, ?_⟩
        cases hlp : ne.light_propagates n.d with
        | false => simp [hlp] at h
        | true =>
          refine ⟨rfl, ?_⟩
          simp only [hlp, Bool.true_and, Bool.not_eq_false', bne_iff_ne, ne_eq,
            decide_eq_decide] at h
          exact h
      · rintro ⟨m, hm, hlp, hne⟩
        simp only [Except.ok.injEq] at hm
        subst hm
        simp only [hlp, Bool.true_and, Bool.not_eq_false', bne_iff_ne, ne_eq,
          decide_eq_decide]
        exact hne
  refine ⟨r, hrun, ?_, ?_⟩
  · constructor
    · intro hfalse
      by_contra hnone
      have hall : ∀ x z, x < env.MAP_BLOCKSIZE → z < env.MAP_BLOCKSIZE →
          columnAgrees env ne par st blk data x z = true := by
        intro x z hx hz
        cases hc : columnAgrees env ne par st blk data x z with
        | true => rfl
        | false =>
          obtain ⟨n, h1, h2, h3⟩ := (hcol x z).1 hc
          exact absurd ⟨x, z, n, hx, hz, h1, h2, h3⟩ hnone
      rw [hres.2 hall] at hfalse
      cases hfalse
    · rintro ⟨x, z, n, hx, hz, h1, h2, h3⟩
      cases hr : r.result with
      | false => rfl
      | true =>
        have := hres.1 hr x z hx hz
        rw [(hcol x z).2 ⟨n, h1, h2, h3⟩] at this
        cases this
  · intro hnone
    apply hres.2
    intro x z hx hz
    cases hc : columnAgrees env ne par st blk data x z with
    | true => rfl
    | false =>
      obtain ⟨n, h1, _⟩ := (hcol x z).1 hc
      rw [hnone x z hx hz] at h1
      cases h1

theorem add_inj_nat (a : v3s16) (x y z x2 y2 z2 : Nat) (hx : x < 32768) (hy : y < 32768)
    (hz : z < 32768) (hx2 : x2 < 32768) (hy2 : y2 < 32768) (hz2 : z2 < 32768)
    (h : v3s16.add a ⟨x, y, z⟩ = v3s16.add a ⟨x2, y2, z2⟩) : x = x2 ∧ y = y2 ∧ z = z2 := by
  unfold v3s16.add wrap16 at h
  simp only [v3s16.mk.injEq] at h
  obtain ⟨h1, h2, h3⟩ := h
  refine ⟨?_, ?_, ?_⟩ <;> omega

/-- C17: on an allocated block whose parent keeps its contract, with
`diminish_light` never raising a light: after `propagateSunlight`,
`light_sources` holds what it held before and the positions
`getPosRelative() + p` of exactly the nodes `p` of the block with
`diminish_light(computed light) != 0`; every position added is that of a node
of the block, and the position of a node whose computed light is zero is in
`light_sources` afterwards only if it was before. -/
theorem light_sources_gain {σ : Type} (env : Env) (ne : NodeEnv) (par : NodeContainer σ)
    (st : σ) (blk : MapBlock) (data : List MapNode) (ls : List v3s16) (remove : Bool)
    (bal : Option Bool) (grow : Bool)
    (hpar : ParentContract par st) (hL : env.MAP_BLOCKSIZE < 32768)
    (hdata : blk.data = some data) (hlen : data.length = nodecount env)
    (hset : ∀ m l, (ne.setLight m LightBank.LIGHTBANK_DAY l).d = m.d)
    (hdim : ∀ l, ne.diminish_light l ≤ l) :
    ∃ r, propagateSunlight env ne par st blk ls remove bal grow = Except.ok r
      ∧ (∀ p, p ∈ r.light_sources ↔ (p ∈ ls
          ∨ ∃ x y z, x < env.MAP_BLOCKSIZE ∧ y < env.MAP_BLOCKSIZE ∧ z < env.MAP_BLOCKSIZE
            ∧ p = v3s16.add (getPosRelative env blk) ⟨x, y, z⟩
            ∧ ne.diminish_light (computedLight env ne par st blk data x y z) ≠ 0))
      ∧ (∀ p, p ∈ r.light_sources → p ∉ ls →
          ∃ x y z, x < env.MAP_BLOCKSIZE ∧ y < env.MAP_BLOCKSIZE ∧ z < env.MAP_BLOCKSIZE
            ∧ p = v3s16.add (getPosRelative env blk) ⟨x, y, z⟩)
      ∧ (∀ x y z, x < env.MAP_BLOCKSIZE → y < env.MAP_BLOCKSIZE → z < env.MAP_BLOCKSIZE →
          computedLight env ne par st blk data x y z = 0 →
          (v3s16.add (getPosRelative env blk) ⟨x, y, z⟩ ∈ r.light_sources
            ↔ v3s16.add (getPosRelative env blk) ⟨x, y, z⟩ ∈ ls)) := by
  obtain ⟨r, d, hrun, _, _, _, hsrc, _⟩ := propagateSunlight_spec env ne par st blk data
    ls remove bal grow hpar hL hset hdata hlen
  have hd0 : ne.diminish_light 0 = 0 := Fin.le_zero_iff.mp (hdim 0)
  refine ⟨r, hrun, hsrc, ?_, ?_⟩
  · intro p hp hnot
    rcases (hsrc p).1 hp with h | ⟨x, y, z, hx, hy, hz, hpos, _⟩
    · exact absurd h hnot
    · exact ⟨x, y, z, hx, hy, hz, hpos⟩
  · intro x y z hx hy hz hzero
    rw [hsrc]
    constructor
    · rintro (h | ⟨x2, y2, z2, hx2, hy2, hz2, hpos, hne⟩)
      · exact h
      · obtain ⟨e1, e2, e3⟩ := add_inj_nat (getPosRelative env blk) x y z x2 y2 z2
          (by omega) (by omega) (by omega) (by omega) (by omega) (by omega) hpos
        subst e1 e2 e3
        rw [hzero, hd0] at hne
        exact absurd rfl hne
    · intro h
      exact Or.inl h

/-- C18: on an allocated block whose parent keeps its contract, with
`setLight` keeping the content id: after `propagateSunlight` the content id of
a node is `CONTENT_GRASS` if `grow_grass` is set, the node was `CONTENT_MUD`,
lets neither light nor sunlight pass, was reached by light `LIGHT_SUN`
(non-zero) and has `CONTENT_AIR` directly above (looked up through the parent
at the top of the block, absent counting as not air); in every other case,
and always when `grow_grass` is unset, the content id is what it was. -/
theorem grass_growth {σ : Type} (env : Env) (ne : NodeEnv) (par : NodeContainer σ)
    (st : σ) (blk : MapBlock) (data : List MapNode) (ls : List v3s16) (remove : Bool)
    (bal : Option Bool) (grow : Bool)
    (hpar : ParentContract par st) (hL : env.MAP_BLOCKSIZE < 32768)
    (hdata : blk.data = some data) (hlen : data.length = nodecount env)
    (hset : ∀ m l, (ne.setLight m LightBank.LIGHTBANK_DAY l).d = m.d) :
    ∃ r d, propagateSunlight env ne par st blk ls remove bal grow = Except.ok r
      ∧ r.block.data = some d
      ∧ (∀ x y z, x < env.MAP_BLOCKSIZE → y < env.MAP_BLOCKSIZE → z < env.MAP_BLOCKSIZE →
          (getNodeRef env d ⟨x, y, z⟩).d
            = if grow = true ∧ (getNodeRef env data ⟨x, y, z⟩).d = ne.CONTENT_MUD
                ∧ ne.light_propagates (getNodeRef env data ⟨x, y, z⟩).d = false
                ∧ ne.sunlight_propagates (getNodeRef env data ⟨x, y, z⟩).d = false
                ∧ reachingLight env ne par st blk data x y z = ne.LIGHT_SUN
                ∧ ne.LIGHT_SUN ≠ 0
                ∧ upperIsAir env ne par st blk data x y z = true
              then ne.CONTENT_GRASS
              else (getNodeRef env data ⟨x, y, z⟩).d)
      ∧ (grow = false →
          ∀ x y z, x < env.MAP_BLOCKSIZE → y < env.MAP_BLOCKSIZE → z < env.MAP_BLOCKSIZE →
            (getNodeRef env d ⟨x, y, z⟩).d = (getNodeRef env data ⟨x, y, z⟩).d) := by
  obtain ⟨r, d, hrun, hblk, _, hnodes, _, _⟩ := propagateSunlight_spec env ne par st blk data
    ls remove bal grow hpar hL hset hdata hlen
  have hkey : ∀ x y z, x < env.MAP_BLOCKSIZE → y < env.MAP_BLOCKSIZE → z < env.MAP_BLOCKSIZE →
      (getNodeRef env d ⟨x, y, z⟩).d
        = if grow = true ∧ (getNodeRef env data ⟨x, y, z⟩).d = ne.CONTENT_MUD
            ∧ ne.light_propagates (getNodeRef env data ⟨x, y, z⟩).d = false
            ∧ ne.sunlight_propagates (getNodeRef env data ⟨x, y, z⟩).d = false
            ∧ reachingLight env ne par st blk data x y z = ne.LIGHT_SUN
            ∧ ne.LIGHT_SUN ≠ 0
            ∧ upperIsAir env ne par st blk data x y z = true
          then ne.CONTENT_GRASS
          else (getNodeRef env data ⟨x, y, z⟩).d := by
    intro x y z hx hy hz
    rw [hnodes x y z hx hy hz]
    unfold finalAt finalNode
    rw [storedNode_d ne remove _ _ hset]
    unfold grassNode
    by_cases hc : obstructs ne (getNodeRef env data ⟨x, y, z⟩)
          (reachingLight env ne par st blk data x y z) = true
        ∧ grow = true ∧ upperIsAir env ne par st blk data x y z = true
        ∧ (getNodeRef env data ⟨x, y, z⟩).d = ne.CONTENT_MUD
        ∧ reachingLight env ne par st blk data x y z = ne.LIGHT_SUN
    · rw [if_pos hc]
      obtain ⟨h1, h2, h3, h4, h5⟩ := hc
      simp only [obstructs, decide_eq_true_eq] at h1
      obtain ⟨o1, o2, o3⟩ := h1
      have hsun : ne.LIGHT_SUN ≠ 0 := by
        rw [← h5]
        exact o1
      have hsp : ne.sunlight_propagates (getNodeRef env data ⟨x, y, z⟩).d = false := by
        cases hs : ne.sunlight_propagates (getNodeRef env data ⟨x, y, z⟩).d with
        | false => rfl
        | true => exact absurd ⟨h5, hs⟩ o2
      rw [if_pos ⟨h2, h4, o3, hsp, h5, hsun, h3⟩]
    · rw [if_neg hc]
      have hc2 : ¬ (grow = true ∧ (getNodeRef env data ⟨x, y, z⟩).d = ne.CONTENT_MUD
          ∧ ne.light_propagates (getNodeRef env data ⟨x, y, z⟩).d = false
          ∧ ne.sunlight_propagates (getNodeRef env data ⟨x, y, z⟩).d = false
          ∧ reachingLight env ne par st blk data x y z = ne.LIGHT_SUN
          ∧ ne.LIGHT_SUN ≠ 0
          ∧ upperIsAir env ne par st blk data x y z = true) := by
        rintro ⟨h1, h2, h3, h4, h5, h6, h7⟩
        apply hc
        refine ⟨?_, h1, h7, h2, h5⟩
        simp only [obstructs, decide_eq_true_eq]
        refine ⟨by rw [h5]; exact h6, ?_, h3⟩
        rintro ⟨_, hs⟩
        rw [h4] at hs
        cases hs
      rw [if_neg hc2]
  refine ⟨r, d, hrun, by rw [hblk]; rfl, hkey, ?_⟩
  intro hg x y z hx hy hz
  rw [hkey x y z hx hy hz, hg]
  simp

/-! ## Running the propagation twice -/

theorem nextLight_congr_d (ne : NodeEnv) (n1 n2 : MapNode) (cur : u8) (h : n1.d = n2.d) :
    nextLight ne n1 cur = nextLight ne n2 cur := by
  unfold nextLight
  rw [h]

theorem obstructs_congr_d (ne : NodeEnv) (n1 n2 : MapNode) (cur : u8) (h : n1.d = n2.d) :
    obstructs ne n1 cur = obstructs ne n2 cur := by
  unfold obstructs
  rw [h]

theorem obstructs_light (ne : NodeEnv) (n : MapNode) (cur : u8)
    (h : obstructs ne n cur = true) : cur ≠ 0 := by
  simp only [obstructs, decide_eq_true_eq] at h
  exact h.1

/-- The node that the loop body leaves behaves towards the light like the node
it found, when grass lets no light pass. -/
theorem nextLight_finalNode (ne : NodeEnv) (remove grow ua : Bool) (n : MapNode) (cur : u8)
    (hset : ∀ m l, (ne.setLight m LightBank.LIGHTBANK_DAY l).d = m.d)
    (hsp : ∀ c, ne.sunlight_propagates c = true → ne.light_propagates c = true)
    (hgl : ne.light_propagates ne.CONTENT_GRASS = false) :
    nextLight ne (finalNode ne remove grow ua n cur) cur = nextLight ne n cur := by
  by_cases hc : obstructs ne n cur = true ∧ grow = true ∧ ua = true
      ∧ n.d = ne.CONTENT_MUD ∧ cur = ne.LIGHT_SUN
  · have hd : (finalNode ne remove grow ua n cur).d = ne.CONTENT_GRASS := by
      unfold finalNode
      rw [storedNode_d ne remove _ _ hset]
      unfold grassNode
      rw [if_pos hc]
    rw [nextLight_of_obstructs ne n cur hc.1]
    unfold nextLight
    rw [if_neg (obstructs_light ne n cur hc.1), hd]
    have h2 : ¬ (cur = ne.LIGHT_SUN ∧ ne.sunlight_propagates ne.CONTENT_GRASS = true) := by
      rintro ⟨_, h⟩
      rw [hsp _ h] at hgl
      cases hgl
    rw [if_neg h2, if_pos hgl]
  · apply nextLight_congr_d
    unfold finalNode
    rw [storedNode_d ne remove _ _ hset]
    unfold grassNode
    rw [if_neg hc]

/-- Without `remove_light` the loop body leaves alone a node that it has left
before, reached by the same light. -/
theorem finalNode_idem (ne : NodeEnv) (grow ua ua2 : Bool) (n : MapNode) (cur : u8)
    (hset : ∀ m l, (ne.setLight m LightBank.LIGHTBANK_DAY l).d = m.d)
    (hgs : ∀ m l, l ≤ ne.LIGHT_SUN →
      ne.getLight (ne.setLight m LightBank.LIGHTBANK_DAY l) LightBank.LIGHTBANK_DAY = l)
    (hsp : ∀ c, ne.sunlight_propagates c = true → ne.light_propagates c = true)
    (hgl : ne.light_propagates ne.CONTENT_GRASS = false)
    (hle : nextLight ne n cur ≤ ne.LIGHT_SUN)
    (hua : cur ≠ 0 → ua2 = ua) :
    finalNode ne false grow ua2 (finalNode ne false grow ua n cur) cur
      = finalNode ne false grow ua n cur := by
  have hnext := nextLight_finalNode ne false grow ua n cur hset hsp hgl
  have hgr : grassNode ne grow ua2 (finalNode ne false grow ua n cur) cur
      = finalNode ne false grow ua n cur := by
    by_cases hc : obstructs ne n cur = true ∧ grow = true ∧ ua = true
        ∧ n.d = ne.CONTENT_MUD ∧ cur = ne.LIGHT_SUN
    · have hd : (finalNode ne false grow ua n cur).d = ne.CONTENT_GRASS := by
        unfold finalNode
        rw [storedNode_d ne false _ _ hset]
        unfold grassNode
        rw [if_pos hc]
      generalize finalNode ne false grow ua n cur = m at hd
      unfold grassNode
      by_cases h2 : obstructs ne m cur = true ∧ grow = true ∧ ua2 = true
          ∧ m.d = ne.CONTENT_MUD ∧ cur = ne.LIGHT_SUN
      · rw [if_pos h2]
        cases m
        simp only at hd
        rw [hd]
      · rw [if_neg h2]
    · have hd : (finalNode ne false grow ua n cur).d = n.d := by
        unfold finalNode
        rw [storedNode_d ne false _ _ hset]
        unfold grassNode
        rw [if_neg hc]
      generalize finalNode ne false grow ua n cur = m at hd
      unfold grassNode
      have h2 : ¬ (obstructs ne m cur = true ∧ grow = true ∧ ua2 = true
          ∧ m.d = ne.CONTENT_MUD ∧ cur = ne.LIGHT_SUN) := by
        rintro ⟨o1, o2, o3, o4, o5⟩
        rw [obstructs_congr_d ne m n cur hd] at o1
        rw [hua (obstructs_light ne n cur o1)] at o3
        rw [hd] at o4
        exact hc ⟨o1, o2, o3, o4, o5⟩
      rw [if_neg h2]
  have hkey : ¬ (nextLight ne n cur
      > ne.getLight (finalNode ne false grow ua n cur) LightBank.LIGHTBANK_DAY
      ∨ false = true) := by
    rintro (h | h)
    · unfold finalNode storedNode at h
      by_cases hc : nextLight ne n cur
          > ne.getLight (grassNode ne grow ua n cur) LightBank.LIGHTBANK_DAY ∨ false = true
      · rw [if_pos hc, hgs _ _ hle] at h
        exact lt_irrefl _ h
      · rw [if_neg hc] at h
        exact hc (Or.inl h)
    · cases h
  show storedNode ne false (grassNode ne grow ua2 (finalNode ne false grow ua n cur) cur)
      (nextLight ne (finalNode ne false grow ua n cur) cur) = finalNode ne false grow ua n cur
  rw [hgr, hnext]
  unfold storedNode
  rw [if_neg hkey]

/-- The block seen from outside is the same whatever its node array holds. -/
theorem withData_withData (blk : MapBlock) (d1 d2 : List MapNode) :
    withData (withData blk d1) d2 = withData blk d2 := rfl

/-- The flag `no_sunlight` in terms of the lookup above the block. -/
theorem noSunlight_eq {σ : Type} (env : Env) (ne : NodeEnv) (par : NodeContainer σ)
    (st : σ) (blk : MapBlock) (data : List MapNode) (x z : Nat) :
    noSunlight env ne par st blk data x z
      = match catchInvalidPosition (par.getNode st
            (v3s16.add (getPosRelative env blk) ⟨x, env.MAP_BLOCKSIZE, z⟩)) with
        | Except.error e => Except.error e
        | Except.ok (some n) =>
          Except.ok (decide (ne.getLight n LightBank.LIGHTBANK_DAY ≠ ne.LIGHT_SUN))
        | Except.ok none =>
          Except.ok (blk.is_underground
            || decide ((getNodeRef env data ⟨x, (env.MAP_BLOCKSIZE : Int) - 1, z⟩).d
                  = ne.CONTENT_WATER
                ∨ (getNodeRef env data ⟨x, (env.MAP_BLOCKSIZE : Int) - 1, z⟩).d
                  = ne.CONTENT_WATERSOURCE)) := by
  unfold noSunlight
  rw [getNodeParent_outside env par st blk data _ (invalid_top env x z)]
  cases catchInvalidPosition (par.getNode st
      (v3s16.add (getPosRelative env blk) ⟨x, env.MAP_BLOCKSIZE, z⟩)) with
  | error e => rfl
  | ok o =>
    cases o with
    | some n =>
      dsimp only
      by_cases h : ne.getLight n LightBank.LIGHTBANK_DAY ≠ ne.LIGHT_SUN
      · rw [if_pos h, decide_eq_true h]
      · rw [if_neg h, decide_eq_false h]
    | none =>
      dsimp only
      cases blk.is_underground with
      | true => rfl
      | false =>
        simp only [Bool.false_eq_true, if_false, Bool.false_or]
        by_cases h : (getNodeRef env data ⟨x, (env.MAP_BLOCKSIZE : Int) - 1, z⟩).d
            = ne.CONTENT_WATER
            ∨ (getNodeRef env data ⟨x, (env.MAP_BLOCKSIZE : Int) - 1, z⟩).d
              = ne.CONTENT_WATERSOURCE
        · rw [if_pos h, decide_eq_true h]
        · rw [if_neg h, decide_eq_false h]

/-- The start of the descent after a first run is the start of the first
run. -/
theorem startLight_rerun {σ : Type} (env : Env) (ne : NodeEnv) (par : NodeContainer σ)
    (st : σ) (blk : MapBlock) (data d1 : List MapNode) (remove grow : Bool) (x z : Nat)
    (hL : 0 < env.MAP_BLOCKSIZE)
    (hset : ∀ m l, (ne.setLight m LightBank.LIGHTBANK_DAY l).d = m.d)
    (hgw : ne.CONTENT_GRASS ≠ ne.CONTENT_WATER)
    (hgws : ne.CONTENT_GRASS ≠ ne.CONTENT_WATERSOURCE)
    (htop : getNodeRef env d1 ⟨x, (env.MAP_BLOCKSIZE - 1 : Nat), z⟩
      = finalAt env ne par st blk data remove grow x (env.MAP_BLOCKSIZE - 1) z) :
    startLight env ne par st (withData blk d1) d1 x z
      = startLight env ne par st blk data x z := by
  have hreach : reachingLight env ne par st blk data x (env.MAP_BLOCKSIZE - 1) z
      = startLight env ne par st blk data x z := by
    unfold reachingLight
    rw [Nat.sub_self]
    rfl
  have hpos : getPosRelative env (withData blk d1) = getPosRelative env blk := rfl
  have hug : (withData blk d1).is_underground = blk.is_underground := rfl
  unfold startLight at hreach ⊢
  rw [noSunlight_eq env ne par st blk data x z] at hreach ⊢
  rw [noSunlight_eq env ne par st (withData blk d1) d1 x z, hpos, hug]
  rw [top_cast env hL] at hreach ⊢
  generalize catchInvalidPosition (par.getNode st
      (v3s16.add (getPosRelative env blk) ⟨x, env.MAP_BLOCKSIZE, z⟩)) = q at hreach ⊢
  cases q with
  | error e => rfl
  | ok o =>
    cases o with
    | some n => rfl
    | none =>
      dsimp only at hreach ⊢
      cases hu : blk.is_underground with
      | true => rfl
      | false =>
        rw [hu] at hreach
        simp only [Bool.false_or] at hreach ⊢
        rw [htop]
        unfold finalAt
        by_cases hc : obstructs ne (getNodeRef env data ⟨x, (env.MAP_BLOCKSIZE - 1 : Nat), z⟩)
              (reachingLight env ne par st blk data x (env.MAP_BLOCKSIZE - 1) z) = true
            ∧ grow = true
            ∧ upperIsAir env ne par st blk data x (env.MAP_BLOCKSIZE - 1) z = true
            ∧ (getNodeRef env data ⟨x, (env.MAP_BLOCKSIZE - 1 : Nat), z⟩).d = ne.CONTENT_MUD
            ∧ reachingLight env ne par st blk data x (env.MAP_BLOCKSIZE - 1) z = ne.LIGHT_SUN
        · have hd : (finalNode ne remove grow
              (upperIsAir env ne par st blk data x (env.MAP_BLOCKSIZE - 1) z)
              (getNodeRef env data ⟨x, (env.MAP_BLOCKSIZE - 1 : Nat), z⟩)
              (reachingLight env ne par st blk data x (env.MAP_BLOCKSIZE - 1) z)).d
              = ne.CONTENT_GRASS := by
            unfold finalNode
            rw [storedNode_d ne remove _ _ hset]
            unfold grassNode
            rw [if_pos hc]
          rw [hd]
          have hne := obstructs_light ne _ _ hc.1
          rw [hreach] at hne
          have hg : ¬ (ne.CONTENT_GRASS = ne.CONTENT_WATER
              ∨ ne.CONTENT_GRASS = ne.CONTENT_WATERSOURCE) := by
            rintro (h | h)
            · exact hgw h
            · exact hgws h
          rw [decide_eq_false hg]
          by_cases hw : (getNodeRef env data ⟨x, (env.MAP_BLOCKSIZE - 1 : Nat), z⟩).d
                = ne.CONTENT_WATER
              ∨ (getNodeRef env data ⟨x, (env.MAP_BLOCKSIZE - 1 : Nat), z⟩).d
                = ne.CONTENT_WATERSOURCE
          · rw [decide_eq_true hw] at hne
            exact absurd rfl hne
          · rw [decide_eq_false hw]
        · have hd : (finalNode ne remove grow
              (upperIsAir env ne par st blk data x (env.MAP_BLOCKSIZE - 1) z)
              (getNodeRef env data ⟨x, (env.MAP_BLOCKSIZE - 1 : Nat), z⟩)
              (reachingLight env ne par st blk data x (env.MAP_BLOCKSIZE - 1) z)).d
              = (getNodeRef env data ⟨x, (env.MAP_BLOCKSIZE - 1 : Nat), z⟩).d := by
            unfold finalNode
            rw [storedNode_d ne remove _ _ hset]
            unfold grassNode
            rw [if_neg hc]
          rw [hd]

/-- The light in a column after a first run is the light of the first run. -/
theorem lightAfter_rerun {σ : Type} (env : Env) (ne : NodeEnv) (par : NodeContainer σ)
    (st : σ) (blk : MapBlock) (data d1 : List MapNode) (remove grow : Bool) (x z k : Nat)
    (hset : ∀ m l, (ne.setLight m LightBank.LIGHTBANK_DAY l).d = m.d)
    (hsp : ∀ c, ne.sunlight_propagates c = true → ne.light_propagates c = true)
    (hgl : ne.light_propagates ne.CONTENT_GRASS = false)
    (hgw : ne.CONTENT_GRASS ≠ ne.CONTENT_WATER)
    (hgws : ne.CONTENT_GRASS ≠ ne.CONTENT_WATERSOURCE)
    (hcol : ∀ y, y < env.MAP_BLOCKSIZE → getNodeRef env d1 ⟨x, y, z⟩
      = finalAt env ne par st blk data remove grow x y z)
    (hL : 0 < env.MAP_BLOCKSIZE) (hk : k ≤ env.MAP_BLOCKSIZE) :
    lightAfter env ne par st (withData blk d1) d1 x z k
      = lightAfter env ne par st blk data x z k := by
  induction k with
  | zero =>
    show startLight env ne par st (withData blk d1) d1 x z
      = startLight env ne par st blk data x z
    exact startLight_rerun env ne par st blk data d1 remove grow x z hL hset hgw hgws
      (hcol _ (by omega))
  | succ k ih =>
    rw [lightAfter_succ, lightAfter_succ, ih (by omega), hcol _ (by omega)]
    unfold finalAt reachingLight
    have e : env.MAP_BLOCKSIZE - 1 - (env.MAP_BLOCKSIZE - 1 - k) = k := by omega
    rw [e]
    exact nextLight_finalNode ne remove grow _ _ _ hset hsp hgl

/-- Two node arrays of `nodecount` nodes that agree at every position of the
block are equal. -/
theorem data_ext (env : Env) (d1 d2 : List MapNode) (h1 : d1.length = nodecount env)
    (h2 : d2.length = nodecount env)
    (h : ∀ x y z, x < env.MAP_BLOCKSIZE → y < env.MAP_BLOCKSIZE → z < env.MAP_BLOCKSIZE →
      getNodeRef env d1 ⟨x, y, z⟩ = getNodeRef env d2 ⟨x, y, z⟩) : d1 = d2 := by
  apply List.ext_getElem (by rw [h1, h2])
  intro i hi1 hi2
  have hi : i < env.MAP_BLOCKSIZE * env.MAP_BLOCKSIZE * env.MAP_BLOCKSIZE := by
    rw [h1] at hi1
    exact hi1
  have hLpos : 0 < env.MAP_BLOCKSIZE := by
    rcases Nat.eq_zero_or_pos env.MAP_BLOCKSIZE with h0 | h0
    · rw [h0] at hi
      simp at hi
    · exact h0
  have hx : i % env.MAP_BLOCKSIZE < env.MAP_BLOCKSIZE := Nat.mod_lt _ hLpos
  have hy : i / env.MAP_BLOCKSIZE % env.MAP_BLOCKSIZE < env.MAP_BLOCKSIZE :=
    Nat.mod_lt _ hLpos
  have hz : i / env.MAP_BLOCKSIZE / env.MAP_BLOCKSIZE < env.MAP_BLOCKSIZE := by
    rw [Nat.div_div_eq_div_mul]
    apply Nat.div_lt_of_lt_mul
    exact lt_of_lt_of_eq hi (by ring)
  have hidx : nodeIndex env ⟨(i % env.MAP_BLOCKSIZE : Nat),
      (i / env.MAP_BLOCKSIZE % env.MAP_BLOCKSIZE : Nat),
      (i / env.MAP_BLOCKSIZE / env.MAP_BLOCKSIZE : Nat)⟩ = i := by
    unfold nodeIndex
    have e : (i / env.MAP_BLOCKSIZE / env.MAP_BLOCKSIZE) * env.MAP_BLOCKSIZE
          * env.MAP_BLOCKSIZE
        + (i / env.MAP_BLOCKSIZE % env.MAP_BLOCKSIZE) * env.MAP_BLOCKSIZE
        + i % env.MAP_BLOCKSIZE = i := by
      have a1 := Nat.div_add_mod i env.MAP_BLOCKSIZE
      have a2 := Nat.div_add_mod (i / env.MAP_BLOCKSIZE) env.MAP_BLOCKSIZE
      calc (i / env.MAP_BLOCKSIZE / env.MAP_BLOCKSIZE) * env.MAP_BLOCKSIZE
              * env.MAP_BLOCKSIZE
            + (i / env.MAP_BLOCKSIZE % env.MAP_BLOCKSIZE) * env.MAP_BLOCKSIZE
            + i % env.MAP_BLOCKSIZE
          = env.MAP_BLOCKSIZE * (env.MAP_BLOCKSIZE * (i / env.MAP_BLOCKSIZE / env.MAP_BLOCKSIZE)
              + i / env.MAP_BLOCKSIZE % env.MAP_BLOCKSIZE) + i % env.MAP_BLOCKSIZE := by ring
        _ = i := by rw [a2, a1]
    have e2 : ((i / env.MAP_BLOCKSIZE / env.MAP_BLOCKSIZE : Nat) : Int) * env.MAP_BLOCKSIZE
          * env.MAP_BLOCKSIZE
        + ((i / env.MAP_BLOCKSIZE % env.MAP_BLOCKSIZE : Nat) : Int) * env.MAP_BLOCKSIZE
        + ((i % env.MAP_BLOCKSIZE : Nat) : Int) = (i : Int) := by
      exact_mod_cast e
    rw [e2]
    rfl
  have hn := h _ _ _ hx hy hz
  unfold getNodeRef nodeAt at hn
  rw [hidx, List.getD_eq_getElem _ _ hi1, List.getD_eq_getElem _ _ hi2] at hn
  exact hn

/-- Whether the node above is air is the same after a first run for every
node that light reaches. -/
theorem upperIsAir_rerun {σ : Type} (env : Env) (ne : NodeEnv) (par : NodeContainer σ)
    (st : σ) (blk : MapBlock) (data d1 : List MapNode) (remove grow : Bool) (x y z : Nat)
    (hset : ∀ m l, (ne.setLight m LightBank.LIGHTBANK_DAY l).d = m.d)
    (hx : x < env.MAP_BLOCKSIZE) (hz : z < env.MAP_BLOCKSIZE)
    (hcol : ∀ y, y < env.MAP_BLOCKSIZE → getNodeRef env d1 ⟨x, y, z⟩
      = finalAt env ne par st blk data remove grow x y z)
    (hlight : reachingLight env ne par st blk data x y z ≠ 0) :
    upperIsAir env ne par st (withData blk d1) d1 x y z
      = upperIsAir env ne par st blk data x y z := by
  unfold upperIsAir
  rw [withData_withData]
  by_cases hy : y + 1 < env.MAP_BLOCKSIZE
  · have hv : isValidPosition env ⟨x, (y + 1 : Nat), z⟩ = true :=
      (valid_nat env x (y + 1) z).2 ⟨hx, hy, hz⟩
    rw [lookupNode_inside env par st blk d1 _ hv, lookupNode_inside env par st blk data _ hv,
      hcol _ hy]
    unfold upperAirOf
    dsimp only
    unfold finalAt
    rw [reachingLight_eq, computedLight_eq env ne par st blk data x (y + 1) z hy] at hlight
    rw [finalNode_d_of_light ne remove grow _ _ _ hset hlight]
  · rw [lookupNode_data_irrelevant env par st blk d1 data _
      (invalid_top_nat env x (y + 1) z (by omega))]

/-- C12: on an allocated block whose parent keeps its contract, with the
assumptions on `setLight`, `getLight` and `diminish_light`, grass letting no
light pass, content that lets sunlight pass also letting light pass, and
grass being neither flowing water nor a water source: `propagateSunlight`
without `remove_light` succeeds, and a second run on the block it left, with
the same `grow_grass` and whatever `light_sources` and `black_air_left`,
succeeds, leaves the same block (every node as the first run left it) and
returns the same boolean. -/
theorem sunlight_idempotent {σ : Type} (env : Env) (ne : NodeEnv) (par : NodeContainer σ)
    (st : σ) (blk : MapBlock) (data : List MapNode) (ls : List v3s16)
    (bal : Option Bool) (grow : Bool)
    (hpar : ParentContract par st) (hL : env.MAP_BLOCKSIZE < 32768)
    (hdata : blk.data = some data) (hlen : data.length = nodecount env)
    (hset : ∀ m l, (ne.setLight m LightBank.LIGHTBANK_DAY l).d = m.d)
    (hdim : ∀ l, ne.diminish_light l ≤ l)
    (hgs : ∀ m l, l ≤ ne.LIGHT_SUN →
      ne.getLight (ne.setLight m LightBank.LIGHTBANK_DAY l) LightBank.LIGHTBANK_DAY = l)
    (hsp : ∀ c, ne.sunlight_propagates c = true → ne.light_propagates c = true)
    (hgl : ne.light_propagates ne.CONTENT_GRASS = false)
    (hgw : ne.CONTENT_GRASS ≠ ne.CONTENT_WATER)
    (hgws : ne.CONTENT_GRASS ≠ ne.CONTENT_WATERSOURCE) :
    ∃ r1, propagateSunlight env ne par st blk ls false bal grow = Except.ok r1
      ∧ ∀ ls2 bal2, ∃ r2,
          propagateSunlight env ne par st r1.block ls2 false bal2 grow = Except.ok r2
          ∧ r2.block = r1.block ∧ r2.result = r1.result := by
  obtain ⟨r1, d1, hrun1, hblk1, hlen1, hnodes1, _, hres1⟩ := propagateSunlight_spec env ne par
    st blk data ls false bal grow hpar hL hset hdata hlen
  refine ⟨r1, hrun1, ?_⟩
  intro ls2 bal2
  obtain ⟨r2, d2, hrun2, hblk2, hlen2, hnodes2, _, hres2⟩ := propagateSunlight_spec env ne par
    st (withData blk d1) d1 ls2 false bal2 grow hpar hL hset rfl hlen1
  have hlight : ∀ x z k, x < env.MAP_BLOCKSIZE → z < env.MAP_BLOCKSIZE →
      k ≤ env.MAP_BLOCKSIZE →
      lightAfter env ne par st (withData blk d1) d1 x z k
        = lightAfter env ne par st blk data x z k := by
    intro x z k hx hz hk
    exact lightAfter_rerun env ne par st blk data d1 false grow x z k hset hsp hgl hgw hgws
      (fun y hy => hnodes1 x y z hx hy hz) (by omega) hk
  have hd : d2 = d1 := by
    apply data_ext env d2 d1 hlen2 hlen1
    intro x y z hx hy hz
    rw [hnodes2 x y z hx hy hz, hnodes1 x y z hx hy hz]
    have hreach : reachingLight env ne par st (withData blk d1) d1 x y z
        = reachingLight env ne par st blk data x y z :=
      hlight x z _ hx hz (by omega)
    show finalNode ne false grow (upperIsAir env ne par st (withData blk d1) d1 x y z)
        (getNodeRef env d1 ⟨x, y, z⟩) (reachingLight env ne par st (withData blk d1) d1 x y z)
      = finalAt env ne par st blk data false grow x y z
    rw [hreach, hnodes1 x y z hx hy hz]
    unfold finalAt
    apply finalNode_idem ne grow _ _ _ _ hset hgs hsp hgl
    · rw [← computedLight_eq env ne par st blk data x y z hy]
      exact computedLight_le env ne par st blk data x y z hdim
    · intro hne
      exact upperIsAir_rerun env ne par st blk data d1 false grow x y z hset hx hz
        (fun y1 hy1 => hnodes1 x y1 z hx hy1 hz) hne
  have hagree : ∀ x z, x < env.MAP_BLOCKSIZE → z < env.MAP_BLOCKSIZE →
      columnAgrees env ne par st (withData blk d1) d1 x z
        = columnAgrees env ne par st blk data x z := by
    intro x z hx hz
    unfold columnAgrees
    rw [withData_withData, hlight x z _ hx hz (le_refl _),
      lookupNode_data_irrelevant env par st blk d1 data _ (invalid_below env x z)]
  refine ⟨r2, ?_, ?_, ?_⟩
  · rw [hblk1]
    exact hrun2
  · rw [hblk2, hblk1, hd]
    rfl
  · cases h1 : r1.result with
    | true =>
      apply hres2.2
      intro x z hx hz
      rw [hagree x z hx hz]
      exact hres1.1 h1 x z hx hz
    | false =>
      cases h2 : r2.result with
      | false => rfl
      | true =>
        have hall := hres1.2 (fun x z hx hz => by
          rw [← hagree x z hx hz]
          exact hres2.1 h2 x z hx hz)
        rw [h1] at hall
        cases hall

/-! ## Day/night difference: the property -/

/-- C19: after `updateDayNightDiff` the flag `m_day_night_differs` is true if
and only if the block is allocated, some node of the array has a day light
different from its night light, and not every node of the array is
`CONTENT_AIR`; in particular it is false on a dummy block; the node array and
the other members are what they were. -/
theorem day_night_flag (env : Env) (ne : NodeEnv) (blk : MapBlock) :
    ((updateDayNightDiff env ne blk).m_day_night_differs = true ↔
      ∃ data, blk.data = some data
        ∧ (∃ i, i < nodecount env
            ∧ ne.getLight (nodeAt data i) LightBank.LIGHTBANK_DAY
              ≠ ne.getLight (nodeAt data i) LightBank.LIGHTBANK_NIGHT)
        ∧ ¬ (∀ j, j < nodecount env → (nodeAt data j).d = ne.CONTENT_AIR))
    ∧ (updateDayNightDiff env ne { blk with data := none }).m_day_night_differs = false
    ∧ (updateDayNightDiff env ne blk).data = blk.data
    ∧ (updateDayNightDiff env ne blk).m_pos = blk.m_pos
    ∧ (updateDayNightDiff env ne blk).is_underground = blk.is_underground
    ∧ (updateDayNightDiff env ne blk).m_lighting_expired = blk.m_lighting_expired := by
  refine ⟨?_, rfl, ?_, ?_, ?_, ?_⟩
  · unfold updateDayNightDiff
    cases hd : blk.data with
    | none =>
      dsimp only
      constructor
      · intro h
        cases h
      · rintro ⟨data, h, _⟩
        cases h
    | some data =>
      dsimp only
      have h1 := searchLoop_iff (fun i =>
        decide (ne.getLight (nodeAt data i) LightBank.LIGHTBANK_DAY
          ≠ ne.getLight (nodeAt data i) LightBank.LIGHTBANK_NIGHT)) (nodecount env) 0
      have h2 := searchLoop_iff (fun i => decide ((nodeAt data i).d ≠ ne.CONTENT_AIR))
        (nodecount env) 0
      generalize searchLoop (fun i =>
        decide (ne.getLight (nodeAt data i) LightBank.LIGHTBANK_DAY
          ≠ ne.getLight (nodeAt data i) LightBank.LIGHTBANK_NIGHT)) (nodecount env) 0 = a
        at h1 ⊢
      generalize searchLoop (fun i => decide ((nodeAt data i).d ≠ ne.CONTENT_AIR))
        (nodecount env) 0 = b at h2 ⊢
      simp only [Nat.zero_le, true_and, Nat.zero_add, decide_eq_true_eq] at h1 h2
      constructor
      · intro h
        refine ⟨data, rfl, ?_, ?_⟩
        · apply h1.1
          cases a with
          | true => rfl
          | false => simp at h
        · intro hall
          have hb : b = false := by
            cases hb : b with
            | false => rfl
            | true =>
              obtain ⟨j, hj, hne⟩ := h2.1 hb
              exact absurd (hall j hj) hne
          subst hb
          cases a with
          | true => simp at h
          | false => simp at h
      · rintro ⟨data1, he, hdiff, hair⟩
        simp only [Option.some.injEq] at he
        subst he
        have ha : a = true := h1.2 hdiff
        have hb : b = true := by
          apply h2.2
          by_contra hno
          apply hair
          intro j hj
          by_contra hne
          exact hno ⟨j, hj, hne⟩
        subst ha hb
        rfl
  · unfold updateDayNightDiff
    cases blk.data with
    | none => rfl
    | some data => rfl
  · unfold updateDayNightDiff
    cases blk.data with
    | none => rfl
    | some data => rfl
  · unfold updateDayNightDiff
    cases blk.data with
    | none => rfl
    | some data => rfl
  · unfold updateDayNightDiff
    cases blk.data with
    | none => rfl
    | some data => rfl

/-! ## The properties of sunlight propagation and of the day/night flag on the example -/

theorem sunlight_stored_light_witness :
    ∃ r d, propagateSunlight exampleEnv exampleNodeEnv exampleParent exampleAround
        exampleTerrain [] false none true = Except.ok r
      ∧ r.block.data = some d
      ∧ exampleNodeEnv.getLight (getNodeRef exampleEnv exampleTerrainData
          ⟨(0 : Nat), (0 : Nat), (1 : Nat)⟩) LightBank.LIGHTBANK_DAY = 5
      ∧ computedLight exampleEnv exampleNodeEnv exampleParent exampleAround exampleTerrain
          exampleTerrainData 0 0 1 = 0
      ∧ exampleNodeEnv.getLight (getNodeRef exampleEnv d ⟨(0 : Nat), (0 : Nat), (1 : Nat)⟩)
          LightBank.LIGHTBANK_DAY = 5 := by
  obtain ⟨r, d, h1, h2, h3⟩ := sunlight_stored_light exampleEnv exampleNodeEnv exampleParent
    exampleAround exampleTerrain exampleTerrainData [] false none true
    (exampleParent_contract _) (by decide) rfl (by decide) example_setLight_d
    example_diminish_le example_get_set example_grass_light
  exact ⟨r, d, h1, h2, by decide, by decide,
    (h3 0 0 1 (by decide) (by decide) (by decide)).1.trans (by decide)⟩

theorem full_sun_column_witness :
    startLight exampleEnv exampleNodeEnv exampleParent exampleAround exampleTerrain
        exampleTerrainData 1 0 = exampleNodeEnv.LIGHT_SUN
    ∧ ∃ r d, propagateSunlight exampleEnv exampleNodeEnv exampleParent exampleAround
        exampleTerrain [] false none true = Except.ok r
      ∧ r.block.data = some d
      ∧ ∀ y, y < exampleEnv.MAP_BLOCKSIZE →
          exampleNodeEnv.getLight (getNodeRef exampleEnv d ⟨(1 : Nat), y, (0 : Nat)⟩)
            LightBank.LIGHTBANK_DAY = exampleNodeEnv.LIGHT_SUN :=
  ⟨by decide,
    full_sun_column exampleEnv exampleNodeEnv exampleParent exampleAround exampleTerrain
      exampleTerrainData [] false none true 1 0 (exampleParent_contract _) (by decide) rfl
      (by decide) example_setLight_d example_get_set example_light_le (by decide) (by decide)
      (by decide) (by decide)⟩

theorem dark_below_obstruction_witness :
    exampleNodeEnv.light_propagates (getNodeRef exampleEnv exampleTerrainData
        ⟨(0 : Nat), (1 : Nat), (1 : Nat)⟩).d = false
    ∧ ∃ r d, propagateSunlight exampleEnv exampleNodeEnv exampleParent exampleAround
        exampleTerrain [] true none true = Except.ok r
      ∧ r.block.data = some d
      ∧ computedLight exampleEnv exampleNodeEnv exampleParent exampleAround exampleTerrain
          exampleTerrainData 0 1 1 = 0
      ∧ ∀ y, y < 1 →
          computedLight exampleEnv exampleNodeEnv exampleParent exampleAround exampleTerrain
            exampleTerrainData 0 y 1 = 0
          ∧ ((true = true
                ∨ exampleNodeEnv.getLight (getNodeRef exampleEnv exampleTerrainData
                    ⟨(0 : Nat), y, (1 : Nat)⟩) LightBank.LIGHTBANK_DAY = 0) →
              exampleNodeEnv.getLight (getNodeRef exampleEnv d ⟨(0 : Nat), y, (1 : Nat)⟩)
                LightBank.LIGHTBANK_DAY = 0) :=
  ⟨by decide,
    dark_below_obstruction exampleEnv exampleNodeEnv exampleParent exampleAround exampleTerrain
      exampleTerrainData [] true none true 0 1 1 (exampleParent_contract _) (by decide) rfl
      (by decide) example_setLight_d example_get_set example_sun_implies_light (by decide)
      (by decide) (by decide) (by decide)⟩

theorem start_light_cases_witness :
    getNodeParent exampleEnv exampleParent exampleAround exampleTerrain
        ⟨(1 : Nat), exampleEnv.MAP_BLOCKSIZE, (1 : Nat)⟩
      = Except.error Exc.InvalidPositionException
    ∧ (getNodeRef exampleEnv exampleTerrainData
        ⟨(1 : Nat), (exampleEnv.MAP_BLOCKSIZE - 1 : Nat), (1 : Nat)⟩).d
      = exampleNodeEnv.CONTENT_WATER
    ∧ startLight exampleEnv exampleNodeEnv exampleParent exampleAround exampleTerrain
        exampleTerrainData 1 1 = 0
    ∧ startLight exampleEnv exampleNodeEnv exampleParent exampleAround exampleTerrain
        exampleTerrainData 0 0 = exampleNodeEnv.LIGHT_SUN
    ∧ ∃ r d, propagateSunlight exampleEnv exampleNodeEnv exampleParent exampleAround
        exampleTerrain [] true none false = Except.ok r
      ∧ r.block.data = some d
      ∧ getNodeRef exampleEnv d ⟨(1 : Nat), (exampleEnv.MAP_BLOCKSIZE - 1 : Nat), (1 : Nat)⟩
        = ⟨2, 0, 0⟩ :=
  ⟨by decide, by decide,
    ((start_light_cases exampleEnv exampleNodeEnv exampleParent exampleAround exampleTerrain
      exampleTerrainData 1 1 rfl (by decide)).2.1 (by decide)).2.trans (by decide),
    ((start_light_cases exampleEnv exampleNodeEnv exampleParent exampleAround exampleTerrain
      exampleTerrainData 0 0 rfl (by decide)).2.1 (by decide)).2.trans (by decide),
    ((start_light_cases exampleEnv exampleNodeEnv exampleParent exampleAround exampleTerrain
      exampleTerrainData 1 1 rfl (by decide)).2.2.2.2.2 (exampleParent_contract _) (by decide)
      example_setLight_d (by decide) (by decide) (by decide) [] true none false).imp
      fun _ h => h.imp fun _ h2 => ⟨h2.1, h2.2.1, h2.2.2.trans (by decide)⟩⟩

theorem returns_false_iff_witness :
    getNodeParent exampleEnv exampleParent exampleAround exampleTerrain ⟨(1 : Nat), -1, (0 : Nat)⟩
      = Except.ok ⟨254, 0, 0⟩
    ∧ computedLight exampleEnv exampleNodeEnv exampleParent exampleAround exampleTerrain
        exampleTerrainData 1 0 0 = exampleNodeEnv.LIGHT_SUN
    ∧ ∃ r, propagateSunlight exampleEnv exampleNodeEnv exampleParent exampleAround
        exampleTerrain [] false none true = Except.ok r ∧ r.result = false := by
  obtain ⟨r, h1, h2, _⟩ := returns_false_iff exampleEnv exampleNodeEnv exampleParent
    exampleAround exampleTerrain exampleTerrainData [] false none true
    (exampleParent_contract _) (by decide) rfl (by decide) example_setLight_d
  exact ⟨by decide, by decide, r, h1,
    h2.2 ⟨1, 0, ⟨254, 0, 0⟩, by decide, by decide, by decide, by decide, by decide⟩⟩

theorem light_sources_gain_witness :
    ∃ r, propagateSunlight exampleEnv exampleNodeEnv exampleParent exampleAround
        exampleTerrain [] false none true = Except.ok r
      ∧ (⟨1, 0, 0⟩ : v3s16) ∈ r.light_sources
      ∧ (⟨0, 0, 0⟩ : v3s16) ∉ r.light_sources := by
  obtain ⟨r, h1, h2, _, h4⟩ := light_sources_gain exampleEnv exampleNodeEnv exampleParent
    exampleAround exampleTerrain exampleTerrainData [] false none true
    (exampleParent_contract _) (by decide) rfl (by decide) example_setLight_d
    example_diminish_le
  refine ⟨r, h1, ?_, ?_⟩
  · exact (h2 _).2 (Or.inr ⟨1, 0, 0, by decide, by decide, by decide, by decide, by decide⟩)
  · intro hmem
    have h := (h4 0 0 0 (by decide) (by decide) (by decide) (by decide)).1 hmem
    cases h

theorem grass_growth_witness :
    (getNodeRef exampleEnv exampleTerrainData ⟨(0 : Nat), (0 : Nat), (0 : Nat)⟩).d
      = exampleNodeEnv.CONTENT_MUD
    ∧ ∃ r d, propagateSunlight exampleEnv exampleNodeEnv exampleParent exampleAround
        exampleTerrain [] false none true = Except.ok r
      ∧ r.block.data = some d
      ∧ (getNodeRef exampleEnv d ⟨(0 : Nat), (0 : Nat), (0 : Nat)⟩).d
        = exampleNodeEnv.CONTENT_GRASS
      ∧ (getNodeRef exampleEnv d ⟨(0 : Nat), (1 : Nat), (1 : Nat)⟩).d = 0 := by
  obtain ⟨r, d, h1, h2, h3, _⟩ := grass_growth exampleEnv exampleNodeEnv exampleParent
    exampleAround exampleTerrain exampleTerrainData [] false none true
    (exampleParent_contract _) (by decide) rfl (by decide) example_setLight_d
  exact ⟨by decide, r, d, h1, h2,
    (h3 0 0 0 (by decide) (by decide) (by decide)).trans (by decide),
    (h3 0 1 1 (by decide) (by decide) (by decide)).trans (by decide)⟩

theorem sunlight_idempotent_witness :
    ∃ r1, propagateSunlight exampleEnv exampleNodeEnv exampleParent exampleAround
        exampleTerrain [] false none true = Except.ok r1
      ∧ ∃ r2, propagateSunlight exampleEnv exampleNodeEnv exampleParent exampleAround
          r1.block r1.light_sources false r1.black_air_left true = Except.ok r2
        ∧ r2.block = r1.block ∧ r2.result = r1.result := by
  obtain ⟨r1, h1, h2⟩ := sunlight_idempotent exampleEnv exampleNodeEnv exampleParent
    exampleAround exampleTerrain exampleTerrainData [] none true
    (exampleParent_contract _) (by decide) rfl (by decide) example_setLight_d
    example_diminish_le example_get_set example_sun_implies_light (by decide) (by decide)
    (by decide)
  exact ⟨r1, h1, h2 r1.light_sources r1.black_air_left⟩

theorem day_night_flag_witness :
    (updateDayNightDiff exampleEnv exampleNodeEnv exampleTerrain).m_day_night_differs = true
    ∧ (updateDayNightDiff exampleEnv exampleNodeEnv exampleDummy).m_day_night_differs = false
    ∧ (updateDayNightDiff exampleEnv exampleNodeEnv exampleTerrain).data
        = some exampleTerrainData :=
  ⟨(day_night_flag exampleEnv exampleNodeEnv exampleTerrain).1.2
      ⟨exampleTerrainData, rfl, ⟨2, by decide, by decide⟩,
        fun h => absurd (h 0 (by decide)) (by decide)⟩,
    (day_night_flag exampleEnv exampleNodeEnv exampleDummy).2.1,
    (day_night_flag exampleEnv exampleNodeEnv exampleTerrain).2.2.1⟩

/-! ## Mesh building: the runs of a row -/

theorem getNodeParentNoEx_eq {σ : Type} (env : Env) (par : NodeContainer σ) (st : σ)
    (blk : MapBlock) (p : v3s16) (hpar : ParentContract par st) :
    getNodeParentNoEx env par st blk p = Except.ok (nodeNoEx env par st blk p) := by
  have htotal : ∃ n, getNodeParentNoEx env par st blk p = Except.ok n := by
    unfold getNodeParentNoEx
    by_cases hv : isValidPosition env p = false
    · rw [if_pos hv]
      cases hg : par.getNode st (v3s16.add (getPosRelative env blk) p) with
      | ok n => exact ⟨n, rfl⟩
      | error e =>
        have he := hpar _ _ hg
        subst he
        exact ⟨_, rfl⟩
    · rw [if_neg hv]
      cases blk.data with
      | none => exact ⟨_, rfl⟩
      | some data => exact ⟨_, rfl⟩
  obtain ⟨n, hn⟩ := htotal
  unfold nodeNoEx
  rw [hn]

/-- The faces of a closed run come after what `dest` held. -/
theorem rowFace_dest {Tile : Type} (me : MeshEnv Tile) (translate_dir : v3s16)
    (translate_dir_f : v3f) (face_dir : v3s16) (face_dir_f : v3f) (temp_mods : NodeModMap)
    (s : RowState Tile) (c : Nat) :
    rowFace me translate_dir translate_dir_f face_dir face_dir_f temp_mods s c
      = s.dest ++ rowFace me translate_dir translate_dir_f face_dir face_dir_f temp_mods
          { s with dest := [] } c := by
  unfold rowFace makeFastFace
  dsimp only
  by_cases h0 : me.face_contents (getNodeContent s.p s.n0 temp_mods)
      (getNodeContent (v3s16.add s.p face_dir) s.n1 temp_mods) ≠ 0
  · rw [if_pos h0, if_pos h0]
    by_cases h1 : me.face_contents (getNodeContent s.p s.n0 temp_mods)
        (getNodeContent (v3s16.add s.p face_dir) s.n1 temp_mods) = 1
    · rw [if_pos h1, if_pos h1]
      rfl
    · rw [if_neg h1, if_neg h1]
      rfl
  · rw [if_neg h0, if_neg h0]
    simp

theorem rowMerged_refl {σ Tile : Type} (env : Env) (ne : NodeEnv) (me : MeshEnv Tile)
    (par : NodeContainer σ) (st : σ) (blk : MapBlock) (daynight_ratio : Nat)
    (startpos translate_dir face_dir : v3s16) (temp_mods : NodeModMap) (a : Nat) :
    rowMerged env ne me par st blk daynight_ratio startpos translate_dir face_dir temp_mods
      a a = true := by
  unfold rowMerged
  rw [Nat.sub_self]
  rfl

theorem rowMerged_succ {σ Tile : Type} (env : Env) (ne : NodeEnv) (me : MeshEnv Tile)
    (par : NodeContainer σ) (st : σ) (blk : MapBlock) (daynight_ratio : Nat)
    (startpos translate_dir face_dir : v3s16) (temp_mods : NodeModMap) (a b : Nat)
    (hab : a ≤ b)
    (h : rowMerged env ne me par st blk daynight_ratio startpos translate_dir face_dir
      temp_mods a b = true)
    (hnext : sameFace env ne me par st blk daynight_ratio face_dir temp_mods
      (rowPos startpos translate_dir a) (rowPos startpos translate_dir (b + 1)) = true) :
    rowMerged env ne me par st blk daynight_ratio startpos translate_dir face_dir temp_mods
      a (b + 1) = true := by
  unfold rowMerged at h ⊢
  rw [List.all_eq_true] at h ⊢
  intro k hk
  rw [List.mem_range] at hk
  by_cases hkb : k < b - a
  · exact h k (List.mem_range.2 hkb)
  · have e : a + k + 1 = b + 1 := by omega
    rw [e]
    exact hnext

/-- The loop of `updateFastFaceRow` runs through, and every face that it adds
to `dest` is the face of a run `a..b` of merged positions, built when the run
is closed at `b`. -/
theorem row_faces_runs {σ Tile : Type} (env : Env) (ne : NodeEnv) (me : MeshEnv Tile)
    (par : NodeContainer σ) (st : σ) (blk : MapBlock) (daynight_ratio : Nat)
    (startpos : v3s16) (length : Nat) (translate_dir : v3s16) (translate_dir_f : v3f)
    (face_dir : v3s16) (face_dir_f : v3f) (dest : List (FastFace Tile))
    (temp_mods : NodeModMap) (hpar : ParentContract par st) :
    ∃ faces, updateFastFaceRow env ne me par st blk daynight_ratio startpos length
        translate_dir translate_dir_f face_dir face_dir_f dest temp_mods
        = Except.ok (dest ++ faces)
      ∧ ∀ f, f ∈ faces → ∃ a b, a ≤ b ∧ b < length
          ∧ rowMerged env ne me par st blk daynight_ratio startpos translate_dir face_dir
              temp_mods a b = true
          ∧ f ∈ rowFace me translate_dir translate_dir_f face_dir face_dir_f temp_mods
              (rowStateAt env ne me par st blk daynight_ratio startpos translate_dir face_dir
                temp_mods a b []) (b - a + 1) := by
  have hloop := forLoopE_inv
    (rowBody env ne me par st blk daynight_ratio length translate_dir translate_dir_f
      face_dir face_dir_f temp_mods)
    (fun j s => ∃ faces, s.dest = dest ++ faces
      ∧ (∀ f, f ∈ faces → ∃ a b, a ≤ b ∧ b < j
          ∧ rowMerged env ne me par st blk daynight_ratio startpos translate_dir face_dir
              temp_mods a b = true
          ∧ f ∈ rowFace me translate_dir translate_dir_f face_dir face_dir_f temp_mods
              (rowStateAt env ne me par st blk daynight_ratio startpos translate_dir face_dir
                temp_mods a b []) (b - a + 1))
      ∧ (j < length → ∃ a, a ≤ j
          ∧ rowMerged env ne me par st blk daynight_ratio startpos translate_dir face_dir
              temp_mods a j = true
          ∧ s = rowStateAt env ne me par st blk daynight_ratio startpos translate_dir face_dir
              temp_mods a j s.dest))
    length
    (rowStateAt env ne me par st blk daynight_ratio startpos translate_dir face_dir
      temp_mods 0 0 dest)
    ⟨[], by simp [rowStateAt], by simp,
      fun _ => ⟨0, le_refl 0, rowMerged_refl env ne me par st blk daynight_ratio startpos
        translate_dir face_dir temp_mods 0, rfl⟩⟩
    (by
      intro j s hj hI
      obtain ⟨faces, hdest, hfaces, hopen⟩ := hI
      obtain ⟨a, haj, hmerged, hs⟩ := hopen hj
      have hclose : ∀ nx : RowNext Tile, ∃ t1,
          (Except.ok ⟨nx.p_next, 0, nx.n0_next, nx.n1_next, nx.light_next, nx.tile0_next,
            nx.tile1_next,
            rowFace me translate_dir translate_dir_f face_dir face_dir_f temp_mods s
              (s.continuous_tiles_count + 1)⟩ : Except Exc (RowState Tile)) = Except.ok t1
          ∧ ∃ faces1, t1.dest = dest ++ faces1
            ∧ (∀ f, f ∈ faces1 → ∃ a b, a ≤ b ∧ b < j + 1
              ∧ rowMerged env ne me par st blk daynight_ratio startpos translate_dir face_dir
                  temp_mods a b = true
              ∧ f ∈ rowFace me translate_dir translate_dir_f face_dir face_dir_f temp_mods
                  (rowStateAt env ne me par st blk daynight_ratio startpos translate_dir
                    face_dir temp_mods a b []) (b - a + 1))
            ∧ t1 = ⟨nx.p_next, 0, nx.n0_next, nx.n1_next, nx.light_next, nx.tile0_next,
                nx.tile1_next, t1.dest⟩ := by
        intro nx
        refine ⟨_, rfl, faces ++ rowFace me translate_dir translate_dir_f face_dir face_dir_f
          temp_mods { s with dest := [] } (s.continuous_tiles_count + 1), ?_, ?_, rfl⟩
        · show rowFace me translate_dir translate_dir_f face_dir face_dir_f temp_mods s
            (s.continuous_tiles_count + 1) = _
          rw [rowFace_dest, hdest, List.append_assoc]
        · intro f hf
          rcases List.mem_append.1 hf with h | h
          · obtain ⟨a1, b1, h1, h2, h3, h4⟩ := hfaces f h
            exact ⟨a1, b1, h1, Nat.lt_succ_of_lt h2, h3, h4⟩
          · refine ⟨a, j, haj, Nat.lt_succ_self j, hmerged, ?_⟩
            have e : ({ s with dest := [] } : RowState Tile)
                = rowStateAt env ne me par st blk daynight_ratio startpos translate_dir
                    face_dir temp_mods a j [] := by
              rw [hs]
              rfl
            have ec : s.continuous_tiles_count + 1 = j - a + 1 := by
              rw [hs]
              rfl
            rw [← e, ← ec]
            exact h
      unfold rowBody
      by_cases hlast : (j : Int) ≠ (length : Int) - 1
      · rw [if_pos hlast]
        unfold rowLookahead
        have hp : s.p = rowPos startpos translate_dir j := by
          rw [hs]
          rfl
        rw [hp]
        dsimp only
        rw [getNodeParentNoEx_eq env par st blk _ hpar]
        dsimp only
        rw [getNodeParentNoEx_eq env par st blk _ hpar]
        dsimp only
        by_cases hsame : me.tile_eq (getNodeTile env me
              (nodeNoEx env par st blk (v3s16.add (rowPos startpos translate_dir j)
                translate_dir))
              (v3s16.add (rowPos startpos translate_dir j) translate_dir) face_dir temp_mods)
              s.tile0 = true
            ∧ me.tile_eq (getNodeTile env me
              (nodeNoEx env par st blk (v3s16.add (v3s16.add (rowPos startpos translate_dir j)
                translate_dir) face_dir))
              (v3s16.add (v3s16.add (rowPos startpos translate_dir j) translate_dir) face_dir)
              (v3s16.neg face_dir) temp_mods) s.tile1 = true
            ∧ getFaceLight ne me daynight_ratio
              (nodeNoEx env par st blk (v3s16.add (rowPos startpos translate_dir j)
                translate_dir))
              (nodeNoEx env par st blk (v3s16.add (v3s16.add (rowPos startpos translate_dir j)
                translate_dir) face_dir)) face_dir = s.light
        · rw [if_pos hsame]
          by_cases hend : endOfTexture me s.tile0 s.tile1 (s.continuous_tiles_count + 1) = true
          · rw [if_pos (Or.inr hend)]
            obtain ⟨t1, ht1, faces1, h1, h2, h3⟩ := hclose
              ⟨false, v3s16.add (rowPos startpos translate_dir j) translate_dir,
                nodeNoEx env par st blk (v3s16.add (rowPos startpos translate_dir j)
                  translate_dir),
                nodeNoEx env par st blk (v3s16.add (v3s16.add (rowPos startpos translate_dir j)
                  translate_dir) face_dir),
                getNodeTile env me
                  (nodeNoEx env par st blk (v3s16.add (rowPos startpos translate_dir j)
                    translate_dir))
                  (v3s16.add (rowPos startpos translate_dir j) translate_dir) face_dir
                  temp_mods,
                getNodeTile env me
                  (nodeNoEx env par st blk (v3s16.add (v3s16.add
                    (rowPos startpos translate_dir j) translate_dir) face_dir))
                  (v3s16.add (v3s16.add (rowPos startpos translate_dir j) translate_dir)
                    face_dir)
                  (v3s16.neg face_dir) temp_mods,
                getFaceLight ne me daynight_ratio
                  (nodeNoEx env par st blk (v3s16.add (rowPos startpos translate_dir j)
                    translate_dir))
                  (nodeNoEx env par st blk (v3s16.add (v3s16.add
                    (rowPos startpos translate_dir j) translate_dir) face_dir)) face_dir⟩
            refine ⟨t1, ht1, faces1, h1, h2, ?_⟩
            intro _
            refine ⟨j + 1, le_refl _, rowMerged_refl env ne me par st blk daynight_ratio
              startpos translate_dir face_dir temp_mods (j + 1), ?_⟩
            rw [h3]
            unfold rowStateAt
            rw [Nat.sub_self]
            rfl
          · have hnot : ¬ ((false : Bool) = true
                ∨ endOfTexture me s.tile0 s.tile1 (s.continuous_tiles_count + 1) = true) := by
              rintro (h | h)
              · cases h
              · exact hend h
            rw [if_neg hnot]
            refine ⟨_, rfl, faces, hdest, ?_, ?_⟩
            · intro f hf
              obtain ⟨a1, b1, h1, h2, h3, h4⟩ := hfaces f hf
              exact ⟨a1, b1, h1, Nat.lt_succ_of_lt h2, h3, h4⟩
            · intro _
              refine ⟨a, Nat.le_succ_of_le haj, ?_, ?_⟩
              · apply rowMerged_succ env ne me par st blk daynight_ratio startpos translate_dir
                  face_dir temp_mods a j haj hmerged
                have h0 : s.tile0 = faceTile0 env me par st blk face_dir temp_mods
                    (rowPos startpos translate_dir a) := by
                  rw [hs]
                  rfl
                have h1 : s.tile1 = faceTile1 env me par st blk face_dir temp_mods
                    (rowPos startpos translate_dir a) := by
                  rw [hs]
                  rfl
                have h2 : s.light = faceLightAt env ne me par st blk daynight_ratio face_dir
                    (rowPos startpos translate_dir a) := by
                  rw [hs]
                  rfl
                rw [h0, h1, h2] at hsame
                unfold sameFace
                rw [Bool.and_eq_true, Bool.and_eq_true, decide_eq_true_eq]
                exact ⟨⟨hsame.1, hsame.2.1⟩, hsame.2.2⟩
              · have e : j + 1 - a = j - a + 1 := by omega
                show _ = rowStateAt env ne me par st blk daynight_ratio startpos translate_dir
                  face_dir temp_mods a (j + 1) s.dest
                unfold rowStateAt
                rw [e]
                conv_lhs => rw [hs]
                rfl
        · rw [if_neg hsame, if_pos (Or.inl rfl)]
          obtain ⟨t1, ht1, faces1, h1, h2, h3⟩ := hclose
            ⟨true, v3s16.add (rowPos startpos translate_dir j) translate_dir,
              nodeNoEx env par st blk (v3s16.add (rowPos startpos translate_dir j)
                translate_dir),
              nodeNoEx env par st blk (v3s16.add (v3s16.add (rowPos startpos translate_dir j)
                translate_dir) face_dir),
              getNodeTile env me
                (nodeNoEx env par st blk (v3s16.add (rowPos startpos translate_dir j)
                  translate_dir))
                (v3s16.add (rowPos startpos translate_dir j) translate_dir) face_dir
                temp_mods,
              getNodeTile env me
                (nodeNoEx env par st blk (v3s16.add (v3s16.add
                  (rowPos startpos translate_dir j) translate_dir) face_dir))
                (v3s16.add (v3s16.add (rowPos startpos translate_dir j) translate_dir)
                  face_dir)
                (v3s16.neg face_dir) temp_mods,
              getFaceLight ne me daynight_ratio
                (nodeNoEx env par st blk (v3s16.add (rowPos startpos translate_dir j)
                  translate_dir))
                (nodeNoEx env par st blk (v3s16.add (v3s16.add
                  (rowPos startpos translate_dir j) translate_dir) face_dir)) face_dir⟩
          refine ⟨t1, ht1, faces1, h1, h2, ?_⟩
          intro _
          refine ⟨j + 1, le_refl _, rowMerged_refl env ne me par st blk daynight_ratio
            startpos translate_dir face_dir temp_mods (j + 1), ?_⟩
          rw [h3]
          unfold rowStateAt
          rw [Nat.sub_self]
          rfl
      · rw [if_neg hlast]
        dsimp only
        have hdiff : (rowNextInit me).next_is_different = true := rfl
        rw [if_pos (Or.inl hdiff)]
        obtain ⟨t1, ht1, faces1, h1, h2, _⟩ := hclose (rowNextInit me)
        refine ⟨t1, ht1, faces1, h1, h2, ?_⟩
        intro hlt
        exfalso
        apply hlast
        intro heq
        omega)
  obtain ⟨t, ht, faces, hdest, hfaces, _⟩ := hloop
  refine ⟨faces, ?_, hfaces⟩
  unfold updateFastFaceRow
  dsimp only
  rw [getNodeParentNoEx_eq env par st blk _ hpar]
  dsimp only
  rw [getNodeParentNoEx_eq env par st blk _ hpar]
  dsimp only
  have hinit : (⟨startpos, 0, nodeNoEx env par st blk startpos,
      nodeNoEx env par st blk (v3s16.add startpos face_dir),
      getFaceLight ne me daynight_ratio (nodeNoEx env par st blk startpos)
        (nodeNoEx env par st blk (v3s16.add startpos face_dir)) face_dir,
      getNodeTile env me (nodeNoEx env par st blk startpos) startpos face_dir temp_mods,
      getNodeTile env me (nodeNoEx env par st blk (v3s16.add startpos face_dir))
        (v3s16.add startpos face_dir) (v3s16.neg face_dir) temp_mods, dest⟩ : RowState Tile)
      = rowStateAt env ne me par st blk daynight_ratio startpos translate_dir face_dir
          temp_mods 0 0 dest := rfl
  rw [hinit, ht]
  dsimp only
  rw [hdest]

theorem wrap16_range (i : Int) (h0 : -32768 ≤ i) (h1 : i < 32768) : wrap16 i = i := by
  unfold wrap16
  omega

/-- The positions of a line along a positive axis that stays within the range
of `s16`. -/
theorem rowPos_coords (startpos translate_dir : v3s16) (n : Nat)
    (htd : translate_dir = ⟨1, 0, 0⟩ ∨ translate_dir = ⟨0, 1, 0⟩ ∨ translate_dir = ⟨0, 0, 1⟩)
    (hrange : -32768 ≤ startpos.X ∧ startpos.X + n ≤ 32768 ∧ -32768 ≤ startpos.Y
      ∧ startpos.Y + n ≤ 32768 ∧ -32768 ≤ startpos.Z ∧ startpos.Z + n ≤ 32768)
    (i : Nat) (hi : i < n) :
    rowPos startpos translate_dir i
      = ⟨startpos.X + i * translate_dir.X, startpos.Y + i * translate_dir.Y,
          startpos.Z + i * translate_dir.Z⟩ := by
  induction i with
  | zero =>
    show startpos = _
    cases startpos
    simp
  | succ k ih =>
    show v3s16.add (rowPos startpos translate_dir k) translate_dir = _
    rw [ih (by omega)]
    unfold v3s16.add
    obtain ⟨h1, h2, h3, h4, h5, h6⟩ := hrange
    rcases htd with h | h | h
    · subst h
      simp only [v3s16.mk.injEq]
      refine ⟨?_, ?_, ?_⟩
      · rw [wrap16_range _ (by omega) (by omega)]
        push_cast
        ring
      · rw [wrap16_range _ (by omega) (by omega)]
        ring
      · rw [wrap16_range _ (by omega) (by omega)]
        ring
    · subst h
      simp only [v3s16.mk.injEq]
      refine ⟨?_, ?_, ?_⟩
      · rw [wrap16_range _ (by omega) (by omega)]
        ring
      · rw [wrap16_range _ (by omega) (by omega)]
        push_cast
        ring
      · rw [wrap16_range _ (by omega) (by omega)]
        ring
    · subst h
      simp only [v3s16.mk.injEq]
      refine ⟨?_, ?_, ?_⟩
      · rw [wrap16_range _ (by omega) (by omega)]
        ring
      · rw [wrap16_range _ (by omega) (by omega)]
        ring
      · rw [wrap16_range _ (by omega) (by omega)]
        push_cast
        ring

/-- A face of the run `a..b` is there only if the contents that decide on the
run draw a face; it has the scale of the run, and it lies at the middle of the
run facing `face_dir`, or one node further along `face_dir_f` facing
`-face_dir`. -/
theorem mem_rowFace {σ Tile : Type} (env : Env) (ne : NodeEnv) (me : MeshEnv Tile)
    (par : NodeContainer σ) (st : σ) (blk : MapBlock) (daynight_ratio : Nat)
    (startpos translate_dir : v3s16) (translate_dir_f : v3f) (face_dir : v3s16)
    (face_dir_f : v3f) (temp_mods : NodeModMap) (a b c : Nat) (f : FastFace Tile)
    (h : f ∈ rowFace me translate_dir translate_dir_f face_dir face_dir_f temp_mods
      (rowStateAt env ne me par st blk daynight_ratio startpos translate_dir face_dir
        temp_mods a b []) c) :
    runContents env me par st blk face_dir temp_mods (rowPos startpos translate_dir a)
        (rowPos startpos translate_dir b) ≠ 0
      ∧ f.scale = ⟨if translate_dir.X ≠ 0 then c else 1, if translate_dir.Y ≠ 0 then c else 1,
          if translate_dir.Z ≠ 0 then c else 1⟩
      ∧ ((f.dir = face_dir
          ∧ f.p2 = ⟨2 * (rowPos startpos translate_dir b).X - ((c : Int) - 1) * translate_dir_f.X,
              2 * (rowPos startpos translate_dir b).Y - ((c : Int) - 1) * translate_dir_f.Y,
              2 * (rowPos startpos translate_dir b).Z - ((c : Int) - 1) * translate_dir_f.Z⟩)
        ∨ (f.dir = v3s16.neg face_dir
          ∧ f.p2 = ⟨2 * (rowPos startpos translate_dir b).X
                - ((c : Int) - 1) * translate_dir_f.X + 2 * face_dir_f.X,
              2 * (rowPos startpos translate_dir b).Y
                - ((c : Int) - 1) * translate_dir_f.Y + 2 * face_dir_f.Y,
              2 * (rowPos startpos translate_dir b).Z
                - ((c : Int) - 1) * translate_dir_f.Z + 2 * face_dir_f.Z⟩)) := by
  unfold rowFace rowStateAt makeFastFace at h
  dsimp only at h
  by_cases h0 : me.face_contents
      (getNodeContent (rowPos startpos translate_dir b)
        (nodeNoEx env par st blk (rowPos startpos translate_dir a)) temp_mods)
      (getNodeContent (v3s16.add (rowPos startpos translate_dir b) face_dir)
        (nodeNoEx env par st blk (v3s16.add (rowPos startpos translate_dir a) face_dir))
        temp_mods) ≠ 0
  · rw [if_pos h0] at h
    refine ⟨h0, ?_⟩
    by_cases h1 : me.face_contents
        (getNodeContent (rowPos startpos translate_dir b)
          (nodeNoEx env par st blk (rowPos startpos translate_dir a)) temp_mods)
        (getNodeContent (v3s16.add (rowPos startpos translate_dir b) face_dir)
          (nodeNoEx env par st blk (v3s16.add (rowPos startpos translate_dir a) face_dir))
          temp_mods) = 1
    · rw [if_pos h1] at h
      simp only [List.nil_append, List.mem_singleton] at h
      subst h
      exact ⟨rfl, Or.inl ⟨rfl, rfl⟩⟩
    · rw [if_neg h1] at h
      simp only [List.nil_append, List.mem_singleton] at h
      subst h
      exact ⟨rfl, Or.inr ⟨rfl, rfl⟩⟩
  · rw [if_neg h0] at h
    cases h

/-- A face of the run `a..b` covers the boundary at position `i` of the line
only if `i` is in the run. -/
theorem covers_in_run {σ Tile : Type} (env : Env) (ne : NodeEnv) (me : MeshEnv Tile)
    (par : NodeContainer σ) (st : σ) (blk : MapBlock) (daynight_ratio : Nat)
    (startpos : v3s16) (length : Nat) (translate_dir : v3s16) (translate_dir_f : v3f)
    (face_dir : v3s16) (face_dir_f : v3f) (temp_mods : NodeModMap) (a b i : Nat)
    (f : FastFace Tile)
    (htd : translate_dir = ⟨1, 0, 0⟩ ∨ translate_dir = ⟨0, 1, 0⟩ ∨ translate_dir = ⟨0, 0, 1⟩)
    (htf : translate_dir_f = ⟨translate_dir.X, translate_dir.Y, translate_dir.Z⟩)
    (hfd : face_dir ≠ v3s16.neg face_dir)
    (hrange : -32768 ≤ startpos.X ∧ startpos.X + length ≤ 32768 ∧ -32768 ≤ startpos.Y
      ∧ startpos.Y + length ≤ 32768 ∧ -32768 ≤ startpos.Z ∧ startpos.Z + length ≤ 32768)
    (hab : a ≤ b) (hb : b < length) (hi : i < length)
    (h : f ∈ rowFace me translate_dir translate_dir_f face_dir face_dir_f temp_mods
      (rowStateAt env ne me par st blk daynight_ratio startpos translate_dir face_dir
        temp_mods a b []) (b - a + 1))
    (hc : f.covers face_dir face_dir_f (rowPos startpos translate_dir i) = true) :
    a ≤ i ∧ i ≤ b := by
  obtain ⟨_, hscale, hface⟩ := mem_rowFace env ne me par st blk daynight_ratio startpos
    translate_dir translate_dir_f face_dir face_dir_f temp_mods a b (b - a + 1) f h
  rw [rowPos_coords startpos translate_dir length htd hrange b hb] at hface
  unfold FastFace.covers FastFace.spans at hc
  rw [rowPos_coords startpos translate_dir length htd hrange i hi, hscale] at hc
  simp only [Bool.or_eq_true, Bool.and_eq_true, decide_eq_true_eq] at hc
  subst htf
  rcases hface with ⟨hdir, hp2⟩ | ⟨hdir, hp2⟩
  · rw [hdir, hp2] at hc
    rcases hc with ⟨_, h1⟩ | ⟨h0, _⟩
    · rcases htd with ht | ht | ht
      · subst ht
        simp only at h1
        omega
      · subst ht
        simp only at h1
        omega
      · subst ht
        simp only at h1
        omega
    · exact absurd h0 hfd
  · rw [hdir, hp2] at hc
    rcases hc with ⟨h0, _⟩ | ⟨_, h1⟩
    · exact absurd h0.symm hfd
    · rcases htd with ht | ht | ht
      · subst ht
        simp only at h1
        omega
      · subst ht
        simp only at h1
        omega
      · subst ht
        simp only at h1
        omega

/-- No face where the runs draw none: for a sweep line of `updateFastFaceRow`
along a positive axis that stays within the range of `s16`, with `translate_dir_f` equal to
`translate_dir`, `face_dir` different from `-face_dir` and a parent that
keeps its contract: the call succeeds, and no face that it adds to `dest`
covers the boundary at a position `i` of the line if `face_contents` gives 0
on the contents that decide on every run of merged positions `a..b` that
contains `i` -- the contents of the nodes at the first position of the run,
with the overlay looked up at its last position. For the run that consists of
the position alone these are the two contents that straddle its face. -/
theorem no_face_where_runs_draw_none {σ Tile : Type} (env : Env) (ne : NodeEnv)
    (me : MeshEnv Tile) (par : NodeContainer σ) (st : σ) (blk : MapBlock)
    (daynight_ratio : Nat) (startpos : v3s16) (length : Nat) (translate_dir : v3s16)
    (translate_dir_f : v3f) (face_dir : v3s16) (face_dir_f : v3f)
    (dest : List (FastFace Tile)) (temp_mods : NodeModMap) (i : Nat)
    (hpar : ParentContract par st)
    (htd : translate_dir = ⟨1, 0, 0⟩ ∨ translate_dir = ⟨0, 1, 0⟩ ∨ translate_dir = ⟨0, 0, 1⟩)
    (htf : translate_dir_f = ⟨translate_dir.X, translate_dir.Y, translate_dir.Z⟩)
    (hfd : face_dir ≠ v3s16.neg face_dir)
    (hrange : -32768 ≤ startpos.X ∧ startpos.X + length ≤ 32768 ∧ -32768 ≤ startpos.Y
      ∧ startpos.Y + length ≤ 32768 ∧ -32768 ≤ startpos.Z ∧ startpos.Z + length ≤ 32768)
    (hi : i < length)
    (hzero : ∀ a b, a ≤ i → i ≤ b → b < length →
      rowMerged env ne me par st blk daynight_ratio startpos translate_dir face_dir temp_mods
        a b = true →
      runContents env me par st blk face_dir temp_mods (rowPos startpos translate_dir a)
        (rowPos startpos translate_dir b) = 0) :
    (∃ faces, updateFastFaceRow env ne me par st blk daynight_ratio startpos length
        translate_dir translate_dir_f face_dir face_dir_f dest temp_mods
        = Except.ok (dest ++ faces)
      ∧ ∀ f, f ∈ faces →
          f.covers face_dir face_dir_f (rowPos startpos translate_dir i) = false)
    ∧ runContents env me par st blk face_dir temp_mods (rowPos startpos translate_dir i)
        (rowPos startpos translate_dir i)
      = faceContentsAt env me par st blk face_dir temp_mods
          (rowPos startpos translate_dir i) := by
  refine ⟨?_, rfl⟩
  obtain ⟨faces, hrun, hfaces⟩ := row_faces_runs env ne me par st blk daynight_ratio startpos
    length translate_dir translate_dir_f face_dir face_dir_f dest temp_mods hpar
  refine ⟨faces, hrun, ?_⟩
  intro f hf
  obtain ⟨a, b, hab, hb, hmerged, hmem⟩ := hfaces f hf
  cases hc : f.covers face_dir face_dir_f (rowPos startpos translate_dir i) with
  | false => rfl
  | true =>
    obtain ⟨hai, hib⟩ := covers_in_run env ne me par st blk daynight_ratio startpos length
      translate_dir translate_dir_f face_dir face_dir_f temp_mods a b i f htd htf hfd hrange
      hab hb hi hmem hc
    have hz := hzero a b hai hib hb hmerged
    have hnz := (mem_rowFace env ne me par st blk daynight_ratio startpos translate_dir
      translate_dir_f face_dir face_dir_f temp_mods a b (b - a + 1) f hmem).1
    exact absurd hz hnz

/-- C20: on the example block with the content of `(0,0,0)` (stone)
overridden by air, both positions of the line `(0,0,0)`, `(1,0,0)` have air on
either side of the face towards `(0,1,0)`, so `face_contents` gives 0 at
both, and yet `updateFastFaceRow` adds a face that covers both boundaries:
the run is closed at `(1,0,0)`, where no overlay is found, and the decision
is taken with the node of `(0,0,0)`, which is stone. -/
theorem face_between_equal_contents :
    ∃ faces f,
      updateFastFaceRow exampleEnv exampleNodeEnv exampleMeshEnv exampleParent []
        exampleStoneBlock 1000 ⟨0, 0, 0⟩ 2 ⟨1, 0, 0⟩ ⟨1, 0, 0⟩ ⟨0, 1, 0⟩ ⟨0, 1, 0⟩ []
        exampleMods = Except.ok faces
      ∧ f ∈ faces
      ∧ faceContentsAt exampleEnv exampleMeshEnv exampleParent [] exampleStoneBlock ⟨0, 1, 0⟩
          exampleMods (rowPos ⟨0, 0, 0⟩ ⟨1, 0, 0⟩ 0) = 0
      ∧ f.covers ⟨0, 1, 0⟩ ⟨0, 1, 0⟩ (rowPos ⟨0, 0, 0⟩ ⟨1, 0, 0⟩ 0) = true
      ∧ faceContentsAt exampleEnv exampleMeshEnv exampleParent [] exampleStoneBlock ⟨0, 1, 0⟩
          exampleMods (rowPos ⟨0, 0, 0⟩ ⟨1, 0, 0⟩ 1) = 0
      ∧ f.covers ⟨0, 1, 0⟩ ⟨0, 1, 0⟩ (rowPos ⟨0, 0, 0⟩ ⟨1, 0, 0⟩ 1) = true :=
  ⟨[⟨254, 0, ⟨1, 0, 0⟩, ⟨0, 1, 0⟩, ⟨2, 1, 1⟩⟩], ⟨254, 0, ⟨1, 0, 0⟩, ⟨0, 1, 0⟩, ⟨2, 1, 1⟩⟩,
    by decide, by decide, by decide, by decide, by decide, by decide⟩

theorem no_face_where_runs_draw_none_witness :
    faceContentsAt exampleEnv exampleMeshEnv exampleParent [] exampleStoneBlock ⟨0, 1, 0⟩
        (fun _ => none) (rowPos ⟨0, 0, 0⟩ ⟨1, 0, 0⟩ 1) = 0
    ∧ updateFastFaceRow exampleEnv exampleNodeEnv exampleMeshEnv exampleParent []
        exampleStoneBlock 1000 ⟨0, 0, 0⟩ 2 ⟨1, 0, 0⟩ ⟨1, 0, 0⟩ ⟨0, 1, 0⟩ ⟨0, 1, 0⟩ []
        (fun _ => none) = Except.ok [⟨0, 0, ⟨0, 0, 0⟩, ⟨0, 1, 0⟩, ⟨1, 1, 1⟩⟩]
    ∧ ∃ faces, updateFastFaceRow exampleEnv exampleNodeEnv exampleMeshEnv exampleParent []
        exampleStoneBlock 1000 ⟨0, 0, 0⟩ 2 ⟨1, 0, 0⟩ ⟨1, 0, 0⟩ ⟨0, 1, 0⟩ ⟨0, 1, 0⟩ []
        (fun _ => none) = Except.ok ([] ++ faces)
      ∧ ∀ f, f ∈ faces →
          f.covers ⟨0, 1, 0⟩ ⟨0, 1, 0⟩ (rowPos ⟨0, 0, 0⟩ ⟨1, 0, 0⟩ 1) = false :=
  ⟨by decide, by decide,
    (no_face_where_runs_draw_none exampleEnv exampleNodeEnv exampleMeshEnv exampleParent []
      exampleStoneBlock 1000 ⟨0, 0, 0⟩ 2 ⟨1, 0, 0⟩ ⟨1, 0, 0⟩ ⟨0, 1, 0⟩ ⟨0, 1, 0⟩ []
      (fun _ => none) 1 (exampleParent_contract _) (Or.inl rfl) rfl (by decide) (by decide)
      (by decide)
      (fun a b ha hb hbl hm => by
        have hb1 : b = 1 := by omega
        subst hb1
        have ha01 : a = 0 ∨ a = 1 := by omega
        rcases ha01 with h | h
        · subst h
          exact absurd hm (by decide)
        · subst h
          decide)).1⟩

/-! ## Face light, node tile and node content -/

theorem brighter_eq_max (l1 l2 : u8) : (if l1 > l2 then l1 else l2) = max l1 l2 := by
  by_cases h : l1 > l2
  · rw [if_pos h, max_eq_left (le_of_lt h)]
  · rw [if_neg h, max_eq_right (not_lt.mp h)]

/-- C23: `getFaceLight` returns the larger `m` of the two blended lights not
diminished for `face_dir = (0,1,0)`, diminished once for `(0,0,1)` and
`(0,0,-1)`, and diminished twice for `(1,0,0)`, `(-1,0,0)` and `(0,-1,0)`; the
result is the same with `n` and `n2` exchanged, for every `face_dir`; and if
`diminish_light` never raises a light, no face is brighter than the face
towards `(0,1,0)` of the same two nodes. -/
theorem face_light_by_direction {Tile : Type} (ne : NodeEnv) (me : MeshEnv Tile)
    (daynight_ratio : Nat) (n n2 : MapNode) :
    getFaceLight ne me daynight_ratio n n2 ⟨0, 1, 0⟩
        = max (me.getLightBlend n daynight_ratio) (me.getLightBlend n2 daynight_ratio)
    ∧ getFaceLight ne me daynight_ratio n n2 ⟨0, 0, 1⟩
        = ne.diminish_light
            (max (me.getLightBlend n daynight_ratio) (me.getLightBlend n2 daynight_ratio))
    ∧ getFaceLight ne me daynight_ratio n n2 ⟨0, 0, -1⟩
        = ne.diminish_light
            (max (me.getLightBlend n daynight_ratio) (me.getLightBlend n2 daynight_ratio))
    ∧ getFaceLight ne me daynight_ratio n n2 ⟨1, 0, 0⟩
        = ne.diminish_light (ne.diminish_light
            (max (me.getLightBlend n daynight_ratio) (me.getLightBlend n2 daynight_ratio)))
    ∧ getFaceLight ne me daynight_ratio n n2 ⟨-1, 0, 0⟩
        = ne.diminish_light (ne.diminish_light
            (max (me.getLightBlend n daynight_ratio) (me.getLightBlend n2 daynight_ratio)))
    ∧ getFaceLight ne me daynight_ratio n n2 ⟨0, -1, 0⟩
        = ne.diminish_light (ne.diminish_light
            (max (me.getLightBlend n daynight_ratio) (me.getLightBlend n2 daynight_ratio)))
    ∧ (∀ face_dir, getFaceLight ne me daynight_ratio n n2 face_dir
        = getFaceLight ne me daynight_ratio n2 n face_dir)
    ∧ ((∀ l, ne.diminish_light l ≤ l) →
        ∀ face_dir, getFaceLight ne me daynight_ratio n n2 face_dir
          ≤ getFaceLight ne me daynight_ratio n n2 ⟨0, 1, 0⟩) := by
  have hform : ∀ a b : MapNode, ∀ face_dir : v3s16,
      getFaceLight ne me daynight_ratio a b face_dir
        = if face_dir.X = 1 ∨ face_dir.X = -1 ∨ face_dir.Y = -1 then
            ne.diminish_light (ne.diminish_light
              (max (me.getLightBlend a daynight_ratio) (me.getLightBlend b daynight_ratio)))
          else if face_dir.Z = 1 ∨ face_dir.Z = -1 then
            ne.diminish_light
              (max (me.getLightBlend a daynight_ratio) (me.getLightBlend b daynight_ratio))
          else max (me.getLightBlend a daynight_ratio) (me.getLightBlend b daynight_ratio) := by
    intro a b face_dir
    unfold getFaceLight
    dsimp only
    rw [brighter_eq_max]
  have htop : getFaceLight ne me daynight_ratio n n2 ⟨0, 1, 0⟩
      = max (me.getLightBlend n daynight_ratio) (me.getLightBlend n2 daynight_ratio) := by
    rw [hform]
    rw [if_neg (by decide), if_neg (by decide)]
  refine ⟨htop, ?_, ?_, ?_, ?_, ?_, ?_, ?_⟩
  · rw [hform, if_neg (by decide), if_pos (by decide)]
  · rw [hform, if_neg (by decide), if_pos (by decide)]
  · rw [hform, if_pos (by decide)]
  · rw [hform, if_pos (by decide)]
  · rw [hform, if_pos (by decide)]
  · intro face_dir
    rw [hform, hform, max_comm]
  · intro hdim face_dir
    rw [htop, hform]
    by_cases h1 : face_dir.X = 1 ∨ face_dir.X = -1 ∨ face_dir.Y = -1
    · rw [if_pos h1]
      exact le_trans (hdim _) (hdim _)
    · rw [if_neg h1]
      by_cases h2 : face_dir.Z = 1 ∨ face_dir.Z = -1
      · rw [if_pos h2]
        exact hdim _
      · rw [if_neg h2]

theorem face_light_by_direction_witness :
    getFaceLight exampleNodeEnv exampleMeshEnv 1000 ⟨0, 14, 0⟩ ⟨254, 9, 0⟩ ⟨0, 1, 0⟩ = 14
    ∧ getFaceLight exampleNodeEnv exampleMeshEnv 1000 ⟨0, 14, 0⟩ ⟨254, 9, 0⟩ ⟨0, 0, -1⟩ = 13
    ∧ getFaceLight exampleNodeEnv exampleMeshEnv 1000 ⟨0, 14, 0⟩ ⟨254, 9, 0⟩ ⟨1, 0, 0⟩ = 12
    ∧ ∀ face_dir, getFaceLight exampleNodeEnv exampleMeshEnv 1000 ⟨0, 14, 0⟩ ⟨254, 9, 0⟩ face_dir
        ≤ getFaceLight exampleNodeEnv exampleMeshEnv 1000 ⟨0, 14, 0⟩ ⟨254, 9, 0⟩ ⟨0, 1, 0⟩ :=
  ⟨by decide, by decide, by decide,
    (face_light_by_direction exampleNodeEnv exampleMeshEnv 1000 ⟨0, 14, 0⟩
      ⟨254, 9, 0⟩).2.2.2.2.2.2.2 example_diminish_le⟩

/-- C24: with a record of kind `NODEMOD_CHANGECONTENT` at `p`,
`getNodeContent` returns the parameter of the record as content id (the
parameter itself when it is below 256) and `getNodeTile` the tile that a node
of that content has for the same `face_dir`; with a record of another kind or
none `getNodeContent` returns `mn.d`; with a record of kind `NODEMOD_CRACK`
`getNodeTile` returns the cracked tile of `mn`, and with none the tile of
`mn`. -/
theorem overlay_content_and_tile {Tile : Type} (env : Env) (me : MeshEnv Tile) (mn : MapNode)
    (p face_dir : v3s16) (temp_mods : NodeModMap) :
    (∀ mod, temp_mods p = some mod → mod.type = NodeModType.NODEMOD_CHANGECONTENT →
      getNodeContent p mn temp_mods = Fin.ofNat mod.param
      ∧ (mod.param < 256 → (getNodeContent p mn temp_mods).val = mod.param)
      ∧ getNodeTile env me mn p face_dir temp_mods
          = me.getTile (env.nodeOfContent (getNodeContent p mn temp_mods)) face_dir)
    ∧ (∀ mod, temp_mods p = some mod → mod.type ≠ NodeModType.NODEMOD_CHANGECONTENT →
      getNodeContent p mn temp_mods = mn.d)
    ∧ (∀ mod, temp_mods p = some mod → mod.type = NodeModType.NODEMOD_CRACK →
      getNodeContent p mn temp_mods = mn.d
      ∧ getNodeTile env me mn p face_dir temp_mods
          = me.crack (me.getTile mn face_dir) mod.param)
    ∧ (temp_mods p = none →
      getNodeContent p mn temp_mods = mn.d
      ∧ getNodeTile env me mn p face_dir temp_mods = me.getTile mn face_dir) := by
  refine ⟨?_, ?_, ?_, ?_⟩
  · intro mod hmod htype
    have hc : getNodeContent p mn temp_mods = Fin.ofNat mod.param := by
      unfold getNodeContent
      rw [hmod]
      dsimp only
      rw [if_pos htype]
    refine ⟨hc, ?_, ?_⟩
    · intro hlt
      rw [hc]
      show mod.param % 256 = mod.param
      exact Nat.mod_eq_of_lt hlt
    · rw [hc]
      unfold getNodeTile
      rw [hmod]
      dsimp only
      have hne : ¬ mod.type = NodeModType.NODEMOD_CRACK := by
        rw [htype]
        decide
      rw [if_pos htype, if_neg hne]
  · intro mod hmod htype
    unfold getNodeContent
    rw [hmod]
    dsimp only
    rw [if_neg htype]
  · intro mod hmod htype
    have hne : ¬ mod.type = NodeModType.NODEMOD_CHANGECONTENT := by
      rw [htype]
      decide
    constructor
    · unfold getNodeContent
      rw [hmod]
      dsimp only
      rw [if_neg hne]
    · unfold getNodeTile
      rw [hmod]
      dsimp only
      rw [if_neg hne, if_pos htype]
  · intro hnone
    constructor
    · unfold getNodeContent
      rw [hnone]
    · unfold getNodeTile
      rw [hnone]

theorem overlay_content_and_tile_witness :
    getNodeContent ⟨0, 0, 0⟩ ⟨0, 0, 0⟩ exampleMods = 254
    ∧ getNodeTile exampleEnv exampleMeshEnv ⟨0, 0, 0⟩ ⟨0, 0, 0⟩ ⟨0, 1, 0⟩ exampleMods = 254
    ∧ getNodeContent ⟨1, 0, 0⟩ ⟨0, 0, 0⟩ exampleMods = 0
    ∧ getNodeTile exampleEnv exampleMeshEnv ⟨0, 0, 0⟩ ⟨1, 0, 0⟩ ⟨0, 1, 0⟩ exampleMods = 0 :=
  ⟨((overlay_content_and_tile exampleEnv exampleMeshEnv ⟨0, 0, 0⟩ ⟨0, 0, 0⟩ ⟨0, 1, 0⟩
      exampleMods).1 ⟨NodeModType.NODEMOD_CHANGECONTENT, 254⟩ (by decide) rfl).1.trans
      (by decide),
    ((overlay_content_and_tile exampleEnv exampleMeshEnv ⟨0, 0, 0⟩ ⟨0, 0, 0⟩ ⟨0, 1, 0⟩
      exampleMods).1 ⟨NodeModType.NODEMOD_CHANGECONTENT, 254⟩ (by decide) rfl).2.2.trans
      (by decide),
    ((overlay_content_and_tile exampleEnv exampleMeshEnv ⟨0, 0, 0⟩ ⟨1, 0, 0⟩ ⟨0, 1, 0⟩
      exampleMods).2.2.2 (by decide)).1,
    ((overlay_content_and_tile exampleEnv exampleMeshEnv ⟨0, 0, 0⟩ ⟨1, 0, 0⟩ ⟨0, 1, 0⟩
      exampleMods).2.2.2 (by decide)).2.trans (by decide)⟩

/-! ## Mesh building: the collector, lemmas -/

theorem forLoop_push {α : Type} (g : Nat → α) (n : Nat) (init : List α) :
    forLoop (fun k acc => acc ++ [g k]) n init = init ++ (List.range n).map g := by
  induction n with
  | zero => simp [forLoop]
  | succ k ih =>
    show forLoop (fun k acc => acc ++ [g k]) k init ++ [g k] = _
    rw [ih, List.range_succ, List.map_append, List.append_assoc]
    rfl

theorem findBuffer_split {M V : Type} [DecidableEq M] (l1 l2 : List (PreMeshBuffer M V))
    (pp : PreMeshBuffer M V) (material : M) (i : Nat)
    (h1 : ∀ q, q ∈ l1 → q.material ≠ material) (h2 : pp.material = material) :
    findBuffer (l1 ++ pp :: l2) material i = some (i + l1.length) := by
  induction l1 generalizing i with
  | nil =>
    show (if pp.material ≠ material then findBuffer l2 material (i + 1) else some i) = _
    rw [if_neg (not_not.mpr h2)]
    rfl
  | cons q rest ih =>
    show (if q.material ≠ material then findBuffer (rest ++ pp :: l2) material (i + 1)
      else some i) = _
    rw [if_pos (h1 q (List.mem_cons_self _ _)),
      ih (i + 1) (fun r hr => h1 r (List.mem_cons_of_mem _ hr))]
    simp only [List.length_cons]
    congr 1
    omega

theorem findBuffer_absent {M V : Type} [DecidableEq M] (l : List (PreMeshBuffer M V))
    (material : M) (i : Nat) (h : ∀ q, q ∈ l → q.material ≠ material) :
    findBuffer l material i = none := by
  induction l generalizing i with
  | nil => rfl
  | cons q rest ih =>
    show (if q.material ≠ material then findBuffer rest material (i + 1) else some i) = _
    rw [if_pos (h q (List.mem_cons_self _ _)),
      ih (i + 1) (fun r hr => h r (List.mem_cons_of_mem _ hr))]

/-- A list of buffers has no buffer of a material, or a first one. -/
theorem split_or_absent {M V : Type} [DecidableEq M] (l : List (PreMeshBuffer M V))
    (material : M) :
    (∀ q, q ∈ l → q.material ≠ material)
    ∨ ∃ l1 pp l2, l = l1 ++ pp :: l2 ∧ (∀ q, q ∈ l1 → q.material ≠ material)
        ∧ pp.material = material := by
  induction l with
  | nil =>
    left
    intro q hq
    cases hq
  | cons q rest ih =>
    by_cases hq : q.material = material
    · right
      exact ⟨[], q, rest, rfl, (fun r hr => by cases hr), hq⟩
    · rcases ih with h | ⟨l1, pp, l2, h1, h2, h3⟩
      · left
        intro r hr
        rcases List.mem_cons.1 hr with e | e
        · rw [e]
          exact hq
        · exact h r e
      · right
        refine ⟨q :: l1, pp, l2, by rw [h1]; rfl, ?_, h3⟩
        intro r hr
        rcases List.mem_cons.1 hr with e | e
        · rw [e]
          exact hq
        · exact h2 r e

theorem stored_index_mod (x vc : Nat) :
    (x + vc % 4294967296) % 4294967296 % 65536 = (x + vc) % 65536 := by
  omega

/-- The buffer that `append` leaves for a buffer `pp` of the material. -/
theorem append_split {M V : Type} [DecidableEq M] (l1 l2 : List (PreMeshBuffer M V))
    (pp : PreMeshBuffer M V) (material : M) (vertices : Nat → V) (numVertices : Nat)
    (indices : Nat → Nat) (numIndices : Nat)
    (h1 : ∀ q, q ∈ l1 → q.material ≠ material) (h2 : pp.material = material) :
    MeshCollector.append ⟨l1 ++ pp :: l2⟩ material vertices numVertices indices numIndices
      = ⟨l1 ++ ⟨material,
          pp.indices ++ (List.range numIndices).map
            (fun k => (indices k + pp.vertices.length) % 65536),
          pp.vertices ++ (List.range numVertices).map vertices⟩ :: l2⟩ := by
  unfold MeshCollector.append
  dsimp only
  rw [findBuffer_split l1 l2 pp material 0 h1 h2]
  dsimp only
  have hget : (l1 ++ pp :: l2)[0 + l1.length]? = some pp := by
    rw [Nat.zero_add, List.getElem?_append_right (le_refl _), Nat.sub_self]
    simp
  rw [hget]
  dsimp only
  rw [forLoop_push, forLoop_push]
  have hset : ∀ x : PreMeshBuffer M V,
      (l1 ++ pp :: l2).set (0 + l1.length) x = l1 ++ x :: l2 := by
    intro x
    rw [Nat.zero_add, List.set_append_right _ _ (le_refl _), Nat.sub_self]
    rfl
  rw [hset, h2]
  simp only [stored_index_mod]

/-- The buffer that `append` opens when there is none of the material. -/
theorem append_absent {M V : Type} [DecidableEq M] (l : List (PreMeshBuffer M V))
    (material : M) (vertices : Nat → V) (numVertices : Nat)
    (indices : Nat → Nat) (numIndices : Nat)
    (h : ∀ q, q ∈ l → q.material ≠ material) :
    MeshCollector.append ⟨l⟩ material vertices numVertices indices numIndices
      = ⟨l ++ [⟨material,
          (List.range numIndices).map (fun k => (indices k + 0) % 65536),
          (List.range numVertices).map vertices⟩]⟩ := by
  unfold MeshCollector.append
  dsimp only
  rw [findBuffer_absent l material 0 h]
  dsimp only
  have hlen : (l ++ [(⟨material, [], []⟩ : PreMeshBuffer M V)]).length - 1 = l.length := by
    simp
  rw [hlen]
  have hget : (l ++ [(⟨material, [], []⟩ : PreMeshBuffer M V)])[l.length]?
      = some ⟨material, [], []⟩ := by
    rw [List.getElem?_append_right (le_refl _), Nat.sub_self]
    simp
  rw [hget]
  dsimp only
  rw [forLoop_push, forLoop_push]
  have hset : ∀ x : PreMeshBuffer M V,
      (l ++ [(⟨material, [], []⟩ : PreMeshBuffer M V)]).set l.length x = l ++ [x] := by
    intro x
    rw [List.set_append_right _ _ (le_refl _), Nat.sub_self]
    rfl
  rw [hset]
  simp only [List.nil_append, List.length_nil, stored_index_mod]

/-- The two ways in which `append` changes the list of buffers. -/
theorem append_cases {M V : Type} [DecidableEq M] (c : MeshCollector M V) (material : M)
    (vertices : Nat → V) (numVertices : Nat) (indices : Nat → Nat) (numIndices : Nat) :
    (∃ l1 pp l2, c.m_prebuffers = l1 ++ pp :: l2 ∧ (∀ q, q ∈ l1 → q.material ≠ material)
        ∧ pp.material = material
        ∧ c.append material vertices numVertices indices numIndices
          = ⟨l1 ++ pp.extended vertices numVertices indices numIndices :: l2⟩)
    ∨ ((∀ q, q ∈ c.m_prebuffers → q.material ≠ material)
        ∧ c.append material vertices numVertices indices numIndices
          = ⟨c.m_prebuffers ++ [(⟨material, [], []⟩ : PreMeshBuffer M V).extended vertices
              numVertices indices numIndices]⟩) := by
  rcases split_or_absent c.m_prebuffers material with h | ⟨l1, pp, l2, h1, h2, h3⟩
  · right
    refine ⟨h, ?_⟩
    cases c
    exact append_absent _ material vertices numVertices indices numIndices h
  · left
    refine ⟨l1, pp, l2, h1, h2, h3, ?_⟩
    cases c
    simp only at h1
    subst h1
    rw [append_split l1 l2 pp material vertices numVertices indices numIndices h2 h3]
    unfold PreMeshBuffer.extended
    rw [h3]

theorem find_skip {M V : Type} [DecidableEq M] (l : List (PreMeshBuffer M V)) (material : M)
    (h : ∀ q, q ∈ l → q.material ≠ material) :
    l.find? (fun pp => decide (pp.material = material)) = none := by
  rw [List.find?_eq_none]
  intro q hq
  simp only [decide_eq_true_eq]
  exact h q hq

theorem bufferOf_split {M V : Type} [DecidableEq M] (l1 l2 : List (PreMeshBuffer M V))
    (pp : PreMeshBuffer M V) (material : M)
    (h1 : ∀ q, q ∈ l1 → q.material ≠ material) (h2 : pp.material = material) :
    MeshCollector.bufferOf ⟨l1 ++ pp :: l2⟩ material = pp := by
  unfold MeshCollector.bufferOf
  dsimp only
  rw [List.find?_append, find_skip l1 material h1, List.find?_cons_of_pos _ (by simp [h2])]
  rfl

theorem bufferOf_absent {M V : Type} [DecidableEq M] (l : List (PreMeshBuffer M V))
    (material : M) (h : ∀ q, q ∈ l → q.material ≠ material) :
    MeshCollector.bufferOf ⟨l⟩ material = ⟨material, [], []⟩ := by
  unfold MeshCollector.bufferOf
  dsimp only
  rw [find_skip l material h]

/-- Replacing a buffer by one of the same material does not change the buffer
of another material. -/
theorem bufferOf_replace {M V : Type} [DecidableEq M] (l1 l2 : List (PreMeshBuffer M V))
    (x y : PreMeshBuffer M V) (m : M) (hx : x.material ≠ m) (hy : y.material ≠ m) :
    MeshCollector.bufferOf ⟨l1 ++ x :: l2⟩ m = MeshCollector.bufferOf ⟨l1 ++ y :: l2⟩ m := by
  unfold MeshCollector.bufferOf
  dsimp only
  rw [List.find?_append, List.find?_append, List.find?_cons_of_neg _ (by simp [hx]),
    List.find?_cons_of_neg _ (by simp [hy])]

theorem bufferOf_snoc {M V : Type} [DecidableEq M] (l : List (PreMeshBuffer M V))
    (x : PreMeshBuffer M V) (m : M) (hx : x.material ≠ m) :
    MeshCollector.bufferOf ⟨l ++ [x]⟩ m = MeshCollector.bufferOf ⟨l⟩ m := by
  unfold MeshCollector.bufferOf
  dsimp only
  rw [List.find?_append, List.find?_cons_of_neg _ (by simp [hx])]
  simp

/-- The buffer of the material after `append` is the buffer before, extended. -/
theorem append_bufferOf {M V : Type} [DecidableEq M] (c : MeshCollector M V) (material : M)
    (vertices : Nat → V) (numVertices : Nat) (indices : Nat → Nat) (numIndices : Nat) :
    (c.append material vertices numVertices indices numIndices).bufferOf material
      = (c.bufferOf material).extended vertices numVertices indices numIndices := by
  rcases append_cases c material vertices numVertices indices numIndices with
    ⟨l1, pp, l2, h1, h2, h3, h4⟩ | ⟨h1, h2⟩
  · rw [h4]
    cases c
    simp only at h1
    subst h1
    rw [bufferOf_split l1 l2 pp material h2 h3,
      bufferOf_split l1 l2 (pp.extended vertices numVertices indices numIndices) material h2 h3]
  · rw [h2]
    cases c
    rw [bufferOf_absent _ material h1]
    have e := bufferOf_split _ []
      ((⟨material, [], []⟩ : PreMeshBuffer M V).extended vertices numVertices indices
        numIndices) material h1 rfl
    exact e

/-- The buffers of the other materials are what they were. -/
theorem append_bufferOf_other {M V : Type} [DecidableEq M] (c : MeshCollector M V)
    (material : M) (vertices : Nat → V) (numVertices : Nat) (indices : Nat → Nat)
    (numIndices : Nat) (m : M) (hm : m ≠ material) :
    (c.append material vertices numVertices indices numIndices).bufferOf m
      = c.bufferOf m := by
  rcases append_cases c material vertices numVertices indices numIndices with
    ⟨l1, pp, l2, h1, h2, h3, h4⟩ | ⟨h1, h2⟩
  · rw [h4]
    cases c
    simp only at h1
    subst h1
    exact bufferOf_replace l1 l2 _ pp m (fun e => hm (e.symm.trans h3))
      (fun e => hm (e.symm.trans h3))
  · rw [h2]
    cases c
    exact bufferOf_snoc _ _ m (fun e => hm e.symm)

/-- The materials of the buffers after `append`. -/
theorem append_materials {M V : Type} [DecidableEq M] (c : MeshCollector M V) (material : M)
    (vertices : Nat → V) (numVertices : Nat) (indices : Nat → Nat) (numIndices : Nat) :
    (c.append material vertices numVertices indices numIndices).m_prebuffers.map
        (fun pp => pp.material)
      = if material ∈ c.m_prebuffers.map (fun pp => pp.material) then
          c.m_prebuffers.map (fun pp => pp.material)
        else c.m_prebuffers.map (fun pp => pp.material) ++ [material] := by
  rcases append_cases c material vertices numVertices indices numIndices with
    ⟨l1, pp, l2, h1, h2, h3, h4⟩ | ⟨h1, h2⟩
  · rw [h4, h1]
    have hmem : material ∈ (l1 ++ pp :: l2).map (fun pp => pp.material) := by
      rw [List.mem_map]
      exact ⟨pp, by simp, h3⟩
    rw [if_pos hmem]
    simp only [List.map_append, List.map_cons]
    rfl
  · rw [h2]
    have hmem : ¬ material ∈ c.m_prebuffers.map (fun pp => pp.material) := by
      rw [List.mem_map]
      rintro ⟨q, hq, e⟩
      exact h1 q hq e
    rw [if_neg hmem]
    simp only [List.map_append, List.map_cons, List.map_nil]
    rfl

theorem appendAll_snoc {M V : Type} [DecidableEq M] (calls : List (AppendCall M V))
    (a : AppendCall M V) :
    appendAll (calls ++ [a])
      = (appendAll calls).append a.material a.vertices a.numVertices a.indices a.numIndices := by
  unfold appendAll
  rw [List.foldl_append]
  rfl

/-- After any sequence of calls the buffers have distinct materials, those
that were appended. -/
theorem appendAll_materials {M V : Type} [DecidableEq M] (calls : List (AppendCall M V)) :
    ((appendAll calls).m_prebuffers.map (fun pp => pp.material)).Nodup
    ∧ ∀ m, m ∈ (appendAll calls).m_prebuffers.map (fun pp => pp.material)
        ↔ m ∈ calls.map (fun a => a.material) := by
  induction calls using List.reverseRecOn with
  | nil =>
    constructor
    · exact List.nodup_nil
    · intro m
      simp [appendAll]
  | append_singleton calls a ih =>
    obtain ⟨hnd, hmem⟩ := ih
    rw [appendAll_snoc, append_materials]
    by_cases h : a.material ∈ (appendAll calls).m_prebuffers.map (fun pp => pp.material)
    · rw [if_pos h]
      refine ⟨hnd, ?_⟩
      intro m
      rw [hmem, List.map_append, List.mem_append]
      constructor
      · intro hm
        exact Or.inl hm
      · rintro (hm | hm)
        · exact hm
        · simp only [List.map_cons, List.map_nil, List.mem_singleton] at hm
          rw [hm, ← hmem]
          exact h
    · rw [if_neg h]
      constructor
      · rw [List.nodup_append]
        refine ⟨hnd, List.nodup_singleton _, ?_⟩
        intro x hx hx2
        rw [List.mem_singleton] at hx2
        rw [hx2] at hx
        exact h hx
      · intro m
        rw [List.mem_append, hmem, List.map_append, List.mem_append]
        rfl

/-- With distinct materials, every buffer is the buffer of its material. -/
theorem bufferOf_of_mem {M V : Type} [DecidableEq M] (l : List (PreMeshBuffer M V))
    (hnd : (l.map (fun pp => pp.material)).Nodup) (pp : PreMeshBuffer M V) (hpp : pp ∈ l) :
    MeshCollector.bufferOf ⟨l⟩ pp.material = pp := by
  obtain ⟨l1, l2, hl⟩ := List.append_of_mem hpp
  subst hl
  apply bufferOf_split l1 l2 pp pp.material _ rfl
  intro q hq heq
  rw [List.map_append, List.nodup_append] at hnd
  obtain ⟨_, _, hdis⟩ := hnd
  apply hdis (List.mem_map.2 ⟨q, hq, heq⟩)
  rw [List.map_cons]
  exact List.mem_cons_self _ _

/-- Every buffer before `append` is still there or has been extended. -/
theorem append_grows {M V : Type} [DecidableEq M] (c : MeshCollector M V) (material : M)
    (vertices : Nat → V) (numVertices : Nat) (indices : Nat → Nat) (numIndices : Nat)
    (pp : PreMeshBuffer M V) (hpp : pp ∈ c.m_prebuffers) :
    pp ∈ (c.append material vertices numVertices indices numIndices).m_prebuffers
    ∨ pp.extended vertices numVertices indices numIndices
        ∈ (c.append material vertices numVertices indices numIndices).m_prebuffers := by
  rcases append_cases c material vertices numVertices indices numIndices with
    ⟨l1, q, l2, h1, _, _, h4⟩ | ⟨_, h2⟩
  · rw [h4]
    rw [h1] at hpp
    rcases List.mem_append.1 hpp with h | h
    · exact Or.inl (List.mem_append_left _ h)
    · rcases List.mem_cons.1 h with e | e
      · right
        rw [e]
        exact List.mem_append_right _ (List.mem_cons_self _ _)
      · exact Or.inl (List.mem_append_right _ (List.mem_cons_of_mem _ e))
  · rw [h2]
    exact Or.inl (List.mem_append_left _ hpp)

/-- Every buffer after `append` was there before, or is a buffer from before
(or a new one) extended. -/
theorem append_mem {M V : Type} [DecidableEq M] (c : MeshCollector M V) (material : M)
    (vertices : Nat → V) (numVertices : Nat) (indices : Nat → Nat) (numIndices : Nat)
    (pp : PreMeshBuffer M V)
    (hpp : pp ∈ (c.append material vertices numVertices indices numIndices).m_prebuffers) :
    pp ∈ c.m_prebuffers
    ∨ ∃ q, (q ∈ c.m_prebuffers ∨ q = ⟨material, [], []⟩)
        ∧ pp = q.extended vertices numVertices indices numIndices := by
  rcases append_cases c material vertices numVertices indices numIndices with
    ⟨l1, q, l2, h1, _, _, h4⟩ | ⟨_, h2⟩
  · rw [h4] at hpp
    rw [h1]
    rcases List.mem_append.1 hpp with h | h
    · exact Or.inl (List.mem_append_left _ h)
    · rcases List.mem_cons.1 h with e | e
      · right
        exact ⟨q, Or.inl (List.mem_append_right _ (List.mem_cons_self _ _)), e⟩
      · exact Or.inl (List.mem_append_right _ (List.mem_cons_of_mem _ e))
  · rw [h2] at hpp
    rcases List.mem_append.1 hpp with h | h
    · exact Or.inl h
    · right
      rw [List.mem_singleton] at h
      exact ⟨_, Or.inr rfl, h⟩

/-- While no buffer holds more than 65536 vertices and every input index is
below the number of vertices of its call, every stored index is below the
number of vertices of its buffer. -/
theorem appendAll_indices_bound {M V : Type} [DecidableEq M] (calls : List (AppendCall M V))
    (hidx : ∀ b, b ∈ calls → ∀ k, k < b.numIndices → b.indices k < b.numVertices)
    (hsize : ∀ pp, pp ∈ (appendAll calls).m_prebuffers → pp.vertices.length ≤ 65536) :
    ∀ pp, pp ∈ (appendAll calls).m_prebuffers → ∀ i, i ∈ pp.indices →
      i < pp.vertices.length := by
  induction calls using List.reverseRecOn with
  | nil =>
    intro pp hpp
    cases hpp
  | append_singleton calls a ih =>
    rw [appendAll_snoc] at hsize ⊢
    have hext : ∀ q : PreMeshBuffer M V,
        q.vertices.length
          ≤ (q.extended a.vertices a.numVertices a.indices a.numIndices).vertices.length := by
      intro q
      unfold PreMeshBuffer.extended
      simp
    have hprev : ∀ pp, pp ∈ (appendAll calls).m_prebuffers → ∀ i, i ∈ pp.indices →
        i < pp.vertices.length := by
      apply ih (fun b hb => hidx b (List.mem_append_left _ hb))
      intro pp hpp
      rcases append_grows (appendAll calls) a.material a.vertices a.numVertices a.indices
        a.numIndices pp hpp with h | h
      · exact hsize pp h
      · exact le_trans (hext pp) (hsize _ h)
    intro pp hpp i hi
    rcases append_mem (appendAll calls) a.material a.vertices a.numVertices a.indices
      a.numIndices pp hpp with h | ⟨q, hq, he⟩
    · exact hprev pp h i hi
    · have hs := hsize pp hpp
      rw [he] at hs hi ⊢
      unfold PreMeshBuffer.extended at hs hi ⊢
      simp only [List.length_append, List.length_map, List.length_range, List.mem_append,
        List.mem_map, List.mem_range] at hs hi ⊢
      rcases hi with h | ⟨k, hk, hki⟩
      · have hold : i < q.vertices.length := by
          rcases hq with hq | hq
          · exact hprev q hq i h
          · rw [hq] at h
            cases h
        omega
      · have hk2 := hidx a (List.mem_append_right _ (List.mem_singleton.2 rfl)) k hk
        rw [← hki]
        have hlt : a.indices k + q.vertices.length < 65536 := by omega
        rw [Nat.mod_eq_of_lt hlt]
        omega

/-- The buffers of a collector: after any sequence `calls` of `append` calls
on a new collector no two buffers have equal materials, the materials of the buffers are those
appended, and there are as many buffers as distinct materials appended; every
buffer is the one buffer of its material. A further call `a` leaves the
buffers of the other materials alone and gives the buffer of its material
`numVertices` more vertices, those of the call, and `numIndices` more indices,
each the input index plus the vertex count before the call modulo `2^16`,
which is that sum when it is at most 65535. While no buffer holds more than
65536 vertices and every input index is below `numVertices`, every stored
index is below the vertex count of its buffer. -/
theorem collector_batches {M V : Type} [DecidableEq M] (calls : List (AppendCall M V))
    (a : AppendCall M V) :
    ((appendAll calls).m_prebuffers.map (fun pp => pp.material)).Nodup
    ∧ (∀ m, m ∈ (appendAll calls).m_prebuffers.map (fun pp => pp.material)
        ↔ m ∈ calls.map (fun a => a.material))
    ∧ (appendAll calls).m_prebuffers.length = (calls.map (fun a => a.material)).dedup.length
    ∧ (∀ pp, pp ∈ (appendAll calls).m_prebuffers →
        (appendAll calls).bufferOf pp.material = pp)
    ∧ (∀ m, m ≠ a.material →
        (appendAll (calls ++ [a])).bufferOf m = (appendAll calls).bufferOf m)
    ∧ ((appendAll (calls ++ [a])).bufferOf a.material).material = a.material
    ∧ ((appendAll (calls ++ [a])).bufferOf a.material).vertices
        = ((appendAll calls).bufferOf a.material).vertices
          ++ (List.range a.numVertices).map a.vertices
    ∧ ((appendAll (calls ++ [a])).bufferOf a.material).indices
        = ((appendAll calls).bufferOf a.material).indices
          ++ (List.range a.numIndices).map (fun k =>
              (a.indices k + ((appendAll calls).bufferOf a.material).vertices.length) % 65536)
    ∧ (∀ k, a.indices k + ((appendAll calls).bufferOf a.material).vertices.length ≤ 65535 →
        (a.indices k + ((appendAll calls).bufferOf a.material).vertices.length) % 65536
          = a.indices k + ((appendAll calls).bufferOf a.material).vertices.length)
    ∧ ((∀ b, b ∈ calls → ∀ k, k < b.numIndices → b.indices k < b.numVertices) →
        (∀ pp, pp ∈ (appendAll calls).m_prebuffers → pp.vertices.length ≤ 65536) →
        ∀ pp, pp ∈ (appendAll calls).m_prebuffers → ∀ i, i ∈ pp.indices →
          i < pp.vertices.length) := by
  obtain ⟨hnd, hmem⟩ := appendAll_materials calls
  have hself : (appendAll (calls ++ [a])).bufferOf a.material
      = ((appendAll calls).bufferOf a.material).extended a.vertices a.numVertices a.indices
          a.numIndices := by
    rw [appendAll_snoc, append_bufferOf]
  have hmat : ((appendAll calls).bufferOf a.material).material = a.material := by
    unfold MeshCollector.bufferOf
    cases hf : (appendAll calls).m_prebuffers.find?
        (fun pp => decide (pp.material = a.material)) with
    | none => rfl
    | some pp =>
      have := List.find?_some hf
      simp only [decide_eq_true_eq] at this
      exact this
  refine ⟨hnd, hmem, ?_, ?_, ?_, ?_, ?_, ?_, ?_, ?_⟩
  · rw [← List.length_map (appendAll calls).m_prebuffers (fun pp => pp.material)]
    apply List.Perm.length_eq
    rw [List.perm_ext_iff_of_nodup hnd (List.nodup_dedup _)]
    intro m
    rw [hmem, List.mem_dedup]
  · intro pp hpp
    have h := bufferOf_of_mem (appendAll calls).m_prebuffers hnd pp hpp
    exact h
  · intro m hm
    rw [appendAll_snoc]
    exact append_bufferOf_other _ _ _ _ _ _ m hm
  · rw [hself]
    exact hmat
  · rw [hself]
    rfl
  · rw [hself]
    rfl
  · intro k hk
    exact Nat.mod_eq_of_lt (by omega)
  · exact appendAll_indices_bound calls

theorem collector_batches_witness :
    (appendAll [exampleQuad, { exampleQuad with material := 3 }]).m_prebuffers.length = 2
    ∧ ((appendAll ([exampleQuad, { exampleQuad with material := 3 }] ++ [exampleQuad])).bufferOf
        7).indices = [0, 1, 2, 2, 3, 0, 4, 5, 6, 6, 7, 4]
    ∧ ∀ pp, pp ∈ (appendAll [exampleQuad, { exampleQuad with material := 3 }]).m_prebuffers →
        ∀ i, i ∈ pp.indices → i < pp.vertices.length :=
  ⟨(collector_batches [exampleQuad, { exampleQuad with material := 3 }] exampleQuad).2.2.1.trans
      (by decide),
    (collector_batches [exampleQuad, { exampleQuad with material := 3 }]
      exampleQuad).2.2.2.2.2.2.2.1.trans (by decide),
    (collector_batches [exampleQuad, { exampleQuad with material := 3 }]
      exampleQuad).2.2.2.2.2.2.2.2.2 (by decide) (by decide)⟩

/-- The collector after `n + 1` calls for a face of the same material: one
buffer, whose last six indices are those of the call shifted by `4 * n`
modulo `2^16`. -/
theorem appendAll_quads (n : Nat) :
    ∃ stored, appendAll (List.replicate (n + 1) exampleQuad)
      = ⟨[⟨7, stored ++ [(0 + 4 * n) % 65536, (1 + 4 * n) % 65536, (2 + 4 * n) % 65536,
          (2 + 4 * n) % 65536, (3 + 4 * n) % 65536, (0 + 4 * n) % 65536],
        List.replicate (4 * (n + 1)) ()⟩]⟩
      ∧ stored.length = 6 * n := by
  induction n with
  | zero => exact ⟨[], by decide, rfl⟩
  | succ n ih =>
    obtain ⟨stored, h, hlen⟩ := ih
    refine ⟨stored ++ [(0 + 4 * n) % 65536, (1 + 4 * n) % 65536, (2 + 4 * n) % 65536,
      (2 + 4 * n) % 65536, (3 + 4 * n) % 65536, (0 + 4 * n) % 65536], ?_, ?_⟩
    swap
    · rw [List.length_append, hlen]
      simp only [List.length_cons, List.length_nil]
      omega
    rw [List.replicate_succ', appendAll_snoc, h]
    have e := append_split ([] : List (PreMeshBuffer Nat Unit)) []
      ⟨7, stored ++ [(0 + 4 * n) % 65536, (1 + 4 * n) % 65536, (2 + 4 * n) % 65536,
          (2 + 4 * n) % 65536, (3 + 4 * n) % 65536, (0 + 4 * n) % 65536],
        List.replicate (4 * (n + 1)) ()⟩ 7 exampleQuad.vertices 4 exampleQuad.indices 6
      (fun q hq => by cases hq) rfl
    rw [List.nil_append] at e
    show MeshCollector.append _ 7 exampleQuad.vertices 4 exampleQuad.indices 6 = _
    rw [e]
    simp only [List.length_replicate, List.nil_append]
    have hv : List.replicate (4 * (n + 1)) () ++ (List.range 4).map exampleQuad.vertices
        = List.replicate (4 * (n + 1 + 1)) () := by
      have e4 : (List.range 4).map exampleQuad.vertices = List.replicate 4 () := by decide
      have e5 : 4 * (n + 1) + 4 = 4 * (n + 1 + 1) := by omega
      rw [e4, ← List.replicate_add, e5]
    rw [hv]
    have hi : (List.range 6).map (fun k => (exampleQuad.indices k + 4 * (n + 1)) % 65536)
        = [(0 + 4 * (n + 1)) % 65536, (1 + 4 * (n + 1)) % 65536, (2 + 4 * (n + 1)) % 65536,
          (2 + 4 * (n + 1)) % 65536, (3 + 4 * (n + 1)) % 65536, (0 + 4 * (n + 1)) % 65536] := by
      rfl
    rw [hi]

/-- C25: after 16384 calls of `append` for a face of one material the buffer
of that material holds 65536 vertices; one more call opens no new buffer: the
collector still has the one buffer, now with 65540 vertices, and the indices
of the new face are stored as `0, 1, 2, 2, 3, 0`, the sums 65536, ..., 65539
cut to 16 bits, which are the indices of the first face. -/
theorem append_truncates_index :
    ∃ stored, appendAll (List.replicate 16385 exampleQuad)
      = ⟨[⟨7, stored ++ [0, 1, 2, 2, 3, 0], List.replicate 65540 ()⟩]⟩
      ∧ stored.length = 6 * 16384 :=
  appendAll_quads 16384

/-- C29: after 16384 calls of `append` for a face of one material the one
buffer of that material holds 65536 vertices; the next call for the same face
adds six indices to that buffer, and they are `0, 1, 2, 2, 3, 0`, not the
input indices plus the vertex count before the call, which are 65536, 65537,
65538, 65538, 65539, 65536: the stored indices are the sums cut to 16 bits
and point at the vertices of the first face. -/
theorem stored_index_is_not_the_sum :
    ((appendAll (List.replicate 16384 exampleQuad)).bufferOf 7).vertices.length = 65536
    ∧ ((appendAll (List.replicate 16384 exampleQuad ++ [exampleQuad])).bufferOf 7).indices
      = ((appendAll (List.replicate 16384 exampleQuad)).bufferOf 7).indices
        ++ [0, 1, 2, 2, 3, 0]
    ∧ (List.range exampleQuad.numIndices).map (fun k => exampleQuad.indices k + 65536)
      = [65536, 65537, 65538, 65538, 65539, 65536]
    ∧ (appendAll (List.replicate 16384 exampleQuad ++ [exampleQuad])).m_prebuffers.length
      = 1 := by
  obtain ⟨s, hs, _⟩ := appendAll_quads 16383
  obtain ⟨s1, hs1, _⟩ := appendAll_quads 16384
  have hs0 : appendAll (List.replicate 16384 exampleQuad)
      = ⟨[] ++ (⟨7, s ++ [(0 + 4 * 16383) % 65536, (1 + 4 * 16383) % 65536,
            (2 + 4 * 16383) % 65536, (2 + 4 * 16383) % 65536, (3 + 4 * 16383) % 65536,
            (0 + 4 * 16383) % 65536],
          List.replicate (4 * (16383 + 1)) ()⟩ : PreMeshBuffer Nat Unit) :: []⟩ := hs
  have hlen : ((appendAll (List.replicate 16384 exampleQuad)).bufferOf 7).vertices.length
      = 65536 := by
    rw [hs0, bufferOf_split [] [] _ 7 (fun q hq => (by cases hq)) rfl]
    exact List.length_replicate _ _
  refine ⟨hlen, ?_, by decide, ?_⟩
  · rw [appendAll_snoc]
    show (MeshCollector.bufferOf (MeshCollector.append
      (appendAll (List.replicate 16384 exampleQuad)) 7 exampleQuad.vertices 4
      exampleQuad.indices 6) 7).indices = _
    rw [append_bufferOf]
    unfold PreMeshBuffer.extended
    dsimp only
    rw [hlen]
    rfl
  · rw [← List.replicate_succ', hs1]
    rfl

/-! ## Mesh building: the loop and the runs of a line -/

theorem rowFace_runFace {σ Tile : Type} (env : Env) (ne : NodeEnv) (me : MeshEnv Tile)
    (par : NodeContainer σ) (st : σ) (blk : MapBlock) (daynight_ratio : Nat)
    (startpos translate_dir : v3s16) (translate_dir_f : v3f) (face_dir : v3s16)
    (face_dir_f : v3f) (temp_mods : NodeModMap) (a j : Nat) (d : List (FastFace Tile)) :
    rowFace me translate_dir translate_dir_f face_dir face_dir_f temp_mods
      (rowStateAt env ne me par st blk daynight_ratio startpos translate_dir face_dir temp_mods
        a j d) (j - a + 1)
      = d ++ runFace env ne me par st blk daynight_ratio startpos translate_dir translate_dir_f
          face_dir face_dir_f temp_mods (a, j) := by
  rw [rowFace_dest]
  rfl

/-- One iteration of the loop, on the state at the head of iteration `j` with
the run that began in iteration `a` open. -/
theorem rowBody_eq {σ Tile : Type} (env : Env) (ne : NodeEnv) (me : MeshEnv Tile)
    (par : NodeContainer σ) (st : σ) (blk : MapBlock) (daynight_ratio : Nat)
    (startpos : v3s16) (length : Nat) (translate_dir : v3s16) (translate_dir_f : v3f)
    (face_dir : v3s16) (face_dir_f : v3f) (temp_mods : NodeModMap)
    (hpar : ParentContract par st) (a j : Nat) (d : List (FastFace Tile)) (haj : a ≤ j) :
    ∃ t, rowBody env ne me par st blk daynight_ratio length translate_dir translate_dir_f
        face_dir face_dir_f temp_mods j
        (rowStateAt env ne me par st blk daynight_ratio startpos translate_dir face_dir
          temp_mods a j d) = Except.ok t
      ∧ (runCloses env ne me par st blk daynight_ratio startpos length translate_dir face_dir
            temp_mods a j = true →
          t.dest = d ++ runFace env ne me par st blk daynight_ratio startpos translate_dir
              translate_dir_f face_dir face_dir_f temp_mods (a, j)
          ∧ ((j : Int) ≠ (length : Int) - 1 →
              t = rowStateAt env ne me par st blk daynight_ratio startpos translate_dir face_dir
                temp_mods (j + 1) (j + 1) t.dest))
      ∧ (runCloses env ne me par st blk daynight_ratio startpos length translate_dir face_dir
            temp_mods a j = false →
          t = rowStateAt env ne me par st blk daynight_ratio startpos translate_dir face_dir
            temp_mods a (j + 1) d) := by
  have hface := rowFace_runFace env ne me par st blk daynight_ratio startpos translate_dir
    translate_dir_f face_dir face_dir_f temp_mods a j d
  unfold rowBody
  by_cases hlast : (j : Int) ≠ (length : Int) - 1
  · rw [if_pos hlast]
    unfold rowLookahead
    have hp : (rowStateAt env ne me par st blk daynight_ratio startpos translate_dir face_dir
        temp_mods a j d).p = rowPos startpos translate_dir j := rfl
    rw [hp]
    dsimp only
    rw [getNodeParentNoEx_eq env par st blk _ hpar]
    dsimp only
    rw [getNodeParentNoEx_eq env par st blk _ hpar]
    dsimp only
    have hclose : runCloses env ne me par st blk daynight_ratio startpos length translate_dir
        face_dir temp_mods a j
        = (!(sameFace env ne me par st blk daynight_ratio face_dir temp_mods
              (rowPos startpos translate_dir a) (rowPos startpos translate_dir (j + 1)))
          || endOfTexture me
            (faceTile0 env me par st blk face_dir temp_mods (rowPos startpos translate_dir a))
            (faceTile1 env me par st blk face_dir temp_mods (rowPos startpos translate_dir a))
            (j - a + 1)) := by
      unfold runCloses
      rw [decide_eq_false hlast, Bool.false_or]
    have hsame_iff : (me.tile_eq (getNodeTile env me
              (nodeNoEx env par st blk (v3s16.add (rowPos startpos translate_dir j)
                translate_dir))
              (v3s16.add (rowPos startpos translate_dir j) translate_dir) face_dir temp_mods)
              (rowStateAt env ne me par st blk daynight_ratio startpos translate_dir face_dir
                temp_mods a j d).tile0 = true
            ∧ me.tile_eq (getNodeTile env me
              (nodeNoEx env par st blk (v3s16.add (v3s16.add (rowPos startpos translate_dir j)
                translate_dir) face_dir))
              (v3s16.add (v3s16.add (rowPos startpos translate_dir j) translate_dir) face_dir)
              (v3s16.neg face_dir) temp_mods)
              (rowStateAt env ne me par st blk daynight_ratio startpos translate_dir face_dir
                temp_mods a j d).tile1 = true
            ∧ getFaceLight ne me daynight_ratio
              (nodeNoEx env par st blk (v3s16.add (rowPos startpos translate_dir j)
                translate_dir))
              (nodeNoEx env par st blk (v3s16.add (v3s16.add (rowPos startpos translate_dir j)
                translate_dir) face_dir)) face_dir
              = (rowStateAt env ne me par st blk daynight_ratio startpos translate_dir face_dir
                temp_mods a j d).light)
          ↔ sameFace env ne me par st blk daynight_ratio face_dir temp_mods
              (rowPos startpos translate_dir a) (rowPos startpos translate_dir (j + 1))
              = true := by
      unfold sameFace
      rw [Bool.and_eq_true, Bool.and_eq_true, decide_eq_true_eq]
      constructor
      · rintro ⟨h1, h2, h3⟩
        exact ⟨⟨h1, h2⟩, h3⟩
      · rintro ⟨⟨h1, h2⟩, h3⟩
        exact ⟨h1, h2, h3⟩
    have hcount : (rowStateAt env ne me par st blk daynight_ratio startpos translate_dir
        face_dir temp_mods a j d).continuous_tiles_count + 1 = j - a + 1 := rfl
    have ht0 : (rowStateAt env ne me par st blk daynight_ratio startpos translate_dir
        face_dir temp_mods a j d).tile0
        = faceTile0 env me par st blk face_dir temp_mods (rowPos startpos translate_dir a) :=
      rfl
    have ht1 : (rowStateAt env ne me par st blk daynight_ratio startpos translate_dir
        face_dir temp_mods a j d).tile1
        = faceTile1 env me par st blk face_dir temp_mods (rowPos startpos translate_dir a) :=
      rfl
    rw [hcount, hface, hclose]
    by_cases hsame : sameFace env ne me par st blk daynight_ratio face_dir temp_mods
        (rowPos startpos translate_dir a) (rowPos startpos translate_dir (j + 1)) = true
    · rw [if_pos (hsame_iff.2 hsame), hsame]
      rw [ht0, ht1]
      by_cases hend : endOfTexture me
          (faceTile0 env me par st blk face_dir temp_mods (rowPos startpos translate_dir a))
          (faceTile1 env me par st blk face_dir temp_mods (rowPos startpos translate_dir a))
          (j - a + 1) = true
      · rw [if_pos (Or.inr hend), hend]
        refine ⟨_, rfl, ?_, ?_⟩
        · intro _
          refine ⟨rfl, ?_⟩
          intro _
          unfold rowStateAt
          rw [Nat.sub_self]
          rfl
        · intro h
          cases h
      · have hnot : ¬ ((false : Bool) = true ∨ endOfTexture me
            (faceTile0 env me par st blk face_dir temp_mods (rowPos startpos translate_dir a))
            (faceTile1 env me par st blk face_dir temp_mods (rowPos startpos translate_dir a))
            (j - a + 1) = true) := by
          rintro (h | h)
          · cases h
          · exact hend h
        rw [if_neg hnot]
        have hendf : endOfTexture me
            (faceTile0 env me par st blk face_dir temp_mods (rowPos startpos translate_dir a))
            (faceTile1 env me par st blk face_dir temp_mods (rowPos startpos translate_dir a))
            (j - a + 1) = false := by
          cases h : endOfTexture me
            (faceTile0 env me par st blk face_dir temp_mods (rowPos startpos translate_dir a))
            (faceTile1 env me par st blk face_dir temp_mods (rowPos startpos translate_dir a))
            (j - a + 1) with
          | false => rfl
          | true => exact absurd h hend
        rw [hendf]
        refine ⟨_, rfl, ?_, ?_⟩
        · intro h
          cases h
        · intro _
          have e : j + 1 - a = j - a + 1 := by omega
          unfold rowStateAt
          rw [e]
          rfl
    · have hsamef : sameFace env ne me par st blk daynight_ratio face_dir temp_mods
          (rowPos startpos translate_dir a) (rowPos startpos translate_dir (j + 1)) = false := by
        cases h : sameFace env ne me par st blk daynight_ratio face_dir temp_mods
          (rowPos startpos translate_dir a) (rowPos startpos translate_dir (j + 1)) with
        | false => rfl
        | true => exact absurd h hsame
      rw [if_neg (fun h => hsame (hsame_iff.1 h)), hsamef]
      rw [if_pos (Or.inl rfl)]
      refine ⟨_, rfl, ?_, ?_⟩
      · intro _
        refine ⟨rfl, ?_⟩
        intro _
        unfold rowStateAt
        rw [Nat.sub_self]
        rfl
      · intro h
        cases h
  · rw [if_neg hlast]
    dsimp only
    have hdiff : (rowNextInit me).next_is_different = true := rfl
    rw [if_pos (Or.inl hdiff)]
    have hcount : (rowStateAt env ne me par st blk daynight_ratio startpos translate_dir
        face_dir temp_mods a j d).continuous_tiles_count + 1 = j - a + 1 := rfl
    rw [hcount, hface]
    have hclose : runCloses env ne me par st blk daynight_ratio startpos length translate_dir
        face_dir temp_mods a j = true := by
      unfold runCloses
      rw [decide_eq_true (not_not.mp hlast)]
      rfl
    refine ⟨_, rfl, ?_, ?_⟩
    · intro _
      exact ⟨rfl, fun h => absurd h hlast⟩
    · intro h
      rw [hclose] at h
      cases h

/-- The first `n` iterations of the loop of `updateFastFaceRow` run through;
they leave in `dest` the faces of the runs closed so far, and before the end
of the line the variables of the open run. -/
theorem row_loop_state {σ Tile : Type} (env : Env) (ne : NodeEnv) (me : MeshEnv Tile)
    (par : NodeContainer σ) (st : σ) (blk : MapBlock) (daynight_ratio : Nat)
    (startpos : v3s16) (length : Nat) (translate_dir : v3s16) (translate_dir_f : v3f)
    (face_dir : v3s16) (face_dir_f : v3f) (dest : List (FastFace Tile))
    (temp_mods : NodeModMap) (hpar : ParentContract par st) (n : Nat) (hn : n ≤ length) :
    ∃ t, forLoopE (rowBody env ne me par st blk daynight_ratio length translate_dir
          translate_dir_f face_dir face_dir_f temp_mods) n
          (rowStateAt env ne me par st blk daynight_ratio startpos translate_dir face_dir
            temp_mods 0 0 dest) = Except.ok t
      ∧ t.dest = dest ++ (rowRuns env ne me par st blk daynight_ratio startpos length
          translate_dir face_dir temp_mods n).2.flatMap
          (runFace env ne me par st blk daynight_ratio startpos translate_dir translate_dir_f
            face_dir face_dir_f temp_mods)
      ∧ (rowRuns env ne me par st blk daynight_ratio startpos length
          translate_dir face_dir temp_mods n).1 ≤ n
      ∧ (n < length → t = rowStateAt env ne me par st blk daynight_ratio startpos translate_dir
          face_dir temp_mods (rowRuns env ne me par st blk daynight_ratio startpos length
            translate_dir face_dir temp_mods n).1 n t.dest) := by
  exact forLoopE_inv
    (rowBody env ne me par st blk daynight_ratio length translate_dir translate_dir_f
      face_dir face_dir_f temp_mods)
    (fun j s => s.dest = dest ++ (rowRuns env ne me par st blk daynight_ratio startpos length
          translate_dir face_dir temp_mods j).2.flatMap
          (runFace env ne me par st blk daynight_ratio startpos translate_dir translate_dir_f
            face_dir face_dir_f temp_mods)
      ∧ (rowRuns env ne me par st blk daynight_ratio startpos length
          translate_dir face_dir temp_mods j).1 ≤ j
      ∧ (j < length → s = rowStateAt env ne me par st blk daynight_ratio startpos translate_dir
          face_dir temp_mods (rowRuns env ne me par st blk daynight_ratio startpos length
            translate_dir face_dir temp_mods j).1 j s.dest))
    n
    (rowStateAt env ne me par st blk daynight_ratio startpos translate_dir face_dir
      temp_mods 0 0 dest)
    ⟨by simp [rowStateAt, rowRuns, runsOf], le_refl 0, fun _ => rfl⟩
    (by
      intro j s hj hI
      obtain ⟨hdest, haj, hopen⟩ := hI
      have hs := hopen (by omega)
      obtain ⟨t, ht, hc, hnc⟩ := rowBody_eq env ne me par st blk daynight_ratio startpos length
        translate_dir translate_dir_f face_dir face_dir_f temp_mods hpar
        (rowRuns env ne me par st blk daynight_ratio startpos length translate_dir face_dir
          temp_mods j).1 j s.dest haj
      rw [← hs] at ht
      refine ⟨t, ht, ?_⟩
      dsimp only
      have hruns : rowRuns env ne me par st blk daynight_ratio startpos length translate_dir
          face_dir temp_mods (j + 1)
          = if runCloses env ne me par st blk daynight_ratio startpos length translate_dir
                face_dir temp_mods (rowRuns env ne me par st blk daynight_ratio startpos length
                  translate_dir face_dir temp_mods j).1 j = true then
              (j + 1, (rowRuns env ne me par st blk daynight_ratio startpos length
                  translate_dir face_dir temp_mods j).2
                ++ [((rowRuns env ne me par st blk daynight_ratio startpos length
                  translate_dir face_dir temp_mods j).1, j)])
            else rowRuns env ne me par st blk daynight_ratio startpos length translate_dir
              face_dir temp_mods j := rfl
      rw [hruns]
      cases hcl : runCloses env ne me par st blk daynight_ratio startpos length translate_dir
          face_dir temp_mods (rowRuns env ne me par st blk daynight_ratio startpos length
            translate_dir face_dir temp_mods j).1 j with
      | true =>
        obtain ⟨h1, h2⟩ := hc hcl
        rw [if_pos rfl]
        dsimp only
        refine ⟨?_, le_refl _, ?_⟩
        · rw [h1, hdest, List.flatMap_append, List.append_assoc]
          simp [List.flatMap]
        · intro hlt
          apply h2
          omega
      | false =>
        have h1 := hnc hcl
        rw [if_neg (by simp)]
        refine ⟨?_, Nat.le_succ_of_le haj, ?_⟩
        · rw [h1]
          exact hdest
        · intro _
          rw [h1]
          rfl)

/-- The loop of `updateFastFaceRow` runs through and adds to `dest` the faces
of the runs of the line, in the order in which the runs are closed. -/
theorem row_runs_faces {σ Tile : Type} (env : Env) (ne : NodeEnv) (me : MeshEnv Tile)
    (par : NodeContainer σ) (st : σ) (blk : MapBlock) (daynight_ratio : Nat)
    (startpos : v3s16) (length : Nat) (translate_dir : v3s16) (translate_dir_f : v3f)
    (face_dir : v3s16) (face_dir_f : v3f) (dest : List (FastFace Tile))
    (temp_mods : NodeModMap) (hpar : ParentContract par st) :
    updateFastFaceRow env ne me par st blk daynight_ratio startpos length
        translate_dir translate_dir_f face_dir face_dir_f dest temp_mods
      = Except.ok (dest ++ (rowRuns env ne me par st blk daynight_ratio startpos length
          translate_dir face_dir temp_mods length).2.flatMap
          (runFace env ne me par st blk daynight_ratio startpos translate_dir translate_dir_f
            face_dir face_dir_f temp_mods)) := by
  obtain ⟨t, ht, hdest, _, _⟩ := row_loop_state env ne me par st blk daynight_ratio startpos
    length translate_dir translate_dir_f face_dir face_dir_f dest temp_mods hpar length
    (le_refl _)
  unfold updateFastFaceRow
  dsimp only
  rw [getNodeParentNoEx_eq env par st blk _ hpar]
  dsimp only
  rw [getNodeParentNoEx_eq env par st blk _ hpar]
  dsimp only
  have hinit : (⟨startpos, 0, nodeNoEx env par st blk startpos,
      nodeNoEx env par st blk (v3s16.add startpos face_dir),
      getFaceLight ne me daynight_ratio (nodeNoEx env par st blk startpos)
        (nodeNoEx env par st blk (v3s16.add startpos face_dir)) face_dir,
      getNodeTile env me (nodeNoEx env par st blk startpos) startpos face_dir temp_mods,
      getNodeTile env me (nodeNoEx env par st blk (v3s16.add startpos face_dir))
        (v3s16.add startpos face_dir) (v3s16.neg face_dir) temp_mods, dest⟩ : RowState Tile)
      = rowStateAt env ne me par st blk daynight_ratio startpos translate_dir face_dir
          temp_mods 0 0 dest := rfl
  rw [hinit, ht]
  dsimp only
  rw [hdest]

/-! ## Runs: what the closing test implies -/

theorem runsOf_succ (closes : Nat → Nat → Bool) (j : Nat) :
    runsOf closes (j + 1)
      = if closes (runsOf closes j).1 j = true then
          (j + 1, (runsOf closes j).2 ++ [((runsOf closes j).1, j)])
        else runsOf closes j := rfl

theorem runsCover_snoc (first : Nat) (R : List (Nat × Nat)) (a b : Nat)
    (h : runsCover first R a = true) (hab : a ≤ b) :
    runsCover first (R ++ [(a, b)]) (b + 1) = true := by
  induction R generalizing first with
  | nil =>
    have e : first = a := by
      simpa [runsCover] using h
    subst e
    simp [runsCover, hab]
  | cons r rest ih =>
    simp only [runsCover, Bool.and_eq_true, decide_eq_true_eq] at h
    simp only [List.cons_append, runsCover, Bool.and_eq_true, decide_eq_true_eq]
    exact ⟨h.1, ih _ h.2⟩

theorem runsCover_sum (first : Nat) (R : List (Nat × Nat)) (stop : Nat)
    (h : runsCover first R stop = true) :
    first + (R.map (fun r => r.2 - r.1 + 1)).sum = stop := by
  induction R generalizing first with
  | nil =>
    simpa [runsCover] using h
  | cons r rest ih =>
    simp only [runsCover, Bool.and_eq_true, decide_eq_true_eq] at h
    have h2 := ih _ h.2
    simp only [List.map_cons, List.sum_cons]
    omega

/-- The runs before iteration `j`: the open run began at or before `j` and no
iteration since has closed it; the closed runs follow one another from 0 up
to there; each was closed by its last iteration and by none before. -/
theorem runsOf_inv (closes : Nat → Nat → Bool) (j : Nat) :
    (runsOf closes j).1 ≤ j
    ∧ runsCover 0 (runsOf closes j).2 (runsOf closes j).1 = true
    ∧ (∀ m, (runsOf closes j).1 ≤ m → m < j → closes (runsOf closes j).1 m = false)
    ∧ (∀ r, r ∈ (runsOf closes j).2 → r.1 ≤ r.2 ∧ r.2 < j ∧ closes r.1 r.2 = true
        ∧ ∀ m, r.1 ≤ m → m < r.2 → closes r.1 m = false) := by
  induction j with
  | zero =>
    refine ⟨le_refl 0, rfl, ?_, ?_⟩
    · intro m _ hm
      omega
    · intro r hr
      cases hr
  | succ j ih =>
    obtain ⟨h1, h2, h3, h4⟩ := ih
    rw [runsOf_succ]
    cases hc : closes (runsOf closes j).1 j with
    | true =>
      rw [if_pos rfl]
      refine ⟨le_refl _, runsCover_snoc 0 _ _ _ h2 h1, ?_, ?_⟩
      · intro m hm1 hm2
        dsimp only at hm1
        omega
      · intro r hr
        rcases List.mem_append.1 hr with h | h
        · obtain ⟨a1, a2, a3, a4⟩ := h4 r h
          exact ⟨a1, Nat.lt_succ_of_lt a2, a3, a4⟩
        · rw [List.mem_singleton] at h
          subst h
          exact ⟨h1, Nat.lt_succ_self j, hc, fun m hm1 hm2 => h3 m hm1 hm2⟩
    | false =>
      rw [if_neg (by simp)]
      refine ⟨Nat.le_succ_of_le h1, h2, ?_, ?_⟩
      · intro m hm1 hm2
        by_cases hmj : m < j
        · exact h3 m hm1 hmj
        · have e : m = j := by omega
          rw [e]
          exact hc
      · intro r hr
        obtain ⟨a1, a2, a3, a4⟩ := h4 r hr
        exact ⟨a1, Nat.lt_succ_of_lt a2, a3, a4⟩

/-- When the last iteration always closes, the last run ends with the line. -/
theorem runsOf_last (closes : Nat → Nat → Bool) (j : Nat)
    (h : ∀ a, closes a j = true) :
    (runsOf closes (j + 1)).1 = j + 1
    ∧ (runsOf closes (j + 1)).2 = (runsOf closes j).2 ++ [((runsOf closes j).1, j)] := by
  rw [runsOf_succ, if_pos (h _)]
  exact ⟨rfl, rfl⟩

theorem succ_div_mod (j lim : Nat) (hlim : 0 < lim) :
    (j % lim + 1 < lim → (j + 1) / lim = j / lim ∧ (j + 1) % lim = j % lim + 1)
    ∧ (j % lim + 1 = lim → (j + 1) / lim = j / lim + 1 ∧ (j + 1) % lim = 0) := by
  have h := Nat.div_add_mod j lim
  constructor
  · intro hr
    exact (Nat.div_mod_unique hlim).2 ⟨by omega, hr⟩
  · intro hr
    have e : lim * (j / lim + 1) = lim * (j / lim) + lim := Nat.mul_succ _ _
    exact (Nat.div_mod_unique hlim).2 ⟨by omega, hlim⟩

/-- The number of runs of a line of `k` positions on which a run is closed
only by the end of the line or by the count `lim`. -/
theorem runsOf_count (closes : Nat → Nat → Bool) (k lim : Nat) (hk : 0 < k)
    (hcl : ∀ a j, a ≤ j → j < k →
      closes a j = (decide (j + 1 = k) || decide (lim ≠ 0 ∧ lim ≤ j - a + 1))) :
    (runsOf closes k).2.length = if lim = 0 then 1 else (k + lim - 1) / lim := by
  have hinv : ∀ j, j < k →
      (runsOf closes j).1 = j - j % lim ∧ (runsOf closes j).2.length = j / lim := by
    intro j
    induction j with
    | zero =>
      intro _
      exact ⟨by simp [runsOf], by simp [runsOf]⟩
    | succ j ih =>
      intro hj
      obtain ⟨h1, h2⟩ := ih (by omega)
      have hmod : j % lim ≤ j := Nat.mod_le j lim
      rw [runsOf_succ, hcl _ j (by rw [h1]; omega) (by omega), h1]
      have hne : ¬ j + 1 = k := by omega
      rw [decide_eq_false hne, Bool.false_or]
      have hcount : j - (j - j % lim) + 1 = j % lim + 1 := by omega
      rw [hcount]
      by_cases hlim : lim = 0
      · subst hlim
        rw [decide_eq_false (by simp), if_neg (by simp)]
        simp [h1, h2]
      · have hpos : 0 < lim := Nat.pos_of_ne_zero hlim
        have hlt := Nat.mod_lt j hpos
        obtain ⟨hA, hB⟩ := succ_div_mod j lim hpos
        by_cases hfull : lim ≤ j % lim + 1
        · rw [decide_eq_true ⟨hlim, hfull⟩, if_pos rfl]
          obtain ⟨e1, e2⟩ := hB (by omega)
          dsimp only
          rw [List.length_append, h2, e1, e2]
          exact ⟨by omega, rfl⟩
        · rw [decide_eq_false (fun h => hfull h.2), if_neg (by simp)]
          obtain ⟨e1, e2⟩ := hA (by omega)
          rw [h1, h2, e1, e2]
          exact ⟨by omega, rfl⟩
  obtain ⟨j, rfl⟩ : ∃ j, k = j + 1 := ⟨k - 1, by omega⟩
  obtain ⟨h1, h2⟩ := hinv j (by omega)
  have hmod : j % lim ≤ j := Nat.mod_le j lim
  rw [runsOf_succ, hcl _ j (by rw [h1]; omega) (by omega), decide_eq_true rfl, Bool.true_or,
    if_pos rfl]
  dsimp only
  rw [List.length_append, h2]
  by_cases hlim : lim = 0
  · subst hlim
    simp
  · rw [if_neg hlim]
    have hpos : 0 < lim := Nat.pos_of_ne_zero hlim
    have e : j + 1 + lim - 1 = j + lim := by omega
    rw [e, Nat.add_div_right j hpos]
    rfl

/-! ## Mesh building: the properties of the runs -/

theorem endOfTexture_false {Tile : Type} (me : MeshEnv Tile) (t0 t1 : Tile) (c : Nat)
    (h : endOfTexture me t0 t1 c = false) :
    (me.atlas t0 = true → me.tiled t0 ≠ 0 → c < me.tiled t0)
    ∧ (me.atlas t1 = true → me.tiled t1 ≠ 0 → c < me.tiled t1) := by
  unfold endOfTexture at h
  dsimp only at h
  constructor
  · intro ha ht
    by_contra hc
    have h0 : me.tiled t0 ≤ c := by omega
    split_ifs at h <;> simp_all
  · intro ha ht
    by_contra hc
    have h0 : me.tiled t1 ≤ c := by omega
    split_ifs at h <;> simp_all

theorem endOfTexture_limit {Tile : Type} (me : MeshEnv Tile) (t0 t1 : Tile) (c : Nat) :
    endOfTexture me t0 t1 c
      = decide (tileLimit me t0 t1 ≠ 0 ∧ tileLimit me t0 t1 ≤ c) := by
  unfold endOfTexture tileLimit
  dsimp only
  cases me.atlas t0 <;> cases me.atlas t1 <;>
    simp only [Bool.false_eq_true, false_and, true_and, if_false, if_true, ne_eq,
      not_true_eq_false, decide_False] <;>
    by_cases h0 : me.tiled t0 = 0 <;> by_cases h1 : me.tiled t1 = 0 <;>
    by_cases h2 : me.tiled t0 ≤ c <;> by_cases h3 : me.tiled t1 ≤ c <;>
    simp [h0, h1, h2, h3]

/-- What an iteration that does not close the open run has found. -/
theorem runCloses_false {σ Tile : Type} (env : Env) (ne : NodeEnv) (me : MeshEnv Tile)
    (par : NodeContainer σ) (st : σ) (blk : MapBlock) (daynight_ratio : Nat)
    (startpos : v3s16) (length : Nat) (translate_dir face_dir : v3s16)
    (temp_mods : NodeModMap) (a m : Nat)
    (h : runCloses env ne me par st blk daynight_ratio startpos length translate_dir face_dir
      temp_mods a m = false) :
    sameFace env ne me par st blk daynight_ratio face_dir temp_mods
        (rowPos startpos translate_dir a) (rowPos startpos translate_dir (m + 1)) = true
    ∧ endOfTexture me
        (faceTile0 env me par st blk face_dir temp_mods (rowPos startpos translate_dir a))
        (faceTile1 env me par st blk face_dir temp_mods (rowPos startpos translate_dir a))
        (m - a + 1) = false := by
  unfold runCloses at h
  rw [Bool.or_eq_false_iff, Bool.or_eq_false_iff] at h
  obtain ⟨⟨_, h2⟩, h3⟩ := h
  refine ⟨?_, h3⟩
  cases hs : sameFace env ne me par st blk daynight_ratio face_dir temp_mods
      (rowPos startpos translate_dir a) (rowPos startpos translate_dir (m + 1)) with
  | true => rfl
  | false =>
    rw [hs] at h2
    cases h2

theorem runCloses_last {σ Tile : Type} (env : Env) (ne : NodeEnv) (me : MeshEnv Tile)
    (par : NodeContainer σ) (st : σ) (blk : MapBlock) (daynight_ratio : Nat)
    (startpos : v3s16) (length : Nat) (translate_dir face_dir : v3s16)
    (temp_mods : NodeModMap) (a j : Nat) (hj : j + 1 = length) :
    runCloses env ne me par st blk daynight_ratio startpos length translate_dir face_dir
      temp_mods a j = true := by
  unfold runCloses
  have e : (j : Int) = (length : Int) - 1 := by omega
  rw [decide_eq_true e]
  rfl

/-- The faces of a run: none if `face_contents` gives 0 on the contents that
decide on the run, one otherwise. -/
theorem runFace_cases {σ Tile : Type} (env : Env) (ne : NodeEnv) (me : MeshEnv Tile)
    (par : NodeContainer σ) (st : σ) (blk : MapBlock) (daynight_ratio : Nat)
    (startpos translate_dir : v3s16) (translate_dir_f : v3f) (face_dir : v3s16)
    (face_dir_f : v3f) (temp_mods : NodeModMap) (r : Nat × Nat) :
    (runContents env me par st blk face_dir temp_mods (rowPos startpos translate_dir r.1)
        (rowPos startpos translate_dir r.2) = 0 →
      runFace env ne me par st blk daynight_ratio startpos translate_dir translate_dir_f
        face_dir face_dir_f temp_mods r = [])
    ∧ (runContents env me par st blk face_dir temp_mods (rowPos startpos translate_dir r.1)
        (rowPos startpos translate_dir r.2) = 1 →
      runFace env ne me par st blk daynight_ratio startpos translate_dir translate_dir_f
        face_dir face_dir_f temp_mods r
        = [⟨faceTile0 env me par st blk face_dir temp_mods (rowPos startpos translate_dir r.1),
            me.decode_light (faceLightAt env ne me par st blk daynight_ratio face_dir
              (rowPos startpos translate_dir r.1)),
            ⟨2 * (rowPos startpos translate_dir r.2).X
                - (((r.2 - r.1 + 1 : Nat) : Int) - 1) * translate_dir_f.X,
              2 * (rowPos startpos translate_dir r.2).Y
                - (((r.2 - r.1 + 1 : Nat) : Int) - 1) * translate_dir_f.Y,
              2 * (rowPos startpos translate_dir r.2).Z
                - (((r.2 - r.1 + 1 : Nat) : Int) - 1) * translate_dir_f.Z⟩,
            face_dir,
            ⟨if translate_dir.X ≠ 0 then (r.2 - r.1 + 1 : Nat) else 1,
              if translate_dir.Y ≠ 0 then (r.2 - r.1 + 1 : Nat) else 1,
              if translate_dir.Z ≠ 0 then (r.2 - r.1 + 1 : Nat) else 1⟩⟩])
    ∧ (runContents env me par st blk face_dir temp_mods (rowPos startpos translate_dir r.1)
        (rowPos startpos translate_dir r.2) ≠ 0 →
      runContents env me par st blk face_dir temp_mods (rowPos startpos translate_dir r.1)
        (rowPos startpos translate_dir r.2) ≠ 1 →
      runFace env ne me par st blk daynight_ratio startpos translate_dir translate_dir_f
        face_dir face_dir_f temp_mods r
        = [⟨faceTile1 env me par st blk face_dir temp_mods (rowPos startpos translate_dir r.1),
            me.decode_light (faceLightAt env ne me par st blk daynight_ratio face_dir
              (rowPos startpos translate_dir r.1)),
            ⟨2 * (rowPos startpos translate_dir r.2).X
                - (((r.2 - r.1 + 1 : Nat) : Int) - 1) * translate_dir_f.X + 2 * face_dir_f.X,
              2 * (rowPos startpos translate_dir r.2).Y
                - (((r.2 - r.1 + 1 : Nat) : Int) - 1) * translate_dir_f.Y + 2 * face_dir_f.Y,
              2 * (rowPos startpos translate_dir r.2).Z
                - (((r.2 - r.1 + 1 : Nat) : Int) - 1) * translate_dir_f.Z + 2 * face_dir_f.Z⟩,
            v3s16.neg face_dir,
            ⟨if translate_dir.X ≠ 0 then (r.2 - r.1 + 1 : Nat) else 1,
              if translate_dir.Y ≠ 0 then (r.2 - r.1 + 1 : Nat) else 1,
              if translate_dir.Z ≠ 0 then (r.2 - r.1 + 1 : Nat) else 1⟩⟩]) := by
  have hmf : me.face_contents
      (getNodeContent (rowPos startpos translate_dir r.2)
        (nodeNoEx env par st blk (rowPos startpos translate_dir r.1)) temp_mods)
      (getNodeContent (v3s16.add (rowPos startpos translate_dir r.2) face_dir)
        (nodeNoEx env par st blk (v3s16.add (rowPos startpos translate_dir r.1) face_dir))
        temp_mods)
      = runContents env me par st blk face_dir temp_mods (rowPos startpos translate_dir r.1)
          (rowPos startpos translate_dir r.2) := rfl
  unfold runFace rowFace rowStateAt makeFastFace
  dsimp only
  rw [hmf]
  refine ⟨?_, ?_, ?_⟩
  · intro h
    rw [if_neg (not_not.mpr h)]
  · intro h
    rw [if_pos (by rw [h]; decide), if_pos h]
    rfl
  · intro h0 h1
    rw [if_pos h0, if_neg h1]
    rfl

theorem flatMap_length_one {α β : Type} (l : List α) (f : α → List β)
    (h : ∀ x, x ∈ l → (f x).length = 1) : (l.flatMap f).length = l.length := by
  induction l with
  | nil => rfl
  | cons x rest ih =>
    rw [List.flatMap_cons, List.length_append, h x (List.mem_cons_self _ _),
      ih (fun y hy => h y (List.mem_cons_of_mem _ hy)), List.length_cons]
    omega

/-- C27: for a sweep line along a positive axis that stays within the range
of `s16`, with `translate_dir_f` equal to `translate_dir` and a parent that
keeps its contract, `updateFastFaceRow` adds to `dest` the faces of the runs
it closes, in order; a run `r` whose deciding contents give 0 adds none, and
every other run adds exactly one face: its scale is the run length on the
axis of `translate_dir` and 1 on the other axes, its light the decoded face
light of the first position; if `face_contents` gives 1 it carries `tile0` of
the first position, faces `face_dir` and has its centre at the middle between
the first and the last position of the run (the last position minus
`(runLength - 1) / 2` steps); otherwise it carries `tile1`, faces `-face_dir`
and has its centre moved from there by `face_dir_f`. -/
theorem run_emits_one_quad {σ Tile : Type} (env : Env) (ne : NodeEnv) (me : MeshEnv Tile)
    (par : NodeContainer σ) (st : σ) (blk : MapBlock) (daynight_ratio : Nat)
    (startpos : v3s16) (length : Nat) (translate_dir : v3s16) (translate_dir_f : v3f)
    (face_dir : v3s16) (face_dir_f : v3f) (dest : List (FastFace Tile))
    (temp_mods : NodeModMap) (hpar : ParentContract par st)
    (htd : translate_dir = ⟨1, 0, 0⟩ ∨ translate_dir = ⟨0, 1, 0⟩ ∨ translate_dir = ⟨0, 0, 1⟩)
    (htf : translate_dir_f = ⟨translate_dir.X, translate_dir.Y, translate_dir.Z⟩)
    (hrange : -32768 ≤ startpos.X ∧ startpos.X + length ≤ 32768 ∧ -32768 ≤ startpos.Y
      ∧ startpos.Y + length ≤ 32768 ∧ -32768 ≤ startpos.Z ∧ startpos.Z + length ≤ 32768) :
    updateFastFaceRow env ne me par st blk daynight_ratio startpos length
        translate_dir translate_dir_f face_dir face_dir_f dest temp_mods
      = Except.ok (dest ++ (rowRuns env ne me par st blk daynight_ratio startpos length
          translate_dir face_dir temp_mods length).2.flatMap
          (runFace env ne me par st blk daynight_ratio startpos translate_dir translate_dir_f
            face_dir face_dir_f temp_mods))
    ∧ ∀ r, r ∈ (rowRuns env ne me par st blk daynight_ratio startpos length
          translate_dir face_dir temp_mods length).2 →
        r.1 ≤ r.2 ∧ r.2 < length
        ∧ (runContents env me par st blk face_dir temp_mods (rowPos startpos translate_dir r.1)
            (rowPos startpos translate_dir r.2) = 0 →
          runFace env ne me par st blk daynight_ratio startpos translate_dir translate_dir_f
            face_dir face_dir_f temp_mods r = [])
        ∧ (runContents env me par st blk face_dir temp_mods (rowPos startpos translate_dir r.1)
            (rowPos startpos translate_dir r.2) = 1 →
          runFace env ne me par st blk daynight_ratio startpos translate_dir translate_dir_f
            face_dir face_dir_f temp_mods r
            = [⟨faceTile0 env me par st blk face_dir temp_mods
                  (rowPos startpos translate_dir r.1),
                me.decode_light (faceLightAt env ne me par st blk daynight_ratio face_dir
                  (rowPos startpos translate_dir r.1)),
                ⟨(rowPos startpos translate_dir r.1).X + (rowPos startpos translate_dir r.2).X,
                  (rowPos startpos translate_dir r.1).Y + (rowPos startpos translate_dir r.2).Y,
                  (rowPos startpos translate_dir r.1).Z
                    + (rowPos startpos translate_dir r.2).Z⟩,
                face_dir,
                ⟨1 + ((r.2 - r.1 : Nat) : Int) * translate_dir.X,
                  1 + ((r.2 - r.1 : Nat) : Int) * translate_dir.Y,
                  1 + ((r.2 - r.1 : Nat) : Int) * translate_dir.Z⟩⟩])
        ∧ (runContents env me par st blk face_dir temp_mods (rowPos startpos translate_dir r.1)
            (rowPos startpos translate_dir r.2) ≠ 0 →
          runContents env me par st blk face_dir temp_mods (rowPos startpos translate_dir r.1)
            (rowPos startpos translate_dir r.2) ≠ 1 →
          runFace env ne me par st blk daynight_ratio startpos translate_dir translate_dir_f
            face_dir face_dir_f temp_mods r
            = [⟨faceTile1 env me par st blk face_dir temp_mods
                  (rowPos startpos translate_dir r.1),
                me.decode_light (faceLightAt env ne me par st blk daynight_ratio face_dir
                  (rowPos startpos translate_dir r.1)),
                ⟨(rowPos startpos translate_dir r.1).X + (rowPos startpos translate_dir r.2).X
                    + 2 * face_dir_f.X,
                  (rowPos startpos translate_dir r.1).Y + (rowPos startpos translate_dir r.2).Y
                    + 2 * face_dir_f.Y,
                  (rowPos startpos translate_dir r.1).Z + (rowPos startpos translate_dir r.2).Z
                    + 2 * face_dir_f.Z⟩,
                v3s16.neg face_dir,
                ⟨1 + ((r.2 - r.1 : Nat) : Int) * translate_dir.X,
                  1 + ((r.2 - r.1 : Nat) : Int) * translate_dir.Y,
                  1 + ((r.2 - r.1 : Nat) : Int) * translate_dir.Z⟩⟩]) := by
  refine ⟨row_runs_faces env ne me par st blk daynight_ratio startpos length translate_dir
    translate_dir_f face_dir face_dir_f dest temp_mods hpar, ?_⟩
  intro r hr
  obtain ⟨_, _, _, hmem⟩ := runsOf_inv (runCloses env ne me par st blk daynight_ratio startpos
    length translate_dir face_dir temp_mods) length
  obtain ⟨h1, h2, _, _⟩ := hmem r hr
  obtain ⟨c0, c1, c2⟩ := runFace_cases env ne me par st blk daynight_ratio startpos
    translate_dir translate_dir_f face_dir face_dir_f temp_mods r
  have ha := rowPos_coords startpos translate_dir length htd hrange r.1 (by omega)
  have hb := rowPos_coords startpos translate_dir length htd hrange r.2 h2
  have hcentre : (⟨2 * (rowPos startpos translate_dir r.2).X
        - (((r.2 - r.1 + 1 : Nat) : Int) - 1) * translate_dir_f.X,
      2 * (rowPos startpos translate_dir r.2).Y
        - (((r.2 - r.1 + 1 : Nat) : Int) - 1) * translate_dir_f.Y,
      2 * (rowPos startpos translate_dir r.2).Z
        - (((r.2 - r.1 + 1 : Nat) : Int) - 1) * translate_dir_f.Z⟩ : v3f)
      = ⟨(rowPos startpos translate_dir r.1).X + (rowPos startpos translate_dir r.2).X,
          (rowPos startpos translate_dir r.1).Y + (rowPos startpos translate_dir r.2).Y,
          (rowPos startpos translate_dir r.1).Z + (rowPos startpos translate_dir r.2).Z⟩ := by
    rw [ha, hb, htf]
    rcases htd with h | h | h <;> subst h <;> simp only [v3f.mk.injEq] <;>
      refine ⟨?_, ?_, ?_⟩ <;> omega
  have hcentre2 : (⟨2 * (rowPos startpos translate_dir r.2).X
        - (((r.2 - r.1 + 1 : Nat) : Int) - 1) * translate_dir_f.X + 2 * face_dir_f.X,
      2 * (rowPos startpos translate_dir r.2).Y
        - (((r.2 - r.1 + 1 : Nat) : Int) - 1) * translate_dir_f.Y + 2 * face_dir_f.Y,
      2 * (rowPos startpos translate_dir r.2).Z
        - (((r.2 - r.1 + 1 : Nat) : Int) - 1) * translate_dir_f.Z + 2 * face_dir_f.Z⟩ : v3f)
      = ⟨(rowPos startpos translate_dir r.1).X + (rowPos startpos translate_dir r.2).X
            + 2 * face_dir_f.X,
          (rowPos startpos translate_dir r.1).Y + (rowPos startpos translate_dir r.2).Y
            + 2 * face_dir_f.Y,
          (rowPos startpos translate_dir r.1).Z + (rowPos startpos translate_dir r.2).Z
            + 2 * face_dir_f.Z⟩ := by
    rw [ha, hb, htf]
    rcases htd with h | h | h <;> subst h <;> simp only [v3f.mk.injEq] <;>
      refine ⟨?_, ?_, ?_⟩ <;> omega
  have hscale : (⟨if translate_dir.X ≠ 0 then (r.2 - r.1 + 1 : Nat) else 1,
      if translate_dir.Y ≠ 0 then (r.2 - r.1 + 1 : Nat) else 1,
      if translate_dir.Z ≠ 0 then (r.2 - r.1 + 1 : Nat) else 1⟩ : v3f)
      = ⟨1 + ((r.2 - r.1 : Nat) : Int) * translate_dir.X,
          1 + ((r.2 - r.1 : Nat) : Int) * translate_dir.Y,
          1 + ((r.2 - r.1 : Nat) : Int) * translate_dir.Z⟩ := by
    rcases htd with h | h | h <;> subst h <;> simp only [v3f.mk.injEq] <;>
      refine ⟨?_, ?_, ?_⟩ <;> simp <;> omega
  refine ⟨h1, h2, c0, ?_, ?_⟩
  · intro h
    rw [c1 h, hcentre, hscale]
  · intro h0 h1x
    rw [c2 h0 h1x, hcentre2, hscale]

theorem run_emits_one_quad_witness :
    updateFastFaceRow exampleEnv exampleNodeEnv exampleMeshEnv exampleParent []
        exampleWaterSlab 1000 ⟨0, 0, 0⟩ 2 ⟨1, 0, 0⟩ ⟨1, 0, 0⟩ ⟨0, 1, 0⟩ ⟨0, 1, 0⟩ []
        (fun _ => none)
      = Except.ok [⟨0, 0, ⟨1, 0, 0⟩, ⟨0, 1, 0⟩, ⟨2, 1, 1⟩⟩] :=
  ((run_emits_one_quad exampleEnv exampleNodeEnv exampleMeshEnv exampleParent []
    exampleWaterSlab 1000 ⟨0, 0, 0⟩ 2 ⟨1, 0, 0⟩ ⟨1, 0, 0⟩ ⟨0, 1, 0⟩ ⟨0, 1, 0⟩ []
    (fun _ => none) (exampleParent_contract _) (Or.inl rfl) rfl (by decide)).1).trans
    (by decide)

/-- C28: for a call of `updateFastFaceRow` with `length >= 1` and a parent
that keeps its contract: at the head of every iteration `j` the variables of
the loop are those of the run that began in iteration `(rowRuns j).1`; the
runs closed follow one another from position 0 to the end of the line, each
with at least one position, and their lengths sum to `length`; the last one
ends at the last position; every position of a run passes the test of
`tile0`, `tile1` and the face light against the first position of the run;
and no run is longer than `tiled` of the `tile0` or the `tile1` of its first
position if that tile has an atlas and `tiled` is not 0. -/
theorem runs_partition_line {σ Tile : Type} (env : Env) (ne : NodeEnv) (me : MeshEnv Tile)
    (par : NodeContainer σ) (st : σ) (blk : MapBlock) (daynight_ratio : Nat)
    (startpos : v3s16) (length : Nat) (translate_dir : v3s16) (translate_dir_f : v3f)
    (face_dir : v3s16) (face_dir_f : v3f) (dest : List (FastFace Tile))
    (temp_mods : NodeModMap) (hpar : ParentContract par st) (hlen : 1 ≤ length) :
    updateFastFaceRow env ne me par st blk daynight_ratio startpos length
        translate_dir translate_dir_f face_dir face_dir_f dest temp_mods
      = Except.ok (dest ++ (rowRuns env ne me par st blk daynight_ratio startpos length
          translate_dir face_dir temp_mods length).2.flatMap
          (runFace env ne me par st blk daynight_ratio startpos translate_dir translate_dir_f
            face_dir face_dir_f temp_mods))
    ∧ (∀ j, j < length →
        ∃ t, forLoopE (rowBody env ne me par st blk daynight_ratio length translate_dir
              translate_dir_f face_dir face_dir_f temp_mods) j
              (rowStateAt env ne me par st blk daynight_ratio startpos translate_dir face_dir
                temp_mods 0 0 dest) = Except.ok t
          ∧ t = rowStateAt env ne me par st blk daynight_ratio startpos translate_dir face_dir
              temp_mods (rowRuns env ne me par st blk daynight_ratio startpos length
                translate_dir face_dir temp_mods j).1 j t.dest)
    ∧ runsCover 0 (rowRuns env ne me par st blk daynight_ratio startpos length
          translate_dir face_dir temp_mods length).2 length = true
    ∧ ((rowRuns env ne me par st blk daynight_ratio startpos length
          translate_dir face_dir temp_mods length).2.map (fun r => r.2 - r.1 + 1)).sum = length
    ∧ (∃ before a, (rowRuns env ne me par st blk daynight_ratio startpos length
          translate_dir face_dir temp_mods length).2 = before ++ [(a, length - 1)])
    ∧ ∀ r, r ∈ (rowRuns env ne me par st blk daynight_ratio startpos length
          translate_dir face_dir temp_mods length).2 →
        r.1 ≤ r.2 ∧ r.2 < length
        ∧ (∀ m, r.1 < m → m ≤ r.2 →
            me.tile_eq (faceTile0 env me par st blk face_dir temp_mods
                (rowPos startpos translate_dir m))
              (faceTile0 env me par st blk face_dir temp_mods
                (rowPos startpos translate_dir r.1)) = true
            ∧ me.tile_eq (faceTile1 env me par st blk face_dir temp_mods
                (rowPos startpos translate_dir m))
              (faceTile1 env me par st blk face_dir temp_mods
                (rowPos startpos translate_dir r.1)) = true
            ∧ faceLightAt env ne me par st blk daynight_ratio face_dir
                (rowPos startpos translate_dir m)
              = faceLightAt env ne me par st blk daynight_ratio face_dir
                (rowPos startpos translate_dir r.1))
        ∧ (me.atlas (faceTile0 env me par st blk face_dir temp_mods
              (rowPos startpos translate_dir r.1)) = true →
            me.tiled (faceTile0 env me par st blk face_dir temp_mods
              (rowPos startpos translate_dir r.1)) ≠ 0 →
            r.2 - r.1 + 1 ≤ me.tiled (faceTile0 env me par st blk face_dir temp_mods
              (rowPos startpos translate_dir r.1)))
        ∧ (me.atlas (faceTile1 env me par st blk face_dir temp_mods
              (rowPos startpos translate_dir r.1)) = true →
            me.tiled (faceTile1 env me par st blk face_dir temp_mods
              (rowPos startpos translate_dir r.1)) ≠ 0 →
            r.2 - r.1 + 1 ≤ me.tiled (faceTile1 env me par st blk face_dir temp_mods
              (rowPos startpos translate_dir r.1))) := by
  obtain ⟨_, hcover, _, hmem⟩ := runsOf_inv (runCloses env ne me par st blk daynight_ratio
    startpos length translate_dir face_dir temp_mods) length
  obtain ⟨k, hk⟩ : ∃ k, length = k + 1 := ⟨length - 1, by omega⟩
  have hlast := runsOf_last (runCloses env ne me par st blk daynight_ratio
    startpos length translate_dir face_dir temp_mods) k
    (fun a => runCloses_last env ne me par st blk daynight_ratio startpos length translate_dir
      face_dir temp_mods a k hk.symm)
  rw [← hk] at hlast
  have hcover2 : runsCover 0 (rowRuns env ne me par st blk daynight_ratio startpos length
      translate_dir face_dir temp_mods length).2 length = true := by
    have h := hcover
    rw [hlast.1] at h
    exact h
  refine ⟨row_runs_faces env ne me par st blk daynight_ratio startpos length translate_dir
    translate_dir_f face_dir face_dir_f dest temp_mods hpar, ?_, hcover2, ?_, ?_, ?_⟩
  · intro j hj
    obtain ⟨t, ht, _, _, hstate⟩ := row_loop_state env ne me par st blk daynight_ratio startpos
      length translate_dir translate_dir_f face_dir face_dir_f dest temp_mods hpar j
      (Nat.le_of_lt hj)
    exact ⟨t, ht, hstate hj⟩
  · have h := runsCover_sum 0 _ length hcover2
    omega
  · have e : length - 1 = k := by omega
    rw [e]
    exact ⟨_, _, hlast.2⟩
  · intro r hr
    obtain ⟨h1, h2, _, h4⟩ := hmem r hr
    refine ⟨h1, h2, ?_, ?_, ?_⟩
    · intro m hm1 hm2
      have hc := h4 (m - 1) (by omega) (by omega)
      have hs := (runCloses_false env ne me par st blk daynight_ratio startpos length
        translate_dir face_dir temp_mods r.1 (m - 1) hc).1
      have e : m - 1 + 1 = m := by omega
      rw [e] at hs
      unfold sameFace at hs
      rw [Bool.and_eq_true, Bool.and_eq_true, decide_eq_true_eq] at hs
      exact ⟨hs.1.1, hs.1.2, hs.2⟩
    · intro ha ht
      by_cases hlen1 : r.1 = r.2
      · rw [hlen1, Nat.sub_self]
        rw [hlen1] at ht
        omega
      · have hc := h4 (r.2 - 1) (by omega) (by omega)
        have he := (runCloses_false env ne me par st blk daynight_ratio startpos length
          translate_dir face_dir temp_mods r.1 (r.2 - 1) hc).2
        have hb := (endOfTexture_false me _ _ _ he).1 ha ht
        omega
    · intro ha ht
      by_cases hlen1 : r.1 = r.2
      · rw [hlen1, Nat.sub_self]
        rw [hlen1] at ht
        omega
      · have hc := h4 (r.2 - 1) (by omega) (by omega)
        have he := (runCloses_false env ne me par st blk daynight_ratio startpos length
          translate_dir face_dir temp_mods r.1 (r.2 - 1) hc).2
        have hb := (endOfTexture_false me _ _ _ he).2 ha ht
        omega

theorem runs_partition_line_witness :
    (rowRuns exampleEnv exampleNodeEnv exampleAtlasEnv exampleParent [] exampleWaterSlab 1000
        ⟨0, 0, 0⟩ 2 ⟨1, 0, 0⟩ ⟨0, 1, 0⟩ (fun _ => none) 2).2 = [(0, 0), (1, 1)]
    ∧ runsCover 0 (rowRuns exampleEnv exampleNodeEnv exampleAtlasEnv exampleParent []
        exampleWaterSlab 1000 ⟨0, 0, 0⟩ 2 ⟨1, 0, 0⟩ ⟨0, 1, 0⟩ (fun _ => none) 2).2 2 = true :=
  ⟨by decide,
    (runs_partition_line exampleEnv exampleNodeEnv exampleAtlasEnv exampleParent []
      exampleWaterSlab 1000 ⟨0, 0, 0⟩ 2 ⟨1, 0, 0⟩ ⟨1, 0, 0⟩ ⟨0, 1, 0⟩ ⟨0, 1, 0⟩ []
      (fun _ => none) (exampleParent_contract _) (by decide)).2.2.1⟩

/-- The test that closes a run, on a line of equal tiles and equal light. -/
theorem runCloses_uniform {σ Tile : Type} (env : Env) (ne : NodeEnv) (me : MeshEnv Tile)
    (par : NodeContainer σ) (st : σ) (blk : MapBlock) (daynight_ratio : Nat)
    (startpos : v3s16) (length : Nat) (translate_dir face_dir : v3s16)
    (temp_mods : NodeModMap) (t0 t1 : Tile) (l : u8)
    (ht0 : ∀ i, i < length →
      faceTile0 env me par st blk face_dir temp_mods (rowPos startpos translate_dir i) = t0)
    (ht1 : ∀ i, i < length →
      faceTile1 env me par st blk face_dir temp_mods (rowPos startpos translate_dir i) = t1)
    (hl : ∀ i, i < length →
      faceLightAt env ne me par st blk daynight_ratio face_dir
        (rowPos startpos translate_dir i) = l)
    (he0 : me.tile_eq t0 t0 = true) (he1 : me.tile_eq t1 t1 = true)
    (a j : Nat) (haj : a ≤ j) (hj : j < length) :
    runCloses env ne me par st blk daynight_ratio startpos length translate_dir face_dir
        temp_mods a j
      = (decide (j + 1 = length)
          || decide (tileLimit me t0 t1 ≠ 0 ∧ tileLimit me t0 t1 ≤ j - a + 1)) := by
  unfold runCloses
  rw [ht0 a (by omega), ht1 a (by omega), endOfTexture_limit]
  by_cases hlast : j + 1 = length
  · have h1 : ((j : Int) = (length : Int) - 1) := by omega
    rw [decide_eq_true h1, decide_eq_true hlast, Bool.true_or, Bool.true_or]
  · have h1 : ¬ ((j : Int) = (length : Int) - 1) := by omega
    have hs : sameFace env ne me par st blk daynight_ratio face_dir temp_mods
        (rowPos startpos translate_dir a) (rowPos startpos translate_dir (j + 1)) = true := by
      unfold sameFace
      rw [ht0 a (by omega), ht1 a (by omega), hl a (by omega), ht0 (j + 1) (by omega),
        ht1 (j + 1) (by omega), hl (j + 1) (by omega), he0, he1]
      simp
    rw [decide_eq_false h1, decide_eq_false hlast, hs]
    simp

/-- C21, counterexample: on a line of two positions with stone below water,
every position has the same pair of tiles and the same light and draws the
tile of the stone, which has no atlas; the tile of the water on the other side
of the face has an atlas with `tiled = 1`, and `updateFastFaceRow` adds two
faces, not one. -/
theorem tile_limit_of_hidden_side :
    updateFastFaceRow exampleEnv exampleNodeEnv exampleAtlasEnv exampleParent []
        exampleWaterSlab 1000 ⟨0, 0, 0⟩ 2 ⟨1, 0, 0⟩ ⟨1, 0, 0⟩ ⟨0, 1, 0⟩ ⟨0, 1, 0⟩ []
        (fun _ => none)
      = Except.ok [⟨0, 0, ⟨0, 0, 0⟩, ⟨0, 1, 0⟩, ⟨1, 1, 1⟩⟩, ⟨0, 0, ⟨2, 0, 0⟩, ⟨0, 1, 0⟩, ⟨1, 1, 1⟩⟩]
    ∧ (∀ i, i < 2 →
        faceTile0 exampleEnv exampleAtlasEnv exampleParent [] exampleWaterSlab ⟨0, 1, 0⟩
          (fun _ => none) (rowPos ⟨0, 0, 0⟩ ⟨1, 0, 0⟩ i) = 0
        ∧ faceTile1 exampleEnv exampleAtlasEnv exampleParent [] exampleWaterSlab ⟨0, 1, 0⟩
          (fun _ => none) (rowPos ⟨0, 0, 0⟩ ⟨1, 0, 0⟩ i) = 2
        ∧ faceLightAt exampleEnv exampleNodeEnv exampleAtlasEnv exampleParent []
          exampleWaterSlab 1000 ⟨0, 1, 0⟩ (rowPos ⟨0, 0, 0⟩ ⟨1, 0, 0⟩ i) = 0
        ∧ faceContentsAt exampleEnv exampleAtlasEnv exampleParent [] exampleWaterSlab
          ⟨0, 1, 0⟩ (fun _ => none) (rowPos ⟨0, 0, 0⟩ ⟨1, 0, 0⟩ i) = 1)
    ∧ exampleAtlasEnv.atlas 0 = false
    ∧ exampleAtlasEnv.atlas 2 = true ∧ exampleAtlasEnv.tiled 2 = 1 := by
  decide

/-- A line with a content override: air overridden by stone at `(0,0,0)` next
to stone at `(1,0,0)`. Both positions have the tiles 0 and 254, the face
light 0 and contents that draw a face, neither tile has an atlas, and
`updateFastFaceRow` adds no face: the run is closed at `(1,0,0)`, where no
overlay is found, and the decision is taken with the node of `(0,0,0)`, which
is air. -/
theorem override_line_draws_nothing :
    updateFastFaceRow exampleEnv exampleNodeEnv exampleMeshEnv exampleParent []
        exampleStoneEnd 1000 ⟨0, 0, 0⟩ 2 ⟨1, 0, 0⟩ ⟨1, 0, 0⟩ ⟨0, 1, 0⟩ ⟨0, 1, 0⟩ []
        exampleStoneMods = Except.ok []
    ∧ (∀ i, i < 2 →
        faceTile0 exampleEnv exampleMeshEnv exampleParent [] exampleStoneEnd ⟨0, 1, 0⟩
          exampleStoneMods (rowPos ⟨0, 0, 0⟩ ⟨1, 0, 0⟩ i) = 0
        ∧ faceTile1 exampleEnv exampleMeshEnv exampleParent [] exampleStoneEnd ⟨0, 1, 0⟩
          exampleStoneMods (rowPos ⟨0, 0, 0⟩ ⟨1, 0, 0⟩ i) = 254
        ∧ faceLightAt exampleEnv exampleNodeEnv exampleMeshEnv exampleParent []
          exampleStoneEnd 1000 ⟨0, 1, 0⟩ (rowPos ⟨0, 0, 0⟩ ⟨1, 0, 0⟩ i) = 0
        ∧ faceContentsAt exampleEnv exampleMeshEnv exampleParent [] exampleStoneEnd
          ⟨0, 1, 0⟩ exampleStoneMods (rowPos ⟨0, 0, 0⟩ ⟨1, 0, 0⟩ i) = 1)
    ∧ exampleMeshEnv.atlas 0 = false ∧ exampleMeshEnv.atlas 254 = false
    ∧ tileLimit exampleMeshEnv 0 254 = 0 := by
  decide

/-- Without a content override at `p`, `getNodeContent` is the content of the
node. -/
theorem getNodeContent_plain (p : v3s16) (mn : MapNode) (temp_mods : NodeModMap)
    (h : ∀ mod, temp_mods p = some mod → mod.type ≠ NodeModType.NODEMOD_CHANGECONTENT) :
    getNodeContent p mn temp_mods = mn.d := by
  unfold getNodeContent
  cases hm : temp_mods p with
  | none => rfl
  | some mod =>
    dsimp only
    rw [if_neg (h mod hm)]

/-- Without a content override at the positions involved, the contents that
decide on a run are the two contents at its first position. -/
theorem runContents_plain {σ Tile : Type} (env : Env) (me : MeshEnv Tile)
    (par : NodeContainer σ) (st : σ) (blk : MapBlock) (face_dir : v3s16)
    (temp_mods : NodeModMap) (p q : v3s16)
    (hp : (∀ mod, temp_mods p = some mod → mod.type ≠ NodeModType.NODEMOD_CHANGECONTENT)
      ∧ ∀ mod, temp_mods (v3s16.add p face_dir) = some mod →
          mod.type ≠ NodeModType.NODEMOD_CHANGECONTENT)
    (hq : (∀ mod, temp_mods q = some mod → mod.type ≠ NodeModType.NODEMOD_CHANGECONTENT)
      ∧ ∀ mod, temp_mods (v3s16.add q face_dir) = some mod →
          mod.type ≠ NodeModType.NODEMOD_CHANGECONTENT) :
    runContents env me par st blk face_dir temp_mods p q
      = faceContentsAt env me par st blk face_dir temp_mods p := by
  unfold runContents faceContentsAt
  rw [getNodeContent_plain q _ temp_mods hq.1, getNodeContent_plain _ _ temp_mods hq.2,
    getNodeContent_plain p _ temp_mods hp.1, getNodeContent_plain _ _ temp_mods hp.2]

/-- C21: for a sweep line of `length >= 1` positions with no content override
on the line or on its neighbours towards `face_dir`, on which every position
has the same pair of tiles `t0`, `t1`, the same face light and contents that
draw a face, `updateFastFaceRow` adds exactly `ceil(length / tileLimit)`
faces, where `tileLimit` is the smaller non-zero `tiled` among those of `t0`
and `t1` that have an atlas, and exactly 1 face when neither tile has an atlas
with a non-zero `tiled`. -/
theorem quads_of_uniform_line {σ Tile : Type} (env : Env) (ne : NodeEnv) (me : MeshEnv Tile)
    (par : NodeContainer σ) (st : σ) (blk : MapBlock) (daynight_ratio : Nat)
    (startpos : v3s16) (length : Nat) (translate_dir : v3s16) (translate_dir_f : v3f)
    (face_dir : v3s16) (face_dir_f : v3f) (dest : List (FastFace Tile))
    (temp_mods : NodeModMap) (t0 t1 : Tile) (l : u8)
    (hpar : ParentContract par st) (hlen : 1 ≤ length)
    (ht0 : ∀ i, i < length →
      faceTile0 env me par st blk face_dir temp_mods (rowPos startpos translate_dir i) = t0)
    (ht1 : ∀ i, i < length →
      faceTile1 env me par st blk face_dir temp_mods (rowPos startpos translate_dir i) = t1)
    (hl : ∀ i, i < length →
      faceLightAt env ne me par st blk daynight_ratio face_dir
        (rowPos startpos translate_dir i) = l)
    (he0 : me.tile_eq t0 t0 = true) (he1 : me.tile_eq t1 t1 = true)
    (hplain : ∀ i, i < length →
      (∀ mod, temp_mods (rowPos startpos translate_dir i) = some mod →
        mod.type ≠ NodeModType.NODEMOD_CHANGECONTENT)
      ∧ ∀ mod, temp_mods (v3s16.add (rowPos startpos translate_dir i) face_dir) = some mod →
          mod.type ≠ NodeModType.NODEMOD_CHANGECONTENT)
    (hdraw : ∀ i, i < length →
      faceContentsAt env me par st blk face_dir temp_mods (rowPos startpos translate_dir i)
        ≠ 0) :
    ∃ faces, updateFastFaceRow env ne me par st blk daynight_ratio startpos length
        translate_dir translate_dir_f face_dir face_dir_f dest temp_mods
        = Except.ok (dest ++ faces)
      ∧ faces.length = if tileLimit me t0 t1 = 0 then 1
          else (length + tileLimit me t0 t1 - 1) / tileLimit me t0 t1 := by
  refine ⟨_, row_runs_faces env ne me par st blk daynight_ratio startpos length translate_dir
    translate_dir_f face_dir face_dir_f dest temp_mods hpar, ?_⟩
  obtain ⟨_, _, _, hmem⟩ := runsOf_inv (runCloses env ne me par st blk daynight_ratio startpos
    length translate_dir face_dir temp_mods) length
  rw [flatMap_length_one]
  · exact runsOf_count _ length (tileLimit me t0 t1) hlen
      (runCloses_uniform env ne me par st blk daynight_ratio startpos length translate_dir
        face_dir temp_mods t0 t1 l ht0 ht1 hl he0 he1)
  · intro r hr
    obtain ⟨h1, h2, _, _⟩ := hmem r hr
    obtain ⟨_, c1, c2⟩ := runFace_cases env ne me par st blk daynight_ratio startpos
      translate_dir translate_dir_f face_dir face_dir_f temp_mods r
    have hne : runContents env me par st blk face_dir temp_mods
        (rowPos startpos translate_dir r.1) (rowPos startpos translate_dir r.2) ≠ 0 := by
      rw [runContents_plain env me par st blk face_dir temp_mods _ _ (hplain r.1 (by omega))
        (hplain r.2 h2)]
      exact hdraw r.1 (by omega)
    by_cases hone : runContents env me par st blk face_dir temp_mods
        (rowPos startpos translate_dir r.1) (rowPos startpos translate_dir r.2) = 1
    · rw [c1 hone]
      rfl
    · rw [c2 hne hone]
      rfl

theorem quads_of_uniform_line_witness :
    ∃ faces, updateFastFaceRow exampleEnv exampleNodeEnv exampleAtlasEnv exampleParent []
        exampleWaterSlab 1000 ⟨0, 0, 0⟩ 2 ⟨1, 0, 0⟩ ⟨1, 0, 0⟩ ⟨0, 1, 0⟩ ⟨0, 1, 0⟩ []
        (fun _ => none) = Except.ok ([] ++ faces)
      ∧ faces.length = if tileLimit exampleAtlasEnv 0 2 = 0 then 1
          else (2 + tileLimit exampleAtlasEnv 0 2 - 1) / tileLimit exampleAtlasEnv 0 2 :=
  quads_of_uniform_line exampleEnv exampleNodeEnv exampleAtlasEnv exampleParent []
    exampleWaterSlab 1000 ⟨0, 0, 0⟩ 2 ⟨1, 0, 0⟩ ⟨1, 0, 0⟩ ⟨0, 1, 0⟩ ⟨0, 1, 0⟩ []
    (fun _ => none) 0 2 0 (exampleParent_contract _) (by decide) (by decide) (by decide)
    (by decide) (by decide) (by decide)
    (fun _ _ => ⟨fun _ h => (by cases h), fun _ h => (by cases h)⟩) (by decide)

/-! ## The three sweeps of `updateMesh` -/

/-- A loop whose every iteration appends to the array. -/
theorem forLoopE_append {α : Type} (f : Nat → List α → Except Exc (List α))
    (g : Nat → List α) (n : Nat)
    (h : ∀ i, i < n → ∀ dest, f i dest = Except.ok (dest ++ g i)) (dest : List α) :
    forLoopE f n dest = Except.ok (dest ++ (List.range n).flatMap g) := by
  induction n with
  | zero => simp [forLoopE]
  | succ k ih =>
    rw [forLoopE, ih (fun i hi => h i (Nat.lt_succ_of_lt hi))]
    dsimp only
    rw [h k (Nat.lt_succ_self k), List.range_succ, List.flatMap_append, List.append_assoc]
    simp

theorem flatMap_only_last {α : Type} (k : Nat) (X : List α) :
    (List.range (k + 1)).flatMap (fun i => if i = k then X else []) = X := by
  rw [List.range_succ, List.flatMap_append]
  have h : (List.range k).flatMap (fun i => if i = k then X else []) = [] := by
    rw [List.flatMap_eq_nil_iff]
    intro i hi
    rw [List.mem_range] at hi
    rw [if_neg (by omega)]
  rw [h]
  simp

/-- Two nested loops over `0 .. n-1` whose body appends one element in the
last round of the outer loop and nothing before. -/
theorem sweep_last_layer {α : Type} (row : Nat → Nat → List α → Except Exc (List α))
    (face : Nat → α) (n : Nat) (hn : 1 ≤ n)
    (h : ∀ i j, i < n → j < n → ∀ dest,
      row i j dest = Except.ok (dest ++ if i = n - 1 then [face j] else []))
    (dest : List α) :
    forLoopE (fun i d => forLoopE (fun j d1 => row i j d1) n d) n dest
      = Except.ok (dest ++ (List.range n).map face) := by
  rw [forLoopE_append _ (fun i => if i = n - 1 then (List.range n).map face else []) n]
  · obtain ⟨k, hk⟩ : ∃ k, n = k + 1 := ⟨n - 1, by omega⟩
    have e : n - 1 = k := by omega
    rw [e]
    nth_rewrite 1 [hk]
    rw [flatMap_only_last]
  · intro i hi d
    rw [forLoopE_append _ (fun j => if i = n - 1 then [face j] else []) n
      (fun j hj d1 => h i j hi hj d1)]
    by_cases hi1 : i = n - 1
    · rw [if_pos hi1]
      simp only [if_pos hi1]
      have e : ((List.range n).flatMap fun j => [face j]) = (List.range n).map face := by
        induction (List.range n) with
        | nil => rfl
        | cons x rest ih => rw [List.flatMap_cons, ih]; rfl
      rw [e]
    · rw [if_neg hi1]
      simp only [if_neg hi1]
      simp

/-- A loop in which a run is closed only by its last iteration closes one
run, the whole line. -/
theorem runsOf_single (closes : Nat → Nat → Bool) (k : Nat) (hk : 0 < k)
    (hcl : ∀ a j, a ≤ j → j < k → closes a j = decide (j + 1 = k)) :
    (runsOf closes k).2 = [(0, k - 1)] := by
  have hinv : ∀ j, j < k → runsOf closes j = (0, []) := by
    intro j
    induction j with
    | zero => intro _; rfl
    | succ j ih =>
      intro hj
      rw [runsOf_succ, ih (by omega)]
      dsimp only
      rw [hcl 0 j (Nat.zero_le _) (by omega), decide_eq_false (by omega)]
      rfl
  obtain ⟨m, hm⟩ : ∃ m, k = m + 1 := ⟨k - 1, by omega⟩
  subst hm
  rw [runsOf_succ, hinv m (by omega)]
  dsimp only
  rw [hcl 0 m (Nat.zero_le _) (by omega), decide_eq_true rfl]
  simp

/-- A line on which every position has the same pair of tiles without a
tiling limit and the same light is one run. -/
theorem uniform_row_one_run {σ Tile : Type} (env : Env) (ne : NodeEnv) (me : MeshEnv Tile)
    (par : NodeContainer σ) (st : σ) (blk : MapBlock) (daynight_ratio : Nat)
    (startpos : v3s16) (length : Nat) (translate_dir : v3s16) (translate_dir_f : v3f)
    (face_dir : v3s16) (face_dir_f : v3f) (dest : List (FastFace Tile))
    (temp_mods : NodeModMap) (t0 t1 : Tile) (l : u8)
    (hpar : ParentContract par st) (hlen : 1 ≤ length)
    (ht0 : ∀ i, i < length →
      faceTile0 env me par st blk face_dir temp_mods (rowPos startpos translate_dir i) = t0)
    (ht1 : ∀ i, i < length →
      faceTile1 env me par st blk face_dir temp_mods (rowPos startpos translate_dir i) = t1)
    (hl : ∀ i, i < length →
      faceLightAt env ne me par st blk daynight_ratio face_dir
        (rowPos startpos translate_dir i) = l)
    (he0 : me.tile_eq t0 t0 = true) (he1 : me.tile_eq t1 t1 = true)
    (hlim : tileLimit me t0 t1 = 0) :
    updateFastFaceRow env ne me par st blk daynight_ratio startpos length
        translate_dir translate_dir_f face_dir face_dir_f dest temp_mods
      = Except.ok (dest ++ runFace env ne me par st blk daynight_ratio startpos translate_dir
          translate_dir_f face_dir face_dir_f temp_mods (0, length - 1)) := by
  rw [row_runs_faces env ne me par st blk daynight_ratio startpos length translate_dir
    translate_dir_f face_dir face_dir_f dest temp_mods hpar]
  unfold rowRuns
  rw [runsOf_single _ length hlen]
  · simp
  · intro a j haj hj
    rw [runCloses_uniform env ne me par st blk daynight_ratio startpos length translate_dir
      face_dir temp_mods t0 t1 l ht0 ht1 hl he0 he1 a j haj hj, hlim]
    simp

/-- A line on which no run draws a face leaves `dest` as it is. -/
theorem blank_row {σ Tile : Type} (env : Env) (ne : NodeEnv) (me : MeshEnv Tile)
    (par : NodeContainer σ) (st : σ) (blk : MapBlock) (daynight_ratio : Nat)
    (startpos : v3s16) (length : Nat) (translate_dir : v3s16) (translate_dir_f : v3f)
    (face_dir : v3s16) (face_dir_f : v3f) (dest : List (FastFace Tile))
    (temp_mods : NodeModMap) (hpar : ParentContract par st)
    (hblank : ∀ b, b < length → ∀ a, a ≤ b →
      runContents env me par st blk face_dir temp_mods (rowPos startpos translate_dir a)
        (rowPos startpos translate_dir b) = 0) :
    updateFastFaceRow env ne me par st blk daynight_ratio startpos length
        translate_dir translate_dir_f face_dir face_dir_f dest temp_mods
      = Except.ok dest := by
  rw [row_runs_faces env ne me par st blk daynight_ratio startpos length translate_dir
    translate_dir_f face_dir face_dir_f dest temp_mods hpar]
  obtain ⟨_, _, _, hmem⟩ := runsOf_inv (runCloses env ne me par st blk daynight_ratio startpos
    length translate_dir face_dir temp_mods) length
  have h : (rowRuns env ne me par st blk daynight_ratio startpos length
      translate_dir face_dir temp_mods length).2.flatMap
      (runFace env ne me par st blk daynight_ratio startpos translate_dir translate_dir_f
        face_dir face_dir_f temp_mods) = [] := by
    rw [List.flatMap_eq_nil_iff]
    intro r hr
    obtain ⟨h1, h2, _, _⟩ := hmem r hr
    exact (runFace_cases env ne me par st blk daynight_ratio startpos translate_dir
      translate_dir_f face_dir face_dir_f temp_mods r).1 (hblank r.2 h2 r.1 h1)
  rw [h, List.append_nil]

/-- A position within a block whose nodes are all `n` holds `n`. -/
theorem nodeNoEx_inside {σ : Type} (env : Env) (par : NodeContainer σ) (st : σ)
    (blk : MapBlock) (n : MapNode) (p : v3s16)
    (hdata : blk.data = some (List.replicate
      (env.MAP_BLOCKSIZE * env.MAP_BLOCKSIZE * env.MAP_BLOCKSIZE) n))
    (hp : isValidPosition env p = true) : nodeNoEx env par st blk p = n := by
  unfold nodeNoEx getNodeParentNoEx
  rw [hp, hdata]
  simp only [Bool.true_eq_false, if_false]
  unfold nodeAt
  unfold isValidPosition at hp
  rw [decide_eq_true_eq] at hp
  obtain ⟨hx0, hx1, hy0, hy1, hz0, hz1⟩ := hp
  have hL : (0 : Int) ≤ (env.MAP_BLOCKSIZE : Int) := Int.ofNat_nonneg _
  have hidx : nodeIndex env p
      < env.MAP_BLOCKSIZE * env.MAP_BLOCKSIZE * env.MAP_BLOCKSIZE := by
    unfold nodeIndex
    have h1 : p.Z * env.MAP_BLOCKSIZE * env.MAP_BLOCKSIZE + p.Y * env.MAP_BLOCKSIZE + p.X
        < ((env.MAP_BLOCKSIZE * env.MAP_BLOCKSIZE * env.MAP_BLOCKSIZE : Nat) : Int) := by
      push_cast
      nlinarith [mul_nonneg (sub_nonneg.2 (Int.le_sub_one_of_lt hz1)) (mul_nonneg hL hL),
        mul_nonneg (sub_nonneg.2 (Int.le_sub_one_of_lt hy1)) hL]
    have h2 : 0 ≤ p.Z * env.MAP_BLOCKSIZE * env.MAP_BLOCKSIZE + p.Y * env.MAP_BLOCKSIZE
        + p.X := by positivity
    omega
  rw [List.getD_eq_getElem?_getD, List.getElem?_replicate, if_pos hidx]
  rfl

/-- A position outside the block holds what the parent holds there. -/
theorem nodeNoEx_outside {σ : Type} (env : Env) (par : NodeContainer σ) (st : σ)
    (blk : MapBlock) (n : MapNode) (p : v3s16)
    (hair : ∀ q, par.getNode st q = Except.ok n)
    (hp : isValidPosition env p = false) : nodeNoEx env par st blk p = n := by
  unfold nodeNoEx getNodeParentNoEx
  rw [hp, hair]
  rfl

theorem tileLimit_unlimited {Tile : Type} (me : MeshEnv Tile)
    (hunl : ∀ t, me.atlas t = true → me.tiled t = 0) (t0 t1 : Tile) :
    tileLimit me t0 t1 = 0 := by
  unfold tileLimit
  have h0 : (if me.atlas t0 = true then me.tiled t0 else 0) = 0 := by
    split_ifs with h
    · exact hunl _ h
    · rfl
  have h1 : (if me.atlas t1 = true then me.tiled t1 else 0) = 0 := by
    split_ifs with h
    · exact hunl _ h
    · rfl
  dsimp only
  rw [h0, h1]
  rfl

/-- A row of a block of equal nodes `stone`, in a parent of equal nodes `air`:
if the neighbours towards `face_dir` lie in the block the row adds nothing, if
they lie outside it adds one face over the whole row. -/
theorem stone_row {σ Tile : Type} (env : Env) (ne : NodeEnv) (me : MeshEnv Tile)
    (par : NodeContainer σ) (st : σ) (blk : MapBlock) (daynight_ratio : Nat)
    (stone air : MapNode) (s td : v3s16) (tf : v3f) (fd : v3s16) (ff : v3f)
    (dest : List (FastFace Tile)) (hL : 1 ≤ env.MAP_BLOCKSIZE)
    (hdata : blk.data = some (List.replicate
      (env.MAP_BLOCKSIZE * env.MAP_BLOCKSIZE * env.MAP_BLOCKSIZE) stone))
    (hair : ∀ q, par.getNode st q = Except.ok air)
    (hss : me.face_contents stone.d stone.d = 0) (hsa : me.face_contents stone.d air.d = 1)
    (hrefl : ∀ t, me.tile_eq t t = true) (hunl : ∀ t, me.atlas t = true → me.tiled t = 0)
    (hin : ∀ i, i < env.MAP_BLOCKSIZE → isValidPosition env (rowPos s td i) = true)
    (b : Bool)
    (hb : ∀ i, i < env.MAP_BLOCKSIZE →
      isValidPosition env (v3s16.add (rowPos s td i) fd) = b) :
    updateFastFaceRow env ne me par st blk daynight_ratio s env.MAP_BLOCKSIZE td tf fd ff dest
        (fun _ => none)
      = Except.ok (dest ++ if b = true then [] else
          [⟨me.getTile stone fd,
            me.decode_light (getFaceLight ne me daynight_ratio stone air fd),
            ⟨2 * (rowPos s td (env.MAP_BLOCKSIZE - 1)).X - ((env.MAP_BLOCKSIZE : Int) - 1) * tf.X,
              2 * (rowPos s td (env.MAP_BLOCKSIZE - 1)).Y
                - ((env.MAP_BLOCKSIZE : Int) - 1) * tf.Y,
              2 * (rowPos s td (env.MAP_BLOCKSIZE - 1)).Z
                - ((env.MAP_BLOCKSIZE : Int) - 1) * tf.Z⟩,
            fd,
            ⟨if td.X ≠ 0 then (env.MAP_BLOCKSIZE : Int) else 1,
              if td.Y ≠ 0 then (env.MAP_BLOCKSIZE : Int) else 1,
              if td.Z ≠ 0 then (env.MAP_BLOCKSIZE : Int) else 1⟩⟩]) := by
  have hpar : ParentContract par st := by
    intro q e h
    rw [hair q] at h
    cases h
  have hn0 : ∀ i, i < env.MAP_BLOCKSIZE →
      nodeNoEx env par st blk (rowPos s td i) = stone :=
    fun i hi => nodeNoEx_inside env par st blk stone _ hdata (hin i hi)
  have hT0 : ∀ i, i < env.MAP_BLOCKSIZE →
      faceTile0 env me par st blk fd (fun _ => none) (rowPos s td i) = me.getTile stone fd := by
    intro i hi
    unfold faceTile0 getNodeTile
    rw [hn0 i hi]
  cases b with
  | true =>
    have hn1 : ∀ i, i < env.MAP_BLOCKSIZE →
        nodeNoEx env par st blk (v3s16.add (rowPos s td i) fd) = stone :=
      fun i hi => nodeNoEx_inside env par st blk stone _ hdata (hb i hi)
    rw [if_pos rfl, List.append_nil]
    apply blank_row env ne me par st blk daynight_ratio s env.MAP_BLOCKSIZE td tf fd ff dest
      (fun _ => none) hpar
    intro b' hb' a ha
    unfold runContents getNodeContent
    rw [hn0 a (by omega), hn1 a (by omega)]
    exact hss
  | false =>
    have hn1 : ∀ i, i < env.MAP_BLOCKSIZE →
        nodeNoEx env par st blk (v3s16.add (rowPos s td i) fd) = air :=
      fun i hi => nodeNoEx_outside env par st blk air _ hair (hb i hi)
    have hT1 : ∀ i, i < env.MAP_BLOCKSIZE →
        faceTile1 env me par st blk fd (fun _ => none) (rowPos s td i)
          = me.getTile air (v3s16.neg fd) := by
      intro i hi
      unfold faceTile1 getNodeTile
      rw [hn1 i hi]
    have hLt : ∀ i, i < env.MAP_BLOCKSIZE →
        faceLightAt env ne me par st blk daynight_ratio fd (rowPos s td i)
          = getFaceLight ne me daynight_ratio stone air fd := by
      intro i hi
      unfold faceLightAt
      rw [hn0 i hi, hn1 i hi]
    rw [uniform_row_one_run env ne me par st blk daynight_ratio s env.MAP_BLOCKSIZE td tf fd ff
      dest (fun _ => none) _ _ _ hpar hL hT0 hT1 hLt (hrefl _) (hrefl _)
      (tileLimit_unlimited me hunl _ _)]
    have hone : runContents env me par st blk fd (fun _ => none)
        (rowPos s td (0, env.MAP_BLOCKSIZE - 1).1)
        (rowPos s td (0, env.MAP_BLOCKSIZE - 1).2) = 1 := by
      unfold runContents getNodeContent
      dsimp only
      rw [hn0 0 (by omega), hn1 0 (by omega)]
      exact hsa
    rw [(runFace_cases env ne me par st blk daynight_ratio s td tf fd ff (fun _ => none)
      (0, env.MAP_BLOCKSIZE - 1)).2.1 hone]
    dsimp only
    rw [hT0 0 (by omega), hLt 0 (by omega)]
    have e : ((env.MAP_BLOCKSIZE - 1 - 0 + 1 : Nat) : Int) = (env.MAP_BLOCKSIZE : Int) := by
      omega
    rw [e]
    simp

theorem valid_add (env : Env) (x y z dx dy dz : Int)
    (hx : -32768 ≤ x + dx ∧ x + dx < 32768) (hy : -32768 ≤ y + dy ∧ y + dy < 32768)
    (hz : -32768 ≤ z + dz ∧ z + dz < 32768) :
    isValidPosition env (v3s16.add ⟨x, y, z⟩ ⟨dx, dy, dz⟩)
      = decide (0 ≤ x + dx ∧ x + dx < env.MAP_BLOCKSIZE ∧ 0 ≤ y + dy
          ∧ y + dy < env.MAP_BLOCKSIZE ∧ 0 ≤ z + dz ∧ z + dz < env.MAP_BLOCKSIZE) := by
  unfold v3s16.add isValidPosition
  dsimp only
  rw [wrap16_range _ hx.1 hx.2, wrap16_range _ hy.1 hy.2, wrap16_range _ hz.1 hz.2]

/-- A row of the sweep for the top faces, in a block of stone within air. -/
theorem stone_row_top {σ Tile : Type} (env : Env) (ne : NodeEnv) (me : MeshEnv Tile)
    (par : NodeContainer σ) (st : σ) (blk : MapBlock) (daynight_ratio : Nat)
    (stone air : MapNode) (hL : 1 ≤ env.MAP_BLOCKSIZE) (hL2 : env.MAP_BLOCKSIZE ≤ 16384)
    (hdata : blk.data = some (List.replicate
      (env.MAP_BLOCKSIZE * env.MAP_BLOCKSIZE * env.MAP_BLOCKSIZE) stone))
    (hair : ∀ q, par.getNode st q = Except.ok air)
    (hss : me.face_contents stone.d stone.d = 0) (hsa : me.face_contents stone.d air.d = 1)
    (hrefl : ∀ t, me.tile_eq t t = true) (hunl : ∀ t, me.atlas t = true → me.tiled t = 0)
    (y z : Nat) (hy : y < env.MAP_BLOCKSIZE) (hz : z < env.MAP_BLOCKSIZE)
    (dest : List (FastFace Tile)) :
    updateFastFaceRow env ne me par st blk daynight_ratio ⟨0, y, z⟩ env.MAP_BLOCKSIZE
        ⟨1, 0, 0⟩ ⟨1, 0, 0⟩ ⟨0, 1, 0⟩ ⟨0, 1, 0⟩ dest (fun _ => none)
      = Except.ok (dest ++ if y = env.MAP_BLOCKSIZE - 1 then
          [stripFace ne me daynight_ratio stone air
            ⟨(env.MAP_BLOCKSIZE : Int) - 1, (env.MAP_BLOCKSIZE : Int) - 1, z⟩
            env.MAP_BLOCKSIZE ⟨1, 0, 0⟩ ⟨0, 1, 0⟩] else []) := by
  have hpos : ∀ k, k < env.MAP_BLOCKSIZE →
      rowPos ⟨0, y, z⟩ ⟨1, 0, 0⟩ k = ⟨k, y, z⟩ := by
    intro k hk
    rw [rowPos_coords _ _ env.MAP_BLOCKSIZE (Or.inl rfl)
      ⟨by norm_num, by dsimp only; omega, by dsimp only; omega, by dsimp only; omega,
        by dsimp only; omega, by dsimp only; omega⟩ k hk]
    simp
  rw [stone_row env ne me par st blk daynight_ratio stone air ⟨0, y, z⟩ ⟨1, 0, 0⟩ ⟨1, 0, 0⟩
    ⟨0, 1, 0⟩ ⟨0, 1, 0⟩ dest hL hdata hair hss hsa hrefl hunl
    (by
      intro k hk
      rw [hpos k hk]
      unfold isValidPosition
      rw [decide_eq_true_eq]
      dsimp only
      omega)
    (decide (y + 1 < env.MAP_BLOCKSIZE))
    (by
      intro k hk
      rw [hpos k hk, valid_add env _ _ _ _ _ _ (by omega) (by omega) (by omega)]
      apply decide_eq_decide.2
      constructor <;> intro h <;> omega)]
  rw [hpos _ (by omega)]
  by_cases hlast : y = env.MAP_BLOCKSIZE - 1
  · rw [if_pos hlast, decide_eq_false (by omega)]
    unfold stripFace
    subst hlast
    simp
    omega
  · rw [if_neg hlast, decide_eq_true (by omega)]
    rfl

/-- A row of the sweep for the right faces, in a block of stone within air. -/
theorem stone_row_right {σ Tile : Type} (env : Env) (ne : NodeEnv) (me : MeshEnv Tile)
    (par : NodeContainer σ) (st : σ) (blk : MapBlock) (daynight_ratio : Nat)
    (stone air : MapNode) (hL : 1 ≤ env.MAP_BLOCKSIZE) (hL2 : env.MAP_BLOCKSIZE ≤ 16384)
    (hdata : blk.data = some (List.replicate
      (env.MAP_BLOCKSIZE * env.MAP_BLOCKSIZE * env.MAP_BLOCKSIZE) stone))
    (hair : ∀ q, par.getNode st q = Except.ok air)
    (hss : me.face_contents stone.d stone.d = 0) (hsa : me.face_contents stone.d air.d = 1)
    (hrefl : ∀ t, me.tile_eq t t = true) (hunl : ∀ t, me.atlas t = true → me.tiled t = 0)
    (x y : Nat) (hx : x < env.MAP_BLOCKSIZE) (hy : y < env.MAP_BLOCKSIZE)
    (dest : List (FastFace Tile)) :
    updateFastFaceRow env ne me par st blk daynight_ratio ⟨x, y, 0⟩ env.MAP_BLOCKSIZE
        ⟨0, 0, 1⟩ ⟨0, 0, 1⟩ ⟨1, 0, 0⟩ ⟨1, 0, 0⟩ dest (fun _ => none)
      = Except.ok (dest ++ if x = env.MAP_BLOCKSIZE - 1 then
          [stripFace ne me daynight_ratio stone air
            ⟨(env.MAP_BLOCKSIZE : Int) - 1, y, (env.MAP_BLOCKSIZE : Int) - 1⟩
            env.MAP_BLOCKSIZE ⟨0, 0, 1⟩ ⟨1, 0, 0⟩] else []) := by
  have hpos : ∀ k, k < env.MAP_BLOCKSIZE →
      rowPos ⟨x, y, 0⟩ ⟨0, 0, 1⟩ k = ⟨x, y, k⟩ := by
    intro k hk
    rw [rowPos_coords _ _ env.MAP_BLOCKSIZE (Or.inr (Or.inr rfl))
      ⟨by dsimp only; omega, by dsimp only; omega, by dsimp only; omega, by dsimp only; omega,
        by norm_num, by dsimp only; omega⟩ k hk]
    simp
  rw [stone_row env ne me par st blk daynight_ratio stone air ⟨x, y, 0⟩ ⟨0, 0, 1⟩ ⟨0, 0, 1⟩
    ⟨1, 0, 0⟩ ⟨1, 0, 0⟩ dest hL hdata hair hss hsa hrefl hunl
    (by
      intro k hk
      rw [hpos k hk]
      unfold isValidPosition
      rw [decide_eq_true_eq]
      dsimp only
      omega)
    (decide (x + 1 < env.MAP_BLOCKSIZE))
    (by
      intro k hk
      rw [hpos k hk, valid_add env _ _ _ _ _ _ (by omega) (by omega) (by omega)]
      apply decide_eq_decide.2
      constructor <;> intro h <;> omega)]
  rw [hpos _ (by omega)]
  by_cases hlast : x = env.MAP_BLOCKSIZE - 1
  · rw [if_pos hlast, decide_eq_false (by omega)]
    unfold stripFace
    subst hlast
    simp
    omega
  · rw [if_neg hlast, decide_eq_true (by omega)]
    rfl

/-- A row of the sweep for the back faces, in a block of stone within air. -/
theorem stone_row_back {σ Tile : Type} (env : Env) (ne : NodeEnv) (me : MeshEnv Tile)
    (par : NodeContainer σ) (st : σ) (blk : MapBlock) (daynight_ratio : Nat)
    (stone air : MapNode) (hL : 1 ≤ env.MAP_BLOCKSIZE) (hL2 : env.MAP_BLOCKSIZE ≤ 16384)
    (hdata : blk.data = some (List.replicate
      (env.MAP_BLOCKSIZE * env.MAP_BLOCKSIZE * env.MAP_BLOCKSIZE) stone))
    (hair : ∀ q, par.getNode st q = Except.ok air)
    (hss : me.face_contents stone.d stone.d = 0) (hsa : me.face_contents stone.d air.d = 1)
    (hrefl : ∀ t, me.tile_eq t t = true) (hunl : ∀ t, me.atlas t = true → me.tiled t = 0)
    (y z : Nat) (hy : y < env.MAP_BLOCKSIZE) (hz : z < env.MAP_BLOCKSIZE)
    (dest : List (FastFace Tile)) :
    updateFastFaceRow env ne me par st blk daynight_ratio ⟨0, y, z⟩ env.MAP_BLOCKSIZE
        ⟨1, 0, 0⟩ ⟨1, 0, 0⟩ ⟨0, 0, 1⟩ ⟨0, 0, 1⟩ dest (fun _ => none)
      = Except.ok (dest ++ if z = env.MAP_BLOCKSIZE - 1 then
          [stripFace ne me daynight_ratio stone air
            ⟨(env.MAP_BLOCKSIZE : Int) - 1, y, (env.MAP_BLOCKSIZE : Int) - 1⟩
            env.MAP_BLOCKSIZE ⟨1, 0, 0⟩ ⟨0, 0, 1⟩] else []) := by
  have hpos : ∀ k, k < env.MAP_BLOCKSIZE →
      rowPos ⟨0, y, z⟩ ⟨1, 0, 0⟩ k = ⟨k, y, z⟩ := by
    intro k hk
    rw [rowPos_coords _ _ env.MAP_BLOCKSIZE (Or.inl rfl)
      ⟨by norm_num, by dsimp only; omega, by dsimp only; omega, by dsimp only; omega,
        by dsimp only; omega, by dsimp only; omega⟩ k hk]
    simp
  rw [stone_row env ne me par st blk daynight_ratio stone air ⟨0, y, z⟩ ⟨1, 0, 0⟩ ⟨1, 0, 0⟩
    ⟨0, 0, 1⟩ ⟨0, 0, 1⟩ dest hL hdata hair hss hsa hrefl hunl
    (by
      intro k hk
      rw [hpos k hk]
      unfold isValidPosition
      rw [decide_eq_true_eq]
      dsimp only
      omega)
    (decide (z + 1 < env.MAP_BLOCKSIZE))
    (by
      intro k hk
      rw [hpos k hk, valid_add env _ _ _ _ _ _ (by omega) (by omega) (by omega)]
      apply decide_eq_decide.2
      constructor <;> intro h <;> omega)]
  rw [hpos _ (by omega)]
  by_cases hlast : z = env.MAP_BLOCKSIZE - 1
  · rw [if_pos hlast, decide_eq_false (by omega)]
    unfold stripFace
    subst hlast
    simp
    omega
  · rw [if_neg hlast, decide_eq_true (by omega)]
    rfl

/-- The three sweeps over a block of equal nodes `stone` in a parent of equal
nodes `air`: one strip for each row of the outermost layer towards +y, +x and
+z. -/
theorem updateMeshFaces_cube {σ Tile : Type} (env : Env) (ne : NodeEnv) (me : MeshEnv Tile)
    (par : NodeContainer σ) (st : σ) (blk : MapBlock) (daynight_ratio : Nat)
    (stone air : MapNode) (hL : 1 ≤ env.MAP_BLOCKSIZE) (hL2 : env.MAP_BLOCKSIZE ≤ 16384)
    (hdata : blk.data = some (List.replicate
      (env.MAP_BLOCKSIZE * env.MAP_BLOCKSIZE * env.MAP_BLOCKSIZE) stone))
    (hair : ∀ q, par.getNode st q = Except.ok air)
    (hss : me.face_contents stone.d stone.d = 0) (hsa : me.face_contents stone.d air.d = 1)
    (hrefl : ∀ t, me.tile_eq t t = true) (hunl : ∀ t, me.atlas t = true → me.tiled t = 0) :
    updateMeshFaces env ne me par st blk daynight_ratio (fun _ => none)
      = Except.ok (cubeStrips ne me daynight_ratio stone air env.MAP_BLOCKSIZE) := by
  unfold updateMeshFaces cubeStrips
  dsimp only
  rw [sweep_last_layer
    (fun y z dest1 => updateFastFaceRow env ne me par st blk daynight_ratio ⟨0, y, z⟩
      env.MAP_BLOCKSIZE ⟨1, 0, 0⟩ ⟨1, 0, 0⟩ ⟨0, 1, 0⟩ ⟨0, 1, 0⟩ dest1 (fun _ => none))
    (fun z => stripFace ne me daynight_ratio stone air
      ⟨(env.MAP_BLOCKSIZE : Int) - 1, (env.MAP_BLOCKSIZE : Int) - 1, z⟩
      env.MAP_BLOCKSIZE ⟨1, 0, 0⟩ ⟨0, 1, 0⟩)
    env.MAP_BLOCKSIZE hL
    (fun y z hy hz dest => stone_row_top env ne me par st blk daynight_ratio stone air hL hL2
      hdata hair hss hsa hrefl hunl y z hy hz dest)]
  dsimp only
  rw [sweep_last_layer
    (fun x y dest1 => updateFastFaceRow env ne me par st blk daynight_ratio ⟨x, y, 0⟩
      env.MAP_BLOCKSIZE ⟨0, 0, 1⟩ ⟨0, 0, 1⟩ ⟨1, 0, 0⟩ ⟨1, 0, 0⟩ dest1 (fun _ => none))
    (fun y => stripFace ne me daynight_ratio stone air
      ⟨(env.MAP_BLOCKSIZE : Int) - 1, y, (env.MAP_BLOCKSIZE : Int) - 1⟩
      env.MAP_BLOCKSIZE ⟨0, 0, 1⟩ ⟨1, 0, 0⟩)
    env.MAP_BLOCKSIZE hL
    (fun x y hx hy dest => stone_row_right env ne me par st blk daynight_ratio stone air hL hL2
      hdata hair hss hsa hrefl hunl x y hx hy dest)]
  dsimp only
  rw [sweep_last_layer
    (fun z y dest1 => updateFastFaceRow env ne me par st blk daynight_ratio ⟨0, y, z⟩
      env.MAP_BLOCKSIZE ⟨1, 0, 0⟩ ⟨1, 0, 0⟩ ⟨0, 0, 1⟩ ⟨0, 0, 1⟩ dest1 (fun _ => none))
    (fun y => stripFace ne me daynight_ratio stone air
      ⟨(env.MAP_BLOCKSIZE : Int) - 1, y, (env.MAP_BLOCKSIZE : Int) - 1⟩
      env.MAP_BLOCKSIZE ⟨1, 0, 0⟩ ⟨0, 0, 1⟩)
    env.MAP_BLOCKSIZE hL
    (fun z y hz hy dest => stone_row_back env ne me par st blk daynight_ratio stone air hL hL2
      hdata hair hss hsa hrefl hunl y z hy hz dest)]
  simp

theorem cubeStrips_length {Tile : Type} (ne : NodeEnv) (me : MeshEnv Tile)
    (daynight_ratio : Nat) (n0 n1 : MapNode) (len : Nat) :
    (cubeStrips ne me daynight_ratio n0 n1 len).length = 3 * len := by
  unfold cubeStrips
  simp only [List.length_append, List.length_map, List.length_range]
  omega

/-- Every strip of `cubeStrips` lies on nodes of the outermost layer of the
block, towards the outside. -/
theorem cubeStrips_between {σ Tile : Type} (env : Env) (ne : NodeEnv) (me : MeshEnv Tile)
    (par : NodeContainer σ) (st : σ) (blk : MapBlock) (daynight_ratio : Nat)
    (stone air : MapNode) (hL : 1 ≤ env.MAP_BLOCKSIZE) (hL2 : env.MAP_BLOCKSIZE ≤ 16384)
    (hdata : blk.data = some (List.replicate
      (env.MAP_BLOCKSIZE * env.MAP_BLOCKSIZE * env.MAP_BLOCKSIZE) stone))
    (hair : ∀ q, par.getNode st q = Except.ok air)
    (f : FastFace Tile)
    (hf : f ∈ cubeStrips ne me daynight_ratio stone air env.MAP_BLOCKSIZE) (q : v3s16)
    (hq : f.spans ⟨2 * q.X, 2 * q.Y, 2 * q.Z⟩ = true) :
    nodeNoEx env par st blk q = stone ∧ nodeNoEx env par st blk (v3s16.add q f.dir) = air := by
  obtain ⟨qx, qy, qz⟩ := q
  unfold cubeStrips at hf
  rw [List.mem_append, List.mem_append, List.mem_map, List.mem_map, List.mem_map] at hf
  unfold FastFace.spans at hq
  rw [decide_eq_true_eq] at hq
  rcases hf with (⟨i, hi, rfl⟩ | ⟨i, hi, rfl⟩) | ⟨i, hi, rfl⟩ <;>
    (rw [List.mem_range] at hi
     unfold stripFace at hq ⊢
     dsimp only at hq ⊢
     constructor
     · apply nodeNoEx_inside env par st blk stone _ hdata
       unfold isValidPosition
       rw [decide_eq_true_eq]
       dsimp only
       omega
     · apply nodeNoEx_outside env par st blk air _ hair
       rw [valid_add env _ _ _ _ _ _ (by omega) (by omega) (by omega), decide_eq_false_iff_not]
       omega)

/-- C22, counterexample: for a block of side 16 filled with stone in a parent
in which every node is air, with equal light and no tiling limit, the three
sweeps of `updateMesh` produce 48 faces, not 6. -/
theorem stone_chunk_gives_48_quads :
    ∃ faces, updateMeshFaces exampleEnv16 exampleNodeEnv exampleMeshEnv exampleAirParent ()
        exampleStoneChunk 1000 (fun _ => none) = Except.ok faces
      ∧ faces.length = 48
      ∧ exampleStoneChunk.data = some (List.replicate (16 * 16 * 16) ⟨0, 0, 0⟩)
      ∧ exampleEnv16.MAP_BLOCKSIZE = 16
      ∧ (∀ p, exampleAirParent.getNode () p = Except.ok ⟨254, 0, 0⟩) :=
  ⟨_, updateMeshFaces_cube exampleEnv16 exampleNodeEnv exampleMeshEnv exampleAirParent ()
      exampleStoneChunk 1000 ⟨0, 0, 0⟩ ⟨254, 0, 0⟩ (by decide) (by decide) rfl (fun _ => rfl)
      (by decide) (by decide) (fun _ => decide_eq_true rfl) (fun _ h => Bool.noConfusion h),
    cubeStrips_length _ _ _ _ _ _, rfl, rfl, fun _ => rfl⟩

/-- C22: for a block of side `L` (16 in the game) filled with equal nodes
`stone`, in a parent in which every node is `air`, where `face_contents` draws
no face between stone and stone and ranks stone above air, with no tiling
limit and no overlay, the three sweeps of `updateMesh` produce exactly `3 * L`
faces (48 for `L = 16`): `L` strips of `L` by 1 nodes on each of the three
faces of the cube towards +y, +x and +z, each strip merged along the row of
its sweep; every node that a strip lies on is stone and its neighbour in the
direction of the strip is air, so no face lies between two stone nodes or
between two air nodes. -/
theorem cube_sweeps_draw_strips {σ Tile : Type} (env : Env) (ne : NodeEnv) (me : MeshEnv Tile)
    (par : NodeContainer σ) (st : σ) (blk : MapBlock) (daynight_ratio : Nat)
    (stone air : MapNode) (hL : 1 ≤ env.MAP_BLOCKSIZE) (hL2 : env.MAP_BLOCKSIZE ≤ 16384)
    (hdata : blk.data = some (List.replicate
      (env.MAP_BLOCKSIZE * env.MAP_BLOCKSIZE * env.MAP_BLOCKSIZE) stone))
    (hair : ∀ q, par.getNode st q = Except.ok air)
    (hss : me.face_contents stone.d stone.d = 0) (hsa : me.face_contents stone.d air.d = 1)
    (hrefl : ∀ t, me.tile_eq t t = true) (hunl : ∀ t, me.atlas t = true → me.tiled t = 0) :
    updateMeshFaces env ne me par st blk daynight_ratio (fun _ => none)
      = Except.ok (cubeStrips ne me daynight_ratio stone air env.MAP_BLOCKSIZE)
    ∧ (cubeStrips ne me daynight_ratio stone air env.MAP_BLOCKSIZE).length
      = 3 * env.MAP_BLOCKSIZE
    ∧ ∀ f, f ∈ cubeStrips ne me daynight_ratio stone air env.MAP_BLOCKSIZE →
        (f.dir = ⟨0, 1, 0⟩ ∨ f.dir = ⟨1, 0, 0⟩ ∨ f.dir = ⟨0, 0, 1⟩)
        ∧ ∀ q : v3s16, f.spans ⟨2 * q.X, 2 * q.Y, 2 * q.Z⟩ = true →
          nodeNoEx env par st blk q = stone
          ∧ nodeNoEx env par st blk (v3s16.add q f.dir) = air := by
  refine ⟨updateMeshFaces_cube env ne me par st blk daynight_ratio stone air hL hL2 hdata hair
    hss hsa hrefl hunl, cubeStrips_length _ _ _ _ _ _, ?_⟩
  intro f hf
  refine ⟨?_, fun q hq => cubeStrips_between env ne me par st blk daynight_ratio stone air hL
    hL2 hdata hair f hf q hq⟩
  unfold cubeStrips at hf
  rw [List.mem_append, List.mem_append, List.mem_map, List.mem_map, List.mem_map] at hf
  rcases hf with (⟨i, _, rfl⟩ | ⟨i, _, rfl⟩) | ⟨i, _, rfl⟩
  · exact Or.inl rfl
  · exact Or.inr (Or.inl rfl)
  · exact Or.inr (Or.inr rfl)

theorem cube_sweeps_draw_strips_witness :
    updateMeshFaces exampleEnv16 exampleNodeEnv exampleMeshEnv exampleAirParent ()
        exampleStoneChunk 1000 (fun _ => none)
      = Except.ok (cubeStrips exampleNodeEnv exampleMeshEnv 1000 ⟨0, 0, 0⟩ ⟨254, 0, 0⟩ 16)
    ∧ (cubeStrips exampleNodeEnv exampleMeshEnv 1000 ⟨0, 0, 0⟩ ⟨254, 0, 0⟩ 16).length = 48 :=
  ⟨(cube_sweeps_draw_strips exampleEnv16 exampleNodeEnv exampleMeshEnv exampleAirParent ()
      exampleStoneChunk 1000 ⟨0, 0, 0⟩ ⟨254, 0, 0⟩ (by decide) (by decide) rfl (fun _ => rfl)
      (by decide) (by decide) (fun _ => decide_eq_true rfl)
      (fun _ h => Bool.noConfusion h)).1,
    (cube_sweeps_draw_strips exampleEnv16 exampleNodeEnv exampleMeshEnv exampleAirParent ()
      exampleStoneChunk 1000 ⟨0, 0, 0⟩ ⟨254, 0, 0⟩ (by decide) (by decide) rfl (fun _ => rfl)
      (by decide) (by decide) (fun _ => decide_eq_true rfl)
      (fun _ h => Bool.noConfusion h)).2.1⟩

/-! ## Flowing water -/

theorem topIsWater_eq {σ : Type} (env : Env) (ne : NodeEnv) (par : NodeContainer σ) (st : σ)
    (blk : MapBlock) (p : v3s16) (hpar : ParentContract par st) :
    ∃ t, topIsWater env ne par st blk p = Except.ok t
      ∧ (t = true ↔ ∃ n, lookupNode env par st blk ⟨p.X, wrap16 (p.Y + 1), p.Z⟩ = some n
          ∧ (n.d = ne.CONTENT_WATER ∨ n.d = ne.CONTENT_WATERSOURCE)) := by
  unfold topIsWater
  rw [catch_getNodeParent env par st blk _ hpar]
  cases h : lookupNode env par st blk ⟨p.X, wrap16 (p.Y + 1), p.Z⟩ with
  | none => exact ⟨false, rfl, by simp⟩
  | some n =>
    dsimp only
    by_cases hw : n.d = ne.CONTENT_WATER ∨ n.d = ne.CONTENT_WATERSOURCE
    · rw [if_pos hw]
      exact ⟨true, rfl, by simp [hw]⟩
    · rw [if_neg hw]
      exact ⟨false, rfl, by simp [hw]⟩

theorem waterNeighbor_eq {σ : Type} (env : Env) (ne : NodeEnv) (par : NodeContainer σ)
    (st : σ) (blk : MapBlock) (p dir : v3s16) (hpar : ParentContract par st) :
    waterNeighbor env ne par st blk p dir
      = Except.ok (neighborContentAt env ne par st blk p dir,
          if neighborTopIsWater env ne par st blk p dir = true then 1 else 0) := by
  unfold waterNeighbor neighborContentAt neighborTopIsWater
  dsimp only
  rw [catch_getNodeParent env par st blk _ hpar]
  cases h : lookupNode env par st blk (v3s16.add p dir) with
  | none => rfl
  | some n =>
    dsimp only
    rw [catch_getNodeParent env par st blk _ hpar]
    cases h2 : lookupNode env par st blk
        ⟨(v3s16.add p dir).X, wrap16 ((v3s16.add p dir).Y + 1), (v3s16.add p dir).Z⟩ with
    | none => rfl
    | some n2 =>
      dsimp only
      by_cases hw : n2.d = ne.CONTENT_WATERSOURCE ∨ n2.d = ne.CONTENT_WATER
      · rw [if_pos hw, decide_eq_true hw]
        rfl
      · rw [if_neg hw, decide_eq_false hw]
        rfl

theorem waterNeighbors_eq {σ : Type} (env : Env) (ne : NodeEnv) (par : NodeContainer σ)
    (st : σ) (blk : MapBlock) (p : v3s16) (hpar : ParentContract par st) :
    waterNeighbors env ne par st blk p
      = Except.ok ⟨neighbor_dirs.map (fun d => (d, neighborContentAt env ne par st blk p d)),
          neighbor_dirs.map (fun d =>
            (d, if neighborTopIsWater env ne par st blk p d = true then 1 else 0))⟩ := by
  unfold waterNeighbors
  simp only [forLoopE, waterNeighbor_eq env ne par st blk p _ hpar]
  rfl

theorem waterSideDrawn_iff (ne : NodeEnv) (t : Bool) (nb : WaterNeighbors) (dir : v3s16) :
    waterSideDrawn ne t nb dir = true
      ↔ ¬ (t = true ∧ (nb.flags dir &&& 1) ≠ 0)
        ∧ ¬ (nb.content dir ≠ ne.CONTENT_AIR ∧ nb.content dir ≠ ne.CONTENT_WATER)
        ∧ ¬ (nb.content dir = ne.CONTENT_WATER ∧ t = false) := by
  unfold waterSideDrawn
  dsimp only
  by_cases h1 : t = true ∧ (nb.flags dir &&& 1) ≠ 0
  · rw [if_pos h1]
    exact ⟨fun h => Bool.noConfusion h, fun h => absurd h1 h.1⟩
  · rw [if_neg h1]
    by_cases h2 : nb.content dir ≠ ne.CONTENT_AIR ∧ nb.content dir ≠ ne.CONTENT_WATER
    · rw [if_pos h2]
      exact ⟨fun h => Bool.noConfusion h, fun h => absurd h2 h.2.1⟩
    · rw [if_neg h2]
      by_cases h3 : nb.content dir = ne.CONTENT_WATER ∧ t = false
      · rw [if_pos (by rw [decide_eq_true h3.1]; exact ⟨rfl, h3.2⟩)]
        exact ⟨fun h => Bool.noConfusion h, fun h => absurd h3 h.2.2⟩
      · rw [if_neg (by
          intro h
          rw [decide_eq_true_eq] at h
          exact h3 h)]
        exact ⟨fun _ => ⟨h1, h2, h3⟩, fun _ => rfl⟩

theorem water_sides_eq (ne : NodeEnv) (t : Bool) (nb : WaterNeighbors) :
    forLoop (fun i quads =>
        let dir := side_dirs.getD i ⟨0, 0, 0⟩
        if waterSideDrawn ne t nb dir = true then quads ++ [WaterQuad.side dir]
        else quads) 4 []
      = (side_dirs.filter (fun dir => waterSideDrawn ne t nb dir)).map WaterQuad.side := by
  simp only [forLoop, side_dirs, List.getD_cons_zero, List.getD_cons_succ, List.filter]
  cases waterSideDrawn ne t nb ⟨1, 0, 0⟩ <;> cases waterSideDrawn ne t nb ⟨-1, 0, 0⟩ <;>
    cases waterSideDrawn ne t nb ⟨0, 0, 1⟩ <;> cases waterSideDrawn ne t nb ⟨0, 0, -1⟩ <;> rfl

/-- The quads of a flowing-water node. -/
theorem flowingWaterQuads_eq {σ : Type} (env : Env) (ne : NodeEnv) (par : NodeContainer σ)
    (st : σ) (blk : MapBlock) (p : v3s16) (t : Bool) (nb : WaterNeighbors)
    (ht : topIsWater env ne par st blk p = Except.ok t)
    (hnb : waterNeighbors env ne par st blk p = Except.ok nb) :
    flowingWaterQuads env ne par st blk p
      = Except.ok ((side_dirs.filter (fun dir => waterSideDrawn ne t nb dir)).map WaterQuad.side
          ++ if t = false then [WaterQuad.top] else []) := by
  unfold flowingWaterQuads
  rw [ht, hnb]
  dsimp only
  rw [water_sides_eq]
  cases t
  · rfl
  · simp

/-- C26, counterexample: a flowing-water node whose top is water and whose
neighbour towards +x is a water source with air above it. None of the three
rules of the property applies to that direction, yet no side quad is handed
to the collector for it. -/
theorem no_side_against_water_source :
    flowingWaterQuads exampleEnv exampleNodeEnv exampleParent [] exampleWaterBlock ⟨0, 0, 0⟩
      = Except.ok [WaterQuad.side ⟨-1, 0, 0⟩, WaterQuad.side ⟨0, 0, 1⟩,
          WaterQuad.side ⟨0, 0, -1⟩]
    ∧ topIsWater exampleEnv exampleNodeEnv exampleParent [] exampleWaterBlock ⟨0, 0, 0⟩
      = Except.ok true
    ∧ waterNeighbor exampleEnv exampleNodeEnv exampleParent [] exampleWaterBlock ⟨0, 0, 0⟩
        ⟨1, 0, 0⟩ = Except.ok (9, 0)
    ∧ exampleNodeEnv.CONTENT_WATERSOURCE = 9 := by
  decide

/-- C26: for a flowing-water node at `p` and a parent that keeps its
contract, with `top_is_water` `t`, and for each of the four horizontal
directions with the stored neighbour content `c` and flags `f`, `updateMesh`
hands the side quad of that direction to the collector if and only if none of
the three skip rules applies: (`t` and the top-is-water bit of `f`); `c` is
neither air nor flowing water; (`c` is flowing water and not `t`). The top
quad is handed over if and only if `t` is false. `t` is true iff the node
above `p` exists and is flowing water or a water source; `c` is the content
of the neighbour, air if it is missing; the bit of `f` is set iff the
neighbour exists and the node above it exists and is flowing water or a water
source. -/
theorem water_side_and_top_quads {σ : Type} (env : Env) (ne : NodeEnv)
    (par : NodeContainer σ) (st : σ) (blk : MapBlock) (p : v3s16)
    (hpar : ParentContract par st) :
    ∃ t nb quads, topIsWater env ne par st blk p = Except.ok t
      ∧ waterNeighbors env ne par st blk p = Except.ok nb
      ∧ flowingWaterQuads env ne par st blk p = Except.ok quads
      ∧ (∀ dir, dir ∈ side_dirs →
          (WaterQuad.side dir ∈ quads
            ↔ ¬ (t = true ∧ (nb.flags dir &&& 1) ≠ 0)
              ∧ ¬ (nb.content dir ≠ ne.CONTENT_AIR ∧ nb.content dir ≠ ne.CONTENT_WATER)
              ∧ ¬ (nb.content dir = ne.CONTENT_WATER ∧ t = false)))
      ∧ (∀ dir, WaterQuad.side dir ∈ quads → dir ∈ side_dirs)
      ∧ (WaterQuad.top ∈ quads ↔ t = false)
      ∧ (t = true ↔ ∃ n, lookupNode env par st blk ⟨p.X, wrap16 (p.Y + 1), p.Z⟩ = some n
          ∧ (n.d = ne.CONTENT_WATER ∨ n.d = ne.CONTENT_WATERSOURCE))
      ∧ (∀ dir, dir ∈ side_dirs →
          nb.content dir = neighborContentAt env ne par st blk p dir
          ∧ ((nb.flags dir &&& 1) ≠ 0 ↔ neighborTopIsWater env ne par st blk p dir = true)) := by
  obtain ⟨t, ht, htiff⟩ := topIsWater_eq env ne par st blk p hpar
  have hnb := waterNeighbors_eq env ne par st blk p hpar
  refine ⟨t, _, _, ht, hnb, flowingWaterQuads_eq env ne par st blk p t _ ht hnb, ?_, ?_, ?_,
    htiff, ?_⟩
  · intro dir hdir
    rw [← waterSideDrawn_iff, List.mem_append, List.mem_map]
    constructor
    · rintro (⟨d, hd, he⟩ | h)
      · cases he
        exact (List.mem_filter.1 hd).2
      · cases t <;> simp at h
    · intro h
      exact Or.inl ⟨dir, List.mem_filter.2 ⟨hdir, h⟩, rfl⟩
  · intro dir h
    rw [List.mem_append, List.mem_map] at h
    rcases h with ⟨d, hd, he⟩ | h
    · cases he
      exact (List.mem_filter.1 hd).1
    · cases t <;> simp at h
  · rw [List.mem_append, List.mem_map]
    constructor
    · rintro (⟨d, _, he⟩ | h)
      · cases he
      · cases t
        · rfl
        · simp at h
    · intro h
      rw [h]
      exact Or.inr (by simp)
  · intro dir hdir
    unfold side_dirs at hdir
    simp only [List.mem_cons, List.mem_singleton, List.not_mem_nil, or_false] at hdir
    rcases hdir with h | h | h | h <;> subst h <;>
      (constructor
       · rfl
       · show (if _ then 1 else 0) &&& 1 ≠ 0 ↔ _
         cases neighborTopIsWater env ne par st blk p _ <;> decide)

theorem water_side_and_top_quads_witness :
    ∃ t nb quads, topIsWater exampleEnv exampleNodeEnv exampleParent [] exampleWaterBlock
        ⟨0, 0, 0⟩ = Except.ok t
      ∧ waterNeighbors exampleEnv exampleNodeEnv exampleParent [] exampleWaterBlock ⟨0, 0, 0⟩
        = Except.ok nb
      ∧ flowingWaterQuads exampleEnv exampleNodeEnv exampleParent [] exampleWaterBlock
        ⟨0, 0, 0⟩ = Except.ok quads
      ∧ (WaterQuad.top ∈ quads ↔ t = false) :=
  (water_side_and_top_quads exampleEnv exampleNodeEnv exampleParent [] exampleWaterBlock
    ⟨0, 0, 0⟩ (exampleParent_contract _)).imp fun _ h => h.imp fun _ h2 => h2.imp fun _ h3 =>
      ⟨h3.1, h3.2.1, h3.2.2.1, h3.2.2.2.2.2.1⟩

/-! ## The flag `black_air_left` -/

theorem columnStopped_succ {σ : Type} (env : Env) (ne : NodeEnv) (par : NodeContainer σ)
    (st : σ) (blk : MapBlock) (data : List MapNode) (x z k : Nat) :
    columnStopped env ne par st blk data x z (k + 1)
      = (columnStopped env ne par st blk data x z k
        || obstructs ne (getNodeRef env data ⟨x, (env.MAP_BLOCKSIZE - 1 - k : Nat), z⟩)
            (lightAfter env ne par st blk data x z k)) := rfl

/-- Below a solid object the light of the column is zero. -/
theorem columnStopped_light {σ : Type} (env : Env) (ne : NodeEnv) (par : NodeContainer σ)
    (st : σ) (blk : MapBlock) (data : List MapNode) (x z k : Nat)
    (h : columnStopped env ne par st blk data x z k = true) :
    lightAfter env ne par st blk data x z k = 0 := by
  induction k with
  | zero => cases h
  | succ k ih =>
    rw [columnStopped_succ, Bool.or_eq_true] at h
    rw [lightAfter_succ]
    rcases h with h | h
    · rw [ih h, nextLight_zero]
    · exact nextLight_of_obstructs ne _ _ h

theorem columnStopped_iff {σ : Type} (env : Env) (ne : NodeEnv) (par : NodeContainer σ)
    (st : σ) (blk : MapBlock) (data : List MapNode) (x z k : Nat) (hk : k ≤ env.MAP_BLOCKSIZE) :
    columnStopped env ne par st blk data x z k = true
      ↔ ∃ y, env.MAP_BLOCKSIZE - k ≤ y ∧ y < env.MAP_BLOCKSIZE
        ∧ obstructs ne (getNodeRef env data ⟨x, y, z⟩)
            (reachingLight env ne par st blk data x y z) = true := by
  induction k with
  | zero =>
    constructor
    · intro h
      cases h
    · rintro ⟨y, h1, h2, _⟩
      omega
  | succ k ih =>
    rw [columnStopped_succ, Bool.or_eq_true, ih (by omega)]
    constructor
    · rintro (⟨y, h1, h2, h3⟩ | h)
      · exact ⟨y, by omega, h2, h3⟩
      · refine ⟨env.MAP_BLOCKSIZE - 1 - k, by omega, by omega, ?_⟩
        unfold reachingLight
        have e : env.MAP_BLOCKSIZE - 1 - (env.MAP_BLOCKSIZE - 1 - k) = k := by omega
        rw [e]
        exact h
    · rintro ⟨y, h1, h2, h3⟩
      by_cases hy : y = env.MAP_BLOCKSIZE - 1 - k
      · right
        subst hy
        unfold reachingLight at h3
        have e : env.MAP_BLOCKSIZE - 1 - (env.MAP_BLOCKSIZE - 1 - k) = k := by omega
        rw [e] at h3
        exact h3
      · left
        exact ⟨y, by omega, h2, h3⟩

/-- One node of the descent, for `stopped_to_solid_object` and the target of
`black_air_left`. -/
theorem sunlightNode_black {σ : Type} (env : Env) (ne : NodeEnv) (par : NodeContainer σ)
    (st : σ) (blk : MapBlock) (data : List MapNode) (remove grow : Bool) (x z y : Nat)
    (s : SunState) (c c1 : ColumnState) (hpar : ParentContract par st)
    (hx : x < env.MAP_BLOCKSIZE) (hz : z < env.MAP_BLOCKSIZE) (hy : y < env.MAP_BLOCKSIZE)
    (hs : ∀ y1, y1 < env.MAP_BLOCKSIZE →
      getNodeRef env s.data ⟨x, y1, z⟩ = getNodeRef env data ⟨x, y1, z⟩)
    (hc : ColInv env ne par st blk data remove grow x z s (y + 1) c)
    (hst : c.stopped_to_solid_object
      = columnStopped env ne par st blk data x z (env.MAP_BLOCKSIZE - (y + 1)))
    (hbl : c.black_air_left = s.black_air_left.map (fun b =>
      b || columnStopped env ne par st blk data x z (env.MAP_BLOCKSIZE - (y + 1))))
    (h1 : sunlightNode env ne par st blk remove grow x z y c = Except.ok c1) :
    c1.stopped_to_solid_object
        = columnStopped env ne par st blk data x z (env.MAP_BLOCKSIZE - y)
      ∧ c1.black_air_left = s.black_air_left.map (fun b =>
          b || columnStopped env ne par st blk data x z (env.MAP_BLOCKSIZE - y)) := by
  obtain ⟨_, hnodes, hlight, _⟩ := hc
  rw [sunlightNode_ok env ne par st blk remove grow x z y c hpar] at h1
  injection h1 with h1
  have hn : getNodeRef env c.data ⟨x, y, z⟩ = getNodeRef env data ⟨x, y, z⟩ := by
    rw [(hnodes x y z hx hy hz).2 (by omega), hs y hy]
  have e1 : env.MAP_BLOCKSIZE - y = (env.MAP_BLOCKSIZE - (y + 1)) + 1 := by omega
  have e2 : env.MAP_BLOCKSIZE - 1 - (env.MAP_BLOCKSIZE - (y + 1)) = y := by omega
  have hstop : (c.stopped_to_solid_object
      || obstructs ne (getNodeRef env c.data ⟨x, y, z⟩) c.current_light)
      = columnStopped env ne par st blk data x z (env.MAP_BLOCKSIZE - y) := by
    rw [e1, columnStopped_succ, e2, hst, hn, hlight]
  have hzero : columnStopped env ne par st blk data x z (env.MAP_BLOCKSIZE - y) = true →
      nextLight ne (getNodeRef env c.data ⟨x, y, z⟩) c.current_light = 0 := by
    intro h
    have h2 := columnStopped_light env ne par st blk data x z _ h
    rw [e1, lightAfter_succ, e2] at h2
    rw [hn, hlight]
    exact h2
  rw [← h1]
  unfold sunlightStore
  dsimp only
  rw [hstop]
  refine ⟨rfl, ?_⟩
  cases hcs : columnStopped env ne par st blk data x z (env.MAP_BLOCKSIZE - y) with
  | true =>
    rw [if_pos ⟨hzero hcs, rfl⟩, hbl]
    cases s.black_air_left with
    | none => rfl
    | some b => simp
  | false =>
    rw [if_neg (by simp), hbl]
    have hprev : columnStopped env ne par st blk data x z (env.MAP_BLOCKSIZE - (y + 1))
        = false := by
      rw [e1, columnStopped_succ, Bool.or_eq_false_iff] at hcs
      exact hcs.1
    rw [hprev]

/-- One column, for the target of `black_air_left`. -/
theorem sunlightColumn_black {σ : Type} (env : Env) (ne : NodeEnv) (par : NodeContainer σ)
    (st : σ) (blk : MapBlock) (data : List MapNode) (ls : List v3s16) (remove grow : Bool)
    (done : Nat → Nat → Prop) (x z : Nat) (s s1 : SunState)
    (hpar : ParentContract par st) (hL : env.MAP_BLOCKSIZE < 32768)
    (hset : ∀ m l, (ne.setLight m LightBank.LIGHTBANK_DAY l).d = m.d)
    (hx : x < env.MAP_BLOCKSIZE) (hz : z < env.MAP_BLOCKSIZE) (hnot : ¬ done x z)
    (hs : SunInv env ne par st blk data ls remove grow done s)
    (h1 : sunlightColumn env ne par st blk remove grow x z s = Except.ok s1) :
    s1.black_air_left = s.black_air_left.map (fun b =>
      b || columnStopped env ne par st blk data x z env.MAP_BLOCKSIZE) := by
  obtain ⟨hlen, hnodes, hsrc, hvalid⟩ := hs
  have hcol : ∀ y1, y1 < env.MAP_BLOCKSIZE →
      getNodeRef env s.data ⟨x, y1, z⟩ = getNodeRef env data ⟨x, y1, z⟩ :=
    fun y1 hy1 => (hnodes x y1 z hx hy1 hz).2 hnot
  have htop : getNodeRef env s.data ⟨x, (env.MAP_BLOCKSIZE : Int) - 1, z⟩
      = getNodeRef env data ⟨x, (env.MAP_BLOCKSIZE : Int) - 1, z⟩ := by
    rw [top_cast env (by omega)]
    exact hcol _ (by omega)
  obtain ⟨b, hb⟩ := noSunlight_total env ne par st blk data x z hpar
  have hb1 : noSunlight env ne par st blk s.data x z = Except.ok b := by
    rw [noSunlight_congr env ne par st blk s.data data x z htop, hb]
  have hstart := startLight_of_noSunlight env ne par st blk data x z b hb
  have h0 : ColInv env ne par st blk data remove grow x z s env.MAP_BLOCKSIZE
      ⟨s.data, s.light_sources, s.black_air_left,
        if b = true then 0 else ne.LIGHT_SUN, false⟩ := by
    refine ⟨hlen, ?_, ?_, ?_⟩
    · intro x1 y1 z1 _ hy1 _
      constructor
      · rintro ⟨_, _, hle⟩
        omega
      · intro _
        rfl
    · rw [Nat.sub_self]
      exact hstart.symm
    · intro p
      constructor
      · intro h
        exact Or.inl h
      · rintro (h | ⟨y1, h1, h2, _⟩)
        · exact h
        · omega
  obtain ⟨c, hdesc, hc, hcst, hcbl⟩ := descendE_inv
    (sunlightNode env ne par st blk remove grow x z)
    (fun m c => ColInv env ne par st blk data remove grow x z s m c
      ∧ c.stopped_to_solid_object
        = columnStopped env ne par st blk data x z (env.MAP_BLOCKSIZE - m)
      ∧ c.black_air_left = s.black_air_left.map (fun b =>
          b || columnStopped env ne par st blk data x z (env.MAP_BLOCKSIZE - m)))
    env.MAP_BLOCKSIZE _
    ⟨h0, by rw [Nat.sub_self]; rfl, by
      rw [Nat.sub_self]
      show s.black_air_left = _
      cases s.black_air_left with
      | none => rfl
      | some b => simp [columnStopped]⟩
    (fun y t hy ht => by
      obtain ⟨t1, ht1, hinv⟩ := sunlightNode_inv env ne par st blk data remove grow x z y s t
        hpar hL hset hx hz hy hcol ht.1
      exact ⟨t1, ht1, hinv, sunlightNode_black env ne par st blk data remove grow x z y s t t1
        hpar hx hz hy hcol ht.1 ht.2.1 ht.2.2 ht1⟩)
  obtain ⟨clen, cnodes, clight, csrc⟩ := hc
  rw [Nat.sub_zero] at clight hcbl
  have hbelow := belowCheck_ok env ne par st blk data c.data x z c.current_light
    s.block_below_is_valid hpar clight
  unfold sunlightColumn at h1
  rw [hb1] at h1
  dsimp only at h1
  rw [hdesc] at h1
  dsimp only at h1
  rw [hbelow] at h1
  injection h1 with h1
  rw [← h1]
  exact hcbl

theorem BlackInv_congr {σ : Type} (env : Env) (ne : NodeEnv) (par : NodeContainer σ) (st : σ)
    (blk : MapBlock) (data : List MapNode) (bal : Option Bool)
    (done1 done2 : Nat → Nat → Prop) (s : SunState)
    (h : ∀ a b, a < env.MAP_BLOCKSIZE → b < env.MAP_BLOCKSIZE → (done1 a b ↔ done2 a b))
    (hs : BlackInv env ne par st blk data bal done1 s) :
    BlackInv env ne par st blk data bal done2 s := by
  obtain ⟨B, hB, hiff⟩ := hs
  refine ⟨B, hB, ?_⟩
  rw [hiff]
  constructor
  · rintro ⟨x1, z1, h1, h2, h3, h4⟩
    exact ⟨x1, z1, h1, h2, (h x1 z1 h1 h2).1 h3, h4⟩
  · rintro ⟨x1, z1, h1, h2, h3, h4⟩
    exact ⟨x1, z1, h1, h2, (h x1 z1 h1 h2).2 h3, h4⟩

/-- One column keeps the invariants between columns. -/
theorem sunlightColumn_inv_black {σ : Type} (env : Env) (ne : NodeEnv)
    (par : NodeContainer σ) (st : σ) (blk : MapBlock) (data : List MapNode) (ls : List v3s16)
    (remove grow : Bool) (bal : Option Bool) (done : Nat → Nat → Prop) (x z : Nat)
    (s : SunState) (hpar : ParentContract par st) (hL : env.MAP_BLOCKSIZE < 32768)
    (hset : ∀ m l, (ne.setLight m LightBank.LIGHTBANK_DAY l).d = m.d)
    (hx : x < env.MAP_BLOCKSIZE) (hz : z < env.MAP_BLOCKSIZE) (hnot : ¬ done x z)
    (hs : SunInv env ne par st blk data ls remove grow done s
      ∧ BlackInv env ne par st blk data bal done s) :
    ∃ s1, sunlightColumn env ne par st blk remove grow x z s = Except.ok s1
      ∧ SunInv env ne par st blk data ls remove grow
          (fun a b => done a b ∨ (a = x ∧ b = z)) s1
      ∧ BlackInv env ne par st blk data bal (fun a b => done a b ∨ (a = x ∧ b = z)) s1 := by
  obtain ⟨s1, h1, hinv⟩ := sunlightColumn_inv env ne par st blk data ls remove grow done x z s
    hpar hL hset hx hz hnot hs.1
  have hb := sunlightColumn_black env ne par st blk data ls remove grow done x z s s1 hpar hL
    hset hx hz hnot hs.1 h1
  obtain ⟨B, hB, hiff⟩ := hs.2
  refine ⟨s1, h1, hinv,
    B || columnStopped env ne par st blk data x z env.MAP_BLOCKSIZE, ?_, ?_⟩
  · rw [hb, hB]
    cases bal with
    | none => rfl
    | some b0 => simp [Bool.or_assoc]
  · rw [Bool.or_eq_true, hiff]
    constructor
    · rintro (⟨x1, z1, h1, h2, h3, h4⟩ | h)
      · exact ⟨x1, z1, h1, h2, Or.inl h3, h4⟩
      · exact ⟨x, z, hx, hz, Or.inr ⟨rfl, rfl⟩, h⟩
    · rintro ⟨x1, z1, h1, h2, h3 | ⟨e1, e2⟩, h4⟩
      · exact Or.inl ⟨x1, z1, h1, h2, h3, h4⟩
      · subst e1 e2
        exact Or.inr h4

/-- The target of `black_air_left` after `propagateSunlight` on an allocated
block whose parent keeps its contract: set to true if some column was stopped
by a solid object, and as before the call otherwise. -/
theorem propagateSunlight_black {σ : Type} (env : Env) (ne : NodeEnv) (par : NodeContainer σ)
    (st : σ) (blk : MapBlock) (data : List MapNode) (ls : List v3s16) (remove : Bool)
    (bal : Option Bool) (grow : Bool)
    (hpar : ParentContract par st) (hL : env.MAP_BLOCKSIZE < 32768)
    (hset : ∀ m l, (ne.setLight m LightBank.LIGHTBANK_DAY l).d = m.d)
    (hdata : blk.data = some data) (hlen : data.length = nodecount env) :
    ∃ r B, propagateSunlight env ne par st blk ls remove bal grow = Except.ok r
      ∧ r.black_air_left = bal.map (fun b => b || B)
      ∧ (B = true ↔ ∃ x y z, x < env.MAP_BLOCKSIZE ∧ y < env.MAP_BLOCKSIZE
          ∧ z < env.MAP_BLOCKSIZE
          ∧ obstructs ne (getNodeRef env data ⟨x, y, z⟩)
              (reachingLight env ne par st blk data x y z) = true) := by
  have h0 : SunInv env ne par st blk data ls remove grow (fun a _ => a < 0)
        ⟨data, ls, bal, true⟩
      ∧ BlackInv env ne par st blk data bal (fun a _ => a < 0) ⟨data, ls, bal, true⟩ := by
    refine ⟨⟨hlen, ?_, ?_, ?_⟩, false, ?_, ?_⟩
    · intro x1 y1 z1 _ _ _
      exact ⟨fun h => absurd h (Nat.not_lt_zero _), fun _ => rfl⟩
    · intro p
      constructor
      · intro h
        exact Or.inl h
      · rintro (h | ⟨x1, _, _, _, _, _, h4, _⟩)
        · exact h
        · exact absurd h4 (Nat.not_lt_zero _)
    · constructor
      · intro _ x1 _ _ _ hd
        exact absurd hd (Nat.not_lt_zero _)
      · intro _
        rfl
    · show bal = _
      cases bal with
      | none => rfl
      | some b => simp
    · constructor
      · intro h
        cases h
      · rintro ⟨x1, _, _, _, h3, _⟩
        exact absurd h3 (Nat.not_lt_zero _)
  obtain ⟨s, hrun, hs, hbl⟩ := forLoopE_inv
    (fun x s => forLoopE (fun z s1 => sunlightColumn env ne par st blk remove grow x z s1)
      env.MAP_BLOCKSIZE s)
    (fun i s => SunInv env ne par st blk data ls remove grow (fun a _ => a < i) s
      ∧ BlackInv env ne par st blk data bal (fun a _ => a < i) s)
    env.MAP_BLOCKSIZE ⟨data, ls, bal, true⟩ h0
    (by
      intro x t hx ht
      have hiff0 : ∀ a b, a < env.MAP_BLOCKSIZE → b < env.MAP_BLOCKSIZE →
          (a < x ↔ (a < x ∨ (a = x ∧ b < 0))) :=
        fun a b _ _ => ⟨fun h => Or.inl h, fun h => h.elim id (fun h2 => by omega)⟩
      have hz0 : SunInv env ne par st blk data ls remove grow
            (fun a b => a < x ∨ (a = x ∧ b < 0)) t
          ∧ BlackInv env ne par st blk data bal (fun a b => a < x ∨ (a = x ∧ b < 0)) t :=
        ⟨SunInv_congr env ne par st blk data ls remove grow _ _ t hiff0 ht.1,
          BlackInv_congr env ne par st blk data bal _ _ t hiff0 ht.2⟩
      obtain ⟨t1, hrun1, ht1⟩ := forLoopE_inv
        (fun z s1 => sunlightColumn env ne par st blk remove grow x z s1)
        (fun j s1 => SunInv env ne par st blk data ls remove grow
            (fun a b => a < x ∨ (a = x ∧ b < j)) s1
          ∧ BlackInv env ne par st blk data bal (fun a b => a < x ∨ (a = x ∧ b < j)) s1)
        env.MAP_BLOCKSIZE t hz0
        (by
          intro z u hz hu
          obtain ⟨u1, hcol, hu1, hu2⟩ := sunlightColumn_inv_black env ne par st blk data ls
            remove grow bal _ x z u hpar hL hset hx hz (by
              intro h
              rcases h with h | h
              · omega
              · omega) hu
          have hiff1 : ∀ a b, a < env.MAP_BLOCKSIZE → b < env.MAP_BLOCKSIZE →
              (((a < x ∨ (a = x ∧ b < z)) ∨ (a = x ∧ b = z))
                ↔ (a < x ∨ (a = x ∧ b < z + 1))) :=
            fun a b _ _ => ⟨fun h => by
                rcases h with (h | h) | h
                · exact Or.inl h
                · exact Or.inr ⟨h.1, by omega⟩
                · exact Or.inr ⟨h.1, by omega⟩,
              fun h => by
                rcases h with h | ⟨h1, h2⟩
                · exact Or.inl (Or.inl h)
                · by_cases hb : b = z
                  · exact Or.inr ⟨h1, hb⟩
                  · exact Or.inl (Or.inr ⟨h1, by omega⟩)⟩
          exact ⟨u1, hcol, SunInv_congr env ne par st blk data ls remove grow _ _ u1 hiff1 hu1,
            BlackInv_congr env ne par st blk data bal _ _ u1 hiff1 hu2⟩)
      have hiff2 : ∀ a b, a < env.MAP_BLOCKSIZE → b < env.MAP_BLOCKSIZE →
          ((a < x ∨ (a = x ∧ b < env.MAP_BLOCKSIZE)) ↔ a < x + 1) :=
        fun a b _ hb => ⟨fun h => by
            rcases h with h | h
            · omega
            · omega,
          fun h => by
            by_cases ha : a = x
            · exact Or.inr ⟨ha, hb⟩
            · exact Or.inl (by omega)⟩
      exact ⟨t1, hrun1, SunInv_congr env ne par st blk data ls remove grow _ _ t1 hiff2 ht1.1,
        BlackInv_congr env ne par st blk data bal _ _ t1 hiff2 ht1.2⟩)
  obtain ⟨B, hB, hiff⟩ := hbl
  refine ⟨⟨withData blk s.data, s.light_sources, s.black_air_left, s.block_below_is_valid⟩,
    B, ?_, hB, ?_⟩
  · unfold propagateSunlight
    rw [hdata]
    dsimp only
    rw [hrun]
  · rw [hiff]
    constructor
    · rintro ⟨x1, z1, h1, h2, _, h4⟩
      obtain ⟨y, _, hy, ho⟩ := (columnStopped_iff env ne par st blk data x1 z1
        env.MAP_BLOCKSIZE (le_refl _)).1 h4
      exact ⟨x1, y, z1, h1, hy, h2, ho⟩
    · rintro ⟨x1, y, z1, h1, h2, h3, ho⟩
      exact ⟨x1, z1, h1, h3, h1, (columnStopped_iff env ne par st blk data x1 z1
        env.MAP_BLOCKSIZE (le_refl _)).2 ⟨y, by omega, h2, ho⟩⟩

/-- C30: a block of air only, marked as underground and with no block above
it: every column starts without sunlight, so every node of content air ends
the call with computed sunlight zero, yet the target of `black_air_left` is
left at false. And a block with stone at `(0,0,0)` and air elsewhere, with no
block above it: every node of content air ends the call with computed
sunlight `LIGHT_SUN`, yet the target of `black_air_left` is set to true, by
the stone that stops the sunlight at the bottom of its column. -/
theorem dark_air_is_not_reported :
    propagateSunlight exampleEnv exampleNodeEnv exampleParent [] exampleDarkAir [] false
        (some false) false
      = Except.ok ⟨exampleDarkAir, [], some false, true⟩
    ∧ exampleDarkAir.data = some (List.replicate 8 ⟨254, 0, 0⟩)
    ∧ exampleNodeEnv.CONTENT_AIR = 254
    ∧ (∀ x, x < 2 → ∀ y, y < 2 → ∀ z, z < 2 →
        computedLight exampleEnv exampleNodeEnv exampleParent [] exampleDarkAir
          (List.replicate 8 ⟨254, 0, 0⟩) x y z = 0)
    ∧ (propagateSunlight exampleEnv exampleNodeEnv exampleParent [] exampleStoneBlock [] false
        (some false) false).map (fun r => r.black_air_left) = Except.ok (some true)
    ∧ ∀ x : Nat, x < 2 → ∀ y : Nat, y < 2 → ∀ z : Nat, z < 2 →
        (getNodeRef exampleEnv (exampleStoneBlock.data.getD [])
            ⟨(x : Int), (y : Int), (z : Int)⟩).d
            = exampleNodeEnv.CONTENT_AIR →
        computedLight exampleEnv exampleNodeEnv exampleParent [] exampleStoneBlock
          (exampleStoneBlock.data.getD []) x y z = exampleNodeEnv.LIGHT_SUN := by
  decide

/-- What `propagateSunlight` does to the target of `black_air_left`: on an
allocated block whose parent keeps its contract, it returns and never sets
the target to false: a `NULL` pointer stays untouched and a supplied target is left as it
was or set to true. It is set to true if in some column a node of content air
lies below a node that stopped light above zero, a node that lets no light
pass; such an air node ends the call with computed sunlight zero. It is not
written if no column has a node that stopped light above zero, so air that is
dark because its column started without sunlight, or because the light died
out in nodes that let light pass, is not reported. -/
theorem black_air_left_reports_obstruction {σ : Type} (env : Env) (ne : NodeEnv)
    (par : NodeContainer σ) (st : σ) (blk : MapBlock) (data : List MapNode)
    (ls : List v3s16) (remove : Bool) (bal : Option Bool) (grow : Bool)
    (hpar : ParentContract par st) (hL : env.MAP_BLOCKSIZE < 32768)
    (hset : ∀ m l, (ne.setLight m LightBank.LIGHTBANK_DAY l).d = m.d)
    (hdata : blk.data = some data) (hlen : data.length = nodecount env) :
    ∃ r, propagateSunlight env ne par st blk ls remove bal grow = Except.ok r
      ∧ (bal = none → r.black_air_left = none)
      ∧ (∀ b, bal = some b →
          (r.black_air_left = some b ∨ r.black_air_left = some true)
          ∧ (b = true → r.black_air_left = some true))
      ∧ (∀ x y z ya, x < env.MAP_BLOCKSIZE → y < env.MAP_BLOCKSIZE → z < env.MAP_BLOCKSIZE →
          ya < y →
          obstructs ne (getNodeRef env data ⟨x, y, z⟩)
            (reachingLight env ne par st blk data x y z) = true →
          (getNodeRef env data ⟨x, ya, z⟩).d = ne.CONTENT_AIR →
          computedLight env ne par st blk data x ya z = 0
          ∧ r.black_air_left = bal.map (fun _ => true))
      ∧ ((∀ x y z, x < env.MAP_BLOCKSIZE → y < env.MAP_BLOCKSIZE → z < env.MAP_BLOCKSIZE →
          obstructs ne (getNodeRef env data ⟨x, y, z⟩)
            (reachingLight env ne par st blk data x y z) = false) →
        r.black_air_left = bal) := by
  obtain ⟨r, B, hr, hB, hiff⟩ := propagateSunlight_black env ne par st blk data ls remove bal
    grow hpar hL hset hdata hlen
  refine ⟨r, hr, ?_, ?_, ?_, ?_⟩
  · intro h
    rw [hB, h]
    rfl
  · intro b h
    rw [hB, h]
    cases B <;> cases b <;> simp
  · intro x y z ya hx hy hz hya ho _
    constructor
    · have hst := (columnStopped_iff env ne par st blk data x z (env.MAP_BLOCKSIZE - y)
        (by omega)).2 ⟨y, by omega, hy, ho⟩
      have h0 := columnStopped_light env ne par st blk data x z _ hst
      have h1 := lightAfter_zero env ne par st blk data x z _ (y - ya) h0
      unfold computedLight
      have e : env.MAP_BLOCKSIZE - ya = env.MAP_BLOCKSIZE - y + (y - ya) := by omega
      rw [e]
      exact h1
    · have hBt : B = true := hiff.2 ⟨x, y, z, hx, hy, hz, ho⟩
      rw [hB, hBt]
      cases bal with
      | none => rfl
      | some b => simp
  · intro hno
    have hBf : B = false := by
      cases hb : B with
      | false => rfl
      | true =>
        obtain ⟨x, y, z, hx, hy, hz, ho⟩ := hiff.1 hb
        rw [hno x y z hx hy hz] at ho
        cases ho
    rw [hB, hBf]
    cases bal with
    | none => rfl
    | some b => simp

theorem black_air_left_reports_obstruction_witness :
    ∃ r, propagateSunlight exampleEnv exampleNodeEnv exampleParent exampleAround
        exampleTerrain [] false (some false) true = Except.ok r
      ∧ r.black_air_left = some true := by
  obtain ⟨r, h1, _, _, h4, _⟩ := black_air_left_reports_obstruction exampleEnv exampleNodeEnv
    exampleParent exampleAround exampleTerrain exampleTerrainData [] false (some false) true
    (exampleParent_contract _) (by decide) example_setLight_d rfl (by decide)
  exact ⟨r, h1, (h4 0 1 1 0 (by decide) (by decide) (by decide) (by decide) (by decide)
    (by decide)).2⟩

/-! ## Ground level -/

theorem topWalkable_none (env : Env) (walkable : u8 → Bool) (data : List MapNode) (x z : Int)
    (k : Nat) :
    topWalkable env walkable data x z k = none
      ↔ ∀ y, y < k → walkable (getNodeRef env data ⟨x, y, z⟩).d = false := by
  induction k with
  | zero =>
    exact ⟨fun _ y hy => absurd hy (Nat.not_lt_zero _), fun _ => rfl⟩
  | succ k ih =>
    unfold topWalkable
    cases hw : walkable (getNodeRef env data ⟨x, k, z⟩).d with
    | true =>
      simp only [if_true]
      constructor
      · intro h
        cases h
      · intro h
        have h2 := h k (Nat.lt_succ_self k)
        rw [hw] at h2
        cases h2
    | false =>
      simp only [Bool.false_eq_true, if_false]
      rw [ih]
      constructor
      · intro h y hy
        by_cases hyk : y = k
        · rw [hyk]
          exact hw
        · exact h y (by omega)
      · intro h y hy
        exact h y (by omega)

theorem topWalkable_some (env : Env) (walkable : u8 → Bool) (data : List MapNode) (x z : Int)
    (k ys : Nat) :
    topWalkable env walkable data x z k = some ys
      ↔ ys < k ∧ walkable (getNodeRef env data ⟨x, ys, z⟩).d = true
        ∧ ∀ y, ys < y → y < k → walkable (getNodeRef env data ⟨x, y, z⟩).d = false := by
  induction k with
  | zero =>
    constructor
    · intro h
      cases h
    · rintro ⟨h, _⟩
      omega
  | succ k ih =>
    unfold topWalkable
    cases hw : walkable (getNodeRef env data ⟨x, k, z⟩).d with
    | true =>
      simp only [if_true, Option.some.injEq]
      constructor
      · intro h
        subst h
        exact ⟨Nat.lt_succ_self _, hw, fun y h1 h2 => by omega⟩
      · rintro ⟨h1, h2, h3⟩
        by_contra hne
        have h4 := h3 k (by omega) (Nat.lt_succ_self k)
        rw [hw] at h4
        cases h4
    | false =>
      simp only [Bool.false_eq_true, if_false]
      rw [ih]
      constructor
      · rintro ⟨h1, h2, h3⟩
        refine ⟨by omega, h2, ?_⟩
        intro y hy1 hy2
        by_cases hyk : y = k
        · rw [hyk]
          exact hw
        · exact h3 y hy1 (by omega)
      · rintro ⟨h1, h2, h3⟩
        have hne : ys ≠ k := by
          intro h
          rw [h, hw] at h2
          cases h2
        exact ⟨by omega, h2, fun y hy1 hy2 => h3 y hy1 (by omega)⟩

/-- The loop of `getGroundLevel` on an allocated block and a column within
the block finds the highest walkable node. -/
theorem groundLoop_eq (env : Env) (walkable : u8 → Bool) (blk : MapBlock)
    (data : List MapNode) (p2d : v2s16) (hdata : blk.data = some data)
    (hx : 0 ≤ p2d.X ∧ p2d.X < env.MAP_BLOCKSIZE) (hz : 0 ≤ p2d.Y ∧ p2d.Y < env.MAP_BLOCKSIZE)
    (k : Nat) (hk : k ≤ env.MAP_BLOCKSIZE) :
    groundLoop env walkable blk p2d k
      = Except.ok (match topWalkable env walkable data p2d.X p2d.Y k with
          | none => -1
          | some ys => if ys + 1 = env.MAP_BLOCKSIZE then -2 else (ys : Int)) := by
  induction k with
  | zero => rfl
  | succ k ih =>
    have hv : isValidPosition env ⟨p2d.X, k, p2d.Y⟩ = true := by
      rw [isValidPosition_iff]
      dsimp only
      omega
    unfold groundLoop topWalkable getNodeRefE
    rw [hdata]
    dsimp only
    rw [hv]
    simp only [Bool.true_eq_false, if_false]
    cases hw : walkable (getNodeRef env data ⟨p2d.X, k, p2d.Y⟩).d with
    | true =>
      simp only [if_true]
      by_cases hl : k + 1 = env.MAP_BLOCKSIZE
      · rw [if_pos (by omega), if_pos hl]
      · rw [if_neg (by omega), if_neg hl]
    | false =>
      simp only [Bool.false_eq_true, if_false]
      exact ih (by omega)

/-- The value of `getGroundLevel` on an allocated block and a column within
the block. -/
theorem getGroundLevel_eq (env : Env) (walkable : u8 → Bool) (blk : MapBlock)
    (data : List MapNode) (p2d : v2s16) (hdata : blk.data = some data)
    (hx : 0 ≤ p2d.X ∧ p2d.X < env.MAP_BLOCKSIZE)
    (hz : 0 ≤ p2d.Y ∧ p2d.Y < env.MAP_BLOCKSIZE) :
    getGroundLevel env walkable blk p2d
      = Except.ok (match topWalkable env walkable data p2d.X p2d.Y env.MAP_BLOCKSIZE with
          | none => -1
          | some ys => if ys + 1 = env.MAP_BLOCKSIZE then -2 else (ys : Int)) := by
  unfold getGroundLevel
  rw [hdata]
  dsimp only
  rw [groundLoop_eq env walkable blk data p2d hdata hx hz _ (le_refl _)]

/-- C34: for every column `p2d` within the block, `getGroundLevel` returns -3
on a dummy block; on a block with a node array it returns -1 if no node of
the column is walkable, and otherwise, with `ys` the largest `y` in `[0, L)`
whose node is walkable, -2 if `ys = L - 1` and `ys` if not; so a result
`r >= 0` satisfies `r <= L - 2`, the node `(x, r, z)` is walkable and no node
above it in the column is. -/
theorem ground_level (env : Env) (walkable : u8 → Bool) (blk : MapBlock) (p2d : v2s16)
    (hx : 0 ≤ p2d.X ∧ p2d.X < env.MAP_BLOCKSIZE)
    (hz : 0 ≤ p2d.Y ∧ p2d.Y < env.MAP_BLOCKSIZE) :
    (blk.data = none → getGroundLevel env walkable blk p2d = Except.ok (-3))
    ∧ ∀ data, blk.data = some data →
        ((∀ y, y < env.MAP_BLOCKSIZE →
            walkable (getNodeRef env data ⟨p2d.X, y, p2d.Y⟩).d = false) →
          getGroundLevel env walkable blk p2d = Except.ok (-1))
        ∧ (∀ ys, ys < env.MAP_BLOCKSIZE →
            walkable (getNodeRef env data ⟨p2d.X, ys, p2d.Y⟩).d = true →
            (∀ y, ys < y → y < env.MAP_BLOCKSIZE →
              walkable (getNodeRef env data ⟨p2d.X, y, p2d.Y⟩).d = false) →
            getGroundLevel env walkable blk p2d
              = Except.ok (if ys + 1 = env.MAP_BLOCKSIZE then -2 else (ys : Int)))
        ∧ ∃ r, getGroundLevel env walkable blk p2d = Except.ok r
          ∧ (0 ≤ r →
            r ≤ (env.MAP_BLOCKSIZE : Int) - 2
            ∧ walkable (getNodeRef env data ⟨p2d.X, r, p2d.Y⟩).d = true
            ∧ ∀ y : Nat, r < y → y < env.MAP_BLOCKSIZE →
                walkable (getNodeRef env data ⟨p2d.X, y, p2d.Y⟩).d = false) := by
  constructor
  · intro h
    unfold getGroundLevel
    rw [h]
  · intro data hdata
    have heq := getGroundLevel_eq env walkable blk data p2d hdata hx hz
    refine ⟨?_, ?_, ?_⟩
    · intro h
      rw [heq, (topWalkable_none env walkable data p2d.X p2d.Y _).2 h]
    · intro ys h1 h2 h3
      rw [heq, (topWalkable_some env walkable data p2d.X p2d.Y _ ys).2 ⟨h1, h2, h3⟩]
    · refine ⟨_, heq, ?_⟩
      cases ht : topWalkable env walkable data p2d.X p2d.Y env.MAP_BLOCKSIZE with
      | none =>
        dsimp only
        intro h
        exact absurd h (by decide)
      | some ys =>
        obtain ⟨h1, h2, h3⟩ := (topWalkable_some env walkable data p2d.X p2d.Y _ ys).1 ht
        dsimp only
        by_cases hl : ys + 1 = env.MAP_BLOCKSIZE
        · rw [if_pos hl]
          intro h
          exact absurd h (by decide)
        · rw [if_neg hl]
          intro _
          exact ⟨by omega, h2, fun y hy1 hy2 => h3 y (by omega) hy2⟩

theorem ground_level_witness :
    getGroundLevel exampleEnv exampleWalkable exampleDummy ⟨0, 0⟩ = Except.ok (-3)
    ∧ getGroundLevel exampleEnv exampleWalkable exampleTerrain ⟨1, 0⟩ = Except.ok (-1)
    ∧ getGroundLevel exampleEnv exampleWalkable exampleTerrain ⟨0, 1⟩ = Except.ok (-2)
    ∧ getGroundLevel exampleEnv exampleWalkable exampleTerrain ⟨0, 0⟩ = Except.ok 0 :=
  ⟨(ground_level exampleEnv exampleWalkable exampleDummy ⟨0, 0⟩ (by decide) (by decide)).1 rfl,
    ((ground_level exampleEnv exampleWalkable exampleTerrain ⟨1, 0⟩ (by decide) (by decide)).2
      exampleTerrainData rfl).1 (by decide),
    (((ground_level exampleEnv exampleWalkable exampleTerrain ⟨0, 1⟩ (by decide) (by decide)).2
      exampleTerrainData rfl).2.1 1 (by decide) (by decide)
      (fun y h1 h2 => by
        have h3 : exampleEnv.MAP_BLOCKSIZE = 2 := rfl
        omega)).trans (by decide),
    (((ground_level exampleEnv exampleWalkable exampleTerrain ⟨0, 0⟩ (by decide) (by decide)).2
      exampleTerrainData rfl).2.1 0 (by decide) (by decide)
      (fun y h1 h2 => by
        have h3 : exampleEnv.MAP_BLOCKSIZE = 2 := rfl
        have h4 : y = 1 := by omega
        subst h4
        decide)).trans (by decide)⟩

/-! ## Deserialization: what a format leaves alone -/

theorem updData_lightFlags (blk : MapBlock) (g : Nat → MapNode → MapNode) (n : Nat) :
    lightFlagsOf (updData blk g n).2 = lightFlagsOf blk := by
  unfold updData
  cases blk.data with
  | none => by_cases h : n = 0 <;> simp [h]
  | some data => rfl

theorem updLoop_param2 (g : Nat → MapNode → MapNode) (n : Nat) (data : List MapNode)
    (hg : ∀ i m, (g i m).param2 = m.param2) :
    (updLoop g n data).map (fun m => m.param2) = data.map (fun m => m.param2) := by
  apply List.ext_getElem
  · simp [updLoop_length]
  · intro j h1 h2
    rw [List.getElem_map, List.getElem_map]
    rw [List.length_map] at h1 h2
    have e1 : (updLoop g n data)[j] = nodeAt (updLoop g n data) j := by
      unfold nodeAt
      rw [List.getD_eq_getElem _ _ h1]
    have e2 : data[j] = nodeAt data j := by
      unfold nodeAt
      rw [List.getD_eq_getElem _ _ h2]
    rw [e1, e2, updLoop_nodeAt]
    by_cases hc : j < n ∧ j < data.length
    · rw [if_pos hc, hg]
    · rw [if_neg hc]

theorem updData_param2 (blk : MapBlock) (g : Nat → MapNode → MapNode) (n : Nat)
    (hg : ∀ i m, (g i m).param2 = m.param2) :
    param2Plane (updData blk g n).2 = param2Plane blk := by
  unfold updData param2Plane
  cases hd : blk.data with
  | none => by_cases h : n = 0 <;> simp [h, hd]
  | some data =>
    dsimp only
    rw [Option.map_some', Option.map_some', updLoop_param2 g n data hg]

/-- A segment of the compressed formats leaves alone what its loops leave
alone. -/
theorem readSegment_keeps {α : Type} (f : MapBlock → α) (env : Env) (blk : MapBlock)
    (is : List u8) (version expected : Nat)
    (loops : MapBlock → List u8 → Option Exc × MapBlock)
    (hloops : ∀ b s, f (loops b s).2 = f b) :
    f (readSegment env blk is version expected loops).block = f blk := by
  unfold readSegment
  rcases hd : env.decompress is version with ⟨exc, s, rest⟩
  cases exc with
  | some e => rfl
  | none =>
    by_cases h2 : s.length ≠ expected
    · simp only []
      rw [if_pos h2]
    · simp only []
      rw [if_neg h2]
      exact hloops _ _

/-- The separately compressed branch leaves alone what survives the
assignment of `is_underground` and the loops over the planes it reads. -/
theorem deSerializePlanes_keeps {α : Type} (f : MapBlock → α) (env : Env) (blk : MapBlock)
    (is : List u8) (version : Nat)
    (hu : ∀ (b : MapBlock) (u : Bool), f { b with is_underground := u } = f b)
    (h1 : ∀ b s, f (setContents s.length b s).2 = f b)
    (h2 : ∀ b s, f (setParams 0 s.length b s).2 = f b)
    (h3 : version ≥ 10 → ∀ b s, f (setParam2 0 s.length b s).2 = f b) :
    f (deSerializePlanes env blk is version).block = f blk := by
  unfold deSerializePlanes
  dsimp only
  have e1 : f (readSegment env { blk with is_underground := decide ((readU8 env is).1 ≠ 0) }
      (readU8 env is).2 version (nodecount env) (fun b s => setContents s.length b s)).block
      = f blk := by
    rw [readSegment_keeps f env _ _ _ _ _ h1, hu]
  generalize readSegment env { blk with is_underground := decide ((readU8 env is).1 ≠ 0) }
      (readU8 env is).2 version (nodecount env) (fun b s => setContents s.length b s) = r1
      at e1 ⊢
  cases hx1 : r1.exc with
  | some e => exact e1
  | none =>
    dsimp only
    have e2 : f (readSegment env r1.block r1.is version (nodecount env)
        (fun b s => setParams 0 s.length b s)).block = f blk := by
      rw [readSegment_keeps f env _ _ _ _ _ h2, e1]
    generalize readSegment env r1.block r1.is version (nodecount env)
        (fun b s => setParams 0 s.length b s) = r2 at e2 ⊢
    cases hx2 : r2.exc with
    | some e => exact e2
    | none =>
      dsimp only
      by_cases hv : version ≥ 10
      · rw [if_pos hv, readSegment_keeps f env _ _ _ _ _ (h3 hv), e2]
      · rw [if_neg hv]
        exact e2

theorem deSerializeRaw_lightFlags (env : Env) (blk : MapBlock) (is : List u8) (version : Nat) :
    lightFlagsOf (deSerializeRaw env blk is version).block = lightFlagsOf blk := by
  unfold deSerializeRaw
  dsimp only
  by_cases h1 : (is.take 1).length ≠ 1
  · rw [if_pos h1]
  · rw [if_neg h1]
    cases hd : blk.data with
    | none =>
      dsimp only
      by_cases h2 : nodecount env = 0
      · rw [if_pos h2]
        rfl
      · rw [if_neg h2]
        by_cases h3 : (List.take (env.serializedLength version) (List.drop 1 is)).length
            ≠ env.serializedLength version
        · rw [if_pos h3]
          rfl
        · rw [if_neg h3]
          rfl
    | some data => rfl

/-- The formats up to version 10 leave `m_day_night_differs` and
`m_lighting_expired` alone, whether the call returns or throws. -/
theorem deSerialize_lightFlags (env : Env) (blk : MapBlock) (is : List u8) (version : Nat)
    (hv : version ≤ 10) :
    lightFlagsOf (deSerialize env blk is version).block = lightFlagsOf blk := by
  have hnodes : lightFlagsOf (deSerializeNodes env blk is version).block
      = lightFlagsOf blk := by
    unfold deSerializeNodes
    by_cases h1 : version ≤ 3 ∨ version = 5 ∨ version = 6
    · rw [if_pos h1]
      exact deSerializeRaw_lightFlags env blk is version
    · rw [if_neg h1, if_pos hv]
      exact deSerializePlanes_keeps lightFlagsOf env blk is version (fun _ _ => rfl)
        (fun b s => updData_lightFlags b _ _) (fun b s => updData_lightFlags b _ _)
        (fun _ b s => updData_lightFlags b _ _)
  unfold deSerialize
  cases hs : env.ser_ver_supported version with
  | false => rfl
  | true =>
    simp only [Bool.true_eq_false, if_false]
    generalize deSerializeNodes env blk is version = r at hnodes ⊢
    cases hx : r.exc with
    | some e => exact hnodes
    | none =>
      dsimp only
      rw [updData_lightFlags]
      exact hnodes

/-- The separately compressed formats below version 10 leave `param2` of
every node alone, whether the branch returns or throws. -/
theorem deSerializeNodes_param2 (env : Env) (blk : MapBlock) (is : List u8) (version : Nat)
    (hv : version < 10) (hsep : ¬ (version ≤ 3 ∨ version = 5 ∨ version = 6)) :
    param2Plane (deSerializeNodes env blk is version).block = param2Plane blk := by
  unfold deSerializeNodes
  rw [if_neg hsep, if_pos (by omega)]
  exact deSerializePlanes_keeps param2Plane env blk is version (fun _ _ => rfl)
    (fun b s => updData_param2 b _ _ (fun _ _ => rfl))
    (fun b s => updData_param2 b _ _ (fun _ _ => rfl))
    (fun h => absurd h (by omega))

theorem param2Plane_nodeAt (b1 b2 : MapBlock) (data : List MapNode)
    (h : param2Plane b1 = param2Plane b2) (hdata : b2.data = some data) :
    ∃ d1, b1.data = some d1 ∧ d1.length = data.length
      ∧ ∀ i, (nodeAt d1 i).param2 = (nodeAt data i).param2 := by
  unfold param2Plane at h
  rw [hdata] at h
  cases hd : b1.data with
  | none =>
    rw [hd] at h
    cases h
  | some d1 =>
    rw [hd, Option.map_some', Option.map_some', Option.some.injEq] at h
    have hlen : d1.length = data.length := by
      have := congrArg List.length h
      simpa using this
    refine ⟨d1, rfl, hlen, ?_⟩
    intro i
    unfold nodeAt
    by_cases hi : i < d1.length
    · rw [List.getD_eq_getElem _ _ hi, List.getD_eq_getElem _ _ (by omega)]
      have h3 := List.getElem_of_eq h (by simpa using hi)
      simpa using h3
    · rw [List.getD_eq_default _ _ (by omega), List.getD_eq_default _ _ (by omega)]

theorem deSerializeCombined_flags_of (env : Env) (blk : MapBlock) (is : List u8)
    (version : Nat) :
    flagsOf (deSerializeCombined env blk is version).block = decodeFlags (readU8 env is).1 := by
  unfold deSerializeCombined
  rw [readSegment_flags _ _ _ _ _ _ (setAll_flags (nodecount env))]
  rfl

/-- C33: `deSerialize` with a version up to 10 leaves `m_day_night_differs`
and `m_lighting_expired` as they were, whether it returns or throws; with a
separately compressed version below 10 the node array after the format branch
(before the `translate_to` pass) has `param2` of every node as before the
call, and when the call returns the node array is that array after the
`translate_to` pass; with a supported version above 10 all three flags are
those decoded from the first byte of the stream, and on an allocated block
whose decompressed segment has `3 * nodecount` bytes node `i` is built from
the bytes `i`, `i + nodecount` and `i + 2 * nodecount` of the segment. -/
theorem deserialize_frame (env : Env) (blk : MapBlock) (is : List u8) (version : Nat) :
    (version ≤ 10 →
      (deSerialize env blk is version).block.m_day_night_differs = blk.m_day_night_differs
      ∧ (deSerialize env blk is version).block.m_lighting_expired = blk.m_lighting_expired)
    ∧ (version < 10 → ¬ (version ≤ 3 ∨ version = 5 ∨ version = 6) →
        ∀ data, blk.data = some data →
          ∃ d1, (deSerializeNodes env blk is version).block.data = some d1
            ∧ d1.length = data.length
            ∧ (∀ i, (nodeAt d1 i).param2 = (nodeAt data i).param2)
            ∧ (env.ser_ver_supported version = true →
                (deSerializeNodes env blk is version).exc = none →
                (deSerialize env blk is version).block.data
                  = some (updLoop (fun _ m => translateNode env m) (nodecount env) d1)))
    ∧ (10 < version → env.ser_ver_supported version = true →
        flagsOf (deSerialize env blk is version).block = decodeFlags (readU8 env is).1
        ∧ ∀ b rest s rest1 data, is = b :: rest → blk.data = some data →
            data.length = nodecount env →
            env.decompress rest version = (none, s, rest1) →
            s.length = nodecount env * 3 →
            ∃ d1, (deSerializeNodes env blk is version).exc = none
              ∧ (deSerializeNodes env blk is version).block.data = some d1
              ∧ ∀ i, i < nodecount env →
                  nodeAt d1 i = ⟨s.getD i 0, s.getD (i + nodecount env) 0,
                    s.getD (i + nodecount env * 2) 0⟩) := by
  refine ⟨?_, ?_, ?_⟩
  · intro hv
    have h := deSerialize_lightFlags env blk is version hv
    unfold lightFlagsOf at h
    exact ⟨congrArg Prod.fst h, congrArg Prod.snd h⟩
  · intro hv hsep data hdata
    obtain ⟨d1, hd1, hlen, hp2⟩ := param2Plane_nodeAt _ blk data
      (deSerializeNodes_param2 env blk is version hv hsep) hdata
    refine ⟨d1, hd1, hlen, hp2, ?_⟩
    intro hsup hexc
    exact (deSerialize_of_nodes env blk is version d1 hsup hexc hd1).2.2
  · intro hv hsup
    constructor
    · rw [deSerialize_flags env blk is version hsup, deSerializeNodes_newest env blk is version hv]
      exact deSerializeCombined_flags_of env blk is version
    · intro b rest s rest1 data his hdata hlen hdec hs
      subst his
      obtain ⟨hexc, _, hd⟩ := deSerializeCombined_ok env blk b rest s rest1 version data hdata
        hdec hs
      rw [← deSerializeNodes_newest env blk (b :: rest) version hv] at hexc hd
      refine ⟨_, hexc, hd, ?_⟩
      intro i hi
      rw [updLoop_nodeAt, updLoop_nodeAt, updLoop_nodeAt]
      simp only [updLoop_length, hlen, hi, and_self, if_true]

theorem deserialize_frame_witness :
    ((deSerialize exampleEnv exampleFresh (serialize exampleEnv exampleBlock [] 9).os
        9).block.m_day_night_differs = exampleFresh.m_day_night_differs
      ∧ (deSerialize exampleEnv exampleFresh (serialize exampleEnv exampleBlock [] 9).os
        9).block.m_lighting_expired = exampleFresh.m_lighting_expired)
    ∧ (∃ d1, (deSerializeNodes exampleEnv exampleBlock
          (serialize exampleEnv exampleFresh [] 9).os 9).block.data = some d1
        ∧ (nodeAt d1 0).param2 = 100)
    ∧ flagsOf (deSerialize exampleEnv exampleFresh (serialize exampleEnv exampleBlock [] 11).os
        11).block
      = decodeFlags (readU8 exampleEnv (serialize exampleEnv exampleBlock [] 11).os).1 :=
  ⟨(deserialize_frame exampleEnv exampleFresh (serialize exampleEnv exampleBlock [] 9).os 9).1
      (by decide),
    (((deserialize_frame exampleEnv exampleBlock (serialize exampleEnv exampleFresh [] 9).os
      9).2.1 (by decide) (by decide) _ rfl).imp fun _ h => ⟨h.1, (h.2.2.1 0).trans (by decide)⟩),
    ((deserialize_frame exampleEnv exampleFresh (serialize exampleEnv exampleBlock [] 11).os
      11).2.2 (by decide) (by decide)).1⟩

/-! ## Sunlight propagation: what it leaves alone -/

theorem grassNode_cases (ne : NodeEnv) (grow ua : Bool) (n : MapNode) (cur : u8) :
    grassNode ne grow ua n cur = n
      ∨ (n.d = ne.CONTENT_MUD ∧ grassNode ne grow ua n cur = { n with d := ne.CONTENT_GRASS }) := by
  unfold grassNode
  by_cases hc : obstructs ne n cur = true ∧ grow = true ∧ ua = true
      ∧ n.d = ne.CONTENT_MUD ∧ cur = ne.LIGHT_SUN
  · rw [if_pos hc]
    exact Or.inr ⟨hc.2.2.2.1, rfl⟩
  · rw [if_neg hc]
    exact Or.inl rfl

theorem grassNode_light (ne : NodeEnv) (grow ua : Bool) (n : MapNode) (cur : u8)
    (bank : LightBank)
    (hgrass : ∀ m bank, m.d = ne.CONTENT_MUD →
      ne.getLight { m with d := ne.CONTENT_GRASS } bank = ne.getLight m bank) :
    ne.getLight (grassNode ne grow ua n cur) bank = ne.getLight n bank := by
  rcases grassNode_cases ne grow ua n cur with h | ⟨hm, h⟩
  · rw [h]
  · rw [h, hgrass n bank hm]

/-- What the loop body of `propagateSunlight` leaves alone in a node. -/
theorem finalNode_frame (ne : NodeEnv) (remove grow ua : Bool) (n : MapNode) (cur : u8)
    (hp2 : ∀ m l, (ne.setLight m LightBank.LIGHTBANK_DAY l).param2 = m.param2)
    (hnight : ∀ m l, ne.getLight (ne.setLight m LightBank.LIGHTBANK_DAY l)
      LightBank.LIGHTBANK_NIGHT = ne.getLight m LightBank.LIGHTBANK_NIGHT)
    (hgrass : ∀ m bank, m.d = ne.CONTENT_MUD →
      ne.getLight { m with d := ne.CONTENT_GRASS } bank = ne.getLight m bank)
    (hsame : ∀ m, ne.setLight m LightBank.LIGHTBANK_DAY
      (ne.getLight m LightBank.LIGHTBANK_DAY) = m) :
    ne.getLight (finalNode ne remove grow ua n cur) LightBank.LIGHTBANK_NIGHT
        = ne.getLight n LightBank.LIGHTBANK_NIGHT
    ∧ (finalNode ne remove grow ua n cur).param2 = n.param2
    ∧ ((nextLight ne n cur = ne.getLight n LightBank.LIGHTBANK_DAY
          ∨ (remove = false ∧ nextLight ne n cur ≤ ne.getLight n LightBank.LIGHTBANK_DAY)) →
        finalNode ne remove grow ua n cur = grassNode ne grow ua n cur) := by
  have hg2 : (grassNode ne grow ua n cur).param2 = n.param2 := by
    rcases grassNode_cases ne grow ua n cur with h | ⟨_, h⟩
    · rw [h]
    · rw [h]
  have hgd := grassNode_light ne grow ua n cur LightBank.LIGHTBANK_DAY hgrass
  have hgn := grassNode_light ne grow ua n cur LightBank.LIGHTBANK_NIGHT hgrass
  unfold finalNode storedNode
  by_cases hc : nextLight ne n cur
      > ne.getLight (grassNode ne grow ua n cur) LightBank.LIGHTBANK_DAY ∨ remove = true
  · rw [if_pos hc]
    refine ⟨by rw [hnight, hgn], by rw [hp2, hg2], ?_⟩
    intro h
    rw [hgd] at hc
    rcases h with h | ⟨h1, h2⟩
    · rw [h, ← hgd]
      exact hsame _
    · rcases hc with hc | hc
      · exact absurd h2 (not_le.mpr hc)
      · rw [h1] at hc
        cases hc
  · rw [if_neg hc]
    exact ⟨hgn, hg2, fun _ => rfl⟩

theorem example_setLight_param2 (m : MapNode) (l : u8) :
    (exampleNodeEnv.setLight m LightBank.LIGHTBANK_DAY l).param2 = m.param2 := rfl

theorem example_night_kept (m : MapNode) (l : u8) :
    exampleNodeEnv.getLight (exampleNodeEnv.setLight m LightBank.LIGHTBANK_DAY l)
      LightBank.LIGHTBANK_NIGHT = exampleNodeEnv.getLight m LightBank.LIGHTBANK_NIGHT := by
  have h2 := m.param.isLt
  apply Fin.ext
  show (m.param.val / 16 * 16 + l.val % 16) % 256 / 16 % 256 = m.param.val / 16 % 256
  omega

theorem example_grass_banks (m : MapNode) (bank : LightBank)
    (_h : m.d = exampleNodeEnv.CONTENT_MUD) :
    exampleNodeEnv.getLight { m with d := exampleNodeEnv.CONTENT_GRASS } bank
      = exampleNodeEnv.getLight m bank := by
  cases bank <;> rfl

theorem example_set_same (m : MapNode) :
    exampleNodeEnv.setLight m LightBank.LIGHTBANK_DAY
      (exampleNodeEnv.getLight m LightBank.LIGHTBANK_DAY) = m := by
  obtain ⟨d, p, p2⟩ := m
  have h2 := p.isLt
  show (⟨d, Fin.ofNat (p.val / 16 * 16 + (Fin.ofNat (p.val % 16) : u8).val % 16), p2⟩ : MapNode)
    = ⟨d, p, p2⟩
  congr 1
  apply Fin.ext
  show (p.val / 16 * 16 + p.val % 16 % 256 % 16) % 256 = p.val
  omega

/-- C31: on an allocated block whose parent keeps its contract, with
`setLight` of the day bank keeping the content id, `param2` and the night
light, with the change of mud into grass leaving both lights alone and with
`setLight` of the day light a node already has leaving the node as it is:
`propagateSunlight` returns, the flags `is_underground`,
`m_day_night_differs` and `m_lighting_expired` and the position of the block
are as before, and every node has the night light and `param2` it had before
the call; a node whose day light before the call equals the light computed
for it, or is at least that light when `remove_light` is not set, is after
the call the node it was, or that node with mud changed into grass. -/
theorem sunlight_frame {σ : Type} (env : Env) (ne : NodeEnv) (par : NodeContainer σ)
    (st : σ) (blk : MapBlock) (data : List MapNode) (ls : List v3s16) (remove : Bool)
    (bal : Option Bool) (grow : Bool)
    (hpar : ParentContract par st) (hL : env.MAP_BLOCKSIZE < 32768)
    (hdata : blk.data = some data) (hlen : data.length = nodecount env)
    (hset : ∀ m l, (ne.setLight m LightBank.LIGHTBANK_DAY l).d = m.d)
    (hp2 : ∀ m l, (ne.setLight m LightBank.LIGHTBANK_DAY l).param2 = m.param2)
    (hnight : ∀ m l, ne.getLight (ne.setLight m LightBank.LIGHTBANK_DAY l)
      LightBank.LIGHTBANK_NIGHT = ne.getLight m LightBank.LIGHTBANK_NIGHT)
    (hgrass : ∀ m bank, m.d = ne.CONTENT_MUD →
      ne.getLight { m with d := ne.CONTENT_GRASS } bank = ne.getLight m bank)
    (hsame : ∀ m, ne.setLight m LightBank.LIGHTBANK_DAY
      (ne.getLight m LightBank.LIGHTBANK_DAY) = m) :
    ∃ r d, propagateSunlight env ne par st blk ls remove bal grow = Except.ok r
      ∧ r.block.data = some d
      ∧ d.length = data.length
      ∧ r.block.m_pos = blk.m_pos
      ∧ r.block.is_underground = blk.is_underground
      ∧ r.block.m_day_night_differs = blk.m_day_night_differs
      ∧ r.block.m_lighting_expired = blk.m_lighting_expired
      ∧ ∀ x y z, x < env.MAP_BLOCKSIZE → y < env.MAP_BLOCKSIZE → z < env.MAP_BLOCKSIZE →
          ne.getLight (getNodeRef env d ⟨x, y, z⟩) LightBank.LIGHTBANK_NIGHT
            = ne.getLight (getNodeRef env data ⟨x, y, z⟩) LightBank.LIGHTBANK_NIGHT
          ∧ (getNodeRef env d ⟨x, y, z⟩).param2 = (getNodeRef env data ⟨x, y, z⟩).param2
          ∧ ((computedLight env ne par st blk data x y z
                = ne.getLight (getNodeRef env data ⟨x, y, z⟩) LightBank.LIGHTBANK_DAY
              ∨ (remove = false ∧ computedLight env ne par st blk data x y z
                ≤ ne.getLight (getNodeRef env data ⟨x, y, z⟩) LightBank.LIGHTBANK_DAY)) →
            getNodeRef env d ⟨x, y, z⟩ = getNodeRef env data ⟨x, y, z⟩
            ∨ ((getNodeRef env data ⟨x, y, z⟩).d = ne.CONTENT_MUD
              ∧ getNodeRef env d ⟨x, y, z⟩
                = { getNodeRef env data ⟨x, y, z⟩ with d := ne.CONTENT_GRASS })) := by
  obtain ⟨r, d, hrun, hblk, hdlen, hnodes, _, _⟩ := propagateSunlight_spec env ne par st blk
    data ls remove bal grow hpar hL hset hdata hlen
  refine ⟨r, d, hrun, by rw [hblk]; rfl, by rw [hdlen, hlen], by rw [hblk]; rfl,
    by rw [hblk]; rfl, by rw [hblk]; rfl, by rw [hblk]; rfl, ?_⟩
  intro x y z hx hy hz
  rw [hnodes x y z hx hy hz, computedLight_eq env ne par st blk data x y z hy]
  unfold finalAt
  obtain ⟨h1, h2, h3⟩ := finalNode_frame ne remove grow
    (upperIsAir env ne par st blk data x y z) (getNodeRef env data ⟨x, y, z⟩)
    (reachingLight env ne par st blk data x y z) hp2 hnight hgrass hsame
  refine ⟨h1, h2, ?_⟩
  intro h
  rw [h3 h]
  exact grassNode_cases ne grow _ _ _

theorem sunlight_frame_witness :
    ∃ r d, propagateSunlight exampleEnv exampleNodeEnv exampleParent exampleAround
        exampleTerrain [] true none true = Except.ok r
      ∧ r.block.data = some d
      ∧ r.block.m_lighting_expired = exampleTerrain.m_lighting_expired
      ∧ (getNodeRef exampleEnv d ⟨(0 : Nat), (0 : Nat), (0 : Nat)⟩).param2
        = (getNodeRef exampleEnv exampleTerrainData ⟨(0 : Nat), (0 : Nat), (0 : Nat)⟩).param2 := by
  obtain ⟨r, d, h1, h2, _, _, _, _, h7, h8⟩ := sunlight_frame exampleEnv exampleNodeEnv
    exampleParent exampleAround exampleTerrain exampleTerrainData [] true none true
    (exampleParent_contract _) (by decide) rfl (by decide) example_setLight_d
    example_setLight_param2 example_night_kept example_grass_banks example_set_same
  exact ⟨r, d, h1, h2, h7, (h8 0 0 0 (by decide) (by decide) (by decide)).2.1⟩

/-! ## Sunlight propagation: the light along a column -/

theorem lightAfter_mono {σ : Type} (env : Env) (ne : NodeEnv) (par : NodeContainer σ) (st : σ)
    (blk : MapBlock) (data : List MapNode) (x z k j : Nat)
    (hdim : ∀ l, ne.diminish_light l ≤ l) :
    lightAfter env ne par st blk data x z (k + j) ≤ lightAfter env ne par st blk data x z k := by
  induction j with
  | zero => exact le_refl _
  | succ j ih =>
    rw [← Nat.add_assoc, lightAfter_succ]
    exact le_trans (nextLight_le ne _ _ hdim) ih

/-- C32: on an allocated block whose parent keeps its contract, with
`diminish_light` never raising a light, `setLight` keeping the content id,
`getLight` reading back what `setLight` wrote and the change of mud into
grass leaving the day light alone: in every column the light computed for a
node is at most `LIGHT_SUN`, at most the light the column starts with and at
most the light computed for any node above it; once it is zero it is zero for
every lower node; it is `LIGHT_SUN` at a node only if the column starts with
`LIGHT_SUN` and it is `LIGHT_SUN` at every node above; and after
`propagateSunlight` with `remove_light` the day light of every node is the
light computed for it, so it does not increase downward in any column. -/
theorem column_light_monotone {σ : Type} (env : Env) (ne : NodeEnv) (par : NodeContainer σ)
    (st : σ) (blk : MapBlock) (data : List MapNode) (ls : List v3s16)
    (bal : Option Bool) (grow : Bool)
    (hpar : ParentContract par st) (hL : env.MAP_BLOCKSIZE < 32768)
    (hdata : blk.data = some data) (hlen : data.length = nodecount env)
    (hset : ∀ m l, (ne.setLight m LightBank.LIGHTBANK_DAY l).d = m.d)
    (hdim : ∀ l, ne.diminish_light l ≤ l)
    (hgs : ∀ m l, l ≤ ne.LIGHT_SUN →
      ne.getLight (ne.setLight m LightBank.LIGHTBANK_DAY l) LightBank.LIGHTBANK_DAY = l)
    (hgrass : ∀ m, m.d = ne.CONTENT_MUD →
      ne.getLight { m with d := ne.CONTENT_GRASS } LightBank.LIGHTBANK_DAY
        = ne.getLight m LightBank.LIGHTBANK_DAY) :
    (∀ x z, x < env.MAP_BLOCKSIZE → z < env.MAP_BLOCKSIZE →
      startLight env ne par st blk data x z ≤ ne.LIGHT_SUN
      ∧ (∀ y, y < env.MAP_BLOCKSIZE →
          computedLight env ne par st blk data x y z ≤ ne.LIGHT_SUN
          ∧ computedLight env ne par st blk data x y z ≤ startLight env ne par st blk data x z)
      ∧ (∀ y1 y2, y1 ≤ y2 → y2 < env.MAP_BLOCKSIZE →
          computedLight env ne par st blk data x y1 z
            ≤ computedLight env ne par st blk data x y2 z)
      ∧ (∀ y1 y2, y1 ≤ y2 → y2 < env.MAP_BLOCKSIZE →
          computedLight env ne par st blk data x y2 z = 0 →
          computedLight env ne par st blk data x y1 z = 0)
      ∧ (∀ y, y < env.MAP_BLOCKSIZE →
          computedLight env ne par st blk data x y z = ne.LIGHT_SUN →
          startLight env ne par st blk data x z = ne.LIGHT_SUN
          ∧ ∀ y2, y ≤ y2 → y2 < env.MAP_BLOCKSIZE →
              computedLight env ne par st blk data x y2 z = ne.LIGHT_SUN))
    ∧ ∃ r d, propagateSunlight env ne par st blk ls true bal grow = Except.ok r
      ∧ r.block.data = some d
      ∧ (∀ x y z, x < env.MAP_BLOCKSIZE → y < env.MAP_BLOCKSIZE → z < env.MAP_BLOCKSIZE →
          ne.getLight (getNodeRef env d ⟨x, y, z⟩) LightBank.LIGHTBANK_DAY
            = computedLight env ne par st blk data x y z)
      ∧ ∀ x z y1 y2, x < env.MAP_BLOCKSIZE → z < env.MAP_BLOCKSIZE → y1 ≤ y2 →
          y2 < env.MAP_BLOCKSIZE →
          ne.getLight (getNodeRef env d ⟨x, y1, z⟩) LightBank.LIGHTBANK_DAY
            ≤ ne.getLight (getNodeRef env d ⟨x, y2, z⟩) LightBank.LIGHTBANK_DAY := by
  have hmono : ∀ x z y1 y2, y1 ≤ y2 → y2 < env.MAP_BLOCKSIZE →
      computedLight env ne par st blk data x y1 z
        ≤ computedLight env ne par st blk data x y2 z := by
    intro x z y1 y2 h12 h2
    unfold computedLight
    have e : env.MAP_BLOCKSIZE - y1 = env.MAP_BLOCKSIZE - y2 + (y2 - y1) := by omega
    rw [e]
    exact lightAfter_mono env ne par st blk data x z _ _ hdim
  have hstart : ∀ x z y,
      computedLight env ne par st blk data x y z ≤ startLight env ne par st blk data x z := by
    intro x z y
    unfold computedLight
    have h := lightAfter_mono env ne par st blk data x z 0 (env.MAP_BLOCKSIZE - y) hdim
    rw [Nat.zero_add] at h
    exact h
  have hsun : ∀ x z y, computedLight env ne par st blk data x y z ≤ ne.LIGHT_SUN :=
    fun x z y => computedLight_le env ne par st blk data x y z hdim
  have hs0 : ∀ x z, startLight env ne par st blk data x z ≤ ne.LIGHT_SUN :=
    fun x z => lightAfter_le env ne par st blk data x z 0 hdim
  constructor
  · intro x z _ _
    refine ⟨hs0 x z, fun y _ => ⟨hsun x z y, hstart x z y⟩, hmono x z, ?_, ?_⟩
    · intro y1 y2 h12 h2 h0
      have h := hmono x z y1 y2 h12 h2
      rw [h0] at h
      exact le_antisymm h (Fin.zero_le _)
    · intro y hy hfull
      constructor
      · have h := hstart x z y
        rw [hfull] at h
        exact le_antisymm (hs0 x z) h
      · intro y2 h12 h2
        have h := hmono x z y y2 h12 h2
        rw [hfull] at h
        exact le_antisymm (hsun x z y2) h
  · obtain ⟨r, d, hrun, hblk, _, hnodes, _, _⟩ := propagateSunlight_spec env ne par st blk data
      ls true bal grow hpar hL hset hdata hlen
    have hstored : ∀ x y z, x < env.MAP_BLOCKSIZE → y < env.MAP_BLOCKSIZE →
        z < env.MAP_BLOCKSIZE →
        ne.getLight (getNodeRef env d ⟨x, y, z⟩) LightBank.LIGHTBANK_DAY
          = computedLight env ne par st blk data x y z := by
      intro x y z hx hy hz
      rw [hnodes x y z hx hy hz, computedLight_eq env ne par st blk data x y z hy]
      unfold finalAt
      rw [finalNode_light ne true grow _ _ _ (by
        rw [← computedLight_eq env ne par st blk data x y z hy]
        exact hsun x z y) hgs hgrass]
      rfl
    refine ⟨r, d, hrun, by rw [hblk]; rfl, hstored, ?_⟩
    intro x z y1 y2 hx hz h12 h2
    rw [hstored x y1 z hx (by omega) hz, hstored x y2 z hx h2 hz]
    exact hmono x z y1 y2 h12 h2

theorem column_light_monotone_witness :
    (computedLight exampleEnv exampleNodeEnv exampleParent exampleAround exampleTerrain
        exampleTerrainData 0 0 1
      ≤ computedLight exampleEnv exampleNodeEnv exampleParent exampleAround exampleTerrain
        exampleTerrainData 0 1 1)
    ∧ ∃ r d, propagateSunlight exampleEnv exampleNodeEnv exampleParent exampleAround
        exampleTerrain [] true none true = Except.ok r
      ∧ r.block.data = some d
      ∧ exampleNodeEnv.getLight (getNodeRef exampleEnv d ⟨(1 : Nat), (0 : Nat), (1 : Nat)⟩)
          LightBank.LIGHTBANK_DAY
        ≤ exampleNodeEnv.getLight (getNodeRef exampleEnv d ⟨(1 : Nat), (1 : Nat), (1 : Nat)⟩)
          LightBank.LIGHTBANK_DAY := by
  obtain ⟨h1, r, d, h2, h3, _, h5⟩ := column_light_monotone exampleEnv exampleNodeEnv
    exampleParent exampleAround exampleTerrain exampleTerrainData [] none true
    (exampleParent_contract _) (by decide) rfl (by decide) example_setLight_d
    example_diminish_le example_get_set example_grass_light
  exact ⟨(h1 0 1 (by decide) (by decide)).2.2.1 0 1 (by decide) (by decide), r, d, h2, h3,
    h5 1 1 0 1 (by decide) (by decide) (by decide) (by decide)⟩

end MapBlockSpec
